import Mathlib

/-! Chaos experiment manifests: classification and weight reconciliation.

A shallow embedding of `chaoscenter/graphql/server/pkg/chaos_experiment/service.go`.

Modelling conventions.

* A Go `map[string]T` is an association list read with `mapGet` and written with
  `mapSet` (the first binding of a key is the live one, an assignment replaces it in
  place or appends a new binding).  Where the source tests a map against `nil` the
  model uses `Option`, `none` being the nil map.
* The serialised manifest of a request is represented by the document it decodes to
  (`Manifest`): the fields that the four typed decoders read.  `json.Unmarshal` into a
  typed struct is the projection `Manifest.toWorkflow` etc., `json.Marshal` the embedding
  back (fields of the other struct types are dropped, as the encoder drops them).
  `none` stands for text that is not a JSON object.  The generic decoder
  (`unstructured.Unstructured`) also rejects an object without a kind, which is a document
  whose `Kind` is the empty string.
* The raw data of a template artifact stays a string: it is carried through verbatim,
  and the YAML decoder applied to it is a collaborator of the service (`Env.yamlUnmarshal`).
* `strings.ToLower` is a collaborator as well (`Env.ToLower`), so that no property depends
  on how letters outside ASCII are folded.
* Go's `int` is `Int`; `Atoi` rejects values outside the 64-bit range, and the sums and
  products of the scorer wrap around (`wrapInt`).
* Go's `float64` is `float64`: a mantissa and a binary exponent, every operation rounding
  its exact result to the nearest value with a mantissa of 53 bits, ties to even.  The
  score of a run is reported as the rational number the float64 result stands for.
* A run-time panic (the dereference of a nil `input.ExperimentID` in
  `ProcessExperimentCreation`) is rendered as the error `nilDereference`, the state being
  left as it was.
* The four processors dereference `workflow.ExperimentID`; `ProcessExperiment` assigns it
  before it calls them (service.go 91-93), and the model reads a nil pointer as the empty
  string there.
* A document whose fields have the wrong JSON type for the struct it is decoded into is
  not represented: the typed decoders are total on `Manifest`.
* The request is mutated in place by the source, so every operation returns the state of
  the request after the call together with its result.
* `json.Marshal` of a struct that was just decoded from the manifest is taken not to fail,
  so the error return that follows it in the four processors has no counterpart.
* The record service acts on a `World`: the two collections, the notifications sent, and
  the view of an open transaction.  The storage operators and the driver are outside the
  sources; their definitions say so, and the errors they answer with are parameters.
-/

namespace ChaosExperiment

/-! ## Go library functions -/

/-- Equality of Go results (a value or an error) is decidable. -/
instance instDecidableEqExcept {ε α : Type} [DecidableEq ε] [DecidableEq α] :
    DecidableEq (Except ε α)
  | .ok a, .ok b =>
    if h : a = b then isTrue (by rw [h]) else isFalse (fun hab => by cases hab; exact h rfl)
  | .error a, .error b =>
    if h : a = b then isTrue (by rw [h]) else isFalse (fun hab => by cases hab; exact h rfl)
  | .ok _, .error _ => isFalse (fun hab => by cases hab)
  | .error _, .ok _ => isFalse (fun hab => by cases hab)

/-- Map lookup `m[k]` with the comma-ok flag as `Option`. -/
def mapGet {α : Type} : List (String × α) → String → Option α
  | [], _ => none
  | (k', v) :: rest, k => if k' = k then some v else mapGet rest k

/-- Map assignment `m[k] = v`. -/
def mapSet {α : Type} : List (String × α) → String → α → List (String × α)
  | [], k, v => [(k, v)]
  | (k', v') :: rest, k, v => if k' = k then (k, v) :: rest else (k', v') :: mapSet rest k v

/-- A label map that may be nil. -/
abbrev Labels := Option (List (String × String))

/-- Lookup in a possibly nil map (a nil map has no keys). -/
def labelGet (l : Labels) (k : String) : Option String :=
  match l with
  | none => none
  | some m => mapGet m k

/-- Go `strconv.Itoa`: the decimal digits, most significant first, after a minus sign
for a negative number. -/
def Itoa (n : Int) : String :=
  match n with
  | Int.ofNat m => String.mk (Nat.toDigits 10 m)
  | Int.negSucc m => String.mk ('-' :: Nat.toDigits 10 (m + 1))

/-- Value of a string of decimal digits (`none` when a character is not a digit). -/
def digitsValue : List Char → Nat → Option Nat
  | [], acc => some acc
  | c :: cs, acc =>
    if '0' ≤ c ∧ c ≤ '9' then digitsValue cs (acc * 10 + (c.toNat - '0'.toNat)) else none

/-- Go `strconv.Atoi`: an optional sign, at least one decimal digit, nothing else, and a
value that fits a 64-bit `int`. -/
def Atoi (s : String) : Except String Int :=
  let body : Bool × List Char :=
    match s.data with
    | '-' :: rest => (true, rest)
    | '+' :: rest => (false, rest)
    | cs => (false, cs)
  match body.2 with
  | [] => .error "invalid syntax"
  | c :: cs =>
    match digitsValue (c :: cs) 0 with
    | none => .error "invalid syntax"
    | some n =>
      if body.1 then
        (if n ≤ 2 ^ 63 then .ok (-(n : Int)) else .error "value out of range")
      else
        (if n < 2 ^ 63 then .ok (n : Int) else .error "value out of range")

/-- Removes the prefix `pat` from a character list when it is one. -/
def dropPrefix : List Char → List Char → Option (List Char)
  | [], cs => some cs
  | _ :: _, [] => none
  | p :: ps, c :: cs => if p = c then dropPrefix ps cs else none

/-- Left-to-right replacement of the non-overlapping occurrences of a non-empty
pattern; `fuel` bounds the number of steps by the length of the text. -/
def replaceAllAux (pat rep : List Char) : Nat → List Char → List Char
  | 0, cs => cs
  | _ + 1, [] => []
  | fuel + 1, c :: cs =>
    match dropPrefix pat (c :: cs) with
    | some rest => rep ++ replaceAllAux pat rep fuel rest
    | none => c :: replaceAllAux pat rep fuel cs

/-- Go `strings.ReplaceAll` for a non-empty pattern. -/
def ReplaceAll (s old new : String) : String :=
  String.mk (replaceAllAux old.data new.data s.data.length s.data)

/-! ## Data model -/

/-- The `model.WeightagesInput` record. -/
structure WeightagesInput where
  FaultName : String
  Weightage : Int
  deriving DecidableEq, Repr

/-- An input artifact of a workflow template: `Raw` is nil or carries the raw data. -/
structure Artifact where
  Raw : Option String
  deriving DecidableEq, Repr

/-- A workflow template: `Metadata.Labels` and `Inputs.Artifacts`. -/
structure Template where
  Labels : Labels
  Artifacts : List Artifact
  deriving DecidableEq, Repr

/-- An entry of a chaos engine's `spec.experiments`. -/
structure ExperimentList where
  Name : String
  deriving DecidableEq, Repr

/-- The fields of `chaosTypes.ChaosEngine` that the service reads or writes. -/
structure ChaosEngine where
  Kind : String
  Name : String
  GenerateName : String
  Labels : Labels
  Experiments : List ExperimentList
  deriving DecidableEq, Repr

/-- The fields of `v1alpha1.Workflow` that the service reads or writes. -/
structure Workflow where
  Kind : String
  Name : String
  GenerateName : String
  Labels : Labels
  Templates : List Template
  deriving DecidableEq, Repr

/-- The metadata block `spec.workflowMetadata` of a cron workflow. -/
structure ObjectMeta where
  Labels : Labels
  deriving DecidableEq, Repr

/-- The fields of `v1alpha1.CronWorkflow` that the service reads or writes;
`Templates` is `spec.workflowSpec.templates`. -/
structure CronWorkflow where
  Kind : String
  Name : String
  GenerateName : String
  Labels : Labels
  Schedule : String
  WorkflowMetadata : Option ObjectMeta
  Templates : List Template
  deriving DecidableEq, Repr

/-- The fields of `scheduleTypes.ChaosSchedule` that the service reads or writes;
`Experiments` is `spec.engineTemplateSpec.experiments`. -/
structure ChaosSchedule where
  Kind : String
  Name : String
  GenerateName : String
  Labels : Labels
  Experiments : List ExperimentList
  deriving DecidableEq, Repr

/-- A decoded manifest document: the JSON paths read by the generic decoder (`kind`,
`metadata.name`) and by the four typed decoders (`metadata` is common to the four
types, each has its own `spec`). -/
structure Manifest where
  Kind : String
  Name : String
  GenerateName : String
  Labels : Labels
  Templates : List Template
  Schedule : String
  WorkflowMetadata : Option ObjectMeta
  WorkflowSpecTemplates : List Template
  Experiments : List ExperimentList
  EngineTemplateExperiments : List ExperimentList
  deriving DecidableEq, Repr

/-- Decoding a document into `v1alpha1.Workflow`. -/
def Manifest.toWorkflow (m : Manifest) : Workflow :=
  { Kind := m.Kind, Name := m.Name, GenerateName := m.GenerateName, Labels := m.Labels,
    Templates := m.Templates }

/-- Encoding a `v1alpha1.Workflow`. -/
def Workflow.toManifest (w : Workflow) : Manifest :=
  { Kind := w.Kind, Name := w.Name, GenerateName := w.GenerateName, Labels := w.Labels,
    Templates := w.Templates, Schedule := "", WorkflowMetadata := none,
    WorkflowSpecTemplates := [], Experiments := [], EngineTemplateExperiments := [] }

/-- Decoding a document into `v1alpha1.CronWorkflow`. -/
def Manifest.toCronWorkflow (m : Manifest) : CronWorkflow :=
  { Kind := m.Kind, Name := m.Name, GenerateName := m.GenerateName, Labels := m.Labels,
    Schedule := m.Schedule, WorkflowMetadata := m.WorkflowMetadata, Templates := m.WorkflowSpecTemplates }

/-- Encoding a `v1alpha1.CronWorkflow`. -/
def CronWorkflow.toManifest (c : CronWorkflow) : Manifest :=
  { Kind := c.Kind, Name := c.Name, GenerateName := c.GenerateName, Labels := c.Labels,
    Templates := [], Schedule := c.Schedule, WorkflowMetadata := c.WorkflowMetadata,
    WorkflowSpecTemplates := c.Templates, Experiments := [],
    EngineTemplateExperiments := [] }

/-- Decoding a document into `chaosTypes.ChaosEngine`. -/
def Manifest.toChaosEngine (m : Manifest) : ChaosEngine :=
  { Kind := m.Kind, Name := m.Name, GenerateName := m.GenerateName, Labels := m.Labels,
    Experiments := m.Experiments }

/-- Encoding a `chaosTypes.ChaosEngine`. -/
def ChaosEngine.toManifest (e : ChaosEngine) : Manifest :=
  { Kind := e.Kind, Name := e.Name, GenerateName := e.GenerateName, Labels := e.Labels,
    Templates := [], Schedule := "", WorkflowMetadata := none,
    WorkflowSpecTemplates := [], Experiments := e.Experiments,
    EngineTemplateExperiments := [] }

/-- Decoding a document into `scheduleTypes.ChaosSchedule`. -/
def Manifest.toChaosSchedule (m : Manifest) : ChaosSchedule :=
  { Kind := m.Kind, Name := m.Name, GenerateName := m.GenerateName, Labels := m.Labels,
    Experiments := m.EngineTemplateExperiments }

/-- Encoding a `scheduleTypes.ChaosSchedule`. -/
def ChaosSchedule.toManifest (s : ChaosSchedule) : Manifest :=
  { Kind := s.Kind, Name := s.Name, GenerateName := s.GenerateName, Labels := s.Labels,
    Templates := [], Schedule := "", WorkflowMetadata := none,
    WorkflowSpecTemplates := [], Experiments := [],
    EngineTemplateExperiments := s.Experiments }

/-- The fields of `model.ChaosExperimentRequest` that manifest processing reads or
writes, followed by those that only the record service copies into storage.
`ExperimentID` and `IsCustomExperiment` are pointers in the source (`none` is nil). -/
structure ChaosExperimentRequest where
  ExperimentID : Option String
  ExperimentName : String
  InfraID : String
  ExperimentManifest : Option Manifest
  Weightages : List WeightagesInput
  CronSyntax : String
  ExperimentDescription : String := ""
  Tags : List String := []
  IsCustomExperiment : Option Bool := none
  deriving DecidableEq, Repr

/-- Modelled from the spec: the declaration of `dbChaosExperiment.ChaosExperimentType` is
outside the sources; the spec describes it as a closed enumeration, and these are the
three constants of it that the service names. -/
inductive ChaosExperimentType where
  | NonCronExperiment
  | CronExperiment
  | ChaosEngine
  deriving DecidableEq, Repr

/-- The record returned by the infrastructure lookup, as far as the service reads it. -/
structure Infra where
  IsActive : Bool
  ProjectID : String
  deriving DecidableEq, Repr

/-- Collaborators of the service that live outside the repository sources: the
infrastructure operator, `strings.ToLower`, and the YAML decoder for embedded chaos
engines (`none` is a decoding error). -/
structure Env where
  GetInfra : String → Except String Infra
  ToLower : String → String
  yamlUnmarshal : String → Option ChaosEngine

/-! ## Manifest processing -/

/-- Identity labels of the workflow kinds (service.go 443-455, 536-548, 550-573): a nil
map is replaced by a fresh one, otherwise the four keys are assigned. -/
def workflowLabels (labels : Labels) (experimentID infraID revID : String) :
    List (String × String) :=
  match labels with
  | none =>
    [("workflow_id", experimentID), ("infra_id", infraID),
     ("workflows.argoproj.io/controller-instanceid", infraID), ("revision_id", revID)]
  | some l =>
    mapSet (mapSet (mapSet (mapSet l "workflow_id" experimentID) "infra_id" infraID)
      "workflows.argoproj.io/controller-instanceid" infraID) "revision_id" revID

/-- Identity labels of the engine kinds (service.go 654-666, 713-725). -/
def standaloneLabels (labels : Labels) (experimentID infraID revID : String) :
    List (String × String) :=
  match labels with
  | none =>
    [("workflow_id", experimentID), ("infra_id", infraID),
     ("type", "standalone_workflow"), ("revision_id", revID)]
  | some l =>
    mapSet (mapSet (mapSet (mapSet l "workflow_id" experimentID) "infra_id" infraID)
      "type" "standalone_workflow") "revision_id" revID

/-- Start of the template loop body (service.go 458-476, 577-595): the chaos engine
embedded in a template. `ok none` is a template the loop skips, `ok (some meta)` a first
artifact that decodes to an object of kind chaosengine, `error` an early return. -/
def templateEngine (env : Env) (template : Template) : Except String (Option ChaosEngine) :=
  match template.Artifacts with
  | [] => .ok none
  | artifact0 :: _ =>
    match artifact0.Raw with
    | none => .ok none
    | some data =>
      if data.length > 0 then
        let data := ReplaceAll data "\x7b\x7b" ""
        let data := ReplaceAll data "\x7d\x7d" ""
        match env.yamlUnmarshal data with
        | none => .error "failed to unmarshal chaosengine"
        | some meta =>
          if env.ToLower meta.Kind = "chaosengine" then .ok (some meta) else .ok none
      else .ok none

/-- The fault name of an embedded chaos engine (service.go 477-485, 596-604). -/
def engineFault (meta : ChaosEngine) : Except String String :=
  if meta.Experiments.length > 0 then
    if meta.GenerateName.length = 0 then .error "empty chaos experiment name"
    else .ok meta.GenerateName
  else .error ("no experiments specified in chaosengine - " ++ meta.Name)

/-- The fault carried by a template: `ok none` for a template the loop skips. -/
def templateFault (env : Env) (template : Template) : Except String (Option String) :=
  match templateEngine env template with
  | .error e => .error e
  | .ok none => .ok none
  | .ok (some meta) =>
    match engineFault meta with
    | .error e => .error e
    | .ok exprname => .ok (some exprname)

/-- End of the template loop body (service.go 487-509, 605-627): the template
after reconciliation and the weights it adds to `newWeights`. -/
def reconcileTemplate (weights : List (String × Int)) (exprname : String)
    (template : Template) : Except String (Template × List WeightagesInput) :=
  match mapGet weights exprname with
  | some val => .ok ({ template with Labels := some [("weight", Itoa val)] }, [])
  | none =>
    match labelGet template.Labels "weight" with
    | some val =>
      match Atoi val with
      | .error _ => .error "failed to convert"
      | .ok intVal => .ok (template, [{ FaultName := exprname, Weightage := intVal }])
    | none =>
      .ok ({ template with Labels := some [("weight", "10")] },
           [{ FaultName := exprname, Weightage := 10 }])

/-- One iteration of the template loop. -/
def processTemplate (env : Env) (weights : List (String × Int)) (template : Template) :
    Except String (Template × List WeightagesInput) :=
  match templateFault env template with
  | .error e => .error e
  | .ok none => .ok (template, [])
  | .ok (some exprname) => reconcileTemplate weights exprname template

/-- The template loop (service.go 457-513, 575-631): the templates after the loop and
the accumulated `newWeights`, or the first error. -/
def processTemplates (env : Env) (weights : List (String × Int)) :
    List Template → Except String (List Template × List WeightagesInput)
  | [] => .ok ([], [])
  | template :: rest =>
    match processTemplate env weights template with
    | .error e => .error e
    | .ok (template', w) =>
      match processTemplates env weights rest with
      | .error e => .error e
      | .ok (rest', ws) => .ok (template' :: rest', w ++ ws)

/-- Weight reconciliation on the root labels of the engine kinds (service.go 675-692,
735-752); `labels` is the non-nil root map. -/
def reconcileRoot (weights : List (String × Int)) (exprName : String)
    (labels : List (String × String)) :
    Except String (List (String × String) × List WeightagesInput) :=
  match mapGet weights exprName with
  | some val => .ok (mapSet labels "weight" (Itoa val), [])
  | none =>
    match mapGet labels "weight" with
    | some val =>
      match Atoi val with
      | .error _ => .error "failed to convert"
      | .ok intVal => .ok (labels, [{ FaultName := exprName, Weightage := intVal }])
    | none =>
      .ok (mapSet labels "weight" "10", [{ FaultName := exprName, Weightage := 10 }])

/-- The function `processExperimentManifest` (service.go 432-523). -/
def processExperimentManifest (env : Env) (workflow : ChaosExperimentRequest)
    (weights : List (String × Int)) (revID : String) :
    ChaosExperimentRequest × Except String Unit :=
  match workflow.ExperimentManifest with
  | none => (workflow, .error "failed to unmarshal workflow manifest")
  | some doc =>
    let workflowManifest := doc.toWorkflow
    let labels := workflowLabels workflowManifest.Labels (workflow.ExperimentID.getD "")
      workflow.InfraID revID
    match processTemplates env weights workflowManifest.Templates with
    | .error e => (workflow, .error e)
    | .ok (templates, newWeights) =>
      ({ workflow with
          Weightages := workflow.Weightages ++ newWeights
          ExperimentManifest := some (Workflow.toManifest
            { workflowManifest with Labels := some labels, Templates := templates }) },
       .ok ())

/-- The function `processCronExperimentManifest` (service.go 525-641). -/
def processCronExperimentManifest (env : Env) (workflow : ChaosExperimentRequest)
    (weights : List (String × Int)) (revID : String) :
    ChaosExperimentRequest × Except String Unit :=
  match workflow.ExperimentManifest with
  | none => (workflow, .error "failed to unmarshal workflow manifest")
  | some doc =>
    let cronExperimentManifest := doc.toCronWorkflow
    let experimentID := workflow.ExperimentID.getD ""
    let labels := workflowLabels cronExperimentManifest.Labels experimentID
      workflow.InfraID revID
    let workflowMetadata : ObjectMeta :=
      match cronExperimentManifest.WorkflowMetadata with
      | none => { Labels := some (workflowLabels none experimentID workflow.InfraID revID) }
      | some md =>
        { md with Labels := some (workflowLabels md.Labels experimentID workflow.InfraID revID) }
    match processTemplates env weights cronExperimentManifest.Templates with
    | .error e => (workflow, .error e)
    | .ok (templates, newWeights) =>
      ({ workflow with
          Weightages := workflow.Weightages ++ newWeights
          ExperimentManifest := some (CronWorkflow.toManifest
            { cronExperimentManifest with
                Labels := some labels
                WorkflowMetadata := some workflowMetadata
                Templates := templates })
          CronSyntax := cronExperimentManifest.Schedule },
       .ok ())

/-- The function `processChaosEngineManifest` (service.go 643-701). -/
def processChaosEngineManifest (workflow : ChaosExperimentRequest)
    (weights : List (String × Int)) (revID : String) :
    ChaosExperimentRequest × Except String Unit :=
  match workflow.ExperimentManifest with
  | none => (workflow, .error "failed to unmarshal workflow manifest")
  | some doc =>
    let workflowManifest := doc.toChaosEngine
    let labels := standaloneLabels workflowManifest.Labels (workflow.ExperimentID.getD "")
      workflow.InfraID revID
    match workflowManifest.Experiments with
    | [] =>
      (workflow, .error ("no experiments specified in chaosengine - " ++ workflowManifest.Name))
    | experiment0 :: _ =>
      let exprName := experiment0.Name
      if exprName.length = 0 then (workflow, .error "empty chaos experiment name")
      else
        match reconcileRoot weights exprName labels with
        | .error e => (workflow, .error e)
        | .ok (labels, newWeights) =>
          ({ workflow with
              Weightages := workflow.Weightages ++ newWeights
              ExperimentManifest := some (ChaosEngine.toManifest
                { workflowManifest with Labels := some labels }) },
           .ok ())

/-- The function `processChaosScheduleManifest` (service.go 703-761). -/
def processChaosScheduleManifest (workflow : ChaosExperimentRequest)
    (weights : List (String × Int)) (revID : String) :
    ChaosExperimentRequest × Except String Unit :=
  match workflow.ExperimentManifest with
  | none => (workflow, .error "failed to unmarshal workflow manifest")
  | some doc =>
    let workflowManifest := doc.toChaosSchedule
    let labels := standaloneLabels workflowManifest.Labels (workflow.ExperimentID.getD "")
      workflow.InfraID revID
    match workflowManifest.Experiments with
    | [] =>
      (workflow, .error ("no experiments specified in chaos engine - " ++ workflowManifest.Name))
    | experiment0 :: _ =>
      let exprName := experiment0.Name
      if exprName.length = 0 then (workflow, .error "empty chaos experiment name")
      else
        match reconcileRoot weights exprName labels with
        | .error e => (workflow, .error e)
        | .ok (labels, newWeights) =>
          ({ workflow with
              Weightages := workflow.Weightages ++ newWeights
              ExperimentManifest := some (ChaosSchedule.toManifest
                { workflowManifest with Labels := some labels }) },
           .ok ())

/-- The weight table built from the request's weightages (service.go 85-89): later
entries overwrite earlier ones of the same name (the guard on the length of the list
changes nothing, the loop over an empty list being empty). -/
def declaredWeights (weightages : List WeightagesInput) : List (String × Int) :=
  weightages.foldl (fun weights weight => mapSet weights weight.FaultName weight.Weightage) []

/-- Assignment of a fresh identifier to a request without one (service.go 91-93). -/
def assignExperimentID (workflowID : String) (workflow : ChaosExperimentRequest) :
    ChaosExperimentRequest :=
  if workflow.ExperimentID = none ∨ workflow.ExperimentID = some "" then
    { workflow with ExperimentID := some workflowID }
  else workflow

/-- Result of a processor turned into the result of `ProcessExperiment`. -/
def withType (wfType : ChaosExperimentType)
    (r : ChaosExperimentRequest × Except String Unit) :
    ChaosExperimentRequest × Except String ChaosExperimentType :=
  match r.2 with
  | .error e => (r.1, .error e)
  | .ok _ => (r.1, .ok wfType)

/-- The method `ProcessExperiment` (service.go 63-145). `workflowID` is the identifier
drawn from `uuid.New()`. The first component is the request after the call, the second
the returned type or error. The generic decoding at lines 95-98 is into
`unstructured.Unstructured`, whose decoder rejects text that is not a JSON object and an
object without a kind (`kind` missing, empty, or not a string). -/
def ProcessExperiment (env : Env) (workflowID : String) (workflow : ChaosExperimentRequest)
    (projectID revID : String) :
    ChaosExperimentRequest × Except String ChaosExperimentType :=
  match env.GetInfra workflow.InfraID with
  | .error e => (workflow, .error ("failed to get infra details: " ++ e))
  | .ok infra =>
    if infra.IsActive = false then
      (workflow, .error "experiment scheduling failed due to inactive infra")
    else if infra.ProjectID ≠ projectID then
      (workflow, .error "ProjectID doesn't match with the chaos_infra identifiers")
    else
      let weights := declaredWeights workflow.Weightages
      let workflow := assignExperimentID workflowID workflow
      match workflow.ExperimentManifest with
      | none => (workflow, .error "failed to unmarshal workflow manifest1")
      | some objMeta =>
        if objMeta.Kind = "" then
          (workflow, .error "failed to unmarshal workflow manifest1")
        else if workflow.ExperimentName ≠ objMeta.Name then
          (workflow, .error (objMeta.Kind ++ " name doesn't match"))
        else
          let kind := env.ToLower objMeta.Kind
          if kind = "workflow" then
            withType .NonCronExperiment (processExperimentManifest env workflow weights revID)
          else if kind = "cronworkflow" then
            withType .CronExperiment (processCronExperimentManifest env workflow weights revID)
          else if kind = "chaosengine" then
            withType .ChaosEngine (processChaosEngineManifest workflow weights revID)
          else if kind = "chaosschedule" then
            withType .ChaosEngine (processChaosScheduleManifest workflow weights revID)
          else
            (workflow, .error
              "not a valid object, only workflows/cron workflows/chaos engines supported")

/-! ## Completed runs -/

/-- Go's 64-bit `int` arithmetic: the two's complement representative of an integer. -/
def wrapInt (z : Int) : Int :=
  (z + 9223372036854775808) % 18446744073709551616 - 9223372036854775808

/-- The integer `strconv.Atoi` returns next to its error: 0 on a syntax error and the
nearest bound of the 64-bit range on a range error. -/
def AtoiValue (s : String) : Int :=
  let body : Bool × List Char :=
    match s.data with
    | '-' :: rest => (true, rest)
    | '+' :: rest => (false, rest)
    | cs => (false, cs)
  match body.2 with
  | [] => 0
  | c :: cs =>
    match digitsValue (c :: cs) 0 with
    | none => 0
    | some n =>
      if body.1 then
        (if n ≤ 2 ^ 63 then -(n : Int) else -(2 ^ 63 : Int))
      else
        (if n < 2 ^ 63 then (n : Int) else (2 ^ 63 - 1 : Int))

/-- Whether a character list has the pattern `sub` as a block of consecutive characters. -/
def containsChars (sub : List Char) : List Char → Bool
  | [] => (dropPrefix sub []).isSome
  | c :: cs => (dropPrefix sub (c :: cs)).isSome || containsChars sub cs

/-- Go `strings.Contains`. -/
def Contains (s substr : String) : Bool := containsChars substr.data s.data

/-- A finite value of Go's `float64`: the number `mantissa * 2 ^ exponent`. The results of
the operations below are zero or have a mantissa of 53 bits, between `2 ^ 52` and `2 ^ 53`
in magnitude, as the IEEE 754 format has. The exponent is not bounded: the numbers the
scorer computes are quotients and products of 64-bit integers and of 100, far inside the
range of the format, so that neither subnormal numbers nor infinities arise. -/
structure float64 where
  mantissa : Int
  exponent : Int
  deriving DecidableEq, Repr

namespace float64

/-- The search of the binary exponent of the positive fraction `n / d * 2 ^ e`: the
denominator or the numerator is doubled until `2 ^ 52 ≤ n / d < 2 ^ 53`. -/
def scale : Nat → Nat → Nat → Int → Nat × Nat × Int
  | 0, n, d, e => (n, d, e)
  | fuel + 1, n, d, e =>
    if 2 ^ 53 * d ≤ n then scale fuel n (2 * d) (e + 1)
    else if n < 2 ^ 52 * d then scale fuel (2 * n) d (e - 1)
    else (n, d, e)

/-- The integer nearest to `n / d`, the even one of the two when `n / d` lies half way. -/
def roundHalfEven (n d : Nat) : Nat :=
  if 2 * (n % d) < d then n / d
  else if d < 2 * (n % d) then n / d + 1
  else if n / d % 2 = 0 then n / d
  else n / d + 1

/-- The integer `m` with the sign given. -/
def signed (negative : Bool) (m : Nat) : Int := if negative then -(m : Int) else (m : Int)

/-- The float64 nearest to the number `n / d * 2 ^ e`, negated when `negative` is set:
the rounding to nearest, ties to even, that every float64 operation of Go applies to its
exact result. The fuel `n + d + 53` is enough for every `n` and `d` (`scale_spec`). A zero
denominator gives zero: Go yields an infinity or NaN there, but the scorer divides only by
a weight sum it has found not to be 0 and by 100. -/
def round (negative : Bool) (n d : Nat) (e : Int) : float64 :=
  if n = 0 ∨ d = 0 then { mantissa := 0, exponent := 0 }
  else
    let s := scale (n + d + 53) n d e
    let m := roundHalfEven s.1 s.2.1
    if m = 2 ^ 53 then { mantissa := signed negative (2 ^ 52), exponent := s.2.2 + 1 }
    else { mantissa := signed negative m, exponent := s.2.2 }

/-- Go's conversion `float64(z)` of an `int`. -/
def ofInt (z : Int) : float64 := round (decide (z < 0)) z.natAbs 1 0

/-- Go's division `x / y` of float64 values. -/
def div (x y : float64) : float64 :=
  round (xor (decide (x.mantissa < 0)) (decide (y.mantissa < 0)))
    x.mantissa.natAbs y.mantissa.natAbs (x.exponent - y.exponent)

/-- Go's product `x * y` of float64 values. -/
def mul (x y : float64) : float64 :=
  round (xor (decide (x.mantissa < 0)) (decide (y.mantissa < 0)))
    (x.mantissa.natAbs * y.mantissa.natAbs) 1 (x.exponent + y.exponent)

/-- Go's conversion `int(x)` of a float64, which discards the fraction. The language leaves
the result open when the value does not fit the 64-bit range; the model gives what the
amd64 instruction gives, the least 64-bit integer. -/
def toInt (x : float64) : Int :=
  let t : Int :=
    if 0 ≤ x.exponent then x.mantissa * 2 ^ x.exponent.toNat
    else signed (decide (x.mantissa < 0)) (x.mantissa.natAbs / 2 ^ (-x.exponent).toNat)
  if -9223372036854775808 ≤ t ∧ t < 9223372036854775808 then t else -9223372036854775808

/-- The rational number a float64 stands for. -/
def toRat (x : float64) : ℚ := (x.mantissa : ℚ) * (2 : ℚ) ^ x.exponent

end float64

/-- Modelled from the spec: the helper `utils.Truncate`, outside the sources, which the
spec describes as truncation (not rounding) to two decimals; on float64 values that is
`float64(int(num * 100)) / 100`, each operation rounding as Go's does. -/
def Truncate (num : float64) : float64 :=
  float64.div (float64.ofInt (float64.toInt (float64.mul num (float64.ofInt 100))))
    (float64.ofInt 100)

/-- Modelled from the spec: the fault data of an execution node, as far as the scorer
reads it (`ChaosData`, declared outside the sources). -/
structure ChaosData where
  EngineName : String
  ProbeSuccessPercentage : String
  FaultVerdict : String
  deriving DecidableEq, Repr

/-- Modelled from the spec: an execution node of a run (`Node`, declared outside the
sources); `NodeType` is its field `Type`, and `ChaosExp` is a pointer, `none` when nil. -/
structure Node where
  NodeType : String
  ChaosExp : Option ChaosData
  deriving DecidableEq, Repr

/-- Modelled from the spec: the execution data of a completed run (`ExecutionData`,
declared outside the sources). The nodes are listed in the order the loop visits them. -/
structure ExecutionData where
  RevisionID : String
  Nodes : List Node
  deriving DecidableEq, Repr

/-- Modelled from the spec: the metrics of a completed run (`ExperimentRunMetrics`,
declared outside the sources). The counters are Go `int`s that only ever count nodes; the
score is a float64 field, held as the rational number its value stands for. -/
structure ExperimentRunMetrics where
  ResiliencyScore : ℚ
  TotalExperiments : Nat
  FaultsPassed : Nat
  FaultsFailed : Nat
  FaultsAwaited : Nat
  FaultsStopped : Nat
  FaultsNA : Nat
  deriving DecidableEq, Repr

namespace dbChaosExperiment

/-- Modelled from the spec: a stored revision (`dbChaosExperiment.ExperimentRevision`,
declared outside the sources). -/
structure ExperimentRevision where
  RevisionID : String
  ExperimentManifest : Option Manifest
  UpdatedAt : Int
  Weightages : List WeightagesInput
  deriving DecidableEq, Repr

/-- Modelled from the spec: a stored experiment (`dbChaosExperiment.ChaosExperimentRequest`,
declared outside the sources), with its resource details and audit fields inlined. -/
structure ChaosExperimentRequest where
  ExperimentID : String
  ProjectID : String
  CronSyntax : String
  ExperimentType : ChaosExperimentType
  IsCustomExperiment : Option Bool
  InfraID : String
  Name : String
  Description : String
  Tags : List String
  CreatedAt : Int
  UpdatedAt : Int
  IsRemoved : Bool
  CreatedBy : String
  UpdatedBy : String
  Revision : List ExperimentRevision
  deriving DecidableEq, Repr

end dbChaosExperiment

/-- Collaborators of the scorer: the experiment lookup by experiment id, and the order in
which Go ranges over the weight map while it examines a node (unspecified by the
language, possibly different for every node). -/
structure RunEnv where
  GetExperiment : String → Except String dbChaosExperiment.ChaosExperimentRequest
  rangeKeys : Node → List (String × Int) → List String

/-- The first loop of `ProcessCompletedExperimentRun` (service.go 378-386): the weight map
and the weight sum collected from the revisions whose id is that of the run. -/
def collectWeights (revisionID : String)
    (revisions : List dbChaosExperiment.ExperimentRevision) : List (String × Int) × Int :=
  revisions.foldl (fun acc rev =>
    if rev.RevisionID = revisionID then
      rev.Weightages.foldl (fun acc weights =>
        (mapSet acc.1 weights.FaultName weights.Weightage,
         wrapInt (acc.2 + weights.Weightage))) acc
    else acc) ([], 0)

/-- The search of the fault a node belongs to (service.go 392, 397-401): every key of the
weight map contained in the engine name overwrites the previous one. -/
def matchFault (keys : List String) (engineName : String) : String :=
  keys.foldl (fun experimentName expName =>
    if Contains engineName expName then expName else experimentName) ""

/-- The verdict counters of a node (service.go 408-422). -/
def tallyVerdict (result : ExperimentRunMetrics) (verdict : String) : ExperimentRunMetrics :=
  let result := if verdict = "Pass" then
    { result with FaultsPassed := result.FaultsPassed + 1 } else result
  let result := if verdict = "Fail" then
    { result with FaultsFailed := result.FaultsFailed + 1 } else result
  let result := if verdict = "Awaited" then
    { result with FaultsAwaited := result.FaultsAwaited + 1 } else result
  let result := if verdict = "Stopped" then
    { result with FaultsStopped := result.FaultsStopped + 1 } else result
  if verdict = "N/A" ∨ verdict = "" then
    { result with FaultsNA := result.FaultsNA + 1 } else result

/-- One iteration of the loop over the nodes (service.go 390-424), on the pair of
`totalTestResult` and `result`. -/
def scoreNode (env : RunEnv) (weightMap : List (String × Int))
    (acc : Int × ExperimentRunMetrics) (value : Node) : Int × ExperimentRunMetrics :=
  if value.NodeType = "ChaosEngine" then
    match value.ChaosExp with
    | none => acc
    | some chaosExp =>
      let experimentName := matchFault (env.rangeKeys value weightMap) chaosExp.EngineName
      let totalTestResult :=
        match mapGet weightMap experimentName with
        | some weight =>
          wrapInt (acc.1 + wrapInt (weight * AtoiValue chaosExp.ProbeSuccessPercentage))
        | none => acc.1
      (totalTestResult, tallyVerdict acc.2 chaosExp.FaultVerdict)
  else acc

/-- The zero value of `ExperimentRunMetrics`. -/
def zeroMetrics : ExperimentRunMetrics :=
  { ResiliencyScore := 0, TotalExperiments := 0, FaultsPassed := 0, FaultsFailed := 0,
    FaultsAwaited := 0, FaultsStopped := 0, FaultsNA := 0 }

/-- The method `ProcessCompletedExperimentRun` (service.go 367-430): the returned metrics
and the returned error. The run id is not read. The score (line 426) is computed on
float64 values: both integers are converted, divided, and the quotient is handed to
`utils.Truncate`. -/
def ProcessCompletedExperimentRun (env : RunEnv) (execData : ExecutionData)
    (wfID _runID : String) : ExperimentRunMetrics × Except String Unit :=
  match env.GetExperiment wfID with
  | .error err =>
    (zeroMetrics, .error ("failed to get experiment from db on complete, error: " ++ err))
  | .ok chaosExperiments =>
    let weights := collectWeights execData.RevisionID chaosExperiments.Revision
    let weightMap := weights.1
    let weightSum := weights.2
    let result := { zeroMetrics with TotalExperiments := weightMap.length }
    let scored := execData.Nodes.foldl (scoreNode env weightMap) (0, result)
    let totalTestResult := scored.1
    let result := scored.2
    let result :=
      if weightSum ≠ 0 then
        { result with
          ResiliencyScore :=
            (Truncate (float64.div (float64.ofInt totalTestResult)
              (float64.ofInt weightSum))).toRat }
      else result
    (result, .ok ())

/-! ## Experiment records -/

/-- The values the service puts into BSON documents. -/
inductive BsonValue where
  | str (s : String)
  | strPtr (s : Option String)
  | int (n : Int)
  | bool (b : Bool)
  | boolPtr (b : Option Bool)
  | tags (l : List String)
  | expType (t : ChaosExperimentType)
  | manifest (m : Option Manifest)
  | revision (r : dbChaosExperiment.ExperimentRevision)
  deriving DecidableEq, Repr

/-- An ordered BSON document `bson.D` of such values. -/
abbrev BsonD := List (String × BsonValue)

/-- An update document: update operators (`$set`, `$push`) with their field documents. -/
abbrev BsonUpdate := List (String × BsonD)

/-- A call of `chaos_infrastructure.SendExperimentToSubscriber`, as recorded by the model. -/
structure Notification where
  ProjectID : String
  Workflow : ChaosExperimentRequest
  Username : String
  ExternalData : Option String
  ReqType : String
  deriving DecidableEq, Repr

namespace dbChaosExperimentRun

/-- Modelled from the spec: a stored run (`dbChaosExperimentRun.ChaosExperimentRun`,
declared outside the sources), as far as the service and its updates touch it. -/
structure ChaosExperimentRun where
  ExperimentRunID : String
  ExperimentID : String
  ProjectID : String
  IsRemoved : Bool
  UpdatedAt : Int
  UpdatedBy : String
  deriving DecidableEq, Repr

end dbChaosExperimentRun

/-- The state outside the service that the record operations act on: the experiment
collection, the notifications handed to the dispatch collaborator so far, the run
collection, and the view of the two collections held by the transaction of the driver
session, when one is open (`none` when no transaction is in progress). -/
structure World where
  Experiments : List dbChaosExperiment.ChaosExperimentRequest
  Sent : List Notification
  Runs : List dbChaosExperimentRun.ChaosExperimentRun := []
  Transaction : Option (List dbChaosExperiment.ChaosExperimentRequest ×
    List dbChaosExperimentRun.ChaosExperimentRun) := none
  deriving DecidableEq, Repr

/-- Modelled from the spec: whether a stored experiment matches a query document of the
storage operator (outside the sources), for the keys the service queries on: equality on
`experiment_id`, `project_id` and `is_removed`, and presence of a revision with the given
id for `revision.revision_id`. -/
def matchesQuery (doc : dbChaosExperiment.ChaosExperimentRequest) (query : BsonD) : Bool :=
  query.all (fun field =>
    match field with
    | ("experiment_id", .strPtr (some id)) => doc.ExperimentID = id
    | ("experiment_id", .str id) => doc.ExperimentID = id
    | ("project_id", .str projectID) => doc.ProjectID = projectID
    | ("is_removed", .bool b) => doc.IsRemoved = b
    | ("revision.revision_id", .str revisionID) =>
      doc.Revision.any (fun rev => rev.RevisionID = revisionID)
    | _ => false)

/-- Modelled from the spec: the revision id a query selects array elements with, which the
positional operator `$` of an update refers to. -/
def positionalRevision : BsonD → Option String
  | [] => none
  | ("revision.revision_id", .str revisionID) :: _ => some revisionID
  | _ :: rest => positionalRevision rest

/-- Modelled from the spec: a patch of the first revision with the given id (in-place edit
of the one revision the query matched). -/
def patchFirstRevision (revisionID : String)
    (f : dbChaosExperiment.ExperimentRevision → dbChaosExperiment.ExperimentRevision) :
    List dbChaosExperiment.ExperimentRevision → List dbChaosExperiment.ExperimentRevision
  | [] => []
  | rev :: rest =>
    if rev.RevisionID = revisionID then f rev :: rest
    else rev :: patchFirstRevision revisionID f rest

/-- Modelled from the spec: the effect of one field of a `$set` document on a stored
experiment, for the fields the service sets. -/
def applySet (query : BsonD) (doc : dbChaosExperiment.ChaosExperimentRequest)
    (field : String × BsonValue) : dbChaosExperiment.ChaosExperimentRequest :=
  match field with
  | ("experiment_type", .expType t) => { doc with ExperimentType := t }
  | ("cron_syntax", .str s) => { doc with CronSyntax := s }
  | ("name", .str s) => { doc with Name := s }
  | ("tags", .tags l) => { doc with Tags := l }
  | ("infra_id", .str s) => { doc with InfraID := s }
  | ("description", .str s) => { doc with Description := s }
  | ("is_custom_experiment", .boolPtr b) => { doc with IsCustomExperiment := b }
  | ("updated_at", .int n) => { doc with UpdatedAt := n }
  | ("updated_by", .str s) => { doc with UpdatedBy := s }
  | ("is_removed", .bool b) => { doc with IsRemoved := b }
  | ("revision.$.updated_at", .int n) =>
    match positionalRevision query with
    | some revisionID =>
      let revisions :=
        patchFirstRevision revisionID (fun rev => { rev with UpdatedAt := n }) doc.Revision
      { doc with Revision := revisions }
    | none => doc
  | ("revision.$.experiment_manifest", .manifest m) =>
    match positionalRevision query with
    | some revisionID =>
      let revisions :=
        patchFirstRevision revisionID (fun rev => { rev with ExperimentManifest := m })
          doc.Revision
      { doc with Revision := revisions }
    | none => doc
  | _ => doc

/-- Modelled from the spec: the effect of one field of a `$push` document: the value is
appended at the end of the array (append-only, order significant). -/
def applyPush (doc : dbChaosExperiment.ChaosExperimentRequest)
    (field : String × BsonValue) : dbChaosExperiment.ChaosExperimentRequest :=
  match field with
  | ("revision", .revision rev) => { doc with Revision := doc.Revision ++ [rev] }
  | _ => doc

/-- Modelled from the spec: the effect of an update document on a stored experiment. -/
def applyUpdate (query : BsonD) (update : BsonUpdate)
    (doc : dbChaosExperiment.ChaosExperimentRequest) :
    dbChaosExperiment.ChaosExperimentRequest :=
  update.foldl (fun doc operator =>
    if operator.1 = "$set" then operator.2.foldl (applySet query) doc
    else if operator.1 = "$push" then operator.2.foldl applyPush doc
    else doc) doc

/-- Modelled from the spec: the update of the first stored experiment that matches the
query; nothing changes when none does. -/
def updateFirst (query : BsonD) (update : BsonUpdate) :
    List dbChaosExperiment.ChaosExperimentRequest →
    List dbChaosExperiment.ChaosExperimentRequest
  | [] => []
  | doc :: rest =>
    if matchesQuery doc query then applyUpdate query update doc :: rest
    else doc :: updateFirst query update rest

/-- Modelled from the spec: the operator method `InsertChaosExperiment`, outside the
sources. `storageErr` is the error the storage layer answers with, if any (a duplicate
identity included); without one the record is added to the collection. -/
def InsertChaosExperiment (storageErr : Option String)
    (docs : List dbChaosExperiment.ChaosExperimentRequest)
    (doc : dbChaosExperiment.ChaosExperimentRequest) :
    Except String (List dbChaosExperiment.ChaosExperimentRequest) :=
  match storageErr with
  | some err => .error err
  | none => .ok (docs ++ [doc])

/-- Modelled from the spec: the operator method `UpdateChaosExperiment`, outside the
sources. `storageErr` is the error the storage layer answers with, if any; without one the
first record matching the query is updated. -/
def UpdateChaosExperiment (storageErr : Option String)
    (docs : List dbChaosExperiment.ChaosExperimentRequest) (query : BsonD)
    (update : BsonUpdate) : Except String (List dbChaosExperiment.ChaosExperimentRequest) :=
  match storageErr with
  | some err => .error err
  | none => .ok (updateFirst query update docs)

/-- The conversion loop of the weightages into their stored form (service.go 153-161,
212-220); both record types have the same two fields. -/
def storedWeightages (weightages : List WeightagesInput) : List WeightagesInput :=
  weightages.map (fun v => { FaultName := v.FaultName, Weightage := v.Weightage })

/-- The text of the run-time panic of Go on the dereference of a nil pointer. A panic is
not an error value of the source: the model renders it as an error with this text, and with
no effect on the state. -/
def nilDereference : String :=
  "panic: runtime error: invalid memory address or nil pointer dereference"

/-- The method `ProcessExperimentCreation` (service.go 148-203). `clock` gives the
successive readings of `time.Now().UnixMilli()`, `r` tells whether a dispatch context was
supplied. The first component is the state after the call. The record is built at lines
172-190 by dereferencing `input.ExperimentID`: on a nil pointer the method panics there,
before the insertion, which the model renders as the error `nilDereference` with the state
unchanged. `wfType`, dereferenced at line 174, is taken not to be nil. -/
def ProcessExperimentCreation (clock : Nat → Int) (storageErr : Option String) (w : World)
    (input : ChaosExperimentRequest) (username projectID : String)
    (wfType : ChaosExperimentType) (revisionID : String) (r : Bool) :
    World × Except String Unit :=
  let weightages := storedWeightages input.Weightages
  let timeNow := clock 0
  let revision : List dbChaosExperiment.ExperimentRevision :=
    [{ RevisionID := revisionID, ExperimentManifest := input.ExperimentManifest,
       UpdatedAt := timeNow, Weightages := weightages }]
  match input.ExperimentID with
  | none => (w, .error nilDereference)
  | some experimentID =>
  let newChaosExperiment : dbChaosExperiment.ChaosExperimentRequest :=
    { ExperimentID := experimentID
      CronSyntax := input.CronSyntax
      ExperimentType := wfType
      IsCustomExperiment := input.IsCustomExperiment
      InfraID := input.InfraID
      Name := input.ExperimentName
      Description := input.ExperimentDescription
      Tags := input.Tags
      ProjectID := projectID
      CreatedAt := timeNow
      UpdatedAt := timeNow
      IsRemoved := false
      CreatedBy := username
      UpdatedBy := username
      Revision := revision }
  match InsertChaosExperiment storageErr w.Experiments newChaosExperiment with
  | .error err => (w, .error err)
  | .ok docs =>
    let w := { w with Experiments := docs }
    let sent : Notification :=
      { ProjectID := projectID, Workflow := input, Username := username,
        ExternalData := none, ReqType := "create" }
    if r then ({ w with Sent := w.Sent ++ [sent] }, .ok ())
    else (w, .ok ())

/-- The method `ProcessExperimentUpdate` (service.go 206-281), with the same conventions
as `ProcessExperimentCreation`. After the write the manifest is decoded into
`unstructured.Unstructured` (lines 272-275), whose decoder rejects text that is not a JSON
object and an object without a kind: the method then returns the decoding error, the write
having been made. `wfType`, dereferenced at line 233, is taken not to be nil. -/
def ProcessExperimentUpdate (clock : Nat → Int) (storageErr : Option String) (w : World)
    (workflow : ChaosExperimentRequest) (username : String) (wfType : ChaosExperimentType)
    (revisionID : String) (updateRevision : Bool) (projectID : String) (r : Bool) :
    World × Except String Unit :=
  let weightages := storedWeightages workflow.Weightages
  let workflowRevision : dbChaosExperiment.ExperimentRevision :=
    { RevisionID := revisionID, ExperimentManifest := workflow.ExperimentManifest,
      UpdatedAt := clock 0, Weightages := weightages }
  let query : BsonD :=
    [("experiment_id", .strPtr workflow.ExperimentID), ("project_id", .str projectID)]
  let update : BsonUpdate :=
    [("$set",
       [("experiment_type", .expType wfType), ("cron_syntax", .str workflow.CronSyntax),
        ("name", .str workflow.ExperimentName), ("tags", .tags workflow.Tags),
        ("infra_id", .str workflow.InfraID),
        ("description", .str workflow.ExperimentDescription),
        ("is_custom_experiment", .boolPtr workflow.IsCustomExperiment),
        ("updated_at", .int (clock 1)), ("updated_by", .str username)]),
     ("$push", [("revision", .revision workflowRevision)])]
  let query : BsonD :=
    if updateRevision then
      [("experiment_id", .strPtr workflow.ExperimentID), ("project_id", .str projectID),
       ("revision.revision_id", .str revisionID)]
    else query
  let update : BsonUpdate :=
    if updateRevision then
      [("$set",
         [("updated_at", .int (clock 2)), ("updated_by", .str username),
          ("revision.$.updated_at", .int (clock 3)),
          ("revision.$.experiment_manifest", .manifest workflow.ExperimentManifest)])]
    else update
  match UpdateChaosExperiment storageErr w.Experiments query update with
  | .error err => (w, .error err)
  | .ok docs =>
    let w := { w with Experiments := docs }
    match workflow.ExperimentManifest with
    | none => (w, .error "failed to unmarshal workflow manifest1")
    | some workflowObj =>
      if workflowObj.Kind = "" then
        (w, .error "failed to unmarshal workflow manifest1")
      else
        let sent : Notification :=
          { ProjectID := projectID, Workflow := workflow, Username := username,
            ExternalData := none, ReqType := "update" }
        if r then ({ w with Sent := w.Sent ++ [sent] }, .ok ())
        else (w, .ok ())

/-! ## Deletion of experiments and runs -/

/-- Modelled from the spec: whether a stored run matches a query document of the run
operator (outside the sources): equality on `experiment_run_id`, `experiment_id`,
`project_id` and `is_removed`. -/
def matchesRunQuery (run : dbChaosExperimentRun.ChaosExperimentRun) (query : BsonD) : Bool :=
  query.all (fun field =>
    match field with
    | ("experiment_run_id", .strPtr (some id)) => run.ExperimentRunID = id
    | ("experiment_run_id", .str id) => run.ExperimentRunID = id
    | ("experiment_id", .str id) => run.ExperimentID = id
    | ("project_id", .str projectID) => run.ProjectID = projectID
    | ("is_removed", .bool b) => run.IsRemoved = b
    | _ => false)

/-- Modelled from the spec: the effect of one field of a `$set` document on a stored run,
for the fields the service sets. -/
def applyRunSet (run : dbChaosExperimentRun.ChaosExperimentRun)
    (field : String × BsonValue) : dbChaosExperimentRun.ChaosExperimentRun :=
  match field with
  | ("is_removed", .bool b) => { run with IsRemoved := b }
  | ("updated_at", .int n) => { run with UpdatedAt := n }
  | ("updated_by", .str s) => { run with UpdatedBy := s }
  | _ => run

/-- Modelled from the spec: the effect of an update document on a stored run. -/
def applyRunUpdate (update : BsonUpdate) (run : dbChaosExperimentRun.ChaosExperimentRun) :
    dbChaosExperimentRun.ChaosExperimentRun :=
  update.foldl (fun run operator =>
    if operator.1 = "$set" then operator.2.foldl applyRunSet run else run) run

/-- Modelled from the spec: the update of the first stored run that matches the query;
nothing changes when none does. -/
def updateFirstRun (query : BsonD) (update : BsonUpdate) :
    List dbChaosExperimentRun.ChaosExperimentRun → List dbChaosExperimentRun.ChaosExperimentRun
  | [] => []
  | run :: rest =>
    if matchesRunQuery run query then applyRunUpdate update run :: rest
    else run :: updateFirstRun query update rest

/-- Modelled from the spec: the update of every stored run that matches the query. -/
def updateRuns (query : BsonD) (update : BsonUpdate)
    (runs : List dbChaosExperimentRun.ChaosExperimentRun) :
    List dbChaosExperimentRun.ChaosExperimentRun :=
  runs.map (fun run => if matchesRunQuery run query then applyRunUpdate update run else run)

/-- Modelled from the spec: the function `UpdateExperimentRunWithQuery` of the run operator,
outside the sources. `storageErr` is the error the storage layer answers with, if any;
without one the first run matching the query is updated. -/
def UpdateExperimentRunWithQuery (storageErr : Option String)
    (runs : List dbChaosExperimentRun.ChaosExperimentRun) (query : BsonD)
    (update : BsonUpdate) : Except String (List dbChaosExperimentRun.ChaosExperimentRun) :=
  match storageErr with
  | some err => .error err
  | none => .ok (updateFirstRun query update runs)

/-- Modelled from the spec: the function `UpdateExperimentRunsWithQuery` of the run
operator, outside the sources. `storageErr` is the error the storage layer answers with,
if any; without one every run matching the query is updated. -/
def UpdateExperimentRunsWithQuery (storageErr : Option String)
    (runs : List dbChaosExperimentRun.ChaosExperimentRun) (query : BsonD)
    (update : BsonUpdate) : Except String (List dbChaosExperimentRun.ChaosExperimentRun) :=
  match storageErr with
  | some err => .error err
  | none => .ok (updateRuns query update runs)

/-- The errors the driver and the storage layer answer with during a delete, if any, one
per call the source makes. -/
structure TransactionFaults where
  StartSession : Option String := none
  StartTransaction : Option String := none
  UpdateChaosExperiment : Option String := none
  UpdateExperimentRunsWithQuery : Option String := none
  CommitTransaction : Option String := none
  AbortTransaction : Option String := none
  deriving DecidableEq, Repr

/-- Modelled from the spec: `session.StartTransaction`. The transaction starts from a
snapshot of the two collections. -/
def StartTransaction (fault : Option String) (w : World) : World × Except String Unit :=
  match fault with
  | some err => (w, .error err)
  | none => ({ w with Transaction := some (w.Experiments, w.Runs) }, .ok ())

/-- Modelled from the spec: `session.CommitTransaction`. The view of the transaction
becomes the content of the two collections. -/
def CommitTransaction (fault : Option String) (w : World) : World × Except String Unit :=
  match fault with
  | some err => (w, .error err)
  | none =>
    match w.Transaction with
    | some view =>
      ({ w with Experiments := view.1, Runs := view.2, Transaction := none }, .ok ())
    | none => (w, .ok ())

/-- Modelled from the spec: `session.AbortTransaction`. The view of the transaction is
discarded. -/
def AbortTransaction (fault : Option String) (w : World) : World × Except String Unit :=
  match fault with
  | some err => (w, .error err)
  | none => ({ w with Transaction := none }, .ok ())

/-- Modelled from the spec: the collections an operation called with the session context
reads: the view of the transaction when one is open. -/
def sessionView (w : World) : List dbChaosExperiment.ChaosExperimentRequest ×
    List dbChaosExperimentRun.ChaosExperimentRun :=
  match w.Transaction with
  | some view => view
  | none => (w.Experiments, w.Runs)

/-- Modelled from the spec: a write of the experiment collection by an operation called
with the session context: it changes the view of the transaction when one is open. -/
def writeExperiments (w : World) (docs : List dbChaosExperiment.ChaosExperimentRequest) :
    World :=
  match w.Transaction with
  | some view => { w with Transaction := some (docs, view.2) }
  | none => { w with Experiments := docs }

/-- Modelled from the spec: a write of the run collection by an operation called with the
session context. -/
def writeRuns (w : World) (runs : List dbChaosExperimentRun.ChaosExperimentRun) : World :=
  match w.Transaction with
  | some view => { w with Transaction := some (view.1, runs) }
  | none => { w with Runs := runs }

/-- The update document of `ProcessExperimentDelete` (service.go 303-309). -/
def deleteUpdate (clock : Nat → Int) (username : String) : BsonUpdate :=
  [("$set",
     [("is_removed", .bool true), ("updated_by", .str username),
      ("updated_at", .int (clock 0))])]

/-- The function passed to `mongo.WithSession` by `ProcessExperimentDelete`
(service.go 297-324). -/
def deleteInSession (clock : Nat → Int) (faults : TransactionFaults) (w : World)
    (query : BsonD) (workflow : dbChaosExperiment.ChaosExperimentRequest)
    (username : String) : World × Except String Unit :=
  match StartTransaction faults.StartTransaction w with
  | (w, .error err) => (w, .error err)
  | (w, .ok _) =>
    let update := deleteUpdate clock username
    match UpdateChaosExperiment faults.UpdateChaosExperiment (sessionView w).1 query update with
    | .error err => (w, .error err)
    | .ok docs =>
      let w := writeExperiments w docs
      match UpdateExperimentRunsWithQuery faults.UpdateExperimentRunsWithQuery
          (sessionView w).2 [("experiment_id", .str workflow.ExperimentID)] update with
      | .error err => (w, .error err)
      | .ok runs =>
        let w := writeRuns w runs
        match CommitTransaction faults.CommitTransaction w with
        | (w, .error err) => (w, .error err)
        | (w, .ok _) => (w, .ok ())

/-- The method `ProcessExperimentDelete` (service.go 284-341). `clock` gives the successive
readings of `time.Now().UnixMilli()`, `r` tells whether a dispatch context was supplied.
The first component is the state after the call. -/
def ProcessExperimentDelete (clock : Nat → Int) (faults : TransactionFaults) (w : World)
    (query : BsonD) (workflow : dbChaosExperiment.ChaosExperimentRequest)
    (username : String) (r : Bool) : World × Except String Unit :=
  match faults.StartSession with
  | some err => (w, .error err)
  | none =>
    match deleteInSession clock faults w query workflow username with
    | (w, .error err) =>
      match AbortTransaction faults.AbortTransaction w with
      | (w, .error abortErr) => (w, .error abortErr)
      | (w, .ok _) => (w, .error err)
    | (w, .ok _) =>
      let request : ChaosExperimentRequest :=
        { ExperimentID := none, ExperimentName := "", InfraID := workflow.InfraID,
          ExperimentManifest := none, Weightages := [], CronSyntax := "" }
      let notice : Notification :=
        { ProjectID := workflow.ProjectID, Workflow := request, Username := username,
          ExternalData := some workflow.ExperimentID, ReqType := "workflow_delete" }
      if r then ({ w with Sent := w.Sent ++ [notice] }, .ok ()) else (w, .ok ())

/-- The update document of `ProcessExperimentRunDelete` (service.go 345-351). -/
def runDeleteUpdate (clock : Nat → Int)
    (experimentRun : dbChaosExperimentRun.ChaosExperimentRun) (username : String) :
    BsonUpdate :=
  [("$set",
     [("is_removed", .bool experimentRun.IsRemoved), ("updated_at", .int (clock 0)),
      ("updated_by", .str username)])]

/-- The method `ProcessExperimentRunDelete` (service.go 344-364), with the conventions of
`ProcessExperimentDelete`; `workflowRunID` is a pointer in the source. -/
def ProcessExperimentRunDelete (clock : Nat → Int) (storageErr : Option String) (w : World)
    (query : BsonD) (workflowRunID : Option String)
    (experimentRun : dbChaosExperimentRun.ChaosExperimentRun)
    (workflow : dbChaosExperiment.ChaosExperimentRequest) (username : String) (r : Bool) :
    World × Except String Unit :=
  let update := runDeleteUpdate clock experimentRun username
  match UpdateExperimentRunWithQuery storageErr w.Runs query update with
  | .error err => (w, .error err)
  | .ok runs =>
    let w := { w with Runs := runs }
    let request : ChaosExperimentRequest :=
      { ExperimentID := none, ExperimentName := "", InfraID := workflow.InfraID,
        ExperimentManifest := none, Weightages := [], CronSyntax := "" }
    let notice : Notification :=
      { ProjectID := experimentRun.ProjectID, Workflow := request, Username := username,
        ExternalData := workflowRunID, ReqType := "workflow_run_delete" }
    if r then ({ w with Sent := w.Sent ++ [notice] }, .ok ()) else (w, .ok ())

/-! ## Vocabulary of the properties -/

/-- The four manifest kinds. -/
inductive ManifestKind where
  | workflow
  | cronworkflow
  | chaosengine
  | chaosschedule
  deriving DecidableEq, Repr

/-- The kind under which `ProcessExperiment` dispatches a document (service.go 105-142). -/
def manifestKind (env : Env) (m : Manifest) : Option ManifestKind :=
  if env.ToLower m.Kind = "workflow" then some .workflow
  else if env.ToLower m.Kind = "cronworkflow" then some .cronworkflow
  else if env.ToLower m.Kind = "chaosengine" then some .chaosengine
  else if env.ToLower m.Kind = "chaosschedule" then some .chaosschedule
  else none

/-- The processor of a kind. -/
def processKind (env : Env) : ManifestKind → ChaosExperimentRequest → List (String × Int) →
    String → ChaosExperimentRequest × Except String Unit
  | .workflow => processExperimentManifest env
  | .cronworkflow => processCronExperimentManifest env
  | .chaosengine => processChaosEngineManifest
  | .chaosschedule => processChaosScheduleManifest

/-- The experiment type `ProcessExperiment` pairs with a kind (service.go 78, 115, 123, 132). -/
def kindType : ManifestKind → ChaosExperimentType
  | .workflow => .NonCronExperiment
  | .cronworkflow => .CronExperiment
  | .chaosengine => .ChaosEngine
  | .chaosschedule => .ChaosEngine

/-- The fault of an engine or schedule manifest: the name of its first experiment, when
there is one and it is not empty (service.go 668-674, 726-733). -/
def rootFault (experiments : List ExperimentList) : Option String :=
  match experiments with
  | [] => none
  | experiment0 :: _ => if experiment0.Name.length = 0 then none else some experiment0.Name

/-- A template seen as a node: its label map and the fault found on it, if any. -/
def templateNode (env : Env) (t : Template) : Labels × Option String :=
  (t.Labels,
   match templateFault env t with
   | .ok (some exprname) => some exprname
   | _ => none)

/-- The nodes of a manifest that can carry a weight label, in manifest order, each with the
fault the processor finds on it: the templates of a workflow or cron manifest, the root
of an engine or schedule manifest. -/
def faultNodes (env : Env) : ManifestKind → Manifest → List (Labels × Option String)
  | .workflow, m => m.Templates.map (templateNode env)
  | .cronworkflow, m => m.WorkflowSpecTemplates.map (templateNode env)
  | .chaosengine, m => [(m.Labels, rootFault m.Experiments)]
  | .chaosschedule, m => [(m.Labels, rootFault m.EngineTemplateExperiments)]

/-- The fault found on node `i`. -/
def nodeFault (env : Env) (k : ManifestKind) (m : Manifest) (i : Nat) : Option String :=
  ((faultNodes env k m)[i]?).bind (fun node => node.2)

/-- The weight label of node `i`. -/
def nodeWeight (env : Env) (k : ManifestKind) (m : Manifest) (i : Nat) : Option String :=
  ((faultNodes env k m)[i]?).bind (fun node => labelGet node.1 "weight")

/-- The fault names of a manifest, one per node that carries a fault, in manifest order. -/
def faultNames (env : Env) (k : ManifestKind) (m : Manifest) : List String :=
  (faultNodes env k m).filterMap (fun node => node.2)

/-- The nodes whose fault has no declared weight. -/
def inferredNodes (weights : List (String × Int)) (nodes : List (Labels × Option String)) :
    List (Labels × Option String) :=
  nodes.filter (fun node =>
    match node.2 with
    | some exprname => (mapGet weights exprname).isNone
    | none => false)

/-- Reconciliation as the specification words it, on one node: the weight label the node
ends with. -/
def expectedWeightLabel (weights : List (String × Int)) (node : Labels × Option String) :
    Option String :=
  match node.2 with
  | none => labelGet node.1 "weight"
  | some exprname =>
    match mapGet weights exprname with
    | some val => some (Itoa val)
    | none =>
      match labelGet node.1 "weight" with
      | some s => some s
      | none => some "10"

/-- Reconciliation as the specification words it, on one node: the inferred weights. -/
def expectedEntry (weights : List (String × Int)) (node : Labels × Option String) :
    List WeightagesInput :=
  match node.2 with
  | none => []
  | some exprname =>
    match mapGet weights exprname with
    | some _ => []
    | none =>
      match labelGet node.1 "weight" with
      | some s =>
        match Atoi s with
        | .ok v => [{ FaultName := exprname, Weightage := v }]
        | .error _ => []
      | none => [{ FaultName := exprname, Weightage := 10 }]

/-- The identity keys written on the root labels of a kind. -/
def identityKeys : ManifestKind → List String
  | .workflow => ["workflow_id", "infra_id", "workflows.argoproj.io/controller-instanceid",
      "revision_id"]
  | .cronworkflow => ["workflow_id", "infra_id", "workflows.argoproj.io/controller-instanceid",
      "revision_id"]
  | .chaosengine => ["workflow_id", "infra_id", "type", "revision_id"]
  | .chaosschedule => ["workflow_id", "infra_id", "type", "revision_id"]

/-- The chaos engine block of a template, when the loop recognises one: the faults it
declares and the name the loop derives for them (`metadata.generateName`). -/
def templateBlock (env : Env) (t : Template) : Option (List ExperimentList × String) :=
  match templateEngine env t with
  | .ok (some meta) => some (meta.Experiments, meta.GenerateName)
  | _ => none

/-- The fault blocks the processors recognise in a manifest, each with the faults it
declares and the fault name derived from it: the chaos engines embedded in the templates
of a workflow or cron manifest, and the engine of an engine or schedule manifest, whose
derived name is that of the first experiment. -/
def faultBlocks (env : Env) : ManifestKind → Manifest → List (List ExperimentList × String)
  | .workflow, m => m.Templates.filterMap (templateBlock env)
  | .cronworkflow, m => m.WorkflowSpecTemplates.filterMap (templateBlock env)
  | .chaosengine, m =>
    [(m.Experiments, match m.Experiments with | [] => "" | experiment0 :: _ => experiment0.Name)]
  | .chaosschedule, m =>
    [(m.EngineTemplateExperiments,
      match m.EngineTemplateExperiments with | [] => "" | experiment0 :: _ => experiment0.Name)]

/-- The identity labels found in a label map: the three identifiers, the controller
label of the workflow kinds or the standalone marker of the engine kinds. -/
def HasIdentityLabels (k : ManifestKind) (l : Labels) (id infraID rev : String) : Prop :=
  labelGet l "workflow_id" = some id ∧ labelGet l "infra_id" = some infraID ∧
  labelGet l "revision_id" = some rev ∧
  ((k = .workflow ∨ k = .cronworkflow) →
    labelGet l "workflows.argoproj.io/controller-instanceid" = some infraID) ∧
  ((k = .chaosengine ∨ k = .chaosschedule) → labelGet l "type" = some "standalone_workflow")

/-- What a successful processor leaves behind, in the vocabulary of nodes. -/
def NodesReconciled (env : Env) (k : ManifestKind) (w : List (String × Int))
    (wf wf' : ChaosExperimentRequest) (m : Manifest) : Prop :=
  ∃ m', wf'.ExperimentManifest = some m' ∧ m'.Kind = m.Kind ∧ m'.Name = m.Name ∧
    (faultNodes env k m').map (fun node => node.2)
      = (faultNodes env k m).map (fun node => node.2) ∧
    (faultNodes env k m').map (fun node => labelGet node.1 "weight")
      = (faultNodes env k m).map (expectedWeightLabel w) ∧
    wf'.Weightages = wf.Weightages ++ (faultNodes env k m).flatMap (expectedEntry w) ∧
    (∀ node ∈ faultNodes env k m, ∀ n s, node.2 = some n → mapGet w n = none →
      labelGet node.1 "weight" = some s → ∃ v, Atoi s = .ok v) ∧
    wf'.ExperimentID = wf.ExperimentID ∧ wf'.InfraID = wf.InfraID ∧
    wf'.ExperimentName = wf.ExperimentName

/-- The weightages recorded on the revisions whose id is the given one, in stored order. -/
def recordedWeightages (revisionID : String)
    (revisions : List dbChaosExperiment.ExperimentRevision) : List WeightagesInput :=
  (revisions.filter (fun rev => rev.RevisionID = revisionID)).flatMap (fun rev => rev.Weightages)

/-- The exact sum of the weights of a list of weightages. -/
def sumWeights (ws : List WeightagesInput) : Int := (ws.map (fun e => e.Weightage)).sum

/-- The fault data of a node of type ChaosEngine that carries some. -/
def faultData (value : Node) : Option ChaosData :=
  if value.NodeType = "ChaosEngine" then value.ChaosExp else none

/-- The key a node is matched to: the last key, in the order the map is ranged over, that
the engine name contains. -/
def matchedFault (keys : List String) (engineName : String) : Option String :=
  (keys.filter (fun k => Contains engineName k)).getLast?

/-- The weight table entry a node is matched to, if any: the matched key and its weight. -/
def matchedEntry (env : RunEnv) (weightMap : List (String × Int)) (value : Node) :
    Option (String × Int) :=
  match faultData value with
  | none => none
  | some chaosExp =>
    match matchedFault (env.rangeKeys value weightMap) chaosExp.EngineName with
    | none => none
    | some name =>
      match mapGet weightMap name with
      | none => none
      | some weight => some (name, weight)

/-- The term a node adds to the weighted sum: the weight of the entry it is matched to
times its probe success percentage, nothing when it is matched to no entry. -/
def weightedResult (env : RunEnv) (weightMap : List (String × Int)) (value : Node) : Int :=
  match faultData value, matchedEntry env weightMap value with
  | some chaosExp, some entry => entry.2 * AtoiValue chaosExp.ProbeSuccessPercentage
  | _, _ => 0

/-- The exact weighted sum of a run against a weight map. -/
def weightedSum (env : RunEnv) (weightMap : List (String × Int)) (nodes : List Node) : Int :=
  (nodes.map (weightedResult env weightMap)).sum

/-- The number of nodes of type ChaosEngine carrying fault data whose verdict satisfies `p`. -/
def countVerdict (p : String → Bool) (nodes : List Node) : Nat :=
  (nodes.filterMap faultData).countP (fun chaosExp => p chaosExp.FaultVerdict)

/-- The range over the weight map visits every key of the map. -/
def RangesOverKeys (env : RunEnv) (weightMap : List (String × Int)) : Prop :=
  ∀ (value : Node) (k : String), mapGet weightMap k ≠ none → k ∈ env.rangeKeys value weightMap

/-- The weight-table keys the nodes of a run are matched to, one per matched node. -/
def matchedNames (env : RunEnv) (weightMap : List (String × Int)) (nodes : List Node) :
    List String :=
  nodes.filterMap (fun value => (matchedEntry env weightMap value).map (fun entry => entry.1))

/-- The value of a key in a weight map, 0 for a key the map does not have. -/
def mapValue (m : List (String × Int)) (k : String) : Int := (mapGet m k).getD 0

/-- The arguments of one call of `ProcessExperimentUpdate`. -/
structure UpdateCall where
  clock : Nat → Int
  workflow : ChaosExperimentRequest
  username : String
  wfType : ChaosExperimentType
  revisionID : String
  r : Bool

/-- The revision a normal update submits (service.go 222-227). -/
def submittedRevision (c : UpdateCall) : dbChaosExperiment.ExperimentRevision :=
  { RevisionID := c.revisionID, ExperimentManifest := c.workflow.ExperimentManifest,
    UpdatedAt := c.clock 0, Weightages := c.workflow.Weightages }

/-- Successive normal updates (`updateRevision` false) of one project, in submission
order, the storage layer answering without error. -/
def runUpdates (projectID : String) (w : World) (calls : List UpdateCall) : World :=
  calls.foldl (fun w c =>
    (ProcessExperimentUpdate c.clock none w c.workflow c.username c.wfType c.revisionID
      false projectID c.r).1) w

/-- The templates of a workflow or cron manifest, which the template loop ranges over; the
engine kinds have none. -/
def kindTemplates : ManifestKind → Manifest → List Template
  | .workflow, m => m.Templates
  | .cronworkflow, m => m.WorkflowSpecTemplates
  | .chaosengine, _ => []
  | .chaosschedule, _ => []

/-- A template the loop passes over: it has no artifact, or its first artifact has no raw
data or empty raw data, or the raw data of its first artifact decodes (once the templating
delimiters are stripped) to an object whose kind is not chaosengine. -/
def PassedOver (env : Env) (t : Template) : Prop :=
  t.Artifacts = [] ∨
  ∃ artifact0 rest, t.Artifacts = artifact0 :: rest ∧
    (artifact0.Raw = none ∨ artifact0.Raw = some "" ∨
      ∃ data meta, artifact0.Raw = some data ∧
        env.yamlUnmarshal (ReplaceAll (ReplaceAll data "\x7b\x7b" "") "\x7d\x7d" "") = some meta ∧
        env.ToLower meta.Kind ≠ "chaosengine")

/-- What the template loop makes of a template whose fault has a declared weight: the
label map is replaced by the weight label alone. Other templates are left as they are. -/
def stampTemplate (env : Env) (weights : List (String × Int)) (t : Template) : Template :=
  match templateFault env t with
  | .ok (some exprname) =>
    match mapGet weights exprname with
    | some val => { t with Labels := some [("weight", Itoa val)] }
    | none => t
  | _ => t

/-- The labels of a fault node are what the stamp of the weight `val` leaves: on a template
of a workflow or cron manifest the weight label alone, on the root of an engine or
schedule manifest a weight label among the others. -/
def stampedLabels (k : ManifestKind) (l : Labels) (val : Int) : Prop :=
  match k with
  | .workflow => l = some [("weight", Itoa val)]
  | .cronworkflow => l = some [("weight", Itoa val)]
  | .chaosengine => labelGet l "weight" = some (Itoa val)
  | .chaosschedule => labelGet l "weight" = some (Itoa val)

/-- A node is stamped with respect to a weight table: when it carries a fault, the fault
has a weight in the table and the labels of the node are what the stamp of that weight
leaves. -/
def Stamped (k : ManifestKind) (weights : List (String × Int))
    (node : Labels × Option String) : Prop :=
  match node.2 with
  | none => True
  | some exprname =>
    match mapGet weights exprname with
    | none => False
    | some val => stampedLabels k node.1 val

/-- The outcome `s` of the search of the binary exponent of `n / d * 2 ^ e`: the same
number, written with a fraction between `2 ^ 52` and `2 ^ 53`. -/
def float64.Scaled (n d : Nat) (e : Int) (s : Nat × Nat × Int) : Prop :=
  0 < s.2.1 ∧ 2 ^ 52 * s.2.1 ≤ s.1 ∧ s.1 < 2 ^ 53 * s.2.1 ∧
    (s.1 : ℚ) / (s.2.1 : ℚ) * (2 : ℚ) ^ s.2.2 = (n : ℚ) / (d : ℚ) * (2 : ℚ) ^ e

/-! ## Sample inputs -/

/-- Lower-casing of the ASCII letters, the part of `strings.ToLower` used on the samples. -/
def asciiLower (s : String) : String := String.mk (s.data.map Char.toLower)

/-- Raw data of a template artifact: a templated chaos engine with one experiment. -/
def podDeleteData : String :=
  "kind: ChaosEngine\nmetadata:\n  generateName: pod-delete\n  namespace: \x7b\x7bworkflow.parameters.adminModeNamespace\x7d\x7d\nspec:\n  experiments:\n  - name: pod-delete\n"

/-- Raw data of a template artifact that is not a chaos engine. -/
def configMapData : String := "kind: ConfigMap\nmetadata:\n  name: settings\n"

/-- YAML decoding on the sample texts (after the templating delimiters are stripped);
any other text is a decoding error. -/
def sampleYaml (s : String) : Option ChaosEngine :=
  if s = "kind: ChaosEngine\nmetadata:\n  generateName: pod-delete\n  namespace: workflow.parameters.adminModeNamespace\nspec:\n  experiments:\n  - name: pod-delete\n" then
    some { Kind := "ChaosEngine", Name := "", GenerateName := "pod-delete", Labels := none,
           Experiments := [{ Name := "pod-delete" }] }
  else if s = "kind: ConfigMap\nmetadata:\n  name: settings\n" then
    some { Kind := "ConfigMap", Name := "settings", GenerateName := "", Labels := none,
           Experiments := [] }
  else none

/-- Sample collaborators: one active infrastructure `infra-1` of project `project-1`. -/
def sampleEnv : Env :=
  { GetInfra := fun id =>
      if id = "infra-1" then .ok { IsActive := true, ProjectID := "project-1" }
      else .error "no documents in result"
    ToLower := asciiLower
    yamlUnmarshal := sampleYaml }

/-- An empty document of a given kind and name. -/
def emptyDoc (kind name : String) : Manifest :=
  { Kind := kind, Name := name, GenerateName := "", Labels := none, Templates := [],
    Schedule := "", WorkflowMetadata := none, WorkflowSpecTemplates := [], Experiments := [],
    EngineTemplateExperiments := [] }

/-- A request for `infra-1` carrying a document and declared weights. -/
def sampleRequest (doc : Manifest) (weightages : List WeightagesInput) :
    ChaosExperimentRequest :=
  { ExperimentID := some "exp-1", ExperimentName := doc.Name, InfraID := "infra-1",
    ExperimentManifest := some doc, Weightages := weightages, CronSyntax := "" }

/-- A template whose first artifact is the pod-delete chaos engine. -/
def podDeleteTemplate (labels : Labels) : Template :=
  { Labels := labels, Artifacts := [{ Raw := some podDeleteData }] }

/-- A chaos engine manifest with one experiment and a stale weight label. -/
def engineDoc : Manifest :=
  { emptyDoc "ChaosEngine" "engine-1" with
    Labels := some [("weight", "7"), ("team", "sre")]
    Experiments := [{ Name := "pod-delete" }] }

/-- A chaos engine manifest with one experiment and no labels. -/
def freshEngineDoc : Manifest :=
  { emptyDoc "ChaosEngine" "engine-1" with Experiments := [{ Name := "pod-delete" }] }

/-- A chaos engine manifest listing two experiments. -/
def twoFaultEngineDoc : Manifest :=
  { emptyDoc "ChaosEngine" "engine-2" with
    Experiments := [{ Name := "pod-delete" }, { Name := "pod-cpu-hog" }] }

/-- A chaos engine manifest whose second experiment has an empty name. -/
def unnamedFaultEngineDoc : Manifest :=
  { emptyDoc "ChaosEngine" "engine-3" with
    Experiments := [{ Name := "pod-delete" }, { Name := "" }] }

/-- A chaos schedule manifest with one experiment. -/
def scheduleDoc : Manifest :=
  { emptyDoc "ChaosSchedule" "schedule-1" with
    EngineTemplateExperiments := [{ Name := "pod-delete" }] }

/-- A workflow manifest running the pod-delete fault in two templates. -/
def repeatedFaultWorkflowDoc : Manifest :=
  { emptyDoc "Workflow" "wf-1" with
    Templates := [podDeleteTemplate none, podDeleteTemplate none] }

/-- A workflow manifest with a plain template and a pod-delete template labelled by hand. -/
def workflowDoc : Manifest :=
  { emptyDoc "Workflow" "wf-2" with
    Labels := some [("owner", "qa")]
    Templates := [{ Labels := none, Artifacts := [{ Raw := some configMapData }] },
                  podDeleteTemplate (some [("weight", "3"), ("tier", "db")])] }

/-- A cron workflow manifest with one pod-delete template. -/
def cronDoc : Manifest :=
  { emptyDoc "CronWorkflow" "cron-1" with
    Schedule := "0 * * * *"
    WorkflowSpecTemplates := [podDeleteTemplate none] }


/-- A JSON object that holds only the name `wf-2` in its metadata: a document without a
kind. -/
def kindlessDoc : Manifest := emptyDoc "" "wf-2"

/-- The chaos engine manifest without labels, its kind written in another casing. -/
def mixedCaseEngineDoc : Manifest :=
  { freshEngineDoc with Kind := "ChaosENGINE" }

/-- A chaos engine manifest that lists no experiment. -/
def noFaultEngineDoc : Manifest := emptyDoc "ChaosEngine" "engine-0"

/-- A stored experiment `exp-1` of project `project-1` with a single revision `rev-1`
carrying the given weightages. -/
def storedExperiment (weightages : List WeightagesInput) :
    dbChaosExperiment.ChaosExperimentRequest :=
  { ExperimentID := "exp-1", ProjectID := "project-1", CronSyntax := "",
    ExperimentType := .NonCronExperiment, IsCustomExperiment := none, InfraID := "infra-1",
    Name := "wf-1", Description := "", Tags := [], CreatedAt := 1000, UpdatedAt := 1000,
    IsRemoved := false, CreatedBy := "alice", UpdatedBy := "alice",
    Revision := [{ RevisionID := "rev-1", ExperimentManifest := none, UpdatedAt := 1000,
                   Weightages := weightages }] }

/-- Sample collaborators of the scorer: a store holding one experiment, and a range over
the weight map in insertion order. -/
def sampleRunEnv (exp : dbChaosExperiment.ChaosExperimentRequest) : RunEnv :=
  { GetExperiment := fun id =>
      if id = exp.ExperimentID then .ok exp else .error "mongo: no documents in result"
    rangeKeys := fun _ weightMap => weightMap.map (fun entry => entry.1) }

/-- A node of type ChaosEngine with fault data. -/
def engineNode (engineName percentage verdict : String) : Node :=
  { NodeType := "ChaosEngine"
    ChaosExp := some { EngineName := engineName, ProbeSuccessPercentage := percentage,
                       FaultVerdict := verdict } }

/-- The run of the specification's example: fault A at 100 percent, fault B at 0 percent. -/
def abRun : ExecutionData :=
  { RevisionID := "rev-1", Nodes := [engineNode "A" "100" "Pass", engineNode "B" "0" "Fail"] }

/-- The weight table of the specification's example. -/
def abWeights : List WeightagesInput :=
  [{ FaultName := "A", Weightage := 10 }, { FaultName := "B", Weightage := 30 }]

/-- A weight table whose weights add up to 100. -/
def percentWeights : List WeightagesInput :=
  [{ FaultName := "A", Weightage := 29 }, { FaultName := "B", Weightage := 71 }]

/-- A run whose only fault, A, reports a probe success of 1 percent. -/
def onePercentRun : ExecutionData :=
  { RevisionID := "rev-1", Nodes := [engineNode "A" "1" "Fail"] }

/-- A weight table with the single weight 2. -/
def doubleWeight : List WeightagesInput := [{ FaultName := "A", Weightage := 2 }]

/-- A run whose only fault reports a percentage just above the 64-bit range. -/
def hugePercentRun : ExecutionData :=
  { RevisionID := "rev-1", Nodes := [engineNode "A" "9223372036854775808" "Pass"] }

/-- A run launched from a revision the stored experiment does not have. -/
def strayRun : ExecutionData :=
  { RevisionID := "rev-9", Nodes := [engineNode "A" "100" "Pass"] }

/-- A run with one engine whose name contains two fault names of `overlapWeights`. -/
def overlapRun : ExecutionData :=
  { RevisionID := "rev-1", Nodes := [engineNode "pod-delete-x1" "100" "Pass"] }

/-- A weight table with two fault names, one contained in the other. -/
def overlapWeights : List WeightagesInput :=
  [{ FaultName := "pod-delete", Weightage := 10 }, { FaultName := "pod", Weightage := 30 }]

/-- A run with nodes of every verdict, a node of another type and a node without data. -/
def mixedRun : ExecutionData :=
  { RevisionID := "rev-1",
    Nodes := [engineNode "A" "100" "Pass", engineNode "zzz" "50" "Fail",
              engineNode "B" "0" "Awaited", engineNode "B-2" "x" "",
              { NodeType := "Steps", ChaosExp := none },
              { NodeType := "ChaosEngine", ChaosExp := none },
              engineNode "q" "10" "N/A", engineNode "r" "10" "Stopped"] }

/-- A clock whose successive readings are 2000, 2001, 2002, ... -/
def sampleClock (n : Nat) : Int := 2000 + n

/-- A stored experiment `exp-1` with the two revisions `rev-1` and `rev-2`. -/
def twoRevisionExperiment : dbChaosExperiment.ChaosExperimentRequest :=
  { storedExperiment abWeights with
    Revision :=
      [{ RevisionID := "rev-1", ExperimentManifest := some cronDoc, UpdatedAt := 1000,
         Weightages := abWeights },
       { RevisionID := "rev-2", ExperimentManifest := some cronDoc, UpdatedAt := 1500,
         Weightages := overlapWeights }] }

/-- A store that holds an experiment of another project and the experiment `exp-1`. -/
def sampleWorld : World :=
  { Experiments := [{ storedExperiment [] with ProjectID := "project-2" }, twoRevisionExperiment]
    Sent := [] }

/-- A store that holds only an experiment of another project. -/
def emptyWorld : World :=
  { Experiments := [{ storedExperiment [] with ProjectID := "project-2" }], Sent := [] }

/-- An update call submitting the revision `revisionID` of the experiment `exp-1`. -/
def sampleUpdate (revisionID : String) : UpdateCall :=
  { clock := sampleClock, workflow := sampleRequest workflowDoc [], username := "bob",
    wfType := .NonCronExperiment, revisionID := revisionID, r := true }

/-- A stored run of an experiment of `project-1`, not removed. -/
def sampleRun (runID experimentID : String) : dbChaosExperimentRun.ChaosExperimentRun :=
  { ExperimentRunID := runID, ExperimentID := experimentID, ProjectID := "project-1",
    IsRemoved := false, UpdatedAt := 1000, UpdatedBy := "alice" }

/-- A store that holds the experiment `exp-1` after an experiment of another project, two
runs of `exp-1` and a run of `exp-2`. -/
def runWorld : World :=
  { Experiments := [{ storedExperiment [] with ProjectID := "project-2" }, twoRevisionExperiment]
    Sent := []
    Runs := [sampleRun "run-1" "exp-1", sampleRun "run-2" "exp-2", sampleRun "run-3" "exp-1"] }

/-- The query selecting the experiment `exp-1` of `project-1` while it is not removed. -/
def deleteQuery : BsonD :=
  [("experiment_id", .str "exp-1"), ("project_id", .str "project-1"), ("is_removed", .bool false)]

/-- The query selecting the run `run-1` while it is not removed. -/
def runDeleteQuery : BsonD :=
  [("experiment_run_id", .str "run-1"), ("is_removed", .bool false)]

/-- A storage layer whose update of the run collection fails. -/
def runUpdateFails : TransactionFaults :=
  { UpdateExperimentRunsWithQuery := some "write conflict" }

/-- A cron workflow manifest with an unlabelled pod-delete template followed by a pod-delete
template whose weight label is not a number. -/
def badLabelCronDoc : Manifest :=
  { emptyDoc "CronWorkflow" "cron-2" with
    Schedule := "0 * * * *"
    WorkflowSpecTemplates :=
      [podDeleteTemplate none, podDeleteTemplate (some [("weight", "heavy")])] }

/-- A workflow manifest with a pod-delete template that carries no label. -/
def plainWorkflowDoc : Manifest :=
  { emptyDoc "Workflow" "wf-3" with
    Labels := some [("owner", "qa")]
    Templates := [{ Labels := none, Artifacts := [{ Raw := some configMapData }] },
                  podDeleteTemplate none] }

/-! ## Lemmas on maps -/

theorem mapGet_mapSet_self {α : Type} (m : List (String × α)) (k : String) (v : α) :
    mapGet (mapSet m k v) k = some v := by
  induction m with
  | nil => simp [mapSet, mapGet]
  | cons p rest ih =>
    obtain ⟨k', v'⟩ := p
    by_cases h : k' = k
    · simp [mapSet, mapGet, h]
    · simp [mapSet, mapGet, h, ih]

theorem mapGet_mapSet_of_ne {α : Type} (m : List (String × α)) (k k' : String) (v : α)
    (h : k ≠ k') : mapGet (mapSet m k v) k' = mapGet m k' := by
  induction m with
  | nil => simp [mapSet, mapGet, h]
  | cons p rest ih =>
    obtain ⟨k0, v0⟩ := p
    by_cases h0 : k0 = k
    · subst h0
      simp [mapSet, mapGet, h]
    · by_cases h1 : k0 = k'
      · subst h1
        simp [mapSet, mapGet, h0]
      · simp [mapSet, mapGet, h0, h1, ih]

theorem mapSet_of_mapGet {α : Type} (m : List (String × α)) (k : String) (v : α)
    (h : mapGet m k = some v) : mapSet m k v = m := by
  induction m with
  | nil => simp [mapGet] at h
  | cons p rest ih =>
    obtain ⟨k0, v0⟩ := p
    by_cases h0 : k0 = k
    · subst h0
      simp [mapGet] at h
      simp [mapSet, h]
    · simp [mapGet, h0] at h
      simp [mapSet, h0, ih h]

/-! ## Lemmas on the template loop -/

theorem labelGet_weight_single (v : String) :
    labelGet (some [("weight", v)]) "weight" = some v := by
  simp [labelGet, mapGet]

theorem templateNode_fst (env : Env) (t : Template) : (templateNode env t).1 = t.Labels := rfl

theorem templateFault_congr (env : Env) (t t' : Template) (h : t'.Artifacts = t.Artifacts) :
    templateFault env t' = templateFault env t := by
  simp [templateFault, templateEngine, h]

theorem processTemplate_ok (env : Env) (w : List (String × Int)) (t t' : Template)
    (c : List WeightagesInput) (h : processTemplate env w t = .ok (t', c)) :
    t'.Artifacts = t.Artifacts ∧
    labelGet t'.Labels "weight" = expectedWeightLabel w (templateNode env t) ∧
    c = expectedEntry w (templateNode env t) ∧
    (∀ n s, (templateNode env t).2 = some n → mapGet w n = none →
      labelGet t.Labels "weight" = some s → ∃ v, Atoi s = .ok v) := by
  unfold processTemplate at h
  cases hf : templateFault env t with
  | error e => simp [hf] at h
  | ok o =>
    cases o with
    | none =>
      simp [hf] at h
      obtain ⟨rfl, rfl⟩ := h
      simp [expectedWeightLabel, expectedEntry, templateNode, hf]
    | some n =>
      simp only [hf] at h
      unfold reconcileTemplate at h
      cases hw : mapGet w n with
      | some val =>
        simp [hw] at h
        obtain ⟨rfl, rfl⟩ := h
        simp only [expectedWeightLabel, expectedEntry, templateNode, hf, hw,
          labelGet_weight_single, true_and]
        intro n1 s hn hw1
        cases hn
        simp [hw] at hw1
      | none =>
        simp only [hw] at h
        cases hl : labelGet t.Labels "weight" with
        | some s =>
          simp only [hl] at h
          cases ha : Atoi s with
          | error e => simp [ha] at h
          | ok v =>
            simp [ha] at h
            obtain ⟨rfl, rfl⟩ := h
            simp [expectedWeightLabel, expectedEntry, templateNode, hf, hw, hl, ha]
        | none =>
          simp [hl] at h
          obtain ⟨rfl, rfl⟩ := h
          simp [expectedWeightLabel, expectedEntry, templateNode, hf, hw, hl,
            labelGet_weight_single]

theorem processTemplates_ok (env : Env) (w : List (String × Int)) :
    ∀ (ts ts' : List Template) (new : List WeightagesInput),
      processTemplates env w ts = .ok (ts', new) →
      ts'.map (fun t => t.Artifacts) = ts.map (fun t => t.Artifacts) ∧
      ts'.map (fun t => labelGet t.Labels "weight")
        = ts.map (fun t => expectedWeightLabel w (templateNode env t)) ∧
      new = ts.flatMap (fun t => expectedEntry w (templateNode env t)) ∧
      (∀ t ∈ ts, ∀ n s, (templateNode env t).2 = some n → mapGet w n = none →
        labelGet t.Labels "weight" = some s → ∃ v, Atoi s = .ok v) := by
  intro ts
  induction ts with
  | nil =>
    intro ts' new h
    simp [processTemplates] at h
    obtain ⟨rfl, rfl⟩ := h
    simp
  | cons t rest ih =>
    intro ts' new h
    unfold processTemplates at h
    cases h1 : processTemplate env w t with
    | error e => simp [h1] at h
    | ok r1 =>
      obtain ⟨t1, c1⟩ := r1
      simp only [h1] at h
      cases h2 : processTemplates env w rest with
      | error e => simp [h2] at h
      | ok r2 =>
        obtain ⟨rest', cs⟩ := r2
        simp [h2] at h
        obtain ⟨rfl, rfl⟩ := h
        obtain ⟨a1, a2, a3, a4⟩ := processTemplate_ok env w t t1 c1 h1
        obtain ⟨b1, b2, b3, b4⟩ := ih rest' cs h2
        refine ⟨?_, ?_, ?_, ?_⟩
        · simp [a1, b1]
        · simp [a2, b2]
        · simp [a3, b3]
        · intro x hx
          rcases List.mem_cons.mp hx with rfl | hx
          · exact a4
          · exact b4 x hx

theorem templateNode_map_of_artifacts (env : Env) (ts ts' : List Template)
    (h : ts'.map (fun t => t.Artifacts) = ts.map (fun t => t.Artifacts)) :
    ts'.map (fun t => (templateNode env t).2) = ts.map (fun t => (templateNode env t).2) := by
  induction ts generalizing ts' with
  | nil =>
    cases ts' with
    | nil => rfl
    | cons a l => simp at h
  | cons t rest ih =>
    cases ts' with
    | nil => simp at h
    | cons a l =>
      simp only [List.map_cons, List.cons.injEq] at h ⊢
      refine ⟨?_, ih l h.2⟩
      simp [templateNode, templateFault_congr env t a h.1]

/-! ## Lemmas on the identity labels -/

theorem workflowLabels_get (l : Labels) (a b c : String) :
    mapGet (workflowLabels l a b c) "workflow_id" = some a ∧
    mapGet (workflowLabels l a b c) "infra_id" = some b ∧
    mapGet (workflowLabels l a b c) "workflows.argoproj.io/controller-instanceid" = some b ∧
    mapGet (workflowLabels l a b c) "revision_id" = some c := by
  cases l with
  | none => simp [workflowLabels, mapGet]
  | some m =>
    simp only [workflowLabels]
    refine ⟨?_, ?_, ?_, ?_⟩
    · rw [mapGet_mapSet_of_ne _ _ _ _ (by decide), mapGet_mapSet_of_ne _ _ _ _ (by decide),
        mapGet_mapSet_of_ne _ _ _ _ (by decide), mapGet_mapSet_self]
    · rw [mapGet_mapSet_of_ne _ _ _ _ (by decide), mapGet_mapSet_of_ne _ _ _ _ (by decide),
        mapGet_mapSet_self]
    · rw [mapGet_mapSet_of_ne _ _ _ _ (by decide), mapGet_mapSet_self]
    · rw [mapGet_mapSet_self]

theorem workflowLabels_get_other (l : Labels) (a b c key : String)
    (h1 : key ≠ "workflow_id") (h2 : key ≠ "infra_id")
    (h3 : key ≠ "workflows.argoproj.io/controller-instanceid") (h4 : key ≠ "revision_id") :
    mapGet (workflowLabels l a b c) key = labelGet l key := by
  cases l with
  | none => simp [workflowLabels, mapGet, labelGet, Ne.symm h1, Ne.symm h2, Ne.symm h3, Ne.symm h4]
  | some m =>
    simp only [workflowLabels, labelGet]
    rw [mapGet_mapSet_of_ne _ _ _ _ (Ne.symm h4), mapGet_mapSet_of_ne _ _ _ _ (Ne.symm h3),
      mapGet_mapSet_of_ne _ _ _ _ (Ne.symm h2), mapGet_mapSet_of_ne _ _ _ _ (Ne.symm h1)]

theorem workflowLabels_idem (l : Labels) (a b c : String) :
    workflowLabels (some (workflowLabels l a b c)) a b c = workflowLabels l a b c := by
  obtain ⟨g1, g2, g3, g4⟩ := workflowLabels_get l a b c
  generalize workflowLabels l a b c = L at g1 g2 g3 g4
  simp only [workflowLabels]
  rw [mapSet_of_mapGet _ _ _ g1, mapSet_of_mapGet _ _ _ g2, mapSet_of_mapGet _ _ _ g3,
    mapSet_of_mapGet _ _ _ g4]

theorem standaloneLabels_get (l : Labels) (a b c : String) :
    mapGet (standaloneLabels l a b c) "workflow_id" = some a ∧
    mapGet (standaloneLabels l a b c) "infra_id" = some b ∧
    mapGet (standaloneLabels l a b c) "type" = some "standalone_workflow" ∧
    mapGet (standaloneLabels l a b c) "revision_id" = some c := by
  cases l with
  | none => simp [standaloneLabels, mapGet]
  | some m =>
    simp only [standaloneLabels]
    refine ⟨?_, ?_, ?_, ?_⟩
    · rw [mapGet_mapSet_of_ne _ _ _ _ (by decide), mapGet_mapSet_of_ne _ _ _ _ (by decide),
        mapGet_mapSet_of_ne _ _ _ _ (by decide), mapGet_mapSet_self]
    · rw [mapGet_mapSet_of_ne _ _ _ _ (by decide), mapGet_mapSet_of_ne _ _ _ _ (by decide),
        mapGet_mapSet_self]
    · rw [mapGet_mapSet_of_ne _ _ _ _ (by decide), mapGet_mapSet_self]
    · rw [mapGet_mapSet_self]

theorem standaloneLabels_get_other (l : Labels) (a b c key : String)
    (h1 : key ≠ "workflow_id") (h2 : key ≠ "infra_id")
    (h3 : key ≠ "type") (h4 : key ≠ "revision_id") :
    mapGet (standaloneLabels l a b c) key = labelGet l key := by
  cases l with
  | none =>
    simp [standaloneLabels, mapGet, labelGet, Ne.symm h1, Ne.symm h2, Ne.symm h3, Ne.symm h4]
  | some m =>
    simp only [standaloneLabels, labelGet]
    rw [mapGet_mapSet_of_ne _ _ _ _ (Ne.symm h4), mapGet_mapSet_of_ne _ _ _ _ (Ne.symm h3),
      mapGet_mapSet_of_ne _ _ _ _ (Ne.symm h2), mapGet_mapSet_of_ne _ _ _ _ (Ne.symm h1)]

theorem standaloneLabels_get_weight (l : Labels) (a b c : String) :
    mapGet (standaloneLabels l a b c) "weight" = labelGet l "weight" :=
  standaloneLabels_get_other l a b c "weight" (by decide) (by decide) (by decide) (by decide)

/-! ## Lemmas on the root reconciliation -/

theorem reconcileRoot_ok (w : List (String × Int)) (n : String) (L L' : List (String × String))
    (c : List WeightagesInput) (h : reconcileRoot w n L = .ok (L', c)) :
    mapGet L' "weight" = expectedWeightLabel w (some L, some n) ∧
    c = expectedEntry w (some L, some n) ∧
    (∀ key, key ≠ "weight" → mapGet L' key = mapGet L key) ∧
    (∀ s, mapGet w n = none → mapGet L "weight" = some s → ∃ v, Atoi s = .ok v) := by
  unfold reconcileRoot at h
  cases hw : mapGet w n with
  | some val =>
    simp [hw] at h
    obtain ⟨rfl, rfl⟩ := h
    refine ⟨?_, ?_, ?_, ?_⟩
    · simp [expectedWeightLabel, hw, mapGet_mapSet_self]
    · simp [expectedEntry, hw]
    · intro key hk
      exact mapGet_mapSet_of_ne _ _ _ _ (Ne.symm hk)
    · intro s hs
      simp at hs
  | none =>
    simp only [hw] at h
    cases hl : mapGet L "weight" with
    | some s =>
      simp only [hl] at h
      cases ha : Atoi s with
      | error e => simp [ha] at h
      | ok v =>
        simp [ha] at h
        obtain ⟨rfl, rfl⟩ := h
        refine ⟨?_, ?_, ?_, ?_⟩
        · simp [expectedWeightLabel, hw, labelGet, hl]
        · simp [expectedEntry, hw, labelGet, hl, ha]
        · intro key _
          rfl
        · intro s1 _ hs1
          cases hs1
          exact ⟨v, ha⟩
    | none =>
      simp [hl] at h
      obtain ⟨rfl, rfl⟩ := h
      refine ⟨?_, ?_, ?_, ?_⟩
      · simp [expectedWeightLabel, hw, labelGet, hl, mapGet_mapSet_self]
      · simp [expectedEntry, hw, labelGet, hl]
      · intro key hk
        exact mapGet_mapSet_of_ne _ _ _ _ (Ne.symm hk)
      · intro s _ hs
        simp at hs

/-! ## Lemmas on the four processors -/

theorem processExperimentManifest_nodes (env : Env) (wf : ChaosExperimentRequest)
    (w : List (String × Int)) (rev : String) (m : Manifest)
    (hm : wf.ExperimentManifest = some m)
    (h : (processExperimentManifest env wf w rev).2 = .ok ()) :
    NodesReconciled env .workflow w wf (processExperimentManifest env wf w rev).1 m := by
  unfold processExperimentManifest at h ⊢
  simp only [hm] at h ⊢
  cases hp : processTemplates env w m.toWorkflow.Templates with
  | error e => simp [hp] at h
  | ok r =>
    obtain ⟨ts', new⟩ := r
    obtain ⟨a1, a2, a3, a4⟩ := processTemplates_ok env w _ ts' new hp
    simp only [Manifest.toWorkflow] at a1 a2 a3 a4
    refine ⟨_, rfl, rfl, rfl, ?_, ?_, ?_, ?_, rfl, rfl, rfl⟩
    · simpa [faultNodes, Workflow.toManifest, Manifest.toWorkflow] using
        templateNode_map_of_artifacts env m.Templates ts' a1
    · simpa [faultNodes, Workflow.toManifest, Manifest.toWorkflow, templateNode_fst] using a2
    · simp [faultNodes, a3, List.flatMap_map]
    · intro node hnode
      simp only [faultNodes, List.mem_map] at hnode
      obtain ⟨t, ht, rfl⟩ := hnode
      exact a4 t ht

theorem processCronExperimentManifest_nodes (env : Env) (wf : ChaosExperimentRequest)
    (w : List (String × Int)) (rev : String) (m : Manifest)
    (hm : wf.ExperimentManifest = some m)
    (h : (processCronExperimentManifest env wf w rev).2 = .ok ()) :
    NodesReconciled env .cronworkflow w wf (processCronExperimentManifest env wf w rev).1 m := by
  unfold processCronExperimentManifest at h ⊢
  simp only [hm] at h ⊢
  cases hp : processTemplates env w m.toCronWorkflow.Templates with
  | error e => simp [hp] at h
  | ok r =>
    obtain ⟨ts', new⟩ := r
    obtain ⟨a1, a2, a3, a4⟩ := processTemplates_ok env w _ ts' new hp
    simp only [Manifest.toCronWorkflow] at a1 a2 a3 a4
    refine ⟨_, rfl, rfl, rfl, ?_, ?_, ?_, ?_, rfl, rfl, rfl⟩
    · simpa [faultNodes, CronWorkflow.toManifest, Manifest.toCronWorkflow] using
        templateNode_map_of_artifacts env m.WorkflowSpecTemplates ts' a1
    · simpa [faultNodes, CronWorkflow.toManifest, Manifest.toCronWorkflow, templateNode_fst]
        using a2
    · simp [faultNodes, a3, List.flatMap_map]
    · intro node hnode
      simp only [faultNodes, List.mem_map] at hnode
      obtain ⟨t, ht, rfl⟩ := hnode
      exact a4 t ht

theorem processChaosEngineManifest_nodes (env : Env) (wf : ChaosExperimentRequest)
    (w : List (String × Int)) (rev : String) (m : Manifest)
    (hm : wf.ExperimentManifest = some m)
    (h : (processChaosEngineManifest wf w rev).2 = .ok ()) :
    NodesReconciled env .chaosengine w wf (processChaosEngineManifest wf w rev).1 m := by
  unfold processChaosEngineManifest at h ⊢
  simp only [hm, Manifest.toChaosEngine] at h ⊢
  cases he : m.Experiments with
  | nil => simp [he] at h
  | cons e0 rest =>
    simp only [he] at h ⊢
    by_cases hn : e0.Name.length = 0
    · simp [hn] at h
    · simp only [hn, if_false] at h ⊢
      cases hr : reconcileRoot w e0.Name
          (standaloneLabels m.Labels (wf.ExperimentID.getD "") wf.InfraID rev) with
      | error e => simp [hr] at h
      | ok r =>
        obtain ⟨L', c⟩ := r
        obtain ⟨a1, a2, _, a4⟩ := reconcileRoot_ok w e0.Name _ L' c hr
        have hw := standaloneLabels_get_weight m.Labels (wf.ExperimentID.getD "") wf.InfraID rev
        refine ⟨_, rfl, rfl, rfl, ?_, ?_, ?_, ?_, rfl, rfl, rfl⟩
        · simp [faultNodes, ChaosEngine.toManifest, he]
        · simp only [faultNodes, ChaosEngine.toManifest, List.map_cons, List.map_nil, labelGet,
            a1, he, rootFault, hn, if_false]
          simp [expectedWeightLabel, labelGet, hw]
        · simp only [faultNodes, he, rootFault, hn, if_false, a2, List.flatMap_cons,
            List.flatMap_nil, List.append_nil]
          simp [expectedEntry, labelGet, hw]
        · intro node hnode n s h1 h2 h3
          simp only [faultNodes, he, rootFault, hn, if_false, List.mem_singleton] at hnode
          subst hnode
          simp only [Option.some.injEq] at h1
          subst h1
          exact a4 s h2 (by rw [hw]; exact h3)

theorem processChaosScheduleManifest_nodes (env : Env) (wf : ChaosExperimentRequest)
    (w : List (String × Int)) (rev : String) (m : Manifest)
    (hm : wf.ExperimentManifest = some m)
    (h : (processChaosScheduleManifest wf w rev).2 = .ok ()) :
    NodesReconciled env .chaosschedule w wf (processChaosScheduleManifest wf w rev).1 m := by
  unfold processChaosScheduleManifest at h ⊢
  simp only [hm, Manifest.toChaosSchedule] at h ⊢
  cases he : m.EngineTemplateExperiments with
  | nil => simp [he] at h
  | cons e0 rest =>
    simp only [he] at h ⊢
    by_cases hn : e0.Name.length = 0
    · simp [hn] at h
    · simp only [hn, if_false] at h ⊢
      cases hr : reconcileRoot w e0.Name
          (standaloneLabels m.Labels (wf.ExperimentID.getD "") wf.InfraID rev) with
      | error e => simp [hr] at h
      | ok r =>
        obtain ⟨L', c⟩ := r
        obtain ⟨a1, a2, _, a4⟩ := reconcileRoot_ok w e0.Name _ L' c hr
        have hw := standaloneLabels_get_weight m.Labels (wf.ExperimentID.getD "") wf.InfraID rev
        refine ⟨_, rfl, rfl, rfl, ?_, ?_, ?_, ?_, rfl, rfl, rfl⟩
        · simp [faultNodes, ChaosSchedule.toManifest, he]
        · simp only [faultNodes, ChaosSchedule.toManifest, List.map_cons, List.map_nil, labelGet,
            a1, he, rootFault, hn, if_false]
          simp [expectedWeightLabel, labelGet, hw]
        · simp only [faultNodes, he, rootFault, hn, if_false, a2, List.flatMap_cons,
            List.flatMap_nil, List.append_nil]
          simp [expectedEntry, labelGet, hw]
        · intro node hnode n s h1 h2 h3
          simp only [faultNodes, he, rootFault, hn, if_false, List.mem_singleton] at hnode
          subst hnode
          simp only [Option.some.injEq] at h1
          subst h1
          exact a4 s h2 (by rw [hw]; exact h3)

theorem processKind_nodes (env : Env) (k : ManifestKind) (wf : ChaosExperimentRequest)
    (w : List (String × Int)) (rev : String) (m : Manifest)
    (hm : wf.ExperimentManifest = some m)
    (h : (processKind env k wf w rev).2 = .ok ()) :
    NodesReconciled env k w wf (processKind env k wf w rev).1 m := by
  cases k with
  | workflow => exact processExperimentManifest_nodes env wf w rev m hm h
  | cronworkflow => exact processCronExperimentManifest_nodes env wf w rev m hm h
  | chaosengine => exact processChaosEngineManifest_nodes env wf w rev m hm h
  | chaosschedule => exact processChaosScheduleManifest_nodes env wf w rev m hm h

/-! ## Lemmas on `ProcessExperiment` -/

theorem assignExperimentID_fields (uuid : String) (req : ChaosExperimentRequest) :
    (assignExperimentID uuid req).ExperimentManifest = req.ExperimentManifest ∧
    (assignExperimentID uuid req).ExperimentName = req.ExperimentName ∧
    (assignExperimentID uuid req).InfraID = req.InfraID ∧
    (assignExperimentID uuid req).Weightages = req.Weightages ∧
    (assignExperimentID uuid req).CronSyntax = req.CronSyntax := by
  unfold assignExperimentID
  split <;> simp

theorem withType_snd_ok (ty ty' : ChaosExperimentType)
    (r : ChaosExperimentRequest × Except String Unit) (h : (withType ty r).2 = .ok ty') :
    ty' = ty ∧ r.2 = .ok () ∧ (withType ty r).1 = r.1 := by
  unfold withType at h ⊢
  cases hr : r.2 with
  | error e => simp [hr] at h
  | ok u =>
    simp [hr] at h
    simp [h]

theorem withType_snd_error (ty : ChaosExperimentType)
    (r : ChaosExperimentRequest × Except String Unit) (e : String) (h : r.2 = .error e) :
    (withType ty r).2 = .error e := by
  simp [withType, h]

theorem manifestKind_cases (env : Env) (m : Manifest) (k : ManifestKind)
    (h : manifestKind env m = some k) :
    (k = .workflow ∧ env.ToLower m.Kind = "workflow") ∨
    (k = .cronworkflow ∧ env.ToLower m.Kind = "cronworkflow") ∨
    (k = .chaosengine ∧ env.ToLower m.Kind = "chaosengine") ∨
    (k = .chaosschedule ∧ env.ToLower m.Kind = "chaosschedule") := by
  unfold manifestKind at h
  split_ifs at h with h1 h2 h3 h4 <;> simp_all

theorem ProcessExperiment_dispatch (env : Env) (uuid : String) (req : ChaosExperimentRequest)
    (pid rev : String) (infra : Infra) (m : Manifest) (k : ManifestKind)
    (hi : env.GetInfra req.InfraID = .ok infra) (ha : infra.IsActive = true)
    (hp : infra.ProjectID = pid) (hm : req.ExperimentManifest = some m)
    (hn : req.ExperimentName = m.Name) (hk : manifestKind env m = some k)
    (hkind : m.Kind ≠ "") :
    ProcessExperiment env uuid req pid rev
      = withType (kindType k)
          (processKind env k (assignExperimentID uuid req) (declaredWeights req.Weightages) rev) := by
  obtain ⟨f1, f2, -, -, -⟩ := assignExperimentID_fields uuid req
  unfold ProcessExperiment
  simp only [hi, ha, hp]
  simp only [f1, hm, f2, hn, hkind, if_false]
  rcases manifestKind_cases env m k hk with ⟨rfl, h⟩ | ⟨rfl, h⟩ | ⟨rfl, h⟩ | ⟨rfl, h⟩ <;>
    simp [h, processKind, kindType]

theorem ProcessExperiment_ok_kind (env : Env) (uuid : String) (req : ChaosExperimentRequest)
    (pid rev : String) (ty : ChaosExperimentType) (m : Manifest)
    (h : (ProcessExperiment env uuid req pid rev).2 = .ok ty)
    (hm : req.ExperimentManifest = some m) : m.Kind ≠ "" := by
  obtain ⟨f1, -, -, -, -⟩ := assignExperimentID_fields uuid req
  intro hkind
  unfold ProcessExperiment at h
  cases hi : env.GetInfra req.InfraID with
  | error e => simp [hi] at h
  | ok infra =>
    simp only [hi] at h
    by_cases ha : infra.IsActive = false
    · simp [ha] at h
    · by_cases hp : infra.ProjectID = pid
      · simp [ha, hp, f1, hm, hkind] at h
      · simp [ha, hp] at h

theorem ProcessExperiment_ok_inv (env : Env) (uuid : String) (req : ChaosExperimentRequest)
    (pid rev : String) (ty : ChaosExperimentType)
    (h : (ProcessExperiment env uuid req pid rev).2 = .ok ty) :
    ∃ infra m k, env.GetInfra req.InfraID = .ok infra ∧ infra.IsActive = true ∧
      infra.ProjectID = pid ∧ req.ExperimentManifest = some m ∧ req.ExperimentName = m.Name ∧
      manifestKind env m = some k := by
  obtain ⟨f1, f2, -, -, -⟩ := assignExperimentID_fields uuid req
  unfold ProcessExperiment at h
  cases hi : env.GetInfra req.InfraID with
  | error e => simp [hi] at h
  | ok infra =>
    simp only [hi] at h
    by_cases ha : infra.IsActive = false
    · simp [ha] at h
    · by_cases hp : infra.ProjectID = pid
      · cases hm : req.ExperimentManifest with
        | none => simp [ha, hp, f1, hm] at h
        | some m =>
          by_cases hkind : m.Kind = ""
          · simp [ha, hp, f1, hm, hkind] at h
          by_cases hn : req.ExperimentName = m.Name
          · have ha1 : infra.IsActive = true := by simpa using ha
            by_cases h1 : env.ToLower m.Kind = "workflow"
            · exact ⟨infra, m, .workflow, rfl, ha1, hp, rfl, hn, by simp [manifestKind, h1]⟩
            · by_cases h2 : env.ToLower m.Kind = "cronworkflow"
              · exact ⟨infra, m, .cronworkflow, rfl, ha1, hp, rfl, hn,
                  by simp [manifestKind, h1, h2]⟩
              · by_cases h3 : env.ToLower m.Kind = "chaosengine"
                · exact ⟨infra, m, .chaosengine, rfl, ha1, hp, rfl, hn,
                    by simp [manifestKind, h1, h2, h3]⟩
                · by_cases h4 : env.ToLower m.Kind = "chaosschedule"
                  · exact ⟨infra, m, .chaosschedule, rfl, ha1, hp, rfl, hn,
                      by simp [manifestKind, h1, h2, h3, h4]⟩
                  · simp [ha, hp, f1, hm, f2, hn, h1, h2, h3, h4, hkind] at h
          · simp [ha, hp, f1, hm, f2, hn, hkind] at h
      · simp [ha, hp] at h

theorem ProcessExperiment_nodes (env : Env) (uuid : String) (req : ChaosExperimentRequest)
    (pid rev : String) (ty : ChaosExperimentType) (m : Manifest) (k : ManifestKind)
    (h : (ProcessExperiment env uuid req pid rev).2 = .ok ty)
    (hm : req.ExperimentManifest = some m) (hk : manifestKind env m = some k) :
    ty = kindType k ∧
    NodesReconciled env k (declaredWeights req.Weightages) (assignExperimentID uuid req)
      (ProcessExperiment env uuid req pid rev).1 m := by
  obtain ⟨infra, m0, k0, hi, ha, hp, hm0, hn, hk0⟩ := ProcessExperiment_ok_inv env uuid req pid rev ty h
  rw [hm] at hm0
  cases hm0
  rw [hk] at hk0
  cases hk0
  have hd := ProcessExperiment_dispatch env uuid req pid rev infra m k hi ha hp hm hn hk
      (ProcessExperiment_ok_kind env uuid req pid rev ty m h hm)
  rw [hd] at h ⊢
  obtain ⟨g1, g2, g3⟩ := withType_snd_ok _ _ _ h
  refine ⟨g1, ?_⟩
  rw [g3]
  exact processKind_nodes env k _ _ rev m
    (by rw [(assignExperimentID_fields uuid req).1]; exact hm) g2

/-! ## Lemmas on nodes -/

theorem bind_getElem?_of_map_eq {α β γ : Type} (l : List α) (l' : List β) (f : α → Option γ)
    (g : β → Option γ) (h : l'.map g = l.map f) (i : Nat) :
    (l'[i]?).bind g = (l[i]?).bind f := by
  have h0 := congrArg (fun x => x[i]?) h
  simp only [List.getElem?_map] at h0
  cases h1 : l'[i]? <;> cases h2 : l[i]? <;> simp_all

theorem manifestKind_congr (env : Env) (m m' : Manifest) (h : m'.Kind = m.Kind) :
    manifestKind env m' = manifestKind env m := by
  simp [manifestKind, h]

theorem nodeFault_node (env : Env) (k : ManifestKind) (m : Manifest) (i : Nat) (n : String)
    (h : nodeFault env k m i = some n) :
    ∃ node, (faultNodes env k m)[i]? = some node ∧ node.2 = some n := by
  unfold nodeFault at h
  cases hx : (faultNodes env k m)[i]? with
  | none => simp [hx] at h
  | some node => exact ⟨node, rfl, by simpa [hx] using h⟩

theorem expectedEntry_mem (w : List (String × Int)) (node : Labels × Option String)
    (e : WeightagesInput) (h : e ∈ expectedEntry w node) :
    node.2 = some e.FaultName ∧ mapGet w e.FaultName = none := by
  unfold expectedEntry at h
  cases h2 : node.2 with
  | none => simp [h2] at h
  | some n =>
    simp only [h2] at h
    cases hw : mapGet w n with
    | some v => simp [hw] at h
    | none =>
      simp only [hw] at h
      cases hl : labelGet node.1 "weight" with
      | none =>
        simp [hl] at h
        subst h
        exact ⟨rfl, hw⟩
      | some s =>
        simp only [hl] at h
        cases ha : Atoi s with
        | error x => simp [ha] at h
        | ok v =>
          simp [ha] at h
          subst h
          exact ⟨rfl, hw⟩

theorem expectedEntry_flatMap_length (w : List (String × Int)) :
    ∀ (l : List (Labels × Option String)),
      (∀ node ∈ l, ∀ n s, node.2 = some n → mapGet w n = none →
        labelGet node.1 "weight" = some s → ∃ v, Atoi s = .ok v) →
      (l.flatMap (expectedEntry w)).length = (inferredNodes w l).length := by
  intro l
  induction l with
  | nil => intro _; simp [inferredNodes]
  | cons node rest ih =>
    intro hgood
    have ih1 := ih (fun x hx => hgood x (List.mem_cons_of_mem _ hx))
    have hnode := hgood node (List.mem_cons_self _ _)
    simp only [inferredNodes] at ih1 ⊢
    simp only [List.flatMap_cons, List.length_append, ih1, List.filter_cons]
    cases h2 : node.2 with
    | none => simp [expectedEntry, h2]
    | some n =>
      cases hw : mapGet w n with
      | some v => simp [expectedEntry, h2, hw]
      | none =>
        cases hl : labelGet node.1 "weight" with
        | none => simp [expectedEntry, h2, hw, hl, Nat.add_comm]
        | some s =>
          obtain ⟨v, hv⟩ := hnode n s h2 hw hl
          simp [expectedEntry, h2, hw, hl, hv, Nat.add_comm]

theorem node_split {α : Type} (l : List α) (i : Nat) (x : α) (h : l[i]? = some x) :
    l = l.take i ++ x :: l.drop (i + 1) := by
  induction l generalizing i with
  | nil => simp at h
  | cons a rest ih =>
    cases i with
    | zero =>
      simp at h
      simp [h]
    | succ j =>
      simp at h
      simp only [List.take_succ_cons, List.drop_succ_cons, List.cons_append]
      rw [← ih j h]

/-- Decomposition of the inferred weights around node `i`: the entries appended by the
nodes before it, its own, and those of the nodes after it. -/
theorem inferred_split (w : List (String × Int)) (l : List (Labels × Option String))
    (i : Nat) (node : Labels × Option String) (h : l[i]? = some node)
    (hgood : ∀ x ∈ l, ∀ n s, x.2 = some n → mapGet w n = none →
        labelGet x.1 "weight" = some s → ∃ v, Atoi s = .ok v) :
    ∃ pre post, l.flatMap (expectedEntry w) = pre ++ expectedEntry w node ++ post ∧
      pre.length = (inferredNodes w (l.take i)).length ∧
      post.length = (inferredNodes w (l.drop (i + 1))).length := by
  refine ⟨(l.take i).flatMap (expectedEntry w), (l.drop (i + 1)).flatMap (expectedEntry w),
    ?_, ?_, ?_⟩
  · conv_lhs => rw [node_split l i node h]
    simp [List.flatMap_append]
  · exact expectedEntry_flatMap_length w _ (fun x hx => hgood x (List.mem_of_mem_take hx))
  · exact expectedEntry_flatMap_length w _ (fun x hx => hgood x (List.mem_of_mem_drop hx))

/-! ## Weight reconciliation -/

set_option maxRecDepth 100000

/-- C1: whenever `ProcessExperiment` succeeds on a manifest of one of the four kinds, a
fault found on node `i` whose name is a key of the declared weight table ends with the
decimal string of the declared weight as the weight label of that node, whatever the
node carried before, and none of the weightages appended to the request bears that name. -/
theorem declared_weight_overrides_label (env : Env) (uuid : String)
    (req : ChaosExperimentRequest) (pid rev : String) (ty : ChaosExperimentType)
    (m : Manifest) (k : ManifestKind) (i : Nat) (n : String) (val : Int)
    (h : (ProcessExperiment env uuid req pid rev).2 = .ok ty)
    (hm : req.ExperimentManifest = some m) (hk : manifestKind env m = some k)
    (hf : nodeFault env k m i = some n)
    (hw : mapGet (declaredWeights req.Weightages) n = some val) :
    (∃ m', (ProcessExperiment env uuid req pid rev).1.ExperimentManifest = some m' ∧
      manifestKind env m' = some k ∧ nodeFault env k m' i = some n ∧
      nodeWeight env k m' i = some (Itoa val)) ∧
    (∃ new, (ProcessExperiment env uuid req pid rev).1.Weightages = req.Weightages ++ new ∧
      ∀ e ∈ new, e.FaultName ≠ n) := by
  obtain ⟨-, m', e1, e2, -, e4, e5, e6, -, -, -, -⟩ :=
    ProcessExperiment_nodes env uuid req pid rev ty m k h hm hk
  obtain ⟨node, hnode, hn2⟩ := nodeFault_node env k m i n hf
  refine ⟨⟨m', e1, ?_, ?_, ?_⟩, ?_⟩
  · rw [manifestKind_congr env m m' e2, hk]
  · unfold nodeFault
    rw [bind_getElem?_of_map_eq _ _ _ _ e4 i]
    exact hf
  · unfold nodeWeight
    rw [bind_getElem?_of_map_eq _ _ _ _ e5 i, hnode]
    simp [expectedWeightLabel, hn2, hw]
  · refine ⟨(faultNodes env k m).flatMap (expectedEntry (declaredWeights req.Weightages)),
      ?_, ?_⟩
    · rw [e6, (assignExperimentID_fields uuid req).2.2.2.1]
    · intro e he hname
      simp only [List.mem_flatMap] at he
      obtain ⟨x, -, hx⟩ := he
      have hx2 := (expectedEntry_mem _ x e hx).2
      rw [hname, hw] at hx2
      cases hx2

/-- Witness of C1: a cron workflow whose pod-delete template is declared with weight 4. -/
theorem declared_weight_overrides_label_witness :
    nodeFault sampleEnv .cronworkflow cronDoc 0 = some "pod-delete" ∧
    ((∃ m', (ProcessExperiment sampleEnv "uuid-1"
          (sampleRequest cronDoc [{ FaultName := "pod-delete", Weightage := 4 }])
          "project-1" "rev-1").1.ExperimentManifest = some m' ∧
        manifestKind sampleEnv m' = some .cronworkflow ∧
        nodeFault sampleEnv .cronworkflow m' 0 = some "pod-delete" ∧
        nodeWeight sampleEnv .cronworkflow m' 0 = some (Itoa 4)) ∧
      (∃ new, (ProcessExperiment sampleEnv "uuid-1"
          (sampleRequest cronDoc [{ FaultName := "pod-delete", Weightage := 4 }])
          "project-1" "rev-1").1.Weightages
            = (sampleRequest cronDoc [{ FaultName := "pod-delete", Weightage := 4 }]).Weightages
              ++ new ∧
        ∀ e ∈ new, e.FaultName ≠ "pod-delete")) :=
  ⟨by decide,
   declared_weight_overrides_label sampleEnv "uuid-1"
     (sampleRequest cronDoc [{ FaultName := "pod-delete", Weightage := 4 }])
     "project-1" "rev-1" .CronExperiment cronDoc .cronworkflow 0 "pod-delete" 4
     (by decide) (by decide) (by decide) (by decide) (by decide)⟩

/-- C5: for a fault found on node `i` of a manifest of one of the four kinds whose name has
no declared weight and whose node carries the weight label `s`: when `s` parses as the
integer `v`, a successful call keeps the label and appends exactly one entry for the node,
`(name, v)`, placed after the entries of the undeclared faults before it and before those
of the undeclared faults after it; when `s` does not parse the call returns an error. -/
theorem labelled_weight_inferred (env : Env) (uuid : String)
    (req : ChaosExperimentRequest) (pid rev : String)
    (m : Manifest) (k : ManifestKind) (i : Nat) (n s : String)
    (hm : req.ExperimentManifest = some m) (hk : manifestKind env m = some k)
    (hf : nodeFault env k m i = some n)
    (hw : mapGet (declaredWeights req.Weightages) n = none)
    (hl : nodeWeight env k m i = some s) :
    (∀ ty, (ProcessExperiment env uuid req pid rev).2 = .ok ty →
      ∃ v, Atoi s = .ok v ∧
        (∃ m', (ProcessExperiment env uuid req pid rev).1.ExperimentManifest = some m' ∧
          nodeWeight env k m' i = some s) ∧
        ∃ pre post, (ProcessExperiment env uuid req pid rev).1.Weightages
            = req.Weightages ++ (pre ++ { FaultName := n, Weightage := v } :: post) ∧
          pre.length = (inferredNodes (declaredWeights req.Weightages)
            ((faultNodes env k m).take i)).length ∧
          post.length = (inferredNodes (declaredWeights req.Weightages)
            ((faultNodes env k m).drop (i + 1))).length) ∧
    (∀ e, Atoi s = .error e → ∃ e', (ProcessExperiment env uuid req pid rev).2 = .error e') := by
  obtain ⟨node, hnode, hn2⟩ := nodeFault_node env k m i n hf
  have hl1 : labelGet node.1 "weight" = some s := by
    simpa [nodeWeight, hnode] using hl
  have key : ∀ ty, (ProcessExperiment env uuid req pid rev).2 = .ok ty →
      ∃ v, Atoi s = .ok v ∧
        (∃ m', (ProcessExperiment env uuid req pid rev).1.ExperimentManifest = some m' ∧
          nodeWeight env k m' i = some s) ∧
        ∃ pre post, (ProcessExperiment env uuid req pid rev).1.Weightages
            = req.Weightages ++ (pre ++ { FaultName := n, Weightage := v } :: post) ∧
          pre.length = (inferredNodes (declaredWeights req.Weightages)
            ((faultNodes env k m).take i)).length ∧
          post.length = (inferredNodes (declaredWeights req.Weightages)
            ((faultNodes env k m).drop (i + 1))).length := by
    intro ty h
    obtain ⟨-, m', e1, -, -, -, e5, e6, e7, -, -, -⟩ :=
      ProcessExperiment_nodes env uuid req pid rev ty m k h hm hk
    obtain ⟨v, hv⟩ := e7 node (List.getElem?_mem hnode) n s hn2 hw hl1
    obtain ⟨pre, post, d1, d2, d3⟩ := inferred_split _ _ i node hnode e7
    refine ⟨v, hv, ⟨m', e1, ?_⟩, pre, post, ?_, d2, d3⟩
    · unfold nodeWeight
      rw [bind_getElem?_of_map_eq _ _ _ _ e5 i, hnode]
      simp [expectedWeightLabel, hn2, hw, hl1]
    · rw [e6, (assignExperimentID_fields uuid req).2.2.2.1, d1]
      simp [expectedEntry, hn2, hw, hl1, hv]
  refine ⟨key, ?_⟩
  intro e he
  cases hr : (ProcessExperiment env uuid req pid rev).2 with
  | error e' => exact ⟨e', rfl⟩
  | ok ty =>
    obtain ⟨v, hv, -⟩ := key ty hr
    rw [he] at hv
    cases hv

/-- Witness of C5: a workflow whose second template carries the weight label 3, with no
declared weights. -/
theorem labelled_weight_inferred_witness :
    nodeFault sampleEnv .workflow workflowDoc 1 = some "pod-delete" ∧
    nodeWeight sampleEnv .workflow workflowDoc 1 = some "3" ∧
    (ProcessExperiment sampleEnv "uuid-1" (sampleRequest workflowDoc []) "project-1" "rev-1").2
      = .ok .NonCronExperiment ∧
    ((∀ ty, (ProcessExperiment sampleEnv "uuid-1" (sampleRequest workflowDoc [])
          "project-1" "rev-1").2 = .ok ty →
      ∃ v, Atoi "3" = .ok v ∧
        (∃ m', (ProcessExperiment sampleEnv "uuid-1" (sampleRequest workflowDoc [])
            "project-1" "rev-1").1.ExperimentManifest = some m' ∧
          nodeWeight sampleEnv .workflow m' 1 = some "3") ∧
        ∃ pre post, (ProcessExperiment sampleEnv "uuid-1" (sampleRequest workflowDoc [])
            "project-1" "rev-1").1.Weightages
            = (sampleRequest workflowDoc []).Weightages
              ++ (pre ++ { FaultName := "pod-delete", Weightage := v } :: post) ∧
          pre.length = (inferredNodes (declaredWeights (sampleRequest workflowDoc []).Weightages)
            ((faultNodes sampleEnv .workflow workflowDoc).take 1)).length ∧
          post.length = (inferredNodes (declaredWeights (sampleRequest workflowDoc []).Weightages)
            ((faultNodes sampleEnv .workflow workflowDoc).drop (1 + 1))).length) ∧
    (∀ e, Atoi "3" = .error e →
      ∃ e', (ProcessExperiment sampleEnv "uuid-1" (sampleRequest workflowDoc [])
        "project-1" "rev-1").2 = .error e')) :=
  ⟨by decide, by decide, by decide,
   labelled_weight_inferred sampleEnv "uuid-1" (sampleRequest workflowDoc []) "project-1"
     "rev-1" workflowDoc .workflow 1 "pod-delete" "3" (by decide) (by decide) (by decide)
     (by decide) (by decide)⟩

/-- C6: for a fault found on node `i` of a manifest of one of the four kinds whose name has
no declared weight and whose node carries no weight label, a successful call leaves the
node with the weight label 10 and appends exactly one entry for the node, `(name, 10)`,
placed after the entries of the undeclared faults before it and before those of the
undeclared faults after it. -/
theorem missing_weight_defaults_to_ten (env : Env) (uuid : String)
    (req : ChaosExperimentRequest) (pid rev : String) (ty : ChaosExperimentType)
    (m : Manifest) (k : ManifestKind) (i : Nat) (n : String)
    (h : (ProcessExperiment env uuid req pid rev).2 = .ok ty)
    (hm : req.ExperimentManifest = some m) (hk : manifestKind env m = some k)
    (hf : nodeFault env k m i = some n)
    (hw : mapGet (declaredWeights req.Weightages) n = none)
    (hl : nodeWeight env k m i = none) :
    (∃ m', (ProcessExperiment env uuid req pid rev).1.ExperimentManifest = some m' ∧
      nodeWeight env k m' i = some "10") ∧
    ∃ pre post, (ProcessExperiment env uuid req pid rev).1.Weightages
        = req.Weightages ++ (pre ++ { FaultName := n, Weightage := 10 } :: post) ∧
      pre.length = (inferredNodes (declaredWeights req.Weightages)
        ((faultNodes env k m).take i)).length ∧
      post.length = (inferredNodes (declaredWeights req.Weightages)
        ((faultNodes env k m).drop (i + 1))).length := by
  obtain ⟨node, hnode, hn2⟩ := nodeFault_node env k m i n hf
  have hl1 : labelGet node.1 "weight" = none := by
    simpa [nodeWeight, hnode] using hl
  obtain ⟨-, m', e1, -, -, -, e5, e6, e7, -, -, -⟩ :=
    ProcessExperiment_nodes env uuid req pid rev ty m k h hm hk
  obtain ⟨pre, post, d1, d2, d3⟩ := inferred_split _ _ i node hnode e7
  refine ⟨⟨m', e1, ?_⟩, pre, post, ?_, d2, d3⟩
  · unfold nodeWeight
    rw [bind_getElem?_of_map_eq _ _ _ _ e5 i, hnode]
    simp [expectedWeightLabel, hn2, hw, hl1]
  · rw [e6, (assignExperimentID_fields uuid req).2.2.2.1, d1]
    simp [expectedEntry, hn2, hw, hl1]

/-- Witness of C6: a chaos schedule without labels and without declared weights. -/
theorem missing_weight_defaults_to_ten_witness :
    nodeFault sampleEnv .chaosschedule scheduleDoc 0 = some "pod-delete" ∧
    nodeWeight sampleEnv .chaosschedule scheduleDoc 0 = none ∧
    ((∃ m', (ProcessExperiment sampleEnv "uuid-1" (sampleRequest scheduleDoc [])
          "project-1" "rev-1").1.ExperimentManifest = some m' ∧
        nodeWeight sampleEnv .chaosschedule m' 0 = some "10") ∧
      ∃ pre post, (ProcessExperiment sampleEnv "uuid-1" (sampleRequest scheduleDoc [])
          "project-1" "rev-1").1.Weightages
          = (sampleRequest scheduleDoc []).Weightages
            ++ (pre ++ { FaultName := "pod-delete", Weightage := 10 } :: post) ∧
        pre.length = (inferredNodes (declaredWeights (sampleRequest scheduleDoc []).Weightages)
          ((faultNodes sampleEnv .chaosschedule scheduleDoc).take 0)).length ∧
        post.length = (inferredNodes (declaredWeights (sampleRequest scheduleDoc []).Weightages)
          ((faultNodes sampleEnv .chaosschedule scheduleDoc).drop (0 + 1))).length) :=
  ⟨by decide, by decide,
   missing_weight_defaults_to_ten sampleEnv "uuid-1" (sampleRequest scheduleDoc [])
     "project-1" "rev-1" .ChaosEngine scheduleDoc .chaosschedule 0 "pod-delete"
     (by decide) (by decide) (by decide) (by decide) (by decide) (by decide)⟩

/-! ## The weight table after reconciliation -/

theorem expectedEntry_fresh :
    ∀ (l : List (Labels × Option String)),
      (∀ node ∈ l, node.2 ≠ none → labelGet node.1 "weight" = none) →
      l.flatMap (expectedEntry [])
        = (l.filterMap (fun node => node.2)).map
            (fun n => ({ FaultName := n, Weightage := 10 } : WeightagesInput)) := by
  intro l
  induction l with
  | nil => intro _; rfl
  | cons node rest ih =>
    intro hno
    have ih1 := ih (fun x hx => hno x (List.mem_cons_of_mem _ hx))
    have h0 := hno node (List.mem_cons_self _ _)
    cases h2 : node.2 with
    | none => simp [List.flatMap_cons, List.filterMap_cons, h2, expectedEntry, ih1]
    | some n =>
      have hl : labelGet node.1 "weight" = none := h0 (by simp [h2])
      simp [List.flatMap_cons, List.filterMap_cons, h2, expectedEntry, ih1, hl, mapGet]

theorem expectedEntry_names (w : List (String × Int)) :
    ∀ (l : List (Labels × Option String)),
      (∀ node ∈ l, ∀ n s, node.2 = some n → mapGet w n = none →
        labelGet node.1 "weight" = some s → ∃ v, Atoi s = .ok v) →
      (l.flatMap (expectedEntry w)).map (fun e => e.FaultName)
        = (l.filterMap (fun node => node.2)).filter (fun n => (mapGet w n).isNone) := by
  intro l
  induction l with
  | nil => intro _; rfl
  | cons node rest ih =>
    intro hgood
    have ih1 := ih (fun x hx => hgood x (List.mem_cons_of_mem _ hx))
    have hnode := hgood node (List.mem_cons_self _ _)
    cases h2 : node.2 with
    | none => simp [List.flatMap_cons, List.filterMap_cons, h2, expectedEntry, ih1]
    | some n =>
      cases hw : mapGet w n with
      | some v =>
        simp [List.flatMap_cons, List.filterMap_cons, h2, expectedEntry, ih1, hw,
          List.filter_cons]
      | none =>
        cases hl : labelGet node.1 "weight" with
        | none =>
          simp [List.flatMap_cons, List.filterMap_cons, h2, expectedEntry, ih1, hw, hl,
            List.filter_cons]
        | some s =>
          obtain ⟨v, hv⟩ := hnode n s h2 hw hl
          simp [List.flatMap_cons, List.filterMap_cons, h2, expectedEntry, ih1, hw, hl, hv,
            List.filter_cons]

theorem mapGet_foldl_mapSet (n : String) :
    ∀ (ws : List WeightagesInput) (acc : List (String × Int)),
      mapGet (ws.foldl (fun weights weight => mapSet weights weight.FaultName weight.Weightage)
        acc) n = none ↔ (mapGet acc n = none ∧ n ∉ ws.map (fun e => e.FaultName)) := by
  intro ws
  induction ws with
  | nil => intro acc; simp
  | cons x rest ih =>
    intro acc
    simp only [List.foldl_cons, ih, List.map_cons, List.mem_cons, not_or]
    by_cases hx : x.FaultName = n
    · subst hx
      simp [mapGet_mapSet_self]
    · rw [mapGet_mapSet_of_ne _ _ _ _ hx]
      constructor
      · rintro ⟨a, b⟩
        exact ⟨a, Ne.symm hx, b⟩
      · rintro ⟨a, -, b⟩
        exact ⟨a, b⟩

theorem declaredWeights_none_iff (ws : List WeightagesInput) (n : String) :
    mapGet (declaredWeights ws) n = none ↔ n ∉ ws.map (fun e => e.FaultName) := by
  unfold declaredWeights
  rw [mapGet_foldl_mapSet]
  simp [mapGet]

/-- Counterexample to C2 as stated: a workflow that runs the fault pod-delete in two
templates, without labels and without declared weights, has one distinct fault name and
ends with two weightages. -/
theorem weight_conservation_counterexample :
    (ProcessExperiment sampleEnv "uuid-1" (sampleRequest repeatedFaultWorkflowDoc [])
      "project-1" "rev-1").2 = .ok .NonCronExperiment ∧
    (sampleRequest repeatedFaultWorkflowDoc []).Weightages = [] ∧
    (∀ node ∈ faultNodes sampleEnv .workflow repeatedFaultWorkflowDoc,
      labelGet node.1 "weight" = none) ∧
    (faultNames sampleEnv .workflow repeatedFaultWorkflowDoc).dedup.length = 1 ∧
    (ProcessExperiment sampleEnv "uuid-1" (sampleRequest repeatedFaultWorkflowDoc [])
      "project-1" "rev-1").1.Weightages
      = [{ FaultName := "pod-delete", Weightage := 10 },
         { FaultName := "pod-delete", Weightage := 10 }] := by
  decide

/-- C2, amended: when `ProcessExperiment` succeeds on a manifest of one of the four kinds
with an empty declared weight list, no fault node carrying a weight label, and pairwise
distinct fault names on its fault nodes, the weightages list has as many entries as there
are distinct fault names, its names are the fault names in manifest order, and every
weight is 10. -/
theorem weight_conservation (env : Env) (uuid : String)
    (req : ChaosExperimentRequest) (pid rev : String) (ty : ChaosExperimentType)
    (m : Manifest) (k : ManifestKind)
    (h : (ProcessExperiment env uuid req pid rev).2 = .ok ty)
    (hm : req.ExperimentManifest = some m) (hk : manifestKind env m = some k)
    (hempty : req.Weightages = [])
    (hnolabel : ∀ node ∈ faultNodes env k m, node.2 ≠ none → labelGet node.1 "weight" = none)
    (hdistinct : (faultNames env k m).Nodup) :
    (ProcessExperiment env uuid req pid rev).1.Weightages.length
      = (faultNames env k m).dedup.length ∧
    (ProcessExperiment env uuid req pid rev).1.Weightages.map (fun e => e.FaultName)
      = faultNames env k m ∧
    ∀ e ∈ (ProcessExperiment env uuid req pid rev).1.Weightages, e.Weightage = 10 := by
  obtain ⟨-, m', -, -, -, -, -, e6, -, -, -, -⟩ :=
    ProcessExperiment_nodes env uuid req pid rev ty m k h hm hk
  rw [(assignExperimentID_fields uuid req).2.2.2.1, hempty] at e6
  have hd : declaredWeights ([] : List WeightagesInput) = [] := rfl
  rw [hd, expectedEntry_fresh _ hnolabel, List.nil_append] at e6
  rw [e6, hdistinct.dedup]
  refine ⟨by simp [faultNames], by simp [faultNames, Function.comp_def], ?_⟩
  intro e he
  simp only [List.mem_map] at he
  obtain ⟨x, -, rfl⟩ := he
  rfl

/-- Witness of C2: a cron workflow with a single unlabelled pod-delete template. -/
theorem weight_conservation_witness :
    (faultNames sampleEnv .cronworkflow cronDoc).Nodup ∧
    ((ProcessExperiment sampleEnv "uuid-1" (sampleRequest cronDoc [])
        "project-1" "rev-1").1.Weightages.length
        = (faultNames sampleEnv .cronworkflow cronDoc).dedup.length ∧
      (ProcessExperiment sampleEnv "uuid-1" (sampleRequest cronDoc [])
        "project-1" "rev-1").1.Weightages.map (fun e => e.FaultName)
        = faultNames sampleEnv .cronworkflow cronDoc ∧
      ∀ e ∈ (ProcessExperiment sampleEnv "uuid-1" (sampleRequest cronDoc [])
        "project-1" "rev-1").1.Weightages, e.Weightage = 10) :=
  ⟨by decide,
   weight_conservation sampleEnv "uuid-1" (sampleRequest cronDoc []) "project-1" "rev-1"
     .CronExperiment cronDoc .cronworkflow (by decide) (by decide) (by decide) (by decide)
     (by decide) (by decide)⟩

/-- Counterexample to C3 as stated: an engine manifest listing the experiments pod-delete
and pod-cpu-hog, with no declared weights, is processed successfully and no weightage
is recorded for pod-cpu-hog. -/
theorem one_weight_per_fault_counterexample :
    (ProcessExperiment sampleEnv "uuid-1" (sampleRequest twoFaultEngineDoc [])
      "project-1" "rev-1").2 = .ok .ChaosEngine ∧
    ((sampleRequest twoFaultEngineDoc []).Weightages.map (fun e => e.FaultName)).Nodup ∧
    ({ Name := "pod-cpu-hog" } : ExperimentList) ∈ twoFaultEngineDoc.Experiments ∧
    ((ProcessExperiment sampleEnv "uuid-1" (sampleRequest twoFaultEngineDoc [])
      "project-1" "rev-1").1.Weightages.map (fun e => e.FaultName)).count "pod-cpu-hog" = 0 := by
  decide

/-- C3, amended: when `ProcessExperiment` succeeds on a request whose declared weights have
pairwise distinct fault names and whose manifest has pairwise distinct fault names on its
fault nodes, every fault the processors reconcile (the chaos engine of each template of a
workflow or cron manifest, the first experiment of an engine or schedule manifest) has
exactly one entry in the resulting weightages list. -/
theorem one_weight_per_fault (env : Env) (uuid : String)
    (req : ChaosExperimentRequest) (pid rev : String) (ty : ChaosExperimentType)
    (m : Manifest) (k : ManifestKind) (n : String)
    (h : (ProcessExperiment env uuid req pid rev).2 = .ok ty)
    (hm : req.ExperimentManifest = some m) (hk : manifestKind env m = some k)
    (hdecl : (req.Weightages.map (fun e => e.FaultName)).Nodup)
    (hnodes : (faultNames env k m).Nodup)
    (hn : n ∈ faultNames env k m) :
    ((ProcessExperiment env uuid req pid rev).1.Weightages.map
      (fun e => e.FaultName)).count n = 1 := by
  obtain ⟨-, m', -, -, -, -, -, e6, e7, -, -, -⟩ :=
    ProcessExperiment_nodes env uuid req pid rev ty m k h hm hk
  rw [(assignExperimentID_fields uuid req).2.2.2.1] at e6
  rw [e6, List.map_append, List.count_append, expectedEntry_names _ _ e7]
  by_cases hd : n ∈ req.Weightages.map (fun e => e.FaultName)
  · have hsome : mapGet (declaredWeights req.Weightages) n ≠ none := by
      rw [Ne, declaredWeights_none_iff]
      exact fun hx => hx hd
    have h0 : List.count n ((List.filterMap (fun node => node.2) (faultNodes env k m)).filter
        (fun x => (mapGet (declaredWeights req.Weightages) x).isNone)) = 0 := by
      rw [List.count_eq_zero]
      intro hx
      have := (List.mem_filter.mp hx).2
      simp only [Option.isNone_iff_eq_none] at this
      exact hsome this
    rw [h0, List.count_eq_one_of_mem hdecl hd]
  · have hnone : mapGet (declaredWeights req.Weightages) n = none :=
      (declaredWeights_none_iff _ _).mpr hd
    rw [List.count_eq_zero.mpr hd, Nat.zero_add, List.count_filter (by simp [hnone])]
    exact List.count_eq_one_of_mem hnodes hn

/-- Witness of C3: a workflow with one fault template, labelled by hand, and a declared
weight for a fault the manifest does not contain. -/
theorem one_weight_per_fault_witness :
    "pod-delete" ∈ faultNames sampleEnv .workflow workflowDoc ∧
    ((ProcessExperiment sampleEnv "uuid-1"
        (sampleRequest workflowDoc [{ FaultName := "pod-cpu-hog", Weightage := 5 }])
        "project-1" "rev-1").1.Weightages.map (fun e => e.FaultName)).count "pod-delete" = 1 :=
  ⟨by decide,
   one_weight_per_fault sampleEnv "uuid-1"
     (sampleRequest workflowDoc [{ FaultName := "pod-cpu-hog", Weightage := 5 }])
     "project-1" "rev-1" .NonCronExperiment workflowDoc .workflow "pod-delete"
     (by decide) (by decide) (by decide) (by decide) (by decide) (by decide)⟩

/-! ## Processing a processed manifest again -/

theorem atoi_ten : Atoi "10" = .ok 10 := by decide

theorem processTemplate_idem (env : Env) (w : List (String × Int)) (t t' : Template)
    (c : List WeightagesInput) (h : processTemplate env w t = .ok (t', c)) :
    ∃ c2, processTemplate env w t' = .ok (t', c2) := by
  have hart := (processTemplate_ok env w t t' c h).1
  have hfc := templateFault_congr env t t' hart
  unfold processTemplate at h ⊢
  rw [hfc]
  cases hf : templateFault env t with
  | error e => simp [hf] at h
  | ok o =>
    cases o with
    | none => exact ⟨[], rfl⟩
    | some n =>
      simp only [hf] at h ⊢
      unfold reconcileTemplate at h ⊢
      cases hw : mapGet w n with
      | some val =>
        simp [hw] at h
        obtain ⟨rfl, rfl⟩ := h
        exact ⟨[], rfl⟩
      | none =>
        simp only [hw] at h ⊢
        cases hl : labelGet t.Labels "weight" with
        | some s =>
          simp only [hl] at h
          cases ha : Atoi s with
          | error e => simp [ha] at h
          | ok v =>
            simp [ha] at h
            obtain ⟨rfl, rfl⟩ := h
            exact ⟨[{ FaultName := n, Weightage := v }], by simp [hl, ha]⟩
        | none =>
          simp [hl] at h
          obtain ⟨rfl, rfl⟩ := h
          exact ⟨[{ FaultName := n, Weightage := 10 }],
            by simp [labelGet_weight_single, atoi_ten]⟩

theorem processTemplates_idem (env : Env) (w : List (String × Int)) :
    ∀ (ts ts' : List Template) (new : List WeightagesInput),
      processTemplates env w ts = .ok (ts', new) →
      ∃ new2, processTemplates env w ts' = .ok (ts', new2) := by
  intro ts
  induction ts with
  | nil =>
    intro ts' new h
    simp [processTemplates] at h
    obtain ⟨rfl, rfl⟩ := h
    exact ⟨[], rfl⟩
  | cons t rest ih =>
    intro ts' new h
    unfold processTemplates at h
    cases h1 : processTemplate env w t with
    | error e => simp [h1] at h
    | ok r1 =>
      obtain ⟨t1, c1⟩ := r1
      simp only [h1] at h
      cases h2 : processTemplates env w rest with
      | error e => simp [h2] at h
      | ok r2 =>
        obtain ⟨rest', cs⟩ := r2
        simp [h2] at h
        obtain ⟨rfl, rfl⟩ := h
        obtain ⟨c2, hc2⟩ := processTemplate_idem env w t t1 c1 h1
        obtain ⟨n2, hn2⟩ := ih rest' cs h2
        exact ⟨c2 ++ n2, by simp [processTemplates, hc2, hn2]⟩

theorem reconcileRoot_idem (w : List (String × Int)) (n : String)
    (L L' : List (String × String)) (c : List WeightagesInput)
    (h : reconcileRoot w n L = .ok (L', c)) :
    ∃ c2, reconcileRoot w n L' = .ok (L', c2) := by
  unfold reconcileRoot at h ⊢
  cases hw : mapGet w n with
  | some val =>
    simp [hw] at h
    obtain ⟨rfl, rfl⟩ := h
    exact ⟨[], by simp [mapSet_of_mapGet _ _ _ (mapGet_mapSet_self L "weight" (Itoa val))]⟩
  | none =>
    simp only [hw] at h ⊢
    cases hl : mapGet L "weight" with
    | some s =>
      simp only [hl] at h
      cases ha : Atoi s with
      | error e => simp [ha] at h
      | ok v =>
        simp [ha] at h
        obtain ⟨rfl, rfl⟩ := h
        exact ⟨[{ FaultName := n, Weightage := v }], by simp [hl, ha]⟩
    | none =>
      simp [hl] at h
      obtain ⟨rfl, rfl⟩ := h
      exact ⟨[{ FaultName := n, Weightage := 10 }],
        by simp [mapGet_mapSet_self, atoi_ten]⟩

theorem standaloneLabels_idem_of_get (L : List (String × String)) (a b c : String)
    (g1 : mapGet L "workflow_id" = some a) (g2 : mapGet L "infra_id" = some b)
    (g3 : mapGet L "type" = some "standalone_workflow") (g4 : mapGet L "revision_id" = some c) :
    standaloneLabels (some L) a b c = L := by
  simp only [standaloneLabels]
  rw [mapSet_of_mapGet _ _ _ g1, mapSet_of_mapGet _ _ _ g2, mapSet_of_mapGet _ _ _ g3,
    mapSet_of_mapGet _ _ _ g4]

theorem reconcileRoot_standalone (w : List (String × Int)) (n : String) (l : Labels)
    (a b c : String) (L' : List (String × String)) (new : List WeightagesInput)
    (h : reconcileRoot w n (standaloneLabels l a b c) = .ok (L', new)) :
    standaloneLabels (some L') a b c = L' := by
  obtain ⟨-, -, keep, -⟩ := reconcileRoot_ok w n _ L' new h
  obtain ⟨g1, g2, g3, g4⟩ := standaloneLabels_get l a b c
  apply standaloneLabels_idem_of_get
  · rw [keep _ (by decide)]; exact g1
  · rw [keep _ (by decide)]; exact g2
  · rw [keep _ (by decide)]; exact g3
  · rw [keep _ (by decide)]; exact g4

theorem processExperimentManifest_idem (env : Env) (wf wf2 : ChaosExperimentRequest)
    (w : List (String × Int)) (rev : String)
    (h : (processExperimentManifest env wf w rev).2 = .ok ())
    (h1 : wf2.ExperimentManifest = (processExperimentManifest env wf w rev).1.ExperimentManifest)
    (h2 : wf2.ExperimentID = wf.ExperimentID) (h3 : wf2.InfraID = wf.InfraID) :
    (processExperimentManifest env wf2 w rev).2 = .ok () ∧
    (processExperimentManifest env wf2 w rev).1.ExperimentManifest = wf2.ExperimentManifest := by
  unfold processExperimentManifest at h h1
  cases hm : wf.ExperimentManifest with
  | none => simp [hm] at h
  | some m =>
    simp only [hm] at h h1
    cases hp : processTemplates env w m.toWorkflow.Templates with
    | error e => simp [hp] at h
    | ok r =>
      obtain ⟨ts', new⟩ := r
      simp only [hp] at h1
      obtain ⟨new2, hn2⟩ := processTemplates_idem env w _ ts' new hp
      unfold processExperimentManifest
      simp only [h1, h2, h3, Manifest.toWorkflow, Workflow.toManifest, hn2, workflowLabels_idem]
      exact ⟨trivial, trivial⟩

theorem processCronExperimentManifest_idem (env : Env) (wf wf2 : ChaosExperimentRequest)
    (w : List (String × Int)) (rev : String)
    (h : (processCronExperimentManifest env wf w rev).2 = .ok ())
    (h1 : wf2.ExperimentManifest
      = (processCronExperimentManifest env wf w rev).1.ExperimentManifest)
    (h2 : wf2.ExperimentID = wf.ExperimentID) (h3 : wf2.InfraID = wf.InfraID) :
    (processCronExperimentManifest env wf2 w rev).2 = .ok () ∧
    (processCronExperimentManifest env wf2 w rev).1.ExperimentManifest
      = wf2.ExperimentManifest := by
  unfold processCronExperimentManifest at h h1
  cases hm : wf.ExperimentManifest with
  | none => simp [hm] at h
  | some m =>
    simp only [hm] at h h1
    cases hp : processTemplates env w m.toCronWorkflow.Templates with
    | error e => simp [hp] at h
    | ok r =>
      obtain ⟨ts', new⟩ := r
      simp only [hp] at h1
      obtain ⟨new2, hn2⟩ := processTemplates_idem env w _ ts' new hp
      unfold processCronExperimentManifest
      cases hmd : m.WorkflowMetadata <;>
        simp only [h1, h2, h3, Manifest.toCronWorkflow, CronWorkflow.toManifest, hn2,
          workflowLabels_idem, hmd] <;>
        exact ⟨trivial, trivial⟩

theorem processChaosEngineManifest_idem (wf wf2 : ChaosExperimentRequest)
    (w : List (String × Int)) (rev : String)
    (h : (processChaosEngineManifest wf w rev).2 = .ok ())
    (h1 : wf2.ExperimentManifest = (processChaosEngineManifest wf w rev).1.ExperimentManifest)
    (h2 : wf2.ExperimentID = wf.ExperimentID) (h3 : wf2.InfraID = wf.InfraID) :
    (processChaosEngineManifest wf2 w rev).2 = .ok () ∧
    (processChaosEngineManifest wf2 w rev).1.ExperimentManifest = wf2.ExperimentManifest := by
  unfold processChaosEngineManifest at h h1
  cases hm : wf.ExperimentManifest with
  | none => simp [hm] at h
  | some m =>
    simp only [hm, Manifest.toChaosEngine] at h h1
    cases he : m.Experiments with
    | nil => simp [he] at h
    | cons e0 rest =>
      simp only [he] at h h1
      by_cases hn : e0.Name.length = 0
      · simp [hn] at h
      · simp only [hn, if_false] at h h1
        cases hr : reconcileRoot w e0.Name
            (standaloneLabels m.Labels (wf.ExperimentID.getD "") wf.InfraID rev) with
        | error e => simp [hr] at h
        | ok r =>
          obtain ⟨L', c⟩ := r
          simp only [hr] at h1
          obtain ⟨c2, hc2⟩ := reconcileRoot_idem w e0.Name _ L' c hr
          have hs := reconcileRoot_standalone w e0.Name _ _ _ _ L' c hr
          unfold processChaosEngineManifest
          simp only [h1, h2, h3, Manifest.toChaosEngine, ChaosEngine.toManifest, hn, if_false,
            hs, hc2]
          exact ⟨trivial, trivial⟩

theorem processChaosScheduleManifest_idem (wf wf2 : ChaosExperimentRequest)
    (w : List (String × Int)) (rev : String)
    (h : (processChaosScheduleManifest wf w rev).2 = .ok ())
    (h1 : wf2.ExperimentManifest = (processChaosScheduleManifest wf w rev).1.ExperimentManifest)
    (h2 : wf2.ExperimentID = wf.ExperimentID) (h3 : wf2.InfraID = wf.InfraID) :
    (processChaosScheduleManifest wf2 w rev).2 = .ok () ∧
    (processChaosScheduleManifest wf2 w rev).1.ExperimentManifest = wf2.ExperimentManifest := by
  unfold processChaosScheduleManifest at h h1
  cases hm : wf.ExperimentManifest with
  | none => simp [hm] at h
  | some m =>
    simp only [hm, Manifest.toChaosSchedule] at h h1
    cases he : m.EngineTemplateExperiments with
    | nil => simp [he] at h
    | cons e0 rest =>
      simp only [he] at h h1
      by_cases hn : e0.Name.length = 0
      · simp [hn] at h
      · simp only [hn, if_false] at h h1
        cases hr : reconcileRoot w e0.Name
            (standaloneLabels m.Labels (wf.ExperimentID.getD "") wf.InfraID rev) with
        | error e => simp [hr] at h
        | ok r =>
          obtain ⟨L', c⟩ := r
          simp only [hr] at h1
          obtain ⟨c2, hc2⟩ := reconcileRoot_idem w e0.Name _ L' c hr
          have hs := reconcileRoot_standalone w e0.Name _ _ _ _ L' c hr
          unfold processChaosScheduleManifest
          simp only [h1, h2, h3, Manifest.toChaosSchedule, ChaosSchedule.toManifest, hn,
            if_false, hs, hc2]
          exact ⟨trivial, trivial⟩

theorem processKind_idem (env : Env) (k : ManifestKind) (wf wf2 : ChaosExperimentRequest)
    (w : List (String × Int)) (rev : String)
    (h : (processKind env k wf w rev).2 = .ok ())
    (h1 : wf2.ExperimentManifest = (processKind env k wf w rev).1.ExperimentManifest)
    (h2 : wf2.ExperimentID = wf.ExperimentID) (h3 : wf2.InfraID = wf.InfraID) :
    (processKind env k wf2 w rev).2 = .ok () ∧
    (processKind env k wf2 w rev).1.ExperimentManifest = wf2.ExperimentManifest := by
  cases k with
  | workflow => exact processExperimentManifest_idem env wf wf2 w rev h h1 h2 h3
  | cronworkflow => exact processCronExperimentManifest_idem env wf wf2 w rev h h1 h2 h3
  | chaosengine => exact processChaosEngineManifest_idem wf wf2 w rev h h1 h2 h3
  | chaosschedule => exact processChaosScheduleManifest_idem wf wf2 w rev h h1 h2 h3

theorem assignExperimentID_id (uuid : String) (req : ChaosExperimentRequest)
    (hu : uuid ≠ "") :
    ∃ id, (assignExperimentID uuid req).ExperimentID = some id ∧ id ≠ "" := by
  unfold assignExperimentID
  by_cases hc : req.ExperimentID = none ∨ req.ExperimentID = some ""
  · simp only [hc, if_true]
    exact ⟨uuid, rfl, hu⟩
  · simp only [hc, if_false]
    cases hid : req.ExperimentID with
    | none => simp [hid] at hc
    | some id =>
      refine ⟨id, rfl, ?_⟩
      intro hid2
      simp [hid, hid2] at hc

theorem assignExperimentID_of_id (uuid id : String) (req : ChaosExperimentRequest)
    (h : req.ExperimentID = some id) (hid : id ≠ "") :
    assignExperimentID uuid req = req := by
  unfold assignExperimentID
  simp [h, hid]

/-- A second call on the manifest produced by a successful call, with the identifier that
call used and a weight table equal to the one it used, succeeds with the same manifest. -/
theorem ProcessExperiment_again (env : Env) (uuid uuid2 : String)
    (req req2 : ChaosExperimentRequest) (pid rev : String) (ty : ChaosExperimentType)
    (h : (ProcessExperiment env uuid req pid rev).2 = .ok ty) (hu : uuid ≠ "")
    (hM : req2.ExperimentManifest = (ProcessExperiment env uuid req pid rev).1.ExperimentManifest)
    (hI : req2.ExperimentID = (ProcessExperiment env uuid req pid rev).1.ExperimentID)
    (hinfra : req2.InfraID = req.InfraID) (hname : req2.ExperimentName = req.ExperimentName)
    (hW : declaredWeights req2.Weightages = declaredWeights req.Weightages) :
    (ProcessExperiment env uuid2 req2 pid rev).2 = .ok ty ∧
    (ProcessExperiment env uuid2 req2 pid rev).1.ExperimentManifest
      = (ProcessExperiment env uuid req pid rev).1.ExperimentManifest := by
  obtain ⟨infra, m, k, hi, ha, hp, hm, hn, hk⟩ :=
    ProcessExperiment_ok_inv env uuid req pid rev ty h
  have hty := h
  have hd := ProcessExperiment_dispatch env uuid req pid rev infra m k hi ha hp hm hn hk
      (ProcessExperiment_ok_kind env uuid req pid rev ty m h hm)
  obtain ⟨f1, f2, f3, -, -⟩ := assignExperimentID_fields uuid req
  rw [hd] at h hM hI ⊢
  obtain ⟨g1, g2, g3⟩ := withType_snd_ok _ _ _ h
  rw [g3] at hM hI ⊢
  obtain ⟨m', e1, e2, e3, -, -, -, -, e8, -, -⟩ :=
    processKind_nodes env k (assignExperimentID uuid req) (declaredWeights req.Weightages) rev m
      (by rw [f1]; exact hm) g2
  obtain ⟨id, hid, hne⟩ := assignExperimentID_id uuid req hu
  have hI2 : req2.ExperimentID = some id := by rw [hI, e8, hid]
  have hd2 := ProcessExperiment_dispatch env uuid2 req2 pid rev infra m' k
    (by rw [hinfra]; exact hi) ha hp (by rw [hM, e1]) (by rw [hname, hn, e3])
    (by rw [manifestKind_congr env m m' e2]; exact hk)
    (by rw [e2]; exact ProcessExperiment_ok_kind env uuid req pid rev ty m hty hm)
  rw [assignExperimentID_of_id uuid2 id req2 hI2 hne, hW] at hd2
  obtain ⟨r1, r2⟩ := processKind_idem env k (assignExperimentID uuid req) req2
    (declaredWeights req.Weightages) rev g2 hM (by rw [hI2, hid]) (by rw [hinfra, f3])
  rw [hd2]
  refine ⟨?_, ?_⟩
  · simp [withType, r1, g1]
  · simp only [withType, r1]
    rw [r2, hM]

/-- C4: whenever `ProcessExperiment` succeeds, a second call on the manifest it produced,
with the experiment id it used, the same infra id, revision id and declared weights
(and whatever fresh identifier the second call draws), succeeds with the same type and
returns that manifest unchanged. The identifier drawn by the first call is assumed not
to be the empty string. -/
theorem reclassification_idempotent (env : Env) (uuid uuid2 : String)
    (req : ChaosExperimentRequest) (pid rev : String) (ty : ChaosExperimentType)
    (h : (ProcessExperiment env uuid req pid rev).2 = .ok ty) (hu : uuid ≠ "") :
    (ProcessExperiment env uuid2
      { req with
        ExperimentID := (ProcessExperiment env uuid req pid rev).1.ExperimentID
        ExperimentManifest := (ProcessExperiment env uuid req pid rev).1.ExperimentManifest }
      pid rev).2 = .ok ty ∧
    (ProcessExperiment env uuid2
      { req with
        ExperimentID := (ProcessExperiment env uuid req pid rev).1.ExperimentID
        ExperimentManifest := (ProcessExperiment env uuid req pid rev).1.ExperimentManifest }
      pid rev).1.ExperimentManifest
      = (ProcessExperiment env uuid req pid rev).1.ExperimentManifest :=
  ProcessExperiment_again env uuid uuid2 req _ pid rev ty h hu rfl rfl rfl rfl rfl

/-- Witness of C4: the labelled workflow, sent without an experiment id. -/
theorem reclassification_idempotent_witness :
    (ProcessExperiment sampleEnv "uuid-1"
      { sampleRequest workflowDoc [] with ExperimentID := none } "project-1" "rev-1").2
      = .ok .NonCronExperiment ∧
    ((ProcessExperiment sampleEnv "uuid-2"
      { ({ sampleRequest workflowDoc [] with ExperimentID := none } : ChaosExperimentRequest) with
        ExperimentID := (ProcessExperiment sampleEnv "uuid-1"
          { sampleRequest workflowDoc [] with ExperimentID := none }
          "project-1" "rev-1").1.ExperimentID
        ExperimentManifest := (ProcessExperiment sampleEnv "uuid-1"
          { sampleRequest workflowDoc [] with ExperimentID := none }
          "project-1" "rev-1").1.ExperimentManifest }
      "project-1" "rev-1").2 = .ok .NonCronExperiment ∧
    (ProcessExperiment sampleEnv "uuid-2"
      { ({ sampleRequest workflowDoc [] with ExperimentID := none } : ChaosExperimentRequest) with
        ExperimentID := (ProcessExperiment sampleEnv "uuid-1"
          { sampleRequest workflowDoc [] with ExperimentID := none }
          "project-1" "rev-1").1.ExperimentID
        ExperimentManifest := (ProcessExperiment sampleEnv "uuid-1"
          { sampleRequest workflowDoc [] with ExperimentID := none }
          "project-1" "rev-1").1.ExperimentManifest }
      "project-1" "rev-1").1.ExperimentManifest
      = (ProcessExperiment sampleEnv "uuid-1"
          { sampleRequest workflowDoc [] with ExperimentID := none }
          "project-1" "rev-1").1.ExperimentManifest) :=
  ⟨by decide,
   reclassification_idempotent sampleEnv "uuid-1" "uuid-2"
     { sampleRequest workflowDoc [] with ExperimentID := none } "project-1" "rev-1"
     .NonCronExperiment (by decide) (by decide)⟩

/-! ## Classification -/

/-- Counterexample to C7 as stated: a chaos engine manifest and a chaos schedule manifest
are both processed successfully and receive the same experiment type. -/
theorem experiment_type_counterexample :
    manifestKind sampleEnv freshEngineDoc = some .chaosengine ∧
    manifestKind sampleEnv scheduleDoc = some .chaosschedule ∧
    (ProcessExperiment sampleEnv "uuid-1" (sampleRequest freshEngineDoc [])
      "project-1" "rev-1").2 = .ok .ChaosEngine ∧
    (ProcessExperiment sampleEnv "uuid-1" (sampleRequest scheduleDoc [])
      "project-1" "rev-1").2 = .ok .ChaosEngine := by
  decide

/-- C7, amended: whenever `ProcessExperiment` succeeds, the lower-cased kind of the manifest
is one of workflow, cronworkflow, chaosengine and chaosschedule, and the returned type is
`NonCronExperiment` for workflow, `CronExperiment` for cronworkflow and `ChaosEngine` for
both chaosengine and chaosschedule. -/
theorem experiment_type_of_kind (env : Env) (uuid : String)
    (req : ChaosExperimentRequest) (pid rev : String) (ty : ChaosExperimentType)
    (m : Manifest)
    (h : (ProcessExperiment env uuid req pid rev).2 = .ok ty)
    (hm : req.ExperimentManifest = some m) :
    (env.ToLower m.Kind = "workflow" ∧ ty = .NonCronExperiment) ∨
    (env.ToLower m.Kind = "cronworkflow" ∧ ty = .CronExperiment) ∨
    (env.ToLower m.Kind = "chaosengine" ∧ ty = .ChaosEngine) ∨
    (env.ToLower m.Kind = "chaosschedule" ∧ ty = .ChaosEngine) := by
  obtain ⟨infra, m0, k, -, -, -, hm0, -, hk⟩ :=
    ProcessExperiment_ok_inv env uuid req pid rev ty h
  rw [hm] at hm0
  cases hm0
  obtain ⟨hty, -⟩ := ProcessExperiment_nodes env uuid req pid rev ty m k h hm hk
  rcases manifestKind_cases env m k hk with ⟨rfl, hl⟩ | ⟨rfl, hl⟩ | ⟨rfl, hl⟩ | ⟨rfl, hl⟩
  · exact Or.inl ⟨hl, hty⟩
  · exact Or.inr (Or.inl ⟨hl, hty⟩)
  · exact Or.inr (Or.inr (Or.inl ⟨hl, hty⟩))
  · exact Or.inr (Or.inr (Or.inr ⟨hl, hty⟩))

/-- Witness of C7: a chaos schedule manifest. -/
theorem experiment_type_of_kind_witness :
    (sampleEnv.ToLower scheduleDoc.Kind = "workflow" ∧
      ChaosExperimentType.ChaosEngine = .NonCronExperiment) ∨
    (sampleEnv.ToLower scheduleDoc.Kind = "cronworkflow" ∧
      ChaosExperimentType.ChaosEngine = .CronExperiment) ∨
    (sampleEnv.ToLower scheduleDoc.Kind = "chaosengine" ∧
      ChaosExperimentType.ChaosEngine = .ChaosEngine) ∨
    (sampleEnv.ToLower scheduleDoc.Kind = "chaosschedule" ∧
      ChaosExperimentType.ChaosEngine = .ChaosEngine) :=
  experiment_type_of_kind sampleEnv "uuid-1" (sampleRequest scheduleDoc []) "project-1"
    "rev-1" .ChaosEngine scheduleDoc (by decide) (by decide)

/-- C8: for a request that passes the infrastructure check, holds a JSON object and bears
the object's name, `ProcessExperiment` returns an error when the lower-cased kind is none
of workflow, cronworkflow, chaosengine, chaosschedule: the decoding error when the object
has no kind (the decoder at service.go 95-98 rejects it before the kind is looked at), the
invalid-object error otherwise. An object with a kind whose lower-cased form is one of the
four is handed to the processor of that kind, whatever the casing in the document. -/
theorem kind_dispatch (env : Env) (uuid : String) (req : ChaosExperimentRequest)
    (pid rev : String) (infra : Infra) (m : Manifest)
    (hi : env.GetInfra req.InfraID = .ok infra) (ha : infra.IsActive = true)
    (hp : infra.ProjectID = pid) (hm : req.ExperimentManifest = some m)
    (hn : req.ExperimentName = m.Name) :
    (env.ToLower m.Kind ∉ ["workflow", "cronworkflow", "chaosengine", "chaosschedule"] →
      (ProcessExperiment env uuid req pid rev).2 = .error
        (if m.Kind = "" then "failed to unmarshal workflow manifest1"
         else "not a valid object, only workflows/cron workflows/chaos engines supported")) ∧
    (m.Kind = "" →
      (ProcessExperiment env uuid req pid rev).2
        = .error "failed to unmarshal workflow manifest1") ∧
    (m.Kind ≠ "" → env.ToLower m.Kind = "workflow" →
      ProcessExperiment env uuid req pid rev = withType .NonCronExperiment
        (processExperimentManifest env (assignExperimentID uuid req)
          (declaredWeights req.Weightages) rev)) ∧
    (m.Kind ≠ "" → env.ToLower m.Kind = "cronworkflow" →
      ProcessExperiment env uuid req pid rev = withType .CronExperiment
        (processCronExperimentManifest env (assignExperimentID uuid req)
          (declaredWeights req.Weightages) rev)) ∧
    (m.Kind ≠ "" → env.ToLower m.Kind = "chaosengine" →
      ProcessExperiment env uuid req pid rev = withType .ChaosEngine
        (processChaosEngineManifest (assignExperimentID uuid req)
          (declaredWeights req.Weightages) rev)) ∧
    (m.Kind ≠ "" → env.ToLower m.Kind = "chaosschedule" →
      ProcessExperiment env uuid req pid rev = withType .ChaosEngine
        (processChaosScheduleManifest (assignExperimentID uuid req)
          (declaredWeights req.Weightages) rev)) := by
  obtain ⟨f1, f2, -, -, -⟩ := assignExperimentID_fields uuid req
  refine ⟨?_, ?_, ?_, ?_, ?_, ?_⟩
  · intro hnot
    simp only [List.mem_cons, List.mem_singleton, List.not_mem_nil, or_false, not_or] at hnot
    obtain ⟨h1, h2, h3, h4⟩ := hnot
    unfold ProcessExperiment
    simp only [hi, ha, hp]
    by_cases hkind : m.Kind = ""
    · simp [f1, hm, hkind]
    · simp [f1, hm, f2, hn, h1, h2, h3, h4, hkind]
  · intro hkind
    unfold ProcessExperiment
    simp only [hi, ha, hp]
    simp [f1, hm, hkind]
  · intro hkind hl
    exact ProcessExperiment_dispatch env uuid req pid rev infra m .workflow hi ha hp hm hn
      (by simp [manifestKind, hl]) hkind
  · intro hkind hl
    exact ProcessExperiment_dispatch env uuid req pid rev infra m .cronworkflow hi ha hp hm hn
      (by simp [manifestKind, hl]) hkind
  · intro hkind hl
    exact ProcessExperiment_dispatch env uuid req pid rev infra m .chaosengine hi ha hp hm hn
      (by simp [manifestKind, hl]) hkind
  · intro hkind hl
    exact ProcessExperiment_dispatch env uuid req pid rev infra m .chaosschedule hi ha hp hm hn
      (by simp [manifestKind, hl]) hkind

/-- Witness of C8: the kind of a chaos engine manifest written as `ChaosENGINE`. -/
theorem kind_dispatch_witness :
    mixedCaseEngineDoc.Kind ≠ "" ∧
    sampleEnv.ToLower mixedCaseEngineDoc.Kind = "chaosengine" ∧
    ((sampleEnv.ToLower mixedCaseEngineDoc.Kind
        ∉ ["workflow", "cronworkflow", "chaosengine", "chaosschedule"] →
      (ProcessExperiment sampleEnv "uuid-1" (sampleRequest mixedCaseEngineDoc [])
        "project-1" "rev-1").2 = .error
        (if mixedCaseEngineDoc.Kind = "" then "failed to unmarshal workflow manifest1"
         else "not a valid object, only workflows/cron workflows/chaos engines supported")) ∧
    (mixedCaseEngineDoc.Kind = "" →
      (ProcessExperiment sampleEnv "uuid-1" (sampleRequest mixedCaseEngineDoc [])
        "project-1" "rev-1").2 = .error "failed to unmarshal workflow manifest1") ∧
    (mixedCaseEngineDoc.Kind ≠ "" → sampleEnv.ToLower mixedCaseEngineDoc.Kind = "workflow" →
      ProcessExperiment sampleEnv "uuid-1" (sampleRequest mixedCaseEngineDoc [])
        "project-1" "rev-1" = withType .NonCronExperiment
        (processExperimentManifest sampleEnv
          (assignExperimentID "uuid-1" (sampleRequest mixedCaseEngineDoc []))
          (declaredWeights (sampleRequest mixedCaseEngineDoc []).Weightages) "rev-1")) ∧
    (mixedCaseEngineDoc.Kind ≠ "" →
      sampleEnv.ToLower mixedCaseEngineDoc.Kind = "cronworkflow" →
      ProcessExperiment sampleEnv "uuid-1" (sampleRequest mixedCaseEngineDoc [])
        "project-1" "rev-1" = withType .CronExperiment
        (processCronExperimentManifest sampleEnv
          (assignExperimentID "uuid-1" (sampleRequest mixedCaseEngineDoc []))
          (declaredWeights (sampleRequest mixedCaseEngineDoc []).Weightages) "rev-1")) ∧
    (mixedCaseEngineDoc.Kind ≠ "" →
      sampleEnv.ToLower mixedCaseEngineDoc.Kind = "chaosengine" →
      ProcessExperiment sampleEnv "uuid-1" (sampleRequest mixedCaseEngineDoc [])
        "project-1" "rev-1" = withType .ChaosEngine
        (processChaosEngineManifest
          (assignExperimentID "uuid-1" (sampleRequest mixedCaseEngineDoc []))
          (declaredWeights (sampleRequest mixedCaseEngineDoc []).Weightages) "rev-1")) ∧
    (mixedCaseEngineDoc.Kind ≠ "" →
      sampleEnv.ToLower mixedCaseEngineDoc.Kind = "chaosschedule" →
      ProcessExperiment sampleEnv "uuid-1" (sampleRequest mixedCaseEngineDoc [])
        "project-1" "rev-1" = withType .ChaosEngine
        (processChaosScheduleManifest
          (assignExperimentID "uuid-1" (sampleRequest mixedCaseEngineDoc []))
          (declaredWeights (sampleRequest mixedCaseEngineDoc []).Weightages) "rev-1"))) :=
  ⟨by decide, by decide,
   kind_dispatch sampleEnv "uuid-1" (sampleRequest mixedCaseEngineDoc []) "project-1" "rev-1"
     { IsActive := true, ProjectID := "project-1" } mixedCaseEngineDoc
     (by decide) (by decide) (by decide) (by decide) (by decide)⟩

/-! ## Fault blocks without faults or without a name -/

theorem string_length_zero (s : String) : s.length = 0 ↔ s = "" := by
  constructor
  · intro h
    apply String.ext
    have h1 : s.data.length = 0 := h
    exact List.length_eq_zero.mp h1
  · intro h
    rw [h]
    rfl

theorem processTemplates_each_ok (env : Env) (w : List (String × Int)) :
    ∀ (ts : List Template) (r : List Template × List WeightagesInput),
      processTemplates env w ts = .ok r →
      ∀ t ∈ ts, ∃ r1, processTemplate env w t = .ok r1 := by
  intro ts
  induction ts with
  | nil => intro r _ t ht; simp at ht
  | cons t0 rest ih =>
    intro r h t ht
    unfold processTemplates at h
    cases h1 : processTemplate env w t0 with
    | error e => simp [h1] at h
    | ok r1 =>
      simp only [h1] at h
      cases h2 : processTemplates env w rest with
      | error e => simp [h2] at h
      | ok r2 =>
        rcases List.mem_cons.mp ht with rfl | hin
        · exact ⟨r1, h1⟩
        · exact ih r2 h2 t hin

theorem processTemplate_block (env : Env) (w : List (String × Int)) (t : Template)
    (r : Template × List WeightagesInput) (b : List ExperimentList × String)
    (h : processTemplate env w t = .ok r) (hb : templateBlock env t = some b) :
    b.1 ≠ [] ∧ b.2 ≠ "" := by
  unfold templateBlock at hb
  unfold processTemplate templateFault at h
  cases he : templateEngine env t with
  | error e => simp [he] at hb
  | ok o =>
    cases o with
    | none => simp [he] at hb
    | some meta =>
      simp only [he, Option.some.injEq] at hb h
      subst hb
      unfold engineFault at h
      by_cases h1 : meta.Experiments.length > 0
      · by_cases h2 : meta.GenerateName.length = 0
        · simp [h1, h2] at h
        · refine ⟨?_, ?_⟩
          · intro hnil
            have hnil1 : meta.Experiments = [] := hnil
            simp [hnil1] at h1
          · intro hname
            exact h2 ((string_length_zero _).mpr hname)
      · simp [h1] at h

theorem templates_blocks_ok (env : Env) (w : List (String × Int)) (ts : List Template)
    (r : List Template × List WeightagesInput) (h : processTemplates env w ts = .ok r)
    (b : List ExperimentList × String) (hb : b ∈ ts.filterMap (templateBlock env)) :
    b.1 ≠ [] ∧ b.2 ≠ "" := by
  simp only [List.mem_filterMap] at hb
  obtain ⟨t, ht, htb⟩ := hb
  obtain ⟨r1, hr1⟩ := processTemplates_each_ok env w ts r h t ht
  exact processTemplate_block env w t r1 b hr1 htb

theorem processKind_blocks (env : Env) (k : ManifestKind) (wf : ChaosExperimentRequest)
    (w : List (String × Int)) (rev : String) (m : Manifest)
    (hm : wf.ExperimentManifest = some m)
    (h : (processKind env k wf w rev).2 = .ok ())
    (b : List ExperimentList × String) (hb : b ∈ faultBlocks env k m) :
    b.1 ≠ [] ∧ b.2 ≠ "" := by
  cases k with
  | workflow =>
    simp only [processKind, processExperimentManifest, hm] at h
    cases hp : processTemplates env w m.toWorkflow.Templates with
    | error e => simp [hp] at h
    | ok r => exact templates_blocks_ok env w _ r hp b hb
  | cronworkflow =>
    simp only [processKind, processCronExperimentManifest, hm] at h
    cases hp : processTemplates env w m.toCronWorkflow.Templates with
    | error e => simp [hp] at h
    | ok r => exact templates_blocks_ok env w _ r hp b hb
  | chaosengine =>
    simp only [processKind, processChaosEngineManifest, hm, Manifest.toChaosEngine] at h
    simp only [faultBlocks, List.mem_singleton] at hb
    subst hb
    cases he : m.Experiments with
    | nil => simp [he] at h
    | cons e0 rest =>
      simp only [he] at h
      by_cases hn : e0.Name.length = 0
      · simp [hn] at h
      · exact ⟨by simp, fun hname => hn ((string_length_zero _).mpr hname)⟩
  | chaosschedule =>
    simp only [processKind, processChaosScheduleManifest, hm, Manifest.toChaosSchedule] at h
    simp only [faultBlocks, List.mem_singleton] at hb
    subst hb
    cases he : m.EngineTemplateExperiments with
    | nil => simp [he] at h
    | cons e0 rest =>
      simp only [he] at h
      by_cases hn : e0.Name.length = 0
      · simp [hn] at h
      · exact ⟨by simp, fun hname => hn ((string_length_zero _).mpr hname)⟩

/-- Counterexample to C9 as stated: a chaos engine manifest whose second experiment has an
empty name is processed successfully. -/
theorem empty_fault_name_counterexample :
    manifestKind sampleEnv unnamedFaultEngineDoc = some .chaosengine ∧
    ({ Name := "" } : ExperimentList) ∈ unnamedFaultEngineDoc.Experiments ∧
    (ProcessExperiment sampleEnv "uuid-1" (sampleRequest unnamedFaultEngineDoc [])
      "project-1" "rev-1").2 = .ok .ChaosEngine := by
  decide

/-- C9, amended: for each of the four kinds, `ProcessExperiment` returns an error whenever a
fault block the processor recognises (the chaos engine decoded from the first artifact of
a template of a workflow or cron manifest, the engine of an engine or schedule manifest)
declares zero faults, and whenever the fault name the processor derives from such a block
(the embedded engine's `generateName`, the name of the first experiment of an engine or
schedule manifest) is empty. -/
theorem fault_block_rejected (env : Env) (uuid : String) (req : ChaosExperimentRequest)
    (pid rev : String) (m : Manifest) (k : ManifestKind) (b : List ExperimentList × String)
    (hm : req.ExperimentManifest = some m) (hk : manifestKind env m = some k)
    (hb : b ∈ faultBlocks env k m) (hbad : b.1 = [] ∨ b.2 = "") :
    ∃ e, (ProcessExperiment env uuid req pid rev).2 = .error e := by
  cases hr : (ProcessExperiment env uuid req pid rev).2 with
  | error e => exact ⟨e, rfl⟩
  | ok ty =>
    exfalso
    obtain ⟨infra, m0, k0, hi, ha, hp, hm0, hn, hk0⟩ :=
      ProcessExperiment_ok_inv env uuid req pid rev ty hr
    rw [hm] at hm0
    cases hm0
    rw [hk] at hk0
    cases hk0
    rw [ProcessExperiment_dispatch env uuid req pid rev infra m k hi ha hp hm hn hk
      (ProcessExperiment_ok_kind env uuid req pid rev ty m hr hm)] at hr
    obtain ⟨-, g2, -⟩ := withType_snd_ok _ _ _ hr
    obtain ⟨b1, b2⟩ := processKind_blocks env k _ _ rev m
      (by rw [(assignExperimentID_fields uuid req).1]; exact hm) g2 b hb
    rcases hbad with h1 | h2
    · exact b1 h1
    · exact b2 h2

/-- Witness of C9: a chaos engine manifest that lists no experiment. -/
theorem fault_block_rejected_witness :
    (([], "") : List ExperimentList × String) ∈ faultBlocks sampleEnv .chaosengine noFaultEngineDoc ∧
    ∃ e, (ProcessExperiment sampleEnv "uuid-1" (sampleRequest noFaultEngineDoc [])
      "project-1" "rev-1").2 = .error e :=
  ⟨by decide,
   fault_block_rejected sampleEnv "uuid-1" (sampleRequest noFaultEngineDoc []) "project-1"
     "rev-1" noFaultEngineDoc .chaosengine ([], "") (by decide) (by decide) (by decide)
     (by decide)⟩

/-! ## Identity labels -/

theorem assignExperimentID_some (uuid : String) (req : ChaosExperimentRequest) :
    ∃ id, (assignExperimentID uuid req).ExperimentID = some id ∧
      (req.ExperimentID = some id ∨ id = uuid) := by
  unfold assignExperimentID
  by_cases hc : req.ExperimentID = none ∨ req.ExperimentID = some ""
  · simp only [hc, if_true]
    exact ⟨uuid, rfl, Or.inr rfl⟩
  · simp only [hc, if_false]
    cases hid : req.ExperimentID with
    | none => simp [hid] at hc
    | some id => exact ⟨id, rfl, Or.inl rfl⟩

theorem workflowLabels_identity (k : ManifestKind) (hk : k = .workflow ∨ k = .cronworkflow)
    (l : Labels) (a b c : String) :
    HasIdentityLabels k (some (workflowLabels l a b c)) a b c := by
  obtain ⟨g1, g2, g3, g4⟩ := workflowLabels_get l a b c
  refine ⟨g1, g2, g4, fun _ => g3, ?_⟩
  intro hk2
  rcases hk with rfl | rfl <;> simp at hk2

theorem workflowLabels_keep (k : ManifestKind) (hk : k = .workflow ∨ k = .cronworkflow)
    (l : Labels) (a b c key : String) (hkey : key ∉ identityKeys k) :
    labelGet (some (workflowLabels l a b c)) key = labelGet l key := by
  have hkeys : key ∉ ["workflow_id", "infra_id", "workflows.argoproj.io/controller-instanceid",
      "revision_id"] := by
    rcases hk with rfl | rfl <;> exact hkey
  simp only [List.mem_cons, List.mem_singleton, List.not_mem_nil, or_false, not_or] at hkeys
  exact workflowLabels_get_other l a b c key hkeys.1 hkeys.2.1 hkeys.2.2.1 hkeys.2.2.2

theorem reconcileRoot_identity (k : ManifestKind) (hk : k = .chaosengine ∨ k = .chaosschedule)
    (w : List (String × Int)) (n : String) (l : Labels) (a b c : String)
    (L' : List (String × String)) (new : List WeightagesInput)
    (h : reconcileRoot w n (standaloneLabels l a b c) = .ok (L', new)) :
    HasIdentityLabels k (some L') a b c ∧
    ∀ key, key ∉ identityKeys k → key ≠ "weight" → labelGet (some L') key = labelGet l key := by
  obtain ⟨-, -, keep, -⟩ := reconcileRoot_ok w n _ L' new h
  obtain ⟨g1, g2, g3, g4⟩ := standaloneLabels_get l a b c
  refine ⟨⟨?_, ?_, ?_, ?_, ?_⟩, ?_⟩
  · exact (keep _ (by decide)).trans g1
  · exact (keep _ (by decide)).trans g2
  · exact (keep _ (by decide)).trans g4
  · intro hk2
    rcases hk with rfl | rfl <;> simp at hk2
  · intro _
    exact (keep _ (by decide)).trans g3
  · intro key hkey hw
    have hkeys : key ∉ ["workflow_id", "infra_id", "type", "revision_id"] := by
      rcases hk with rfl | rfl <;> exact hkey
    simp only [List.mem_cons, List.mem_singleton, List.not_mem_nil, or_false, not_or] at hkeys
    exact (keep key hw).trans
      (standaloneLabels_get_other l a b c key hkeys.1 hkeys.2.1 hkeys.2.2.1 hkeys.2.2.2)

theorem processKind_labels (env : Env) (k : ManifestKind) (wf : ChaosExperimentRequest)
    (w : List (String × Int)) (rev : String) (m : Manifest)
    (hm : wf.ExperimentManifest = some m)
    (h : (processKind env k wf w rev).2 = .ok ()) :
    ∃ m', (processKind env k wf w rev).1.ExperimentManifest = some m' ∧
      HasIdentityLabels k m'.Labels (wf.ExperimentID.getD "") wf.InfraID rev ∧
      (∀ key, key ∉ identityKeys k →
        ((k = .chaosengine ∨ k = .chaosschedule) → key ≠ "weight") →
        labelGet m'.Labels key = labelGet m.Labels key) ∧
      (k = .cronworkflow → ∃ md, m'.WorkflowMetadata = some md ∧
        HasIdentityLabels k md.Labels (wf.ExperimentID.getD "") wf.InfraID rev) := by
  cases k with
  | workflow =>
    simp only [processKind, processExperimentManifest, hm] at h ⊢
    cases hp : processTemplates env w m.toWorkflow.Templates with
    | error e => simp [hp] at h
    | ok r =>
      refine ⟨_, rfl, ?_, ?_, ?_⟩
      · exact workflowLabels_identity .workflow (Or.inl rfl) _ _ _ _
      · intro key hkey _
        exact workflowLabels_keep .workflow (Or.inl rfl) _ _ _ _ key hkey
      · intro hk
        cases hk
  | cronworkflow =>
    simp only [processKind, processCronExperimentManifest, hm] at h ⊢
    cases hp : processTemplates env w m.toCronWorkflow.Templates with
    | error e => simp [hp] at h
    | ok r =>
      refine ⟨_, rfl, ?_, ?_, ?_⟩
      · exact workflowLabels_identity .cronworkflow (Or.inr rfl) _ _ _ _
      · intro key hkey _
        exact workflowLabels_keep .cronworkflow (Or.inr rfl) _ _ _ _ key hkey
      · intro _
        refine ⟨_, rfl, ?_⟩
        cases hmd : m.toCronWorkflow.WorkflowMetadata <;>
          exact workflowLabels_identity .cronworkflow (Or.inr rfl) _ _ _ _
  | chaosengine =>
    simp only [processKind, processChaosEngineManifest, hm, Manifest.toChaosEngine] at h ⊢
    cases he : m.Experiments with
    | nil => simp [he] at h
    | cons e0 rest =>
      simp only [he] at h ⊢
      by_cases hn : e0.Name.length = 0
      · simp [hn] at h
      · simp only [hn, if_false] at h ⊢
        cases hr : reconcileRoot w e0.Name
            (standaloneLabels m.Labels (wf.ExperimentID.getD "") wf.InfraID rev) with
        | error e => simp [hr] at h
        | ok r =>
          obtain ⟨L', c⟩ := r
          obtain ⟨i1, i2⟩ := reconcileRoot_identity .chaosengine (Or.inl rfl) w e0.Name
            m.Labels _ _ _ L' c hr
          refine ⟨_, rfl, i1, ?_, ?_⟩
          · intro key hkey hw
            exact i2 key hkey (hw (by simp))
          · intro hk
            cases hk
  | chaosschedule =>
    simp only [processKind, processChaosScheduleManifest, hm, Manifest.toChaosSchedule] at h ⊢
    cases he : m.EngineTemplateExperiments with
    | nil => simp [he] at h
    | cons e0 rest =>
      simp only [he] at h ⊢
      by_cases hn : e0.Name.length = 0
      · simp [hn] at h
      · simp only [hn, if_false] at h ⊢
        cases hr : reconcileRoot w e0.Name
            (standaloneLabels m.Labels (wf.ExperimentID.getD "") wf.InfraID rev) with
        | error e => simp [hr] at h
        | ok r =>
          obtain ⟨L', c⟩ := r
          obtain ⟨i1, i2⟩ := reconcileRoot_identity .chaosschedule (Or.inr rfl) w e0.Name
            m.Labels _ _ _ L' c hr
          refine ⟨_, rfl, i1, ?_, ?_⟩
          · intro key hkey hw
            exact i2 key hkey (hw (by simp))
          · intro hk
            cases hk

/-- C10: whenever `ProcessExperiment` succeeds, the root labels of the output manifest map
`workflow_id` to the experiment id of the request after the call (the id it came with, or
the fresh one assigned to it), `infra_id` to its infra id, `revision_id` to the revision id
passed in, and `workflows.argoproj.io/controller-instanceid` to the infra id for the
workflow and cron kinds or `type` to `standalone_workflow` for the engine and schedule
kinds; every other root label of the input, `weight` excepted in the engine and schedule
kinds, is as it was; and for the cron kind `spec.workflowMetadata.labels` carries the same
four labels. -/
theorem identity_labels_injected (env : Env) (uuid : String)
    (req : ChaosExperimentRequest) (pid rev : String) (ty : ChaosExperimentType)
    (m : Manifest) (k : ManifestKind)
    (h : (ProcessExperiment env uuid req pid rev).2 = .ok ty)
    (hm : req.ExperimentManifest = some m) (hk : manifestKind env m = some k) :
    ∃ id m', (ProcessExperiment env uuid req pid rev).1.ExperimentID = some id ∧
      (req.ExperimentID = some id ∨ id = uuid) ∧
      (ProcessExperiment env uuid req pid rev).1.ExperimentManifest = some m' ∧
      labelGet m'.Labels "workflow_id" = some id ∧
      labelGet m'.Labels "infra_id" = some req.InfraID ∧
      labelGet m'.Labels "revision_id" = some rev ∧
      ((k = .workflow ∨ k = .cronworkflow) →
        labelGet m'.Labels "workflows.argoproj.io/controller-instanceid" = some req.InfraID) ∧
      ((k = .chaosengine ∨ k = .chaosschedule) →
        labelGet m'.Labels "type" = some "standalone_workflow") ∧
      (∀ key, key ∉ identityKeys k →
        ((k = .chaosengine ∨ k = .chaosschedule) → key ≠ "weight") →
        labelGet m'.Labels key = labelGet m.Labels key) ∧
      (k = .cronworkflow → ∃ md, m'.WorkflowMetadata = some md ∧
        labelGet md.Labels "workflow_id" = some id ∧
        labelGet md.Labels "infra_id" = some req.InfraID ∧
        labelGet md.Labels "revision_id" = some rev ∧
        labelGet md.Labels "workflows.argoproj.io/controller-instanceid"
          = some req.InfraID) := by
  obtain ⟨infra, m0, k0, hi, ha, hp, hm0, hn, hk0⟩ :=
    ProcessExperiment_ok_inv env uuid req pid rev ty h
  rw [hm] at hm0
  cases hm0
  rw [hk] at hk0
  cases hk0
  obtain ⟨f1, -, f3, -, -⟩ := assignExperimentID_fields uuid req
  obtain ⟨id, hid, hsrc⟩ := assignExperimentID_some uuid req
  obtain ⟨-, m1, -, -, -, -, -, -, -, e8, -, -⟩ :=
    ProcessExperiment_nodes env uuid req pid rev ty m k h hm hk
  have hkd := ProcessExperiment_ok_kind env uuid req pid rev ty m h hm
  rw [ProcessExperiment_dispatch env uuid req pid rev infra m k hi ha hp hm hn hk hkd] at h e8 ⊢
  obtain ⟨-, g2, g3⟩ := withType_snd_ok _ _ _ h
  rw [g3] at e8 ⊢
  obtain ⟨m', p1, ⟨q1, q2, q3, q4, q5⟩, p3, p4⟩ :=
    processKind_labels env k (assignExperimentID uuid req) (declaredWeights req.Weightages)
      rev m (by rw [f1]; exact hm) g2
  simp only [hid, Option.getD_some, f3] at q1 q2 q3 q4 q5 p4
  refine ⟨id, m', by rw [e8, hid], hsrc, p1, q1, q2, q3, q4, q5, p3, ?_⟩
  intro hc
  obtain ⟨md, hmd, r1, r2, r3, r4, -⟩ := p4 hc
  exact ⟨md, hmd, r1, r2, r3, r4 (Or.inr hc)⟩

/-- Witness of C10: the labelled chaos engine manifest, sent without an experiment id. -/
theorem identity_labels_injected_witness :
    ∃ id m', (ProcessExperiment sampleEnv "uuid-1"
        { sampleRequest engineDoc [] with ExperimentID := none }
        "project-1" "rev-1").1.ExperimentID = some id ∧
      (({ sampleRequest engineDoc [] with ExperimentID := none } :
          ChaosExperimentRequest).ExperimentID = some id ∨ id = "uuid-1") ∧
      (ProcessExperiment sampleEnv "uuid-1"
        { sampleRequest engineDoc [] with ExperimentID := none }
        "project-1" "rev-1").1.ExperimentManifest = some m' ∧
      labelGet m'.Labels "workflow_id" = some id ∧
      labelGet m'.Labels "infra_id"
        = some ({ sampleRequest engineDoc [] with ExperimentID := none } :
            ChaosExperimentRequest).InfraID ∧
      labelGet m'.Labels "revision_id" = some "rev-1" ∧
      ((ManifestKind.chaosengine = .workflow ∨ ManifestKind.chaosengine = .cronworkflow) →
        labelGet m'.Labels "workflows.argoproj.io/controller-instanceid"
          = some ({ sampleRequest engineDoc [] with ExperimentID := none } :
              ChaosExperimentRequest).InfraID) ∧
      ((ManifestKind.chaosengine = .chaosengine ∨ ManifestKind.chaosengine = .chaosschedule) →
        labelGet m'.Labels "type" = some "standalone_workflow") ∧
      (∀ key, key ∉ identityKeys .chaosengine →
        ((ManifestKind.chaosengine = .chaosengine ∨ ManifestKind.chaosengine = .chaosschedule) →
          key ≠ "weight") →
        labelGet m'.Labels key = labelGet engineDoc.Labels key) ∧
      (ManifestKind.chaosengine = .cronworkflow → ∃ md, m'.WorkflowMetadata = some md ∧
        labelGet md.Labels "workflow_id" = some id ∧
        labelGet md.Labels "infra_id"
          = some ({ sampleRequest engineDoc [] with ExperimentID := none } :
              ChaosExperimentRequest).InfraID ∧
        labelGet md.Labels "revision_id" = some "rev-1" ∧
        labelGet md.Labels "workflows.argoproj.io/controller-instanceid"
          = some ({ sampleRequest engineDoc [] with ExperimentID := none } :
              ChaosExperimentRequest).InfraID) :=
  identity_labels_injected sampleEnv "uuid-1"
    { sampleRequest engineDoc [] with ExperimentID := none } "project-1" "rev-1"
    .ChaosEngine engineDoc .chaosengine (by decide) (by decide) (by decide)

/-! ## Schedule string and infrastructure check -/

theorem processKind_cronSyntax (env : Env) (k : ManifestKind) (wf : ChaosExperimentRequest)
    (w : List (String × Int)) (rev : String) (m : Manifest)
    (hm : wf.ExperimentManifest = some m)
    (h : (processKind env k wf w rev).2 = .ok ()) :
    (k = .cronworkflow → (processKind env k wf w rev).1.CronSyntax = m.Schedule) ∧
    (k ≠ .cronworkflow → (processKind env k wf w rev).1.CronSyntax = wf.CronSyntax) := by
  cases k with
  | workflow =>
    simp only [processKind, processExperimentManifest, hm] at h ⊢
    cases hp : processTemplates env w m.toWorkflow.Templates with
    | error e => simp [hp] at h
    | ok r => simp
  | cronworkflow =>
    simp only [processKind, processCronExperimentManifest, hm] at h ⊢
    cases hp : processTemplates env w m.toCronWorkflow.Templates with
    | error e => simp [hp] at h
    | ok r => simp [Manifest.toCronWorkflow]
  | chaosengine =>
    simp only [processKind, processChaosEngineManifest, hm, Manifest.toChaosEngine] at h ⊢
    cases he : m.Experiments with
    | nil => simp [he] at h
    | cons e0 rest =>
      simp only [he] at h ⊢
      by_cases hn : e0.Name.length = 0
      · simp [hn] at h
      · simp only [hn, if_false] at h ⊢
        cases hr : reconcileRoot w e0.Name
            (standaloneLabels m.Labels (wf.ExperimentID.getD "") wf.InfraID rev) with
        | error e => simp [hr] at h
        | ok r => simp
  | chaosschedule =>
    simp only [processKind, processChaosScheduleManifest, hm, Manifest.toChaosSchedule] at h ⊢
    cases he : m.EngineTemplateExperiments with
    | nil => simp [he] at h
    | cons e0 rest =>
      simp only [he] at h ⊢
      by_cases hn : e0.Name.length = 0
      · simp [hn] at h
      · simp only [hn, if_false] at h ⊢
        cases hr : reconcileRoot w e0.Name
            (standaloneLabels m.Labels (wf.ExperimentID.getD "") wf.InfraID rev) with
        | error e => simp [hr] at h
        | ok r => simp

/-- C11: whenever `ProcessExperiment` succeeds on a manifest of the cron kind, the cron
syntax of the request after the call is the schedule string of the manifest, whatever the
caller supplied; for a manifest of one of the other three kinds the cron syntax of the
request is as the caller supplied it. -/
theorem cron_syntax_surfaced (env : Env) (uuid : String)
    (req : ChaosExperimentRequest) (pid rev : String) (ty : ChaosExperimentType)
    (m : Manifest) (k : ManifestKind)
    (h : (ProcessExperiment env uuid req pid rev).2 = .ok ty)
    (hm : req.ExperimentManifest = some m) (hk : manifestKind env m = some k) :
    (k = .cronworkflow →
      (ProcessExperiment env uuid req pid rev).1.CronSyntax = m.Schedule) ∧
    (k ≠ .cronworkflow →
      (ProcessExperiment env uuid req pid rev).1.CronSyntax = req.CronSyntax) := by
  obtain ⟨infra, m0, k0, hi, ha, hp, hm0, hn, hk0⟩ :=
    ProcessExperiment_ok_inv env uuid req pid rev ty h
  rw [hm] at hm0
  cases hm0
  rw [hk] at hk0
  cases hk0
  obtain ⟨f1, -, -, -, f5⟩ := assignExperimentID_fields uuid req
  have hkd := ProcessExperiment_ok_kind env uuid req pid rev ty m h hm
  rw [ProcessExperiment_dispatch env uuid req pid rev infra m k hi ha hp hm hn hk hkd] at h ⊢
  obtain ⟨-, g2, g3⟩ := withType_snd_ok _ _ _ h
  rw [g3, ← f5]
  exact processKind_cronSyntax env k _ _ rev m (by rw [f1]; exact hm) g2

/-- Witness of C11: the cron workflow sample, sent with a stale cron syntax. -/
theorem cron_syntax_surfaced_witness :
    (ManifestKind.cronworkflow = .cronworkflow →
      (ProcessExperiment sampleEnv "uuid-1"
        { sampleRequest cronDoc [] with CronSyntax := "@daily" }
        "project-1" "rev-1").1.CronSyntax = cronDoc.Schedule) ∧
    (ManifestKind.cronworkflow ≠ .cronworkflow →
      (ProcessExperiment sampleEnv "uuid-1"
        { sampleRequest cronDoc [] with CronSyntax := "@daily" }
        "project-1" "rev-1").1.CronSyntax
        = ({ sampleRequest cronDoc [] with CronSyntax := "@daily" } :
            ChaosExperimentRequest).CronSyntax) :=
  cron_syntax_surfaced sampleEnv "uuid-1"
    { sampleRequest cronDoc [] with CronSyntax := "@daily" } "project-1" "rev-1"
    .CronExperiment cronDoc .cronworkflow (by decide) (by decide) (by decide)

/-- C12: if the infrastructure lookup fails, or the infrastructure is inactive, or it
belongs to another project than the caller's, `ProcessExperiment` returns an error and
leaves the request exactly as it was: no experiment id is assigned, the manifest and the
weightages are untouched. -/
theorem infra_check_fails_fast (env : Env) (uuid : String)
    (req : ChaosExperimentRequest) (pid rev : String)
    (hbad : (∃ e, env.GetInfra req.InfraID = .error e) ∨
      (∃ infra, env.GetInfra req.InfraID = .ok infra ∧
        (infra.IsActive = false ∨ infra.ProjectID ≠ pid))) :
    (∃ e, (ProcessExperiment env uuid req pid rev).2 = .error e) ∧
    (ProcessExperiment env uuid req pid rev).1 = req := by
  unfold ProcessExperiment
  rcases hbad with ⟨e, he⟩ | ⟨infra, hi, hc⟩
  · simp [he]
  · simp only [hi]
    rcases hc with ha | hp
    · simp [ha]
    · by_cases ha : infra.IsActive = false
      · simp [ha]
      · simp [ha, hp]

/-- Witness of C12: a request of another project, sent without an experiment id. -/
theorem infra_check_fails_fast_witness :
    (∃ e, (ProcessExperiment sampleEnv "uuid-1"
      { sampleRequest engineDoc [] with ExperimentID := none } "project-2" "rev-1").2
        = .error e) ∧
    (ProcessExperiment sampleEnv "uuid-1"
      { sampleRequest engineDoc [] with ExperimentID := none } "project-2" "rev-1").1
      = { sampleRequest engineDoc [] with ExperimentID := none } :=
  infra_check_fails_fast sampleEnv "uuid-1"
    { sampleRequest engineDoc [] with ExperimentID := none } "project-2" "rev-1"
    (Or.inr ⟨{ IsActive := true, ProjectID := "project-1" }, by decide,
      Or.inr (by decide)⟩)

/-! ## Lemmas on the scorer -/

theorem wrapInt_add_left (a b : Int) : wrapInt (wrapInt a + b) = wrapInt (a + b) := by
  unfold wrapInt
  omega

theorem wrapInt_add_right (a b : Int) : wrapInt (a + wrapInt b) = wrapInt (a + b) := by
  unfold wrapInt
  omega

theorem wrapInt_of_range (z : Int) (h1 : -9223372036854775808 ≤ z)
    (h2 : z < 9223372036854775808) : wrapInt z = z := by
  unfold wrapInt
  omega

theorem wrapInt_zero : wrapInt 0 = 0 := by decide

theorem collect_inner (ws : List WeightagesInput) :
    ∀ (mp : List (String × Int)) (a : Int),
      ws.foldl (fun (acc : List (String × Int) × Int) weights =>
        (mapSet acc.1 weights.FaultName weights.Weightage,
         wrapInt (acc.2 + weights.Weightage))) (mp, wrapInt a)
      = (ws.foldl (fun weights weight => mapSet weights weight.FaultName weight.Weightage) mp,
         wrapInt (a + sumWeights ws)) := by
  induction ws with
  | nil => intro mp a; simp [sumWeights]
  | cons x rest ih =>
    intro mp a
    simp only [List.foldl_cons, wrapInt_add_left]
    rw [ih]
    simp [sumWeights, Int.add_assoc]

theorem collect_outer (revisionID : String) :
    ∀ (revs : List dbChaosExperiment.ExperimentRevision) (pre : List WeightagesInput),
      revs.foldl (fun (acc : List (String × Int) × Int) rev =>
        if rev.RevisionID = revisionID then
          rev.Weightages.foldl (fun acc weights =>
            (mapSet acc.1 weights.FaultName weights.Weightage,
             wrapInt (acc.2 + weights.Weightage))) acc
        else acc) (declaredWeights pre, wrapInt (sumWeights pre))
      = (declaredWeights (pre ++ recordedWeightages revisionID revs),
         wrapInt (sumWeights (pre ++ recordedWeightages revisionID revs))) := by
  intro revs
  induction revs with
  | nil => intro pre; simp [recordedWeightages]
  | cons rev rest ih =>
    intro pre
    simp only [List.foldl_cons]
    by_cases h : rev.RevisionID = revisionID
    · simp only [h, if_true]
      rw [collect_inner]
      have h1 : List.foldl (fun weights weight =>
          mapSet weights weight.FaultName weight.Weightage) (declaredWeights pre) rev.Weightages
          = declaredWeights (pre ++ rev.Weightages) := by
        simp [declaredWeights, List.foldl_append]
      have h2 : sumWeights pre + sumWeights rev.Weightages = sumWeights (pre ++ rev.Weightages) := by
        simp [sumWeights]
      rw [h1, h2, ih]
      simp [recordedWeightages, h, List.filter_cons, List.append_assoc]
    · simp only [h, if_false]
      rw [ih]
      simp [recordedWeightages, h, List.filter_cons]

theorem collectWeights_eq (revisionID : String)
    (revs : List dbChaosExperiment.ExperimentRevision) :
    collectWeights revisionID revs
      = (declaredWeights (recordedWeightages revisionID revs),
         wrapInt (sumWeights (recordedWeightages revisionID revs))) := by
  have h := collect_outer revisionID revs []
  simp only [List.nil_append] at h
  unfold collectWeights
  have h0 : (([] : List (String × Int)), (0 : Int))
      = (declaredWeights [], wrapInt (sumWeights [])) := by
    simp [declaredWeights, sumWeights, wrapInt_zero]
  rw [h0]
  exact h

theorem matchFault_fold (engineName : String) :
    ∀ (keys : List String) (init : String),
      keys.foldl (fun experimentName expName =>
        if Contains engineName expName then expName else experimentName) init
      = ((keys.filter (fun k => Contains engineName k)).getLast?).getD init := by
  intro keys
  induction keys with
  | nil => intro init; simp
  | cons k rest ih =>
    intro init
    simp only [List.foldl_cons, ih, List.filter_cons]
    by_cases hc : Contains engineName k = true
    · simp only [hc, if_true]
      cases hr : (List.filter (fun k => Contains engineName k) rest) with
      | nil => simp
      | cons y ys =>
        rw [List.getLast?_cons_cons, List.getLast?_eq_getLast _ (List.cons_ne_nil y ys)]
        simp
    · simp [hc]

theorem matchFault_eq (keys : List String) (engineName : String) :
    matchFault keys engineName = (matchedFault keys engineName).getD "" :=
  matchFault_fold engineName keys ""

theorem contains_empty (s : String) : Contains s "" = true := by
  unfold Contains
  cases s.data <;> simp [containsChars, dropPrefix]

theorem matchedFault_mem (keys : List String) (engineName name : String)
    (h : matchedFault keys engineName = some name) :
    name ∈ keys ∧ Contains engineName name = true := by
  unfold matchedFault at h
  have hm := List.mem_of_getLast?_eq_some h
  simpa [List.mem_filter] using hm

theorem tallyVerdict_fields (r : ExperimentRunMetrics) (v : String) :
    (tallyVerdict r v).FaultsPassed = r.FaultsPassed + (if v = "Pass" then 1 else 0) ∧
    (tallyVerdict r v).FaultsFailed = r.FaultsFailed + (if v = "Fail" then 1 else 0) ∧
    (tallyVerdict r v).FaultsAwaited = r.FaultsAwaited + (if v = "Awaited" then 1 else 0) ∧
    (tallyVerdict r v).FaultsStopped = r.FaultsStopped + (if v = "Stopped" then 1 else 0) ∧
    (tallyVerdict r v).FaultsNA = r.FaultsNA + (if v = "N/A" ∨ v = "" then 1 else 0) ∧
    (tallyVerdict r v).TotalExperiments = r.TotalExperiments ∧
    (tallyVerdict r v).ResiliencyScore = r.ResiliencyScore := by
  unfold tallyVerdict
  by_cases h1 : v = "Pass" <;> by_cases h2 : v = "Fail" <;> by_cases h3 : v = "Awaited" <;>
    by_cases h4 : v = "Stopped" <;> by_cases h5 : v = "N/A" ∨ v = "" <;>
    simp [h1, h2, h3, h4, h5]

theorem scoreNode_snd (env : RunEnv) (wm : List (String × Int)) (t : Int)
    (r : ExperimentRunMetrics) (value : Node) :
    (scoreNode env wm (t, r) value).2
      = match faultData value with
        | some chaosExp => tallyVerdict r chaosExp.FaultVerdict
        | none => r := by
  unfold scoreNode faultData
  by_cases hty : value.NodeType = "ChaosEngine"
  · simp only [hty, if_true]
    cases value.ChaosExp <;> rfl
  · simp [hty]

theorem scoreNodes_tallies (env : RunEnv) (wm : List (String × Int)) :
    ∀ (nodes : List Node) (t : Int) (r : ExperimentRunMetrics),
      (nodes.foldl (scoreNode env wm) (t, r)).2.FaultsPassed
        = r.FaultsPassed + countVerdict (fun v => decide (v = "Pass")) nodes ∧
      (nodes.foldl (scoreNode env wm) (t, r)).2.FaultsFailed
        = r.FaultsFailed + countVerdict (fun v => decide (v = "Fail")) nodes ∧
      (nodes.foldl (scoreNode env wm) (t, r)).2.FaultsAwaited
        = r.FaultsAwaited + countVerdict (fun v => decide (v = "Awaited")) nodes ∧
      (nodes.foldl (scoreNode env wm) (t, r)).2.FaultsStopped
        = r.FaultsStopped + countVerdict (fun v => decide (v = "Stopped")) nodes ∧
      (nodes.foldl (scoreNode env wm) (t, r)).2.FaultsNA
        = r.FaultsNA + countVerdict (fun v => decide (v = "N/A" ∨ v = "")) nodes ∧
      (nodes.foldl (scoreNode env wm) (t, r)).2.TotalExperiments = r.TotalExperiments ∧
      (nodes.foldl (scoreNode env wm) (t, r)).2.ResiliencyScore = r.ResiliencyScore := by
  intro nodes
  induction nodes with
  | nil => intro t r; simp [countVerdict]
  | cons value rest ih =>
    intro t r
    simp only [List.foldl_cons]
    obtain ⟨i1, i2, i3, i4, i5, i6, i7⟩ :=
      ih (scoreNode env wm (t, r) value).1 (scoreNode env wm (t, r) value).2
    rw [i1, i2, i3, i4, i5, i6, i7, scoreNode_snd]
    cases hd : faultData value with
    | none => simp [countVerdict, List.filterMap_cons, hd]
    | some d =>
      obtain ⟨j1, j2, j3, j4, j5, j6, j7⟩ := tallyVerdict_fields r d.FaultVerdict
      simp only [j1, j2, j3, j4, j5, j6, j7, countVerdict, List.filterMap_cons, hd,
        List.countP_cons, decide_eq_true_eq]
      refine ⟨?_, ?_, ?_, ?_, ?_, trivial, trivial⟩ <;> omega

theorem scoreNode_fst (env : RunEnv) (wm : List (String × Int)) (hk : RangesOverKeys env wm)
    (a : Int) (r : ExperimentRunMetrics) (value : Node) :
    (scoreNode env wm (wrapInt a, r) value).1 = wrapInt (a + weightedResult env wm value) := by
  unfold scoreNode weightedResult matchedEntry faultData
  by_cases hty : value.NodeType = "ChaosEngine"
  · simp only [hty, if_true]
    cases hexp : value.ChaosExp with
    | none => simp
    | some d =>
      simp only [matchFault_eq]
      cases hmf : matchedFault (env.rangeKeys value wm) d.EngineName with
      | none =>
        simp only [Option.getD_none]
        cases hg : mapGet wm "" with
        | none => simp
        | some w =>
          exfalso
          have hin : "" ∈ env.rangeKeys value wm := hk value "" (by simp [hg])
          unfold matchedFault at hmf
          have hne : "" ∈ (env.rangeKeys value wm).filter (fun k => Contains d.EngineName k) := by
            simp [List.mem_filter, hin, contains_empty]
          rw [List.getLast?_eq_none_iff] at hmf
          rw [hmf] at hne
          simp at hne
      | some name =>
        simp only [Option.getD_some]
        cases hg : mapGet wm name with
        | none => simp
        | some w => simp [wrapInt_add_left, wrapInt_add_right]
  · simp [hty]

theorem scoreNodes_total (env : RunEnv) (wm : List (String × Int)) (hk : RangesOverKeys env wm) :
    ∀ (nodes : List Node) (a : Int) (r : ExperimentRunMetrics),
      (nodes.foldl (scoreNode env wm) (wrapInt a, r)).1
        = wrapInt (a + weightedSum env wm nodes) := by
  intro nodes
  induction nodes with
  | nil => intro a r; simp [weightedSum]
  | cons value rest ih =>
    intro a r
    simp only [List.foldl_cons]
    have h1 := scoreNode_fst env wm hk a r value
    have h2 : scoreNode env wm (wrapInt a, r) value
        = (wrapInt (a + weightedResult env wm value), (scoreNode env wm (wrapInt a, r) value).2) := by
      rw [← h1]
    rw [h2, ih]
    simp [weightedSum, Int.add_assoc]

/-- The result of the scorer when the experiment is found. -/
theorem ProcessCompletedExperimentRun_found (env : RunEnv) (execData : ExecutionData)
    (wfID runID : String) (exp : dbChaosExperiment.ChaosExperimentRequest)
    (hget : env.GetExperiment wfID = .ok exp) :
    (ProcessCompletedExperimentRun env execData wfID runID).2 = .ok () ∧
    (ProcessCompletedExperimentRun env execData wfID runID).1.TotalExperiments
      = (declaredWeights (recordedWeightages execData.RevisionID exp.Revision)).length ∧
    (ProcessCompletedExperimentRun env execData wfID runID).1.FaultsPassed
      = countVerdict (fun v => decide (v = "Pass")) execData.Nodes ∧
    (ProcessCompletedExperimentRun env execData wfID runID).1.FaultsFailed
      = countVerdict (fun v => decide (v = "Fail")) execData.Nodes ∧
    (ProcessCompletedExperimentRun env execData wfID runID).1.FaultsAwaited
      = countVerdict (fun v => decide (v = "Awaited")) execData.Nodes ∧
    (ProcessCompletedExperimentRun env execData wfID runID).1.FaultsStopped
      = countVerdict (fun v => decide (v = "Stopped")) execData.Nodes ∧
    (ProcessCompletedExperimentRun env execData wfID runID).1.FaultsNA
      = countVerdict (fun v => decide (v = "N/A" ∨ v = "")) execData.Nodes := by
  unfold ProcessCompletedExperimentRun
  simp only [hget, collectWeights_eq]
  obtain ⟨i1, i2, i3, i4, i5, i6, -⟩ := scoreNodes_tallies env
    (declaredWeights (recordedWeightages execData.RevisionID exp.Revision)) execData.Nodes 0
    { ResiliencyScore := 0
      TotalExperiments :=
        (declaredWeights (recordedWeightages execData.RevisionID exp.Revision)).length
      FaultsPassed := 0, FaultsFailed := 0, FaultsAwaited := 0, FaultsStopped := 0,
      FaultsNA := 0 }
  simp only [Nat.zero_add] at i1 i2 i3 i4 i5 i6
  split_ifs <;> simp only [zeroMetrics, i1, i2, i3, i4, i5, i6] <;> simp

/-- The score returned by the scorer when the experiment is found. -/
theorem ProcessCompletedExperimentRun_score (env : RunEnv) (execData : ExecutionData)
    (wfID runID : String) (exp : dbChaosExperiment.ChaosExperimentRequest)
    (hget : env.GetExperiment wfID = .ok exp)
    (hk : RangesOverKeys env (declaredWeights (recordedWeightages execData.RevisionID exp.Revision))) :
    (ProcessCompletedExperimentRun env execData wfID runID).1.ResiliencyScore
      = if wrapInt (sumWeights (recordedWeightages execData.RevisionID exp.Revision)) ≠ 0 then
          (Truncate
            (float64.div
              (float64.ofInt (wrapInt (weightedSum env
                (declaredWeights (recordedWeightages execData.RevisionID exp.Revision))
                execData.Nodes)))
              (float64.ofInt
                (wrapInt (sumWeights
                  (recordedWeightages execData.RevisionID exp.Revision)))))).toRat
        else 0 := by
  unfold ProcessCompletedExperimentRun
  simp only [hget, collectWeights_eq]
  have ht := scoreNodes_total env _ hk execData.Nodes 0
    { ResiliencyScore := 0
      TotalExperiments :=
        (declaredWeights (recordedWeightages execData.RevisionID exp.Revision)).length
      FaultsPassed := 0, FaultsFailed := 0, FaultsAwaited := 0, FaultsStopped := 0,
      FaultsNA := 0 }
  rw [wrapInt_zero, Int.zero_add] at ht
  obtain ⟨-, -, -, -, -, -, i7⟩ := scoreNodes_tallies env
    (declaredWeights (recordedWeightages execData.RevisionID exp.Revision)) execData.Nodes 0
    { ResiliencyScore := 0
      TotalExperiments :=
        (declaredWeights (recordedWeightages execData.RevisionID exp.Revision)).length
      FaultsPassed := 0, FaultsFailed := 0, FaultsAwaited := 0, FaultsStopped := 0,
      FaultsNA := 0 }
  split_ifs with hs
  · simp only [zeroMetrics, ht]
  · simp only [zeroMetrics, i7]

theorem mapGet_mem_keys {α : Type} (m : List (String × α)) (k : String)
    (h : mapGet m k ≠ none) : k ∈ m.map (fun entry => entry.1) := by
  induction m with
  | nil => simp [mapGet] at h
  | cons p rest ih =>
    obtain ⟨k0, v0⟩ := p
    by_cases h0 : k0 = k
    · simp [h0]
    · simp only [mapGet, h0, if_false] at h
      simp [ih h]

theorem sampleRunEnv_ranges (exp : dbChaosExperiment.ChaosExperimentRequest)
    (wm : List (String × Int)) : RangesOverKeys (sampleRunEnv exp) wm := by
  intro value k hk
  exact mapGet_mem_keys wm k hk

/-! ## Lemmas on float64 -/

namespace float64

theorem Scaled_self (n d : Nat) (e : Int) (hd : 0 < d) (h1 : 2 ^ 52 * d ≤ n)
    (h2 : n < 2 ^ 53 * d) : Scaled n d e (n, d, e) :=
  ⟨hd, h1, h2, rfl⟩

theorem scale_up : ∀ (fuel n d : Nat) (e : Int), 0 < d → 2 ^ 52 * d ≤ n →
    n < 2 ^ 53 * 2 ^ fuel * d → Scaled n d e (scale fuel n d e) := by
  intro fuel
  induction fuel with
  | zero =>
    intro n d e hd h1 h2
    exact Scaled_self n d e hd h1 (by simpa using h2)
  | succ fuel ih =>
    intro n d e hd h1 h2
    unfold scale
    by_cases hc : 2 ^ 53 * d ≤ n
    · rw [if_pos hc]
      have hp : 2 ^ 53 * 2 ^ fuel * (2 * d) = 2 ^ 53 * 2 ^ (fuel + 1) * d := by
        rw [pow_succ]; ring
      have h := ih n (2 * d) (e + 1) (by omega) (by omega) (by omega)
      obtain ⟨a1, a2, a3, a4⟩ := h
      refine ⟨a1, a2, a3, ?_⟩
      rw [a4, zpow_add_one₀ (by norm_num : (2 : ℚ) ≠ 0)]
      have hd' : (d : ℚ) ≠ 0 := by exact_mod_cast (Nat.pos_iff_ne_zero.mp hd)
      push_cast
      field_simp
      ring
    · rw [if_neg hc, if_neg (by omega)]
      exact Scaled_self n d e hd h1 (by omega)

theorem scale_down : ∀ (fuel n d : Nat) (e : Int), 0 < d → 0 < n → n < 2 ^ 53 * d →
    2 ^ 52 * d ≤ 2 ^ fuel * n → Scaled n d e (scale fuel n d e) := by
  intro fuel
  induction fuel with
  | zero =>
    intro n d e hd hn h1 h2
    exact Scaled_self n d e hd (by simpa using h2) h1
  | succ fuel ih =>
    intro n d e hd hn h1 h2
    unfold scale
    rw [if_neg (by omega)]
    by_cases hc : n < 2 ^ 52 * d
    · rw [if_pos hc]
      have hp : 2 ^ fuel * (2 * n) = 2 ^ (fuel + 1) * n := by
        rw [pow_succ]; ring
      have h := ih (2 * n) d (e - 1) hd (by omega) (by omega) (by omega)
      obtain ⟨a1, a2, a3, a4⟩ := h
      refine ⟨a1, a2, a3, ?_⟩
      rw [a4, zpow_sub_one₀ (by norm_num : (2 : ℚ) ≠ 0)]
      have hd' : (d : ℚ) ≠ 0 := by exact_mod_cast (Nat.pos_iff_ne_zero.mp hd)
      push_cast
      field_simp
      ring
    · rw [if_neg hc]
      exact Scaled_self n d e hd (by omega) h1

theorem scale_spec (n d : Nat) (e : Int) (hn : 0 < n) (hd : 0 < d) :
    Scaled n d e (scale (n + d + 53) n d e) := by
  by_cases hc : 2 ^ 52 * d ≤ n
  · apply scale_up _ n d e hd hc
    have h1 : n < 2 ^ n := Nat.lt_two_pow n
    have h2 : 2 ^ n ≤ 2 ^ (n + d + 53) := Nat.pow_le_pow_right (by norm_num) (by omega)
    have h3 : 0 < 2 ^ 53 := by norm_num
    calc n < 2 ^ (n + d + 53) := by omega
      _ ≤ 2 ^ 53 * 2 ^ (n + d + 53) * d := by
        have : 1 ≤ 2 ^ 53 * d := by
          have : 0 < 2 ^ 53 * d := Nat.mul_pos h3 hd
          omega
        calc 2 ^ (n + d + 53) = 2 ^ (n + d + 53) * 1 := by ring
          _ ≤ 2 ^ (n + d + 53) * (2 ^ 53 * d) := Nat.mul_le_mul_left _ this
          _ = 2 ^ 53 * 2 ^ (n + d + 53) * d := by ring
  · apply scale_down _ n d e hd hn
    · have : 2 ^ 52 * d ≤ 2 ^ 53 * d := Nat.mul_le_mul_right _ (by norm_num)
      omega
    · have h1 : d < 2 ^ d := Nat.lt_two_pow d
      have h2 : 2 ^ (n + d + 53) = 2 ^ 52 * 2 ^ d * 2 ^ (n + 1) := by
        rw [← pow_add, ← pow_add]
        congr 1
        omega
      rw [h2]
      have h3 : 1 ≤ 2 ^ (n + 1) := Nat.one_le_two_pow
      calc 2 ^ 52 * d ≤ 2 ^ 52 * 2 ^ d := Nat.mul_le_mul_left _ (le_of_lt h1)
        _ = 2 ^ 52 * 2 ^ d * 1 * 1 := by ring
        _ ≤ 2 ^ 52 * 2 ^ d * 2 ^ (n + 1) * n := by
          apply Nat.mul_le_mul
          · apply Nat.mul_le_mul_left
            exact h3
          · exact hn

theorem roundHalfEven_le (n d M : Nat) (hd : 0 < d) (h : n ≤ M * d) :
    roundHalfEven n d ≤ M := by
  have hq : n / d ≤ M := Nat.div_le_of_le_mul (by rw [Nat.mul_comm]; exact h)
  have hdm := Nat.div_add_mod n d
  have hlt : 0 < n % d → n / d < M := by
    intro hr
    by_contra hc
    have hMq : M ≤ n / d := by omega
    have : M * d ≤ n / d * d := Nat.mul_le_mul_right _ hMq
    have h2 : d * (n / d) = n / d * d := Nat.mul_comm _ _
    omega
  unfold roundHalfEven
  split_ifs <;> omega

theorem le_roundHalfEven (n d M : Nat) (hd : 0 < d) (h : M * d ≤ n) :
    M ≤ roundHalfEven n d := by
  have hq : M ≤ n / d := (Nat.le_div_iff_mul_le hd).mpr h
  unfold roundHalfEven
  split_ifs <;> omega

theorem roundHalfEven_mul (M d : Nat) (hd : 0 < d) : roundHalfEven (M * d) d = M :=
  Nat.le_antisymm (roundHalfEven_le _ _ _ hd (Nat.le_refl _))
    (le_roundHalfEven _ _ _ hd (Nat.le_refl _))

theorem roundHalfEven_near (n d : Nat) (hd : 0 < d) :
    2 * (roundHalfEven n d * d) ≤ 2 * n + d ∧ 2 * n ≤ 2 * (roundHalfEven n d * d) + d := by
  have hdm := Nat.div_add_mod n d
  have hlt := Nat.mod_lt n hd
  have h2 : n / d * d = d * (n / d) := Nat.mul_comm _ _
  have h3 : (n / d + 1) * d = d * (n / d) + d := by ring
  unfold roundHalfEven
  split_ifs <;> simp only [h2, h3] <;> omega

theorem roundHalfEven_near_rat (n d : Nat) (hd : 0 < d) :
    (roundHalfEven n d : ℚ) ≤ (n : ℚ) / d + 1 / 2 ∧
    (n : ℚ) / d - 1 / 2 ≤ (roundHalfEven n d : ℚ) := by
  obtain ⟨h1, h2⟩ := roundHalfEven_near n d hd
  have hd' : (0 : ℚ) < d := by exact_mod_cast hd
  have h1' : (2 : ℚ) * ((roundHalfEven n d : ℚ) * d) ≤ 2 * n + d := by exact_mod_cast h1
  have h2' : (2 : ℚ) * n ≤ 2 * ((roundHalfEven n d : ℚ) * d) + d := by exact_mod_cast h2
  constructor
  · rw [div_add_div _ _ (ne_of_gt hd') (by norm_num : (2 : ℚ) ≠ 0), le_div_iff₀ (by positivity)]
    nlinarith
  · rw [div_sub_div _ _ (ne_of_gt hd') (by norm_num : (2 : ℚ) ≠ 0), div_le_iff₀ (by positivity)]
    nlinarith

theorem signed_false (m : Nat) : signed false m = (m : Int) := rfl

theorem toRat_round (n d : Nat) (e : Int) (hn : 0 < n) (hd : 0 < d) :
    toRat (round false n d e)
      = (roundHalfEven (scale (n + d + 53) n d e).1 (scale (n + d + 53) n d e).2.1 : ℚ)
        * (2 : ℚ) ^ (scale (n + d + 53) n d e).2.2 ∧
    0 ≤ (round false n d e).mantissa := by
  unfold round
  rw [if_neg (by omega)]
  dsimp only
  split_ifs with hm
  · simp only [toRat, signed_false, hm]
    refine ⟨?_, by positivity⟩
    rw [zpow_add_one₀ (by norm_num : (2 : ℚ) ≠ 0)]
    push_cast
    ring
  · simp only [toRat, signed_false]
    refine ⟨?_, by positivity⟩
    push_cast
    ring

theorem round_zero (negative : Bool) (d : Nat) (e : Int) :
    round negative 0 d e = { mantissa := 0, exponent := 0 } := by
  simp [round]

/-- The unit roundoff of float64. -/
theorem round_bounds (n d : Nat) (e : Int) (hd : 0 < d) :
    0 ≤ (round false n d e).mantissa ∧
    (n : ℚ) / d * (2 : ℚ) ^ e * (1 - 1 / 2 ^ 53) ≤ toRat (round false n d e) ∧
    toRat (round false n d e) ≤ (n : ℚ) / d * (2 : ℚ) ^ e * (1 + 1 / 2 ^ 53) := by
  rcases Nat.eq_zero_or_pos n with hn | hn
  · subst hn
    rw [round_zero]
    simp [toRat]
  · obtain ⟨h1, h0⟩ := toRat_round n d e hn hd
    obtain ⟨s1, s2, s3, s4⟩ := scale_spec n d e hn hd
    obtain ⟨r1, r2⟩ := roundHalfEven_near_rat (scale (n + d + 53) n d e).1
      (scale (n + d + 53) n d e).2.1 s1
    refine ⟨h0, ?_, ?_⟩
    all_goals
      rw [h1, ← s4]
      generalize (scale (n + d + 53) n d e).2.2 = e' at *
      generalize hN : (scale (n + d + 53) n d e).1 = N at *
      generalize hD : (scale (n + d + 53) n d e).2.1 = D at *
      have hD' : (0 : ℚ) < D := by exact_mod_cast s1
      have hy : (2 : ℚ) ^ 52 ≤ (N : ℚ) / D := by
        rw [le_div_iff₀ hD']
        exact_mod_cast s2
      have hp : (0 : ℚ) < (2 : ℚ) ^ e' := by positivity
      have key : (1 : ℚ) / 2 ≤ (N : ℚ) / D * (1 / 2 ^ 53) := by
        have : (2 : ℚ) ^ 52 * (1 / 2 ^ 53) ≤ (N : ℚ) / D * (1 / 2 ^ 53) :=
          mul_le_mul_of_nonneg_right hy (by positivity)
        norm_num at this ⊢
        linarith
    · have : (N : ℚ) / D * (1 - 1 / 2 ^ 53) ≤ (roundHalfEven N D : ℚ) := by linarith
      calc (N : ℚ) / D * 2 ^ e' * (1 - 1 / 2 ^ 53)
          = (N : ℚ) / D * (1 - 1 / 2 ^ 53) * 2 ^ e' := by ring
        _ ≤ (roundHalfEven N D : ℚ) * 2 ^ e' := mul_le_mul_of_nonneg_right this (le_of_lt hp)
    · have : (roundHalfEven N D : ℚ) ≤ (N : ℚ) / D * (1 + 1 / 2 ^ 53) := by linarith
      calc (roundHalfEven N D : ℚ) * 2 ^ e'
          ≤ (N : ℚ) / D * (1 + 1 / 2 ^ 53) * 2 ^ e' := mul_le_mul_of_nonneg_right this (le_of_lt hp)
        _ = (N : ℚ) / D * 2 ^ e' * (1 + 1 / 2 ^ 53) := by ring

theorem Scaled_exponent (n d : Nat) (e : Int) (s : Nat × Nat × Int) (hs : Scaled n d e s)
    (K : Nat) (g : Int) (hK : K < 2 ^ 53)
    (h : (n : ℚ) / d * (2 : ℚ) ^ e ≤ (K : ℚ) * (2 : ℚ) ^ g) :
    ∃ t : Nat, g = s.2.2 + t := by
  obtain ⟨s1, s2, s3, s4⟩ := hs
  have hD' : (0 : ℚ) < s.2.1 := by exact_mod_cast s1
  have hy : (2 : ℚ) ^ 52 ≤ (s.1 : ℚ) / s.2.1 := by
    rw [le_div_iff₀ hD']
    exact_mod_cast s2
  have hp : (0 : ℚ) < (2 : ℚ) ^ s.2.2 := by positivity
  have hg : (0 : ℚ) < (2 : ℚ) ^ g := by positivity
  have h1 : (2 : ℚ) ^ 52 * (2 : ℚ) ^ s.2.2 ≤ (K : ℚ) * (2 : ℚ) ^ g := by
    calc (2 : ℚ) ^ 52 * (2 : ℚ) ^ s.2.2 ≤ (s.1 : ℚ) / s.2.1 * (2 : ℚ) ^ s.2.2 :=
          mul_le_mul_of_nonneg_right hy (le_of_lt hp)
      _ = (n : ℚ) / d * (2 : ℚ) ^ e := s4
      _ ≤ _ := h
  have hK' : (K : ℚ) < 2 ^ 53 := by exact_mod_cast hK
  have h2 : (K : ℚ) * (2 : ℚ) ^ g < 2 ^ 53 * (2 : ℚ) ^ g := mul_lt_mul_of_pos_right hK' hg
  have h3 : (2 : ℚ) ^ s.2.2 < (2 : ℚ) ^ (g + 1) := by
    rw [zpow_add_one₀ (by norm_num : (2 : ℚ) ≠ 0)]
    have : (2 : ℚ) ^ 52 * (2 : ℚ) ^ s.2.2 < 2 ^ 52 * ((2 : ℚ) ^ g * 2) := by
      calc (2 : ℚ) ^ 52 * (2 : ℚ) ^ s.2.2 < 2 ^ 53 * (2 : ℚ) ^ g := lt_of_le_of_lt h1 h2
        _ = 2 ^ 52 * ((2 : ℚ) ^ g * 2) := by ring
    exact lt_of_mul_lt_mul_left this (by positivity)
  have h4 : s.2.2 < g + 1 := (zpow_lt_zpow_iff_right₀ (by norm_num : (1 : ℚ) < 2)).mp h3
  exact ⟨(g - s.2.2).toNat, by omega⟩

theorem round_le (n d : Nat) (e : Int) (hd : 0 < d) (K : Nat) (g : Int) (hK : K < 2 ^ 53)
    (h : (n : ℚ) / d * (2 : ℚ) ^ e ≤ (K : ℚ) * (2 : ℚ) ^ g) :
    toRat (round false n d e) ≤ (K : ℚ) * (2 : ℚ) ^ g := by
  rcases Nat.eq_zero_or_pos n with hn | hn
  · subst hn
    rw [round_zero]
    simp only [toRat, Int.cast_zero, zero_mul]
    positivity
  · obtain ⟨h1, -⟩ := toRat_round n d e hn hd
    have hs := scale_spec n d e hn hd
    obtain ⟨t, ht⟩ := Scaled_exponent n d e _ hs K g hK h
    obtain ⟨s1, s2, s3, s4⟩ := hs
    rw [h1]
    rw [← s4] at h
    generalize (scale (n + d + 53) n d e).2.2 = e' at *
    generalize (scale (n + d + 53) n d e).1 = N at *
    generalize (scale (n + d + 53) n d e).2.1 = D at *
    subst ht
    have hD' : (0 : ℚ) < D := by exact_mod_cast s1
    have hp : (0 : ℚ) < (2 : ℚ) ^ e' := by positivity
    rw [zpow_add₀ (by norm_num : (2 : ℚ) ≠ 0), zpow_natCast] at h ⊢
    have h5 : (N : ℚ) / D ≤ (K : ℚ) * 2 ^ t := by
      have : (N : ℚ) / D * (2 : ℚ) ^ e' ≤ (K : ℚ) * 2 ^ t * (2 : ℚ) ^ e' := by
        calc (N : ℚ) / D * (2 : ℚ) ^ e' ≤ (K : ℚ) * ((2 : ℚ) ^ e' * 2 ^ t) := h
          _ = (K : ℚ) * 2 ^ t * (2 : ℚ) ^ e' := by ring
      exact le_of_mul_le_mul_right this hp
    have h6 : N ≤ K * 2 ^ t * D := by
      rw [div_le_iff₀ hD'] at h5
      exact_mod_cast h5
    have h7 := roundHalfEven_le N D (K * 2 ^ t) s1 h6
    have h8 : (roundHalfEven N D : ℚ) ≤ (K : ℚ) * 2 ^ t := by exact_mod_cast h7
    calc (roundHalfEven N D : ℚ) * (2 : ℚ) ^ e' ≤ (K : ℚ) * 2 ^ t * (2 : ℚ) ^ e' :=
          mul_le_mul_of_nonneg_right h8 (le_of_lt hp)
      _ = (K : ℚ) * ((2 : ℚ) ^ e' * 2 ^ t) := by ring

theorem round_exact (n d : Nat) (e : Int) (hd : 0 < d) (K : Nat) (g : Int) (hK : K < 2 ^ 53)
    (h : (n : ℚ) / d * (2 : ℚ) ^ e = (K : ℚ) * (2 : ℚ) ^ g) :
    toRat (round false n d e) = (K : ℚ) * (2 : ℚ) ^ g := by
  rcases Nat.eq_zero_or_pos n with hn | hn
  · subst hn
    rw [round_zero, ← h]
    simp [toRat]
  · obtain ⟨h1, -⟩ := toRat_round n d e hn hd
    have hs := scale_spec n d e hn hd
    obtain ⟨t, ht⟩ := Scaled_exponent n d e _ hs K g hK (le_of_eq h)
    obtain ⟨s1, s2, s3, s4⟩ := hs
    rw [h1]
    rw [← s4] at h
    generalize (scale (n + d + 53) n d e).2.2 = e' at *
    generalize (scale (n + d + 53) n d e).1 = N at *
    generalize (scale (n + d + 53) n d e).2.1 = D at *
    subst ht
    have hD' : (0 : ℚ) < D := by exact_mod_cast s1
    have hp : (0 : ℚ) < (2 : ℚ) ^ e' := by positivity
    rw [zpow_add₀ (by norm_num : (2 : ℚ) ≠ 0), zpow_natCast] at h ⊢
    have h5 : (N : ℚ) / D = (K : ℚ) * 2 ^ t := by
      have : (N : ℚ) / D * (2 : ℚ) ^ e' = (K : ℚ) * 2 ^ t * (2 : ℚ) ^ e' := by
        rw [h]; ring
      exact mul_right_cancel₀ (ne_of_gt hp) this
    have h6 : N = K * 2 ^ t * D := by
      rw [div_eq_iff (ne_of_gt hD')] at h5
      exact_mod_cast h5
    rw [h6, roundHalfEven_mul _ _ s1]
    push_cast
    ring

theorem ofInt_of_nonneg (z : Int) (hz : 0 ≤ z) : ofInt z = round false z.toNat 1 0 := by
  unfold ofInt
  have h1 : decide (z < 0) = false := by simp [hz]
  have h2 : z.natAbs = z.toNat := by omega
  rw [h1, h2]

theorem toNat_cast_rat (z : Int) (hz : 0 ≤ z) : ((z.toNat : Nat) : ℚ) = (z : ℚ) := by
  have : ((z.toNat : Nat) : Int) = z := Int.toNat_of_nonneg hz
  exact_mod_cast this

theorem ofInt_bounds (z : Int) (hz : 0 ≤ z) :
    0 ≤ (ofInt z).mantissa ∧
    (z : ℚ) * (1 - 1 / 2 ^ 53) ≤ toRat (ofInt z) ∧
    toRat (ofInt z) ≤ (z : ℚ) * (1 + 1 / 2 ^ 53) := by
  rw [ofInt_of_nonneg z hz]
  have h := round_bounds z.toNat 1 0 (by norm_num)
  simpa [toNat_cast_rat z hz] using h

theorem ofInt_exact (z : Int) (hz : 0 ≤ z) (hlt : z < 2 ^ 53) :
    toRat (ofInt z) = (z : ℚ) := by
  rw [ofInt_of_nonneg z hz]
  have h := round_exact z.toNat 1 0 (by norm_num) z.toNat 0 (by omega) (by simp)
  simpa [toNat_cast_rat z hz] using h

theorem toRat_nonneg (x : float64) (h : 0 ≤ x.mantissa) : 0 ≤ toRat x := by
  unfold toRat
  have : (0 : ℚ) ≤ (x.mantissa : ℚ) := by exact_mod_cast h
  positivity

theorem mantissa_pos (x : float64) (h : 0 < toRat x) : 0 < x.mantissa := by
  unfold toRat at h
  have hp : (0 : ℚ) < (2 : ℚ) ^ x.exponent := by positivity
  have : (0 : ℚ) < (x.mantissa : ℚ) := pos_of_mul_pos_left h (le_of_lt hp)
  exact_mod_cast this

theorem ofInt_pos (z : Int) (hz : 0 < z) : 0 < (ofInt z).mantissa := by
  apply mantissa_pos
  obtain ⟨-, h, -⟩ := ofInt_bounds z (le_of_lt hz)
  have : (0 : ℚ) < (z : ℚ) := by exact_mod_cast hz
  have h2 : (0 : ℚ) < (z : ℚ) * (1 - 1 / 2 ^ 53) := by
    apply mul_pos this
    norm_num
  linarith

theorem div_of_nonneg (x y : float64) (hx : 0 ≤ x.mantissa) (hy : 0 < y.mantissa) :
    div x y = round false x.mantissa.toNat y.mantissa.toNat (x.exponent - y.exponent) ∧
    (x.mantissa.toNat : ℚ) / (y.mantissa.toNat : ℚ) * (2 : ℚ) ^ (x.exponent - y.exponent)
      = toRat x / toRat y := by
  constructor
  · unfold div
    have h1 : decide (x.mantissa < 0) = false := by simp [hx]
    have h2 : decide (y.mantissa < 0) = false := by simp [le_of_lt hy]
    have h3 : x.mantissa.natAbs = x.mantissa.toNat := by omega
    have h4 : y.mantissa.natAbs = y.mantissa.toNat := by omega
    rw [h1, h2, h3, h4]
    rfl
  · rw [toNat_cast_rat _ hx, toNat_cast_rat _ (le_of_lt hy)]
    unfold toRat
    have hy' : (y.mantissa : ℚ) ≠ 0 := by
      have : (0 : ℚ) < (y.mantissa : ℚ) := by exact_mod_cast hy
      exact ne_of_gt this
    rw [zpow_sub₀ (by norm_num : (2 : ℚ) ≠ 0)]
    field_simp

theorem div_bounds (x y : float64) (hx : 0 ≤ x.mantissa) (hy : 0 < y.mantissa) :
    0 ≤ (div x y).mantissa ∧
    toRat x / toRat y * (1 - 1 / 2 ^ 53) ≤ toRat (div x y) ∧
    toRat (div x y) ≤ toRat x / toRat y * (1 + 1 / 2 ^ 53) := by
  obtain ⟨h1, h2⟩ := div_of_nonneg x y hx hy
  rw [h1, ← h2]
  exact round_bounds _ _ _ (by omega)

theorem div_le (x y : float64) (hx : 0 ≤ x.mantissa) (hy : 0 < y.mantissa) (K : Nat)
    (g : Int) (hK : K < 2 ^ 53) (h : toRat x / toRat y ≤ (K : ℚ) * (2 : ℚ) ^ g) :
    toRat (div x y) ≤ (K : ℚ) * (2 : ℚ) ^ g := by
  obtain ⟨h1, h2⟩ := div_of_nonneg x y hx hy
  rw [h1]
  rw [← h2] at h
  exact round_le _ _ _ (by omega) K g hK h

theorem mul_of_nonneg (x y : float64) (hx : 0 ≤ x.mantissa) (hy : 0 ≤ y.mantissa) :
    mul x y = round false (x.mantissa.toNat * y.mantissa.toNat) 1 (x.exponent + y.exponent) ∧
    ((x.mantissa.toNat * y.mantissa.toNat : Nat) : ℚ) / ((1 : Nat) : ℚ)
        * (2 : ℚ) ^ (x.exponent + y.exponent)
      = toRat x * toRat y := by
  constructor
  · unfold mul
    have h1 : decide (x.mantissa < 0) = false := by simp [hx]
    have h2 : decide (y.mantissa < 0) = false := by simp [hy]
    have h3 : x.mantissa.natAbs = x.mantissa.toNat := by omega
    have h4 : y.mantissa.natAbs = y.mantissa.toNat := by omega
    rw [h1, h2, h3, h4]
    rfl
  · push_cast
    rw [toNat_cast_rat _ hx, toNat_cast_rat _ hy]
    unfold toRat
    rw [zpow_add₀ (by norm_num : (2 : ℚ) ≠ 0)]
    ring

theorem mul_bounds (x y : float64) (hx : 0 ≤ x.mantissa) (hy : 0 ≤ y.mantissa) :
    0 ≤ (mul x y).mantissa ∧
    toRat x * toRat y * (1 - 1 / 2 ^ 53) ≤ toRat (mul x y) ∧
    toRat (mul x y) ≤ toRat x * toRat y * (1 + 1 / 2 ^ 53) := by
  obtain ⟨h1, h2⟩ := mul_of_nonneg x y hx hy
  rw [h1, ← h2]
  exact round_bounds _ _ _ (by norm_num)

theorem toInt_of_nonneg (x : float64) (hx : 0 ≤ x.mantissa)
    (hlt : toRat x < 9223372036854775808) : toInt x = ⌊toRat x⌋ := by
  have key : (if 0 ≤ x.exponent then x.mantissa * 2 ^ x.exponent.toNat
      else signed (decide (x.mantissa < 0)) (x.mantissa.natAbs / 2 ^ (-x.exponent).toNat))
      = ⌊toRat x⌋ := by
    by_cases he : 0 ≤ x.exponent
    · rw [if_pos he]
      have : toRat x = ((x.mantissa * 2 ^ x.exponent.toNat : Int) : ℚ) := by
        unfold toRat
        push_cast
        congr 1
        rw [← zpow_natCast]
        congr 1
        exact (Int.toNat_of_nonneg he).symm
      rw [this, Int.floor_intCast]
    · rw [if_neg he]
      have h1 : decide (x.mantissa < 0) = false := by simp [hx]
      rw [h1, signed_false]
      have h3 : x.mantissa.natAbs = x.mantissa.toNat := by omega
      rw [h3]
      have : toRat x = ((x.mantissa.toNat : Nat) : ℚ) / ((2 ^ (-x.exponent).toNat : Nat) : ℚ) := by
        unfold toRat
        rw [toNat_cast_rat _ hx]
        have hexp : x.exponent = -(((-x.exponent).toNat : Nat) : Int) := by omega
        generalize (-x.exponent).toNat = k at hexp
        rw [hexp, zpow_neg, zpow_natCast]
        push_cast
        rfl
      rw [this, ← Int.natCast_floor_eq_floor (by positivity), Nat.floor_div_eq_div]
  unfold toInt
  dsimp only
  rw [key]
  have h0 : (0 : ℤ) ≤ ⌊toRat x⌋ := Int.floor_nonneg.mpr (toRat_nonneg x hx)
  have h1 : ⌊toRat x⌋ < 9223372036854775808 := by
    rw [Int.floor_lt]
    exact_mod_cast hlt
  rw [if_pos ⟨by omega, h1⟩]

theorem Truncate_product (W S : Int) (hW : 0 ≤ W) (hS : 0 < S) :
    0 ≤ (mul (div (ofInt W) (ofInt S)) (ofInt 100)).mantissa ∧
    toRat (ofInt W) / toRat (ofInt S) * 100 * ((1 - 1 / 2 ^ 53) * (1 - 1 / 2 ^ 53))
      ≤ toRat (mul (div (ofInt W) (ofInt S)) (ofInt 100)) ∧
    toRat (mul (div (ofInt W) (ofInt S)) (ofInt 100))
      ≤ toRat (ofInt W) / toRat (ofInt S) * 100 * ((1 + 1 / 2 ^ 53) * (1 + 1 / 2 ^ 53)) := by
  obtain ⟨a0, -, -⟩ := ofInt_bounds W hW
  have b0 := ofInt_pos S hS
  obtain ⟨q0, q1, q2⟩ := div_bounds (ofInt W) (ofInt S) a0 b0
  obtain ⟨c0, -, -⟩ := ofInt_bounds 100 (by norm_num)
  have c1 : toRat (ofInt 100) = 100 := by
    have := ofInt_exact 100 (by norm_num) (by norm_num)
    simpa using this
  obtain ⟨p0, p1, p2⟩ := mul_bounds (div (ofInt W) (ofInt S)) (ofInt 100) q0 c0
  rw [c1] at p1 p2
  refine ⟨p0, ?_, ?_⟩
  · have h : toRat (ofInt W) / toRat (ofInt S) * (1 - 1 / 2 ^ 53) * 100 * (1 - 1 / 2 ^ 53)
        ≤ toRat (div (ofInt W) (ofInt S)) * 100 * (1 - 1 / 2 ^ 53) := by
      apply mul_le_mul_of_nonneg_right _ (by norm_num)
      apply mul_le_mul_of_nonneg_right q1 (by norm_num)
    calc _ = toRat (ofInt W) / toRat (ofInt S) * (1 - 1 / 2 ^ 53) * 100 * (1 - 1 / 2 ^ 53) := by
          ring
      _ ≤ _ := h
      _ ≤ _ := p1
  · have h : toRat (div (ofInt W) (ofInt S)) * 100 * (1 + 1 / 2 ^ 53)
        ≤ toRat (ofInt W) / toRat (ofInt S) * (1 + 1 / 2 ^ 53) * 100 * (1 + 1 / 2 ^ 53) := by
      apply mul_le_mul_of_nonneg_right _ (by norm_num)
      apply mul_le_mul_of_nonneg_right q2 (by norm_num)
    calc _ ≤ _ := p2
      _ ≤ _ := h
      _ = _ := by ring

/-- The score of a weighted sum between 0 and 100 times the weight sum lies between 0 and
100. -/
theorem Truncate_range (W S : Int) (hW : 0 ≤ W) (hS : 0 < S) (hWS : W ≤ 100 * S) :
    0 ≤ toRat (Truncate (div (ofInt W) (ofInt S))) ∧
    toRat (Truncate (div (ofInt W) (ofInt S))) ≤ 100 := by
  obtain ⟨p0, -, p2⟩ := Truncate_product W S hW hS
  obtain ⟨a0, -, a2⟩ := ofInt_bounds W hW
  obtain ⟨-, b1, -⟩ := ofInt_bounds S (le_of_lt hS)
  have b0 := ofInt_pos S hS
  have hSq : (0 : ℚ) < (S : ℚ) := by exact_mod_cast hS
  have hWSq : (W : ℚ) ≤ 100 * (S : ℚ) := by exact_mod_cast hWS
  have hB : (0 : ℚ) < toRat (ofInt S) := by
    have : (0 : ℚ) < (S : ℚ) * (1 - 1 / 2 ^ 53) := mul_pos hSq (by norm_num)
    linarith
  have hratio : toRat (ofInt W) / toRat (ofInt S)
      ≤ 100 * (1 + 1 / 2 ^ 53) / (1 - 1 / 2 ^ 53) := by
    rw [div_le_iff₀ hB]
    have h1 : (100 : ℚ) * (1 + 1 / 2 ^ 53) / (1 - 1 / 2 ^ 53) * ((S : ℚ) * (1 - 1 / 2 ^ 53))
        ≤ 100 * (1 + 1 / 2 ^ 53) / (1 - 1 / 2 ^ 53) * toRat (ofInt S) :=
      mul_le_mul_of_nonneg_left b1 (by norm_num)
    have h2 : (100 : ℚ) * (1 + 1 / 2 ^ 53) / (1 - 1 / 2 ^ 53) * ((S : ℚ) * (1 - 1 / 2 ^ 53))
        = 100 * (S : ℚ) * (1 + 1 / 2 ^ 53) := by
      field_simp
      ring
    have h3 : (W : ℚ) * (1 + 1 / 2 ^ 53) ≤ 100 * (S : ℚ) * (1 + 1 / 2 ^ 53) :=
      mul_le_mul_of_nonneg_right hWSq (by norm_num)
    linarith
  have hP : toRat (mul (div (ofInt W) (ofInt S)) (ofInt 100)) < 10001 := by
    have h1 : toRat (ofInt W) / toRat (ofInt S) * 100 * ((1 + 1 / 2 ^ 53) * (1 + 1 / 2 ^ 53))
        ≤ 100 * (1 + 1 / 2 ^ 53) / (1 - 1 / 2 ^ 53) * 100
          * ((1 + 1 / 2 ^ 53) * (1 + 1 / 2 ^ 53)) := by
      apply mul_le_mul_of_nonneg_right _ (by norm_num)
      apply mul_le_mul_of_nonneg_right hratio (by norm_num)
    have h2 : (100 : ℚ) * (1 + 1 / 2 ^ 53) / (1 - 1 / 2 ^ 53) * 100
          * ((1 + 1 / 2 ^ 53) * (1 + 1 / 2 ^ 53)) < 10001 := by norm_num
    linarith
  have hj := toInt_of_nonneg _ p0 (lt_trans hP (by norm_num))
  have hj0 : 0 ≤ toInt (mul (div (ofInt W) (ofInt S)) (ofInt 100)) := by
    rw [hj]
    exact Int.floor_nonneg.mpr (toRat_nonneg _ p0)
  have hj1 : toInt (mul (div (ofInt W) (ofInt S)) (ofInt 100)) ≤ 10000 := by
    rw [hj]
    have : ⌊toRat (mul (div (ofInt W) (ofInt S)) (ofInt 100))⌋ < 10001 := by
      rw [Int.floor_lt]
      exact_mod_cast hP
    omega
  unfold Truncate
  generalize toInt (mul (div (ofInt W) (ofInt S)) (ofInt 100)) = j at hj0 hj1
  obtain ⟨j0, -, -⟩ := ofInt_bounds j hj0
  have j1 := ofInt_exact j hj0 (by omega)
  have c0 := ofInt_pos 100 (by norm_num)
  have c1 : toRat (ofInt 100) = 100 := by
    have := ofInt_exact 100 (by norm_num) (by norm_num)
    simpa using this
  obtain ⟨r0, -, -⟩ := div_bounds (ofInt j) (ofInt 100) j0 c0
  refine ⟨toRat_nonneg _ r0, ?_⟩
  have := div_le (ofInt j) (ofInt 100) j0 c0 100 0 (by norm_num) (by
    rw [j1, c1]
    have : (j : ℚ) ≤ 10000 := by exact_mod_cast hj1
    rw [div_le_iff₀ (by norm_num)]
    norm_num
    linarith)
  simpa using this

/-- The hundredths of the score of a weighted sum `W` and a weight sum `S` that float64
holds exactly: the integer part of `100 * W / S`, or one less. -/
theorem Truncate_near (W S : Int) (hW : 0 ≤ W) (hS : 0 < S) (hSb : S < 2 ^ 53)
    (hWb : 300 * W ≤ 2 ^ 53) :
    0 ≤ toInt (mul (div (ofInt W) (ofInt S)) (ofInt 100)) ∧
    toInt (mul (div (ofInt W) (ofInt S)) (ofInt 100)) ≤ 100 * W / S ∧
    100 * W / S - 1 ≤ toInt (mul (div (ofInt W) (ofInt S)) (ofInt 100)) := by
  obtain ⟨p0, p1, p2⟩ := Truncate_product W S hW hS
  have hA := ofInt_exact W hW (by omega)
  have hB := ofInt_exact S (le_of_lt hS) hSb
  rw [hA, hB] at p1 p2
  have hSq : (0 : ℚ) < (S : ℚ) := by exact_mod_cast hS
  have hS1 : (1 : ℚ) ≤ (S : ℚ) := by exact_mod_cast hS
  have hWq : (0 : ℚ) ≤ (W : ℚ) := by exact_mod_cast hW
  have hWbq : 300 * (W : ℚ) ≤ 2 ^ 53 := by exact_mod_cast hWb
  have hk1 : 100 * W / S * S ≤ 100 * W := Int.ediv_mul_le _ (ne_of_gt hS)
  have hk2 : 100 * W < (100 * W / S + 1) * S := Int.lt_ediv_add_one_mul_self _ hS
  generalize 100 * W / S = k at hk1 hk2 ⊢
  have hk1q : (k : ℚ) * S ≤ 100 * W := by exact_mod_cast hk1
  have hk2q : 100 * (W : ℚ) + 1 ≤ ((k : ℚ) + 1) * S := by
    have : 100 * W + 1 ≤ (k + 1) * S := by omega
    exact_mod_cast this
  have hxW : (W : ℚ) / S ≤ W := div_le_self hWq hS1
  have hx0 : (0 : ℚ) ≤ (W : ℚ) / S := div_nonneg hWq (le_of_lt hSq)
  have hxS : (W : ℚ) / S * S = W := div_mul_cancel₀ _ (ne_of_gt hSq)
  generalize hx : (W : ℚ) / S = x at p1 p2 hxW hx0 hxS
  generalize hP : toRat (mul (div (ofInt W) (ofInt S)) (ofInt 100)) = P at p1 p2
  have hPlt : P < (k : ℚ) + 1 := by
    have h1 : P * S ≤ x * 100 * ((1 + 1 / 2 ^ 53) * (1 + 1 / 2 ^ 53)) * S :=
      mul_le_mul_of_nonneg_right p2 (le_of_lt hSq)
    have h2 : x * 100 * ((1 + 1 / 2 ^ 53) * (1 + 1 / 2 ^ 53)) * S
        = 100 * (W : ℚ) * ((1 + 1 / 2 ^ 53) * (1 + 1 / 2 ^ 53)) := by
      rw [← hxS]; ring
    have h3 : 100 * (W : ℚ) * ((1 + 1 / 2 ^ 53) * (1 + 1 / 2 ^ 53)) < 100 * (W : ℚ) + 1 := by
      norm_num
      linarith
    have h4 : P * S < ((k : ℚ) + 1) * S := by linarith
    exact lt_of_mul_lt_mul_right h4 (le_of_lt hSq)
  have hPge : (k : ℚ) - 1 ≤ P := by
    have h1 : (k : ℚ) ≤ 100 * x := by
      have : (k : ℚ) * S ≤ 100 * x * S := by
        rw [mul_assoc, hxS]; exact hk1q
      exact le_of_mul_le_mul_right this hSq
    have h2 : x * 100 * ((1 - 1 / 2 ^ 53) * (1 - 1 / 2 ^ 53)) ≥ 100 * x - 1 := by
      norm_num
      linarith
    linarith
  have hlt63 : P < 9223372036854775808 := by
    have : (k : ℚ) * 1 ≤ (k : ℚ) * S ∨ (k : ℚ) < 0 := by
      by_cases hk0 : (0 : ℚ) ≤ k
      · left; exact mul_le_mul_of_nonneg_left hS1 hk0
      · right; linarith
    rcases this with h | h <;> linarith
  have hj := toInt_of_nonneg _ p0 (by rw [hP]; exact hlt63)
  rw [hP] at hj
  rw [hj]
  have p0' : (0 : ℚ) ≤ P := by rw [← hP]; exact toRat_nonneg _ p0
  refine ⟨Int.floor_nonneg.mpr p0', ?_, ?_⟩
  · have : ⌊P⌋ < k + 1 := by
      rw [Int.floor_lt]
      exact_mod_cast hPlt
    omega
  · rw [Int.le_floor]
    exact_mod_cast hPge

end float64

/-! ## Resiliency score -/

/-- Counterexample to C13 as stated. First part: the weights 29 and 71 and one node of
fault A at 1 percent give `W = 29` and `S = 100`; `W / S` truncated to two decimals is
0.29, and the scorer returns the float64 nearest to 0.28, because the float64 quotient
29 / 100 times 100 is just below 29. Second part: the weight 2 and a node at
9223372036854775808 percent, a number `Atoi` cuts down to the largest 64-bit integer; the
product wraps around to -2 and the scorer returns -1. -/
theorem resiliency_score_counterexample :
    weightedSum (sampleRunEnv (storedExperiment percentWeights))
      (declaredWeights (recordedWeightages onePercentRun.RevisionID
        (storedExperiment percentWeights).Revision)) onePercentRun.Nodes = 29 ∧
    sumWeights (recordedWeightages onePercentRun.RevisionID
      (storedExperiment percentWeights).Revision) = 100 ∧
    (ProcessCompletedExperimentRun (sampleRunEnv (storedExperiment percentWeights))
      onePercentRun "exp-1" "run-1").1.ResiliencyScore
      = 5044031582654956 / 18014398509481984 ∧
    (ProcessCompletedExperimentRun (sampleRunEnv (storedExperiment percentWeights))
      onePercentRun "exp-1" "run-1").1.ResiliencyScore < 29 / 100 ∧
    ⌊(ProcessCompletedExperimentRun (sampleRunEnv (storedExperiment percentWeights))
      onePercentRun "exp-1" "run-1").1.ResiliencyScore * 100⌋ = 28 ∧
    AtoiValue "9223372036854775808" = 9223372036854775807 ∧
    weightedSum (sampleRunEnv (storedExperiment doubleWeight))
      (declaredWeights (recordedWeightages hugePercentRun.RevisionID
        (storedExperiment doubleWeight).Revision)) hugePercentRun.Nodes
      = 18446744073709551614 ∧
    sumWeights (recordedWeightages hugePercentRun.RevisionID
      (storedExperiment doubleWeight).Revision) = 2 ∧
    (ProcessCompletedExperimentRun (sampleRunEnv (storedExperiment doubleWeight))
      hugePercentRun "exp-1" "run-1").1.ResiliencyScore = -1 := by
  have hscore : (ProcessCompletedExperimentRun (sampleRunEnv (storedExperiment percentWeights))
      onePercentRun "exp-1" "run-1").1.ResiliencyScore
      = 5044031582654956 / 18014398509481984 := by
    rw [ProcessCompletedExperimentRun_score _ onePercentRun "exp-1" "run-1"
      (storedExperiment percentWeights) (by decide) (sampleRunEnv_ranges _ _)]
    have hW : wrapInt (weightedSum (sampleRunEnv (storedExperiment percentWeights))
        (declaredWeights (recordedWeightages onePercentRun.RevisionID
          (storedExperiment percentWeights).Revision)) onePercentRun.Nodes) = 29 := by decide
    have hS : wrapInt (sumWeights (recordedWeightages onePercentRun.RevisionID
        (storedExperiment percentWeights).Revision)) = 100 := by decide
    rw [hW, hS]
    have hT : Truncate (float64.div (float64.ofInt 29) (float64.ofInt 100))
        = { mantissa := 5044031582654956, exponent := -54 } := by decide
    rw [hT]
    norm_num [float64.toRat]
  have hwrap : (ProcessCompletedExperimentRun (sampleRunEnv (storedExperiment doubleWeight))
      hugePercentRun "exp-1" "run-1").1.ResiliencyScore = -1 := by
    rw [ProcessCompletedExperimentRun_score _ hugePercentRun "exp-1" "run-1"
      (storedExperiment doubleWeight) (by decide) (sampleRunEnv_ranges _ _)]
    have hW : wrapInt (weightedSum (sampleRunEnv (storedExperiment doubleWeight))
        (declaredWeights (recordedWeightages hugePercentRun.RevisionID
          (storedExperiment doubleWeight).Revision)) hugePercentRun.Nodes) = -2 := by decide
    have hS : wrapInt (sumWeights (recordedWeightages hugePercentRun.RevisionID
        (storedExperiment doubleWeight).Revision)) = 2 := by decide
    rw [hW, hS]
    have hT : Truncate (float64.div (float64.ofInt (-2)) (float64.ofInt 2))
        = { mantissa := -4503599627370496, exponent := -52 } := by decide
    rw [hT]
    norm_num [float64.toRat]
  refine ⟨by decide, by decide, hscore, ?_, ?_, by decide, by decide, by decide, hwrap⟩
  · rw [hscore]
    norm_num
  · rw [hscore, Int.floor_eq_iff]
    norm_num

/-- C13, amended (the helper `utils.Truncate` is modelled from the spec): when the
experiment lookup succeeds and the weight sum `S` of the revisions whose id is that of the
run, taken in Go's 64-bit arithmetic, is not 0, `ProcessCompletedExperimentRun` succeeds
with the score `float64(int(q * 100)) / 100`, where `q` is the float64 quotient of `W` and
`S` taken in Go's 64-bit arithmetic; `W` is the sum over the nodes of type ChaosEngine
that carry fault data and are matched to a weight-table entry of that entry's weight times
the integer `Atoi` yields for the probe success percentage (0 when it is not a number, the
nearest 64-bit bound when it is out of range), nodes matched to no entry adding nothing.
When `0 ≤ W`, `300 * W ≤ 2 ^ 53` and `0 < S < 2 ^ 53`, the score is the float64 quotient
of `j` and 100, within one part in `2 ^ 53` of `j / 100`, where `j` is the integer part of
`100 * W / S` or one less. The range over the weight map is assumed to visit every key. -/
theorem resiliency_score (env : RunEnv) (execData : ExecutionData) (wfID runID : String)
    (exp : dbChaosExperiment.ChaosExperimentRequest)
    (hget : env.GetExperiment wfID = .ok exp)
    (hk : RangesOverKeys env
      (declaredWeights (recordedWeightages execData.RevisionID exp.Revision)))
    (hS : wrapInt (sumWeights (recordedWeightages execData.RevisionID exp.Revision)) ≠ 0) :
    (ProcessCompletedExperimentRun env execData wfID runID).2 = .ok () ∧
    (ProcessCompletedExperimentRun env execData wfID runID).1.ResiliencyScore
      = (Truncate
          (float64.div
            (float64.ofInt (wrapInt (weightedSum env
              (declaredWeights (recordedWeightages execData.RevisionID exp.Revision))
              execData.Nodes)))
            (float64.ofInt
              (wrapInt (sumWeights
                (recordedWeightages execData.RevisionID exp.Revision)))))).toRat ∧
    (0 ≤ weightedSum env
        (declaredWeights (recordedWeightages execData.RevisionID exp.Revision))
        execData.Nodes →
      300 * weightedSum env
        (declaredWeights (recordedWeightages execData.RevisionID exp.Revision))
        execData.Nodes ≤ 2 ^ 53 →
      0 < sumWeights (recordedWeightages execData.RevisionID exp.Revision) →
      sumWeights (recordedWeightages execData.RevisionID exp.Revision) < 2 ^ 53 →
      ∃ j : Int,
        (j = 100 * weightedSum env
            (declaredWeights (recordedWeightages execData.RevisionID exp.Revision))
            execData.Nodes
            / sumWeights (recordedWeightages execData.RevisionID exp.Revision) ∨
         j = 100 * weightedSum env
            (declaredWeights (recordedWeightages execData.RevisionID exp.Revision))
            execData.Nodes
            / sumWeights (recordedWeightages execData.RevisionID exp.Revision) - 1) ∧
        0 ≤ j ∧
        (ProcessCompletedExperimentRun env execData wfID runID).1.ResiliencyScore
          = (float64.div (float64.ofInt j) (float64.ofInt 100)).toRat ∧
        (j : ℚ) / 100 * (1 - 1 / 2 ^ 53)
          ≤ (ProcessCompletedExperimentRun env execData wfID runID).1.ResiliencyScore ∧
        (ProcessCompletedExperimentRun env execData wfID runID).1.ResiliencyScore
          ≤ (j : ℚ) / 100 * (1 + 1 / 2 ^ 53)) := by
  have hscore := ProcessCompletedExperimentRun_score env execData wfID runID exp hget hk
  rw [if_pos hS] at hscore
  refine ⟨(ProcessCompletedExperimentRun_found env execData wfID runID exp hget).1, hscore, ?_⟩
  intro hW0 hWb hS0 hSb
  rw [hscore]
  generalize weightedSum env
    (declaredWeights (recordedWeightages execData.RevisionID exp.Revision))
    execData.Nodes = W at hW0 hWb ⊢
  generalize sumWeights (recordedWeightages execData.RevisionID exp.Revision) = S
    at hS0 hSb ⊢
  rw [wrapInt_of_range W (by omega) (by omega), wrapInt_of_range S (by omega) (by omega)]
  obtain ⟨j0, j1, j2⟩ := float64.Truncate_near W S hW0 hS0 hSb hWb
  have hkW : 100 * W / S ≤ 100 * W :=
    Int.ediv_le_self _ (by omega)
  refine ⟨float64.toInt (float64.mul (float64.div (float64.ofInt W) (float64.ofInt S))
    (float64.ofInt 100)), by omega, j0, rfl, ?_⟩
  unfold Truncate
  generalize float64.toInt (float64.mul (float64.div (float64.ofInt W) (float64.ofInt S))
    (float64.ofInt 100)) = j at j0 j1 j2 ⊢
  obtain ⟨a0, -, -⟩ := float64.ofInt_bounds j j0
  have a1 := float64.ofInt_exact j j0 (by omega)
  have c0 := float64.ofInt_pos 100 (by norm_num)
  have c1 : float64.toRat (float64.ofInt 100) = 100 := by
    have := float64.ofInt_exact 100 (by norm_num) (by norm_num)
    simpa using this
  obtain ⟨-, r1, r2⟩ := float64.div_bounds (float64.ofInt j) (float64.ofInt 100) a0 c0
  rw [a1, c1] at r1 r2
  exact ⟨r1, r2⟩

/-- Witness of C13: the run of one node at 1 percent against the weights 29 and 71, where
the hundredths of the score are 28, one less than the integer part of `100 * W / S`. -/
theorem resiliency_score_witness :
    weightedSum (sampleRunEnv (storedExperiment percentWeights))
      (declaredWeights (recordedWeightages onePercentRun.RevisionID
        (storedExperiment percentWeights).Revision)) onePercentRun.Nodes = 29 ∧
    sumWeights (recordedWeightages onePercentRun.RevisionID
      (storedExperiment percentWeights).Revision) = 100 ∧
    ∃ j : Int,
      (j = 100 * weightedSum (sampleRunEnv (storedExperiment percentWeights))
          (declaredWeights (recordedWeightages onePercentRun.RevisionID
            (storedExperiment percentWeights).Revision)) onePercentRun.Nodes
          / sumWeights (recordedWeightages onePercentRun.RevisionID
            (storedExperiment percentWeights).Revision) ∨
       j = 100 * weightedSum (sampleRunEnv (storedExperiment percentWeights))
          (declaredWeights (recordedWeightages onePercentRun.RevisionID
            (storedExperiment percentWeights).Revision)) onePercentRun.Nodes
          / sumWeights (recordedWeightages onePercentRun.RevisionID
            (storedExperiment percentWeights).Revision) - 1) ∧
      0 ≤ j ∧
      (ProcessCompletedExperimentRun (sampleRunEnv (storedExperiment percentWeights))
        onePercentRun "exp-1" "run-1").1.ResiliencyScore
        = (float64.div (float64.ofInt j) (float64.ofInt 100)).toRat ∧
      (j : ℚ) / 100 * (1 - 1 / 2 ^ 53)
        ≤ (ProcessCompletedExperimentRun (sampleRunEnv (storedExperiment percentWeights))
          onePercentRun "exp-1" "run-1").1.ResiliencyScore ∧
      (ProcessCompletedExperimentRun (sampleRunEnv (storedExperiment percentWeights))
        onePercentRun "exp-1" "run-1").1.ResiliencyScore
        ≤ (j : ℚ) / 100 * (1 + 1 / 2 ^ 53) :=
  ⟨by decide, by decide,
   (resiliency_score (sampleRunEnv (storedExperiment percentWeights)) onePercentRun "exp-1"
     "run-1" (storedExperiment percentWeights) (by decide) (sampleRunEnv_ranges _ _)
     (by decide)).2.2 (by decide) (by decide) (by decide) (by decide)⟩

theorem sumWeights_zero (ws : List WeightagesInput) (h : ∀ e ∈ ws, e.Weightage = 0) :
    sumWeights ws = 0 := by
  induction ws with
  | nil => rfl
  | cons x rest ih =>
    have hx := h x (List.mem_cons_self _ _)
    have hr := ih (fun e he => h e (List.mem_cons_of_mem _ he))
    simp only [sumWeights, List.map_cons, List.sum_cons] at hr ⊢
    rw [hx, hr]
    rfl

theorem ProcessCompletedExperimentRun_unscored (env : RunEnv) (execData : ExecutionData)
    (wfID runID : String) (exp : dbChaosExperiment.ChaosExperimentRequest)
    (hget : env.GetExperiment wfID = .ok exp)
    (hS : wrapInt (sumWeights (recordedWeightages execData.RevisionID exp.Revision)) = 0) :
    (ProcessCompletedExperimentRun env execData wfID runID).1.ResiliencyScore = 0 := by
  unfold ProcessCompletedExperimentRun
  simp only [hget, collectWeights_eq, hS]
  obtain ⟨-, -, -, -, -, -, i7⟩ := scoreNodes_tallies env
    (declaredWeights (recordedWeightages execData.RevisionID exp.Revision)) execData.Nodes 0
    { ResiliencyScore := 0
      TotalExperiments :=
        (declaredWeights (recordedWeightages execData.RevisionID exp.Revision)).length
      FaultsPassed := 0, FaultsFailed := 0, FaultsAwaited := 0, FaultsStopped := 0,
      FaultsNA := 0 }
  simp only [zeroMetrics, ne_eq, not_true_eq_false, if_false, i7]

/-- C15: when the experiment lookup succeeds and the weight sum is 0, because every weight
recorded on the revisions whose id is that of the run is 0 (an empty weight table and a
run matching no revision included) or because the 64-bit sum is 0,
`ProcessCompletedExperimentRun` takes the branch without division: it returns no error
and a resiliency score of exactly 0. -/
theorem zero_weight_guard (env : RunEnv) (execData : ExecutionData) (wfID runID : String)
    (exp : dbChaosExperiment.ChaosExperimentRequest)
    (hget : env.GetExperiment wfID = .ok exp)
    (hzero : (∀ e ∈ recordedWeightages execData.RevisionID exp.Revision, e.Weightage = 0) ∨
      wrapInt (sumWeights (recordedWeightages execData.RevisionID exp.Revision)) = 0) :
    (ProcessCompletedExperimentRun env execData wfID runID).2 = .ok () ∧
    (ProcessCompletedExperimentRun env execData wfID runID).1.ResiliencyScore = 0 := by
  refine ⟨(ProcessCompletedExperimentRun_found env execData wfID runID exp hget).1, ?_⟩
  apply ProcessCompletedExperimentRun_unscored env execData wfID runID exp hget
  rcases hzero with h | h
  · rw [sumWeights_zero _ h, wrapInt_zero]
  · exact h

/-- Witness of C15: a run whose revision the stored experiment does not have. -/
theorem zero_weight_guard_witness :
    recordedWeightages strayRun.RevisionID (storedExperiment abWeights).Revision = [] ∧
    ((ProcessCompletedExperimentRun (sampleRunEnv (storedExperiment abWeights)) strayRun
        "exp-1" "run-1").2 = .ok () ∧
      (ProcessCompletedExperimentRun (sampleRunEnv (storedExperiment abWeights)) strayRun
        "exp-1" "run-1").1.ResiliencyScore = 0) :=
  ⟨by decide,
   zero_weight_guard (sampleRunEnv (storedExperiment abWeights)) strayRun "exp-1" "run-1"
     (storedExperiment abWeights) (by decide) (Or.inl (by decide))⟩

/-- Counterexample to C16 as stated: the stored experiment has no revision `rev-9`, and the
scorer returns a result for a run launched from `rev-9` without any error. -/
theorem missing_revision_counterexample :
    (sampleRunEnv (storedExperiment abWeights)).GetExperiment "exp-1"
      = .ok (storedExperiment abWeights) ∧
    (∀ rev ∈ (storedExperiment abWeights).Revision, rev.RevisionID ≠ strayRun.RevisionID) ∧
    (ProcessCompletedExperimentRun (sampleRunEnv (storedExperiment abWeights)) strayRun
      "exp-1" "run-1").2 = .ok () ∧
    (ProcessCompletedExperimentRun (sampleRunEnv (storedExperiment abWeights)) strayRun
      "exp-1" "run-1").1.FaultsPassed = 1 := by
  decide

theorem recordedWeightages_nil (revisionID : String)
    (revs : List dbChaosExperiment.ExperimentRevision)
    (h : ∀ rev ∈ revs, rev.RevisionID ≠ revisionID) :
    recordedWeightages revisionID revs = [] := by
  unfold recordedWeightages
  have hf : revs.filter (fun rev => rev.RevisionID = revisionID) = [] := by
    rw [List.filter_eq_nil_iff]
    intro rev hrev
    simpa using h rev hrev
  rw [hf]
  rfl

/-- C16, amended: `ProcessCompletedExperimentRun` fails, with an error that wraps the lookup
error, whenever the experiment cannot be loaded, and only then; when the loaded experiment
has no revision whose id equals the run's revision id it returns no error and a result
with 0 total experiments and score 0. -/
theorem scorer_fails_on_lookup_only (env : RunEnv) (execData : ExecutionData)
    (wfID runID : String) :
    (∀ err, env.GetExperiment wfID = .error err →
      (ProcessCompletedExperimentRun env execData wfID runID).2
        = .error ("failed to get experiment from db on complete, error: " ++ err)) ∧
    (∀ exp, env.GetExperiment wfID = .ok exp →
      (ProcessCompletedExperimentRun env execData wfID runID).2 = .ok () ∧
      ((∀ rev ∈ exp.Revision, rev.RevisionID ≠ execData.RevisionID) →
        (ProcessCompletedExperimentRun env execData wfID runID).1.TotalExperiments = 0 ∧
        (ProcessCompletedExperimentRun env execData wfID runID).1.ResiliencyScore = 0)) := by
  refine ⟨?_, ?_⟩
  · intro err herr
    simp [ProcessCompletedExperimentRun, herr]
  · intro exp hget
    obtain ⟨f1, f2, -⟩ := ProcessCompletedExperimentRun_found env execData wfID runID exp hget
    refine ⟨f1, ?_⟩
    intro hnone
    have hnil := recordedWeightages_nil execData.RevisionID exp.Revision hnone
    refine ⟨?_, ?_⟩
    · rw [f2, hnil]
      rfl
    · apply ProcessCompletedExperimentRun_unscored env execData wfID runID exp hget
      rw [hnil]
      rfl

/-- Witness of C16: a lookup of an experiment the store does not hold. -/
theorem scorer_fails_on_lookup_only_witness :
    (sampleRunEnv (storedExperiment abWeights)).GetExperiment "exp-7"
      = .error "mongo: no documents in result" ∧
    (ProcessCompletedExperimentRun (sampleRunEnv (storedExperiment abWeights)) abRun
      "exp-7" "run-1").2
      = .error ("failed to get experiment from db on complete, error: "
          ++ "mongo: no documents in result") :=
  ⟨by decide,
   (scorer_fails_on_lookup_only (sampleRunEnv (storedExperiment abWeights)) abRun
     "exp-7" "run-1").1 "mongo: no documents in result" (by decide)⟩

/-- C17: when the experiment lookup succeeds, the five verdict tallies are the numbers of
nodes of type ChaosEngine carrying fault data whose verdict is Pass, Fail, Awaited,
Stopped and N/A or empty respectively; the weight table and the matching of engine names
play no part in them. -/
theorem verdict_tallies (env : RunEnv) (execData : ExecutionData) (wfID runID : String)
    (exp : dbChaosExperiment.ChaosExperimentRequest)
    (hget : env.GetExperiment wfID = .ok exp) :
    (ProcessCompletedExperimentRun env execData wfID runID).1.FaultsPassed
      = countVerdict (fun v => decide (v = "Pass")) execData.Nodes ∧
    (ProcessCompletedExperimentRun env execData wfID runID).1.FaultsFailed
      = countVerdict (fun v => decide (v = "Fail")) execData.Nodes ∧
    (ProcessCompletedExperimentRun env execData wfID runID).1.FaultsAwaited
      = countVerdict (fun v => decide (v = "Awaited")) execData.Nodes ∧
    (ProcessCompletedExperimentRun env execData wfID runID).1.FaultsStopped
      = countVerdict (fun v => decide (v = "Stopped")) execData.Nodes ∧
    (ProcessCompletedExperimentRun env execData wfID runID).1.FaultsNA
      = countVerdict (fun v => decide (v = "N/A" ∨ v = "")) execData.Nodes :=
  (ProcessCompletedExperimentRun_found env execData wfID runID exp hget).2.2

/-- Witness of C17: a run with every verdict, most of its engines matching no fault of the
weight table. -/
theorem verdict_tallies_witness :
    countVerdict (fun v => decide (v = "Pass")) mixedRun.Nodes = 1 ∧
    countVerdict (fun v => decide (v = "N/A" ∨ v = "")) mixedRun.Nodes = 2 ∧
    ((ProcessCompletedExperimentRun (sampleRunEnv (storedExperiment abWeights)) mixedRun
        "exp-1" "run-1").1.FaultsPassed
        = countVerdict (fun v => decide (v = "Pass")) mixedRun.Nodes ∧
      (ProcessCompletedExperimentRun (sampleRunEnv (storedExperiment abWeights)) mixedRun
        "exp-1" "run-1").1.FaultsFailed
        = countVerdict (fun v => decide (v = "Fail")) mixedRun.Nodes ∧
      (ProcessCompletedExperimentRun (sampleRunEnv (storedExperiment abWeights)) mixedRun
        "exp-1" "run-1").1.FaultsAwaited
        = countVerdict (fun v => decide (v = "Awaited")) mixedRun.Nodes ∧
      (ProcessCompletedExperimentRun (sampleRunEnv (storedExperiment abWeights)) mixedRun
        "exp-1" "run-1").1.FaultsStopped
        = countVerdict (fun v => decide (v = "Stopped")) mixedRun.Nodes ∧
      (ProcessCompletedExperimentRun (sampleRunEnv (storedExperiment abWeights)) mixedRun
        "exp-1" "run-1").1.FaultsNA
        = countVerdict (fun v => decide (v = "N/A" ∨ v = "")) mixedRun.Nodes) :=
  ⟨by decide, by decide,
   verdict_tallies (sampleRunEnv (storedExperiment abWeights)) mixedRun "exp-1" "run-1"
     (storedExperiment abWeights) (by decide)⟩

/-! ## Matching of nodes and weight-table entries -/

theorem faultData_some (value : Node) (d : ChaosData) (h : faultData value = some d) :
    value.NodeType = "ChaosEngine" ∧ value.ChaosExp = some d := by
  unfold faultData at h
  by_cases hty : value.NodeType = "ChaosEngine"
  · exact ⟨hty, by simpa [hty] using h⟩
  · simp [hty] at h

/-- Counterexample to C18 as stated: the weight map is ranged over in the order
pod-delete, pod; the engine name pod-delete-x1 contains both names; the claim has the
first one, of weight 10, used, which would give the score 1000 / 40 = 25, and the scorer
returns 75, that is 3000 / 40, using the weight 30 of the last one. -/
theorem first_match_counterexample :
    (sampleRunEnv (storedExperiment overlapWeights)).rangeKeys
        (engineNode "pod-delete-x1" "100" "Pass")
        (declaredWeights (recordedWeightages overlapRun.RevisionID
          (storedExperiment overlapWeights).Revision))
      = ["pod-delete", "pod"] ∧
    Contains "pod-delete-x1" "pod-delete" = true ∧
    Contains "pod-delete-x1" "pod" = true ∧
    mapGet (declaredWeights (recordedWeightages overlapRun.RevisionID
        (storedExperiment overlapWeights).Revision)) "pod-delete" = some 10 ∧
    matchFault ["pod-delete", "pod"] "pod-delete-x1" = "pod" ∧
    (ProcessCompletedExperimentRun (sampleRunEnv (storedExperiment overlapWeights)) overlapRun
      "exp-1" "run-1").1.ResiliencyScore = 75 := by
  refine ⟨by decide, by decide, by decide, by decide, by decide, ?_⟩
  rw [ProcessCompletedExperimentRun_score _ overlapRun "exp-1" "run-1"
    (storedExperiment overlapWeights) (by decide) (sampleRunEnv_ranges _ _)]
  have hW : wrapInt (weightedSum (sampleRunEnv (storedExperiment overlapWeights))
      (declaredWeights (recordedWeightages overlapRun.RevisionID
        (storedExperiment overlapWeights).Revision)) overlapRun.Nodes) = 3000 := by decide
  have hS : wrapInt (sumWeights (recordedWeightages overlapRun.RevisionID
      (storedExperiment overlapWeights).Revision)) = 40 := by decide
  rw [hW, hS]
  have hT : Truncate (float64.div (float64.ofInt 3000) (float64.ofInt 40))
      = { mantissa := 5277655813324800, exponent := -46 } := by decide
  rw [hT]
  norm_num [float64.toRat]

/-- C18, amended: a node of type ChaosEngine with fault data is matched to a weight-table
entry by substring containment of the fault name in the engine name, and when several
keys of the weight map are contained in the engine name the last one in the order the map
is ranged over is the one whose weight is used. -/
theorem last_match_wins (env : RunEnv) (wm : List (String × Int)) (value : Node)
    (d : ChaosData) (total : Int) (r : ExperimentRunMetrics) (names : List String)
    (n : String) (w : Int)
    (hd : faultData value = some d)
    (hfilter : (env.rangeKeys value wm).filter (fun k => Contains d.EngineName k)
      = names ++ [n])
    (hw : mapGet wm n = some w) :
    Contains d.EngineName n = true ∧
    matchFault (env.rangeKeys value wm) d.EngineName = n ∧
    (scoreNode env wm (total, r) value).1
      = wrapInt (total + wrapInt (w * AtoiValue d.ProbeSuccessPercentage)) := by
  have hmf : matchedFault (env.rangeKeys value wm) d.EngineName = some n := by
    unfold matchedFault
    rw [hfilter]
    simp
  have hm : matchFault (env.rangeKeys value wm) d.EngineName = n := by
    rw [matchFault_eq, hmf]
    rfl
  obtain ⟨hty, hexp⟩ := faultData_some value d hd
  refine ⟨(matchedFault_mem _ _ _ hmf).2, hm, ?_⟩
  unfold scoreNode
  simp only [hty, if_true, hexp, hm, hw]

/-- Witness of C18: the engine pod-delete-x1 against the overlapping weight table. -/
theorem last_match_wins_witness :
    Contains "pod-delete-x1" "pod" = true ∧
    matchFault ((sampleRunEnv (storedExperiment overlapWeights)).rangeKeys
      (engineNode "pod-delete-x1" "100" "Pass") (declaredWeights overlapWeights))
      "pod-delete-x1" = "pod" ∧
    (scoreNode (sampleRunEnv (storedExperiment overlapWeights)) (declaredWeights overlapWeights)
      (0, zeroMetrics) (engineNode "pod-delete-x1" "100" "Pass")).1
      = wrapInt (0 + wrapInt (30 * AtoiValue "100")) :=
  last_match_wins (sampleRunEnv (storedExperiment overlapWeights))
    (declaredWeights overlapWeights) (engineNode "pod-delete-x1" "100" "Pass")
    { EngineName := "pod-delete-x1", ProbeSuccessPercentage := "100", FaultVerdict := "Pass" }
    0 zeroMetrics ["pod-delete"] "pod" 30 (by decide) (by decide) (by decide)

/-! ## Range of the score -/

theorem abRun_percentages :
    ∀ value ∈ abRun.Nodes, ∀ d, faultData value = some d →
      0 ≤ AtoiValue d.ProbeSuccessPercentage ∧ AtoiValue d.ProbeSuccessPercentage ≤ 100 := by
  intro value hvalue d hd
  simp only [abRun, List.mem_cons, List.mem_singleton, List.not_mem_nil, or_false] at hvalue
  rcases hvalue with rfl | rfl
  · have h1 : d = { EngineName := "A", ProbeSuccessPercentage := "100", FaultVerdict := "Pass" } := by
      have := (faultData_some _ d hd).2
      simpa [engineNode] using this.symm
    subst h1
    decide
  · have h1 : d = { EngineName := "B", ProbeSuccessPercentage := "0", FaultVerdict := "Fail" } := by
      have := (faultData_some _ d hd).2
      simpa [engineNode] using this.symm
    subst h1
    decide

/-- Counterexample to C14 as stated: on the specification's own example, with weights 10
and 30 and percentages 100 and 0, the scorer returns 25, which is not in the interval
from 0 to 1. -/
theorem score_range_counterexample :
    (∀ e ∈ abWeights, 0 ≤ e.Weightage) ∧
    (∀ value ∈ abRun.Nodes, ∀ d, faultData value = some d →
      0 ≤ AtoiValue d.ProbeSuccessPercentage ∧ AtoiValue d.ProbeSuccessPercentage ≤ 100) ∧
    (ProcessCompletedExperimentRun (sampleRunEnv (storedExperiment abWeights)) abRun
      "exp-1" "run-1").1.ResiliencyScore = 25 ∧
    ¬ ((ProcessCompletedExperimentRun (sampleRunEnv (storedExperiment abWeights)) abRun
      "exp-1" "run-1").1.ResiliencyScore ≤ 1) := by
  have hscore : (ProcessCompletedExperimentRun (sampleRunEnv (storedExperiment abWeights))
      abRun "exp-1" "run-1").1.ResiliencyScore = 25 := by
    rw [ProcessCompletedExperimentRun_score _ abRun "exp-1" "run-1"
      (storedExperiment abWeights) (by decide) (sampleRunEnv_ranges _ _)]
    have hW : wrapInt (weightedSum (sampleRunEnv (storedExperiment abWeights))
        (declaredWeights (recordedWeightages abRun.RevisionID
          (storedExperiment abWeights).Revision)) abRun.Nodes) = 1000 := by decide
    have hS : wrapInt (sumWeights (recordedWeightages abRun.RevisionID
        (storedExperiment abWeights).Revision)) = 40 := by decide
    rw [hW, hS]
    have hT : Truncate (float64.div (float64.ofInt 1000) (float64.ofInt 40))
        = { mantissa := 7036874417766400, exponent := -48 } := by decide
    rw [hT]
    norm_num [float64.toRat]
  refine ⟨by decide, abRun_percentages, hscore, ?_⟩
  rw [hscore]
  norm_num

theorem mapValue_mapSet_self (m : List (String × Int)) (k : String) (v : Int) :
    mapValue (mapSet m k v) k = v := by
  simp [mapValue, mapGet_mapSet_self]

theorem mapValue_mapSet_of_ne (m : List (String × Int)) (k k' : String) (v : Int)
    (h : k ≠ k') : mapValue (mapSet m k v) k' = mapValue m k' := by
  simp [mapValue, mapGet_mapSet_of_ne m k k' v h]

theorem mapSet_nonneg (m : List (String × Int)) (k : String) (v : Int)
    (hm : ∀ key val, mapGet m key = some val → 0 ≤ val) (hv : 0 ≤ v) :
    ∀ key val, mapGet (mapSet m k v) key = some val → 0 ≤ val := by
  intro key val h
  by_cases hk : k = key
  · subst hk
    rw [mapGet_mapSet_self] at h
    cases h
    exact hv
  · rw [mapGet_mapSet_of_ne m k key v hk] at h
    exact hm key val h

theorem mapValue_nonneg (m : List (String × Int))
    (hm : ∀ key val, mapGet m key = some val → 0 ≤ val) (k : String) : 0 ≤ mapValue m k := by
  unfold mapValue
  cases h : mapGet m k with
  | none => simp
  | some v => simpa using hm k v h

theorem sum_mapValue_mapSet_of_not_mem (m : List (String × Int)) (k : String) (v : Int) :
    ∀ (ns : List String), k ∉ ns →
      (ns.map (mapValue (mapSet m k v))).sum = (ns.map (mapValue m)).sum := by
  intro ns
  induction ns with
  | nil => intro _; rfl
  | cons n rest ih =>
    intro hk
    have hne : k ≠ n := fun h => hk (by simp [h])
    have hrest : k ∉ rest := fun h => hk (List.mem_cons_of_mem _ h)
    simp only [List.map_cons, List.sum_cons, mapValue_mapSet_of_ne m k n v hne, ih hrest]

theorem sum_mapValue_mapSet_le (m : List (String × Int)) (k : String) (v : Int)
    (hm : ∀ key val, mapGet m key = some val → 0 ≤ val) (hv : 0 ≤ v) :
    ∀ (ns : List String), ns.Nodup →
      (ns.map (mapValue (mapSet m k v))).sum ≤ (ns.map (mapValue m)).sum + v := by
  intro ns
  induction ns with
  | nil => intro _; simpa using hv
  | cons n rest ih =>
    intro hnd
    obtain ⟨hn, hrest⟩ := List.nodup_cons.mp hnd
    simp only [List.map_cons, List.sum_cons]
    by_cases hk : k = n
    · subst hk
      rw [mapValue_mapSet_self, sum_mapValue_mapSet_of_not_mem m k v rest hn]
      have := mapValue_nonneg m hm k
      omega
    · rw [mapValue_mapSet_of_ne m k n v hk]
      have := ih hrest
      omega

theorem sum_mapValue_foldl_le (ns : List String) (hnd : ns.Nodup) :
    ∀ (ws : List WeightagesInput) (acc : List (String × Int)),
      (∀ key val, mapGet acc key = some val → 0 ≤ val) →
      (∀ e ∈ ws, 0 ≤ e.Weightage) →
      (ns.map (mapValue (ws.foldl
        (fun weights weight => mapSet weights weight.FaultName weight.Weightage) acc))).sum
        ≤ (ns.map (mapValue acc)).sum + sumWeights ws ∧
      (∀ key val, mapGet (ws.foldl
        (fun weights weight => mapSet weights weight.FaultName weight.Weightage) acc) key
          = some val → 0 ≤ val) := by
  intro ws
  induction ws with
  | nil => intro acc hacc _; simpa [sumWeights] using hacc
  | cons x rest ih =>
    intro acc hacc hws
    have hx := hws x (List.mem_cons_self _ _)
    have hrest := fun e he => hws e (List.mem_cons_of_mem _ he)
    have hacc1 := mapSet_nonneg acc x.FaultName x.Weightage hacc hx
    obtain ⟨i1, i2⟩ := ih (mapSet acc x.FaultName x.Weightage) hacc1 hrest
    have hstep := sum_mapValue_mapSet_le acc x.FaultName x.Weightage hacc hx ns hnd
    simp only [List.foldl_cons]
    refine ⟨?_, i2⟩
    simp only [sumWeights, List.map_cons, List.sum_cons] at i1 ⊢
    omega

theorem sum_mapValue_nil (ns : List String) : (ns.map (mapValue [])).sum = 0 := by
  induction ns with
  | nil => rfl
  | cons n rest ih =>
    simp only [List.map_cons, List.sum_cons, ih]
    rfl

theorem declaredWeights_sum_le (ns : List String) (hnd : ns.Nodup)
    (ws : List WeightagesInput) (hws : ∀ e ∈ ws, 0 ≤ e.Weightage) :
    (ns.map (mapValue (declaredWeights ws))).sum ≤ sumWeights ws ∧
    (∀ key val, mapGet (declaredWeights ws) key = some val → 0 ≤ val) := by
  obtain ⟨i1, i2⟩ := sum_mapValue_foldl_le ns hnd ws []
    (fun key val h => by simp [mapGet] at h) hws
  refine ⟨?_, i2⟩
  have hz : (ns.map (mapValue [])).sum = 0 := sum_mapValue_nil ns
  unfold declaredWeights
  omega

theorem matchedEntry_value (env : RunEnv) (wm : List (String × Int)) (value : Node)
    (entry : String × Int) (h : matchedEntry env wm value = some entry) :
    mapGet wm entry.1 = some entry.2 ∧ ∃ d, faultData value = some d := by
  unfold matchedEntry at h
  cases hd : faultData value with
  | none => simp [hd] at h
  | some d =>
    simp only [hd] at h
    cases hmf : matchedFault (env.rangeKeys value wm) d.EngineName with
    | none => simp [hmf] at h
    | some name =>
      simp only [hmf] at h
      cases hg : mapGet wm name with
      | none => simp [hg] at h
      | some w =>
        simp only [hg, Option.some.injEq] at h
        subst h
        exact ⟨hg, d, rfl⟩

theorem weightedResult_bounds (env : RunEnv) (wm : List (String × Int)) (value : Node)
    (hwm : ∀ key val, mapGet wm key = some val → 0 ≤ val)
    (hpct : ∀ d, faultData value = some d →
      0 ≤ AtoiValue d.ProbeSuccessPercentage ∧ AtoiValue d.ProbeSuccessPercentage ≤ 100) :
    0 ≤ weightedResult env wm value ∧
    weightedResult env wm value
      ≤ 100 * (match matchedEntry env wm value with
        | some entry => mapValue wm entry.1
        | none => 0) := by
  unfold weightedResult
  cases hme : matchedEntry env wm value with
  | none => cases faultData value <;> simp
  | some entry =>
    obtain ⟨hval, d, hd⟩ := matchedEntry_value env wm value entry hme
    obtain ⟨p0, p1⟩ := hpct d hd
    have hw : 0 ≤ entry.2 := hwm entry.1 entry.2 hval
    have hmv : mapValue wm entry.1 = entry.2 := by simp [mapValue, hval]
    simp only [hd, hmv]
    constructor
    · positivity
    · nlinarith

theorem weightedSum_bounds (env : RunEnv) (wm : List (String × Int))
    (hwm : ∀ key val, mapGet wm key = some val → 0 ≤ val) :
    ∀ (nodes : List Node),
      (∀ value ∈ nodes, ∀ d, faultData value = some d →
        0 ≤ AtoiValue d.ProbeSuccessPercentage ∧ AtoiValue d.ProbeSuccessPercentage ≤ 100) →
      0 ≤ weightedSum env wm nodes ∧
      weightedSum env wm nodes
        ≤ 100 * ((matchedNames env wm nodes).map (mapValue wm)).sum := by
  intro nodes
  induction nodes with
  | nil => intro _; simp [weightedSum, matchedNames]
  | cons value rest ih =>
    intro hpct
    obtain ⟨i0, i1⟩ := ih (fun v hv => hpct v (List.mem_cons_of_mem _ hv))
    obtain ⟨b0, b1⟩ := weightedResult_bounds env wm value hwm
      (hpct value (List.mem_cons_self _ _))
    simp only [weightedSum, matchedNames, List.map_cons, List.sum_cons,
      List.filterMap_cons] at i0 i1 ⊢
    cases hme : matchedEntry env wm value with
    | none =>
      simp only [hme, Option.map_none'] at b1 ⊢
      constructor
      · omega
      · omega
    | some entry =>
      simp only [hme, Option.map_some', List.map_cons, List.sum_cons] at b1 ⊢
      constructor
      · omega
      · omega

/-- C14, amended: when the experiment lookup succeeds, the recorded weights are
non-negative, the nodes report probe success percentages between 0 and 100, no two nodes
are matched to the same weight-table fault, and a hundred times the weight sum fits Go's
64-bit `int`, the resiliency score lies between 0 and 100 (on the specification's example
it is 25); the range over the weight map is assumed to visit every key of it. -/
theorem score_range (env : RunEnv) (execData : ExecutionData) (wfID runID : String)
    (exp : dbChaosExperiment.ChaosExperimentRequest)
    (hget : env.GetExperiment wfID = .ok exp)
    (hk : RangesOverKeys env
      (declaredWeights (recordedWeightages execData.RevisionID exp.Revision)))
    (hnonneg : ∀ e ∈ recordedWeightages execData.RevisionID exp.Revision, 0 ≤ e.Weightage)
    (hpct : ∀ value ∈ execData.Nodes, ∀ d, faultData value = some d →
      0 ≤ AtoiValue d.ProbeSuccessPercentage ∧ AtoiValue d.ProbeSuccessPercentage ≤ 100)
    (hinj : (matchedNames env
      (declaredWeights (recordedWeightages execData.RevisionID exp.Revision))
      execData.Nodes).Nodup)
    (hfit : 100 * sumWeights (recordedWeightages execData.RevisionID exp.Revision)
      < 9223372036854775808) :
    0 ≤ (ProcessCompletedExperimentRun env execData wfID runID).1.ResiliencyScore ∧
    (ProcessCompletedExperimentRun env execData wfID runID).1.ResiliencyScore ≤ 100 := by
  rw [ProcessCompletedExperimentRun_score env execData wfID runID exp hget hk]
  obtain ⟨s1, s2⟩ := declaredWeights_sum_le _ hinj _ hnonneg
  obtain ⟨w0, w1⟩ := weightedSum_bounds env _ s2 execData.Nodes hpct
  have hS0 : 0 ≤ sumWeights (recordedWeightages execData.RevisionID exp.Revision) := by
    have hz := (declaredWeights_sum_le [] List.nodup_nil _ hnonneg).1
    simpa using hz
  have hSw : wrapInt (sumWeights (recordedWeightages execData.RevisionID exp.Revision))
      = sumWeights (recordedWeightages execData.RevisionID exp.Revision) :=
    wrapInt_of_range _ (by omega) (by omega)
  have hWw : wrapInt (weightedSum env
      (declaredWeights (recordedWeightages execData.RevisionID exp.Revision)) execData.Nodes)
      = weightedSum env
        (declaredWeights (recordedWeightages execData.RevisionID exp.Revision))
        execData.Nodes :=
    wrapInt_of_range _ (by omega) (by omega)
  rw [hSw, hWw]
  split_ifs with hS
  · have hSpos : (0 : ℚ) < (sumWeights
        (recordedWeightages execData.RevisionID exp.Revision) : ℚ) := by
      have : 0 < sumWeights (recordedWeightages execData.RevisionID exp.Revision) := by omega
      exact_mod_cast this
    exact float64.Truncate_range _ _ w0 (by omega) (by omega)
  · norm_num

/-- Witness of C14: the specification's example. -/
theorem score_range_witness :
    0 ≤ (ProcessCompletedExperimentRun (sampleRunEnv (storedExperiment abWeights)) abRun
      "exp-1" "run-1").1.ResiliencyScore ∧
    (ProcessCompletedExperimentRun (sampleRunEnv (storedExperiment abWeights)) abRun
      "exp-1" "run-1").1.ResiliencyScore ≤ 100 :=
  score_range (sampleRunEnv (storedExperiment abWeights)) abRun "exp-1" "run-1"
    (storedExperiment abWeights) (by decide) (sampleRunEnv_ranges _ _) (by decide)
    abRun_percentages (by decide) (by decide)

/-! ## Lemmas on the experiment records -/

theorem storedWeightages_eq (ws : List WeightagesInput) : storedWeightages ws = ws := by
  unfold storedWeightages
  induction ws with
  | nil => rfl
  | cons x rest ih => simp [ih]

theorem updateFirst_split (query : BsonD) (update : BsonUpdate)
    (pre post : List dbChaosExperiment.ChaosExperimentRequest)
    (d : dbChaosExperiment.ChaosExperimentRequest)
    (hpre : ∀ x ∈ pre, matchesQuery x query = false) (hd : matchesQuery d query = true) :
    updateFirst query update (pre ++ d :: post) = pre ++ applyUpdate query update d :: post := by
  induction pre with
  | nil => simp [updateFirst, hd]
  | cons x rest ih =>
    have hx := hpre x (List.mem_cons_self _ _)
    have hrest := ih (fun y hy => hpre y (List.mem_cons_of_mem _ hy))
    simp [updateFirst, hx, hrest]

theorem patchFirstRevision_split (revisionID : String)
    (f : dbChaosExperiment.ExperimentRevision → dbChaosExperiment.ExperimentRevision)
    (before after : List dbChaosExperiment.ExperimentRevision)
    (rev : dbChaosExperiment.ExperimentRevision)
    (hbefore : ∀ x ∈ before, x.RevisionID ≠ revisionID) (hrev : rev.RevisionID = revisionID) :
    patchFirstRevision revisionID f (before ++ rev :: after) = before ++ f rev :: after := by
  induction before with
  | nil => simp [patchFirstRevision, hrev]
  | cons x rest ih =>
    have hx := hbefore x (List.mem_cons_self _ _)
    have hrest := ih (fun y hy => hbefore y (List.mem_cons_of_mem _ hy))
    simp [patchFirstRevision, hx, hrest]

theorem matchesQuery_normal (x : dbChaosExperiment.ChaosExperimentRequest)
    (id projectID : String) :
    matchesQuery x [("experiment_id", .strPtr (some id)), ("project_id", .str projectID)]
      = (decide (x.ExperimentID = id) && decide (x.ProjectID = projectID)) := by
  simp [matchesQuery]

theorem matchesQuery_revision (x : dbChaosExperiment.ChaosExperimentRequest)
    (id projectID revisionID : String) :
    matchesQuery x [("experiment_id", .strPtr (some id)), ("project_id", .str projectID),
        ("revision.revision_id", .str revisionID)]
      = (decide (x.ExperimentID = id) && (decide (x.ProjectID = projectID) &&
          x.Revision.any (fun rev => rev.RevisionID = revisionID))) := by
  simp [matchesQuery]

theorem applyUpdate_set_push (q s p : BsonD) (d : dbChaosExperiment.ChaosExperimentRequest) :
    applyUpdate q [("$set", s), ("$push", p)] d
      = p.foldl applyPush (s.foldl (applySet q) d) := rfl

theorem applyUpdate_set (q s : BsonD) (d : dbChaosExperiment.ChaosExperimentRequest) :
    applyUpdate q [("$set", s)] d = s.foldl (applySet q) d := rfl

theorem applySet_experiment_type (q : BsonD) (d : dbChaosExperiment.ChaosExperimentRequest)
    (t : ChaosExperimentType) :
    applySet q d ("experiment_type", .expType t) = { d with ExperimentType := t } := rfl

theorem applySet_cron_syntax (q : BsonD) (d : dbChaosExperiment.ChaosExperimentRequest)
    (s : String) : applySet q d ("cron_syntax", .str s) = { d with CronSyntax := s } := rfl

theorem applySet_name (q : BsonD) (d : dbChaosExperiment.ChaosExperimentRequest)
    (s : String) : applySet q d ("name", .str s) = { d with Name := s } := rfl

theorem applySet_tags (q : BsonD) (d : dbChaosExperiment.ChaosExperimentRequest)
    (l : List String) : applySet q d ("tags", .tags l) = { d with Tags := l } := rfl

theorem applySet_infra_id (q : BsonD) (d : dbChaosExperiment.ChaosExperimentRequest)
    (s : String) : applySet q d ("infra_id", .str s) = { d with InfraID := s } := rfl

theorem applySet_description (q : BsonD) (d : dbChaosExperiment.ChaosExperimentRequest)
    (s : String) : applySet q d ("description", .str s) = { d with Description := s } := rfl

theorem applySet_is_custom (q : BsonD) (d : dbChaosExperiment.ChaosExperimentRequest)
    (b : Option Bool) :
    applySet q d ("is_custom_experiment", .boolPtr b) = { d with IsCustomExperiment := b } := rfl

theorem applySet_updated_at (q : BsonD) (d : dbChaosExperiment.ChaosExperimentRequest)
    (n : Int) : applySet q d ("updated_at", .int n) = { d with UpdatedAt := n } := rfl

theorem applySet_updated_by (q : BsonD) (d : dbChaosExperiment.ChaosExperimentRequest)
    (s : String) : applySet q d ("updated_by", .str s) = { d with UpdatedBy := s } := rfl

theorem applySet_revision_updated_at (q : BsonD) (d : dbChaosExperiment.ChaosExperimentRequest)
    (n : Int) (revisionID : String) (hq : positionalRevision q = some revisionID) :
    applySet q d ("revision.$.updated_at", .int n)
      = { d with Revision :=
            patchFirstRevision revisionID (fun rev => { rev with UpdatedAt := n }) d.Revision } := by
  show (match positionalRevision q with
    | some revisionID =>
      { d with Revision :=
          patchFirstRevision revisionID (fun rev => { rev with UpdatedAt := n }) d.Revision }
    | none => d) = _
  rw [hq]

theorem applySet_revision_manifest (q : BsonD) (d : dbChaosExperiment.ChaosExperimentRequest)
    (m : Option Manifest) (revisionID : String) (hq : positionalRevision q = some revisionID) :
    applySet q d ("revision.$.experiment_manifest", .manifest m)
      = { d with Revision :=
            (patchFirstRevision revisionID (fun rev => { rev with ExperimentManifest := m })
              d.Revision) } := by
  show (match positionalRevision q with
    | some revisionID =>
      { d with Revision :=
          (patchFirstRevision revisionID (fun rev => { rev with ExperimentManifest := m })
            d.Revision) }
    | none => d) = _
  rw [hq]

theorem applyPush_revision (d : dbChaosExperiment.ChaosExperimentRequest)
    (rev : dbChaosExperiment.ExperimentRevision) :
    applyPush d ("revision", .revision rev) = { d with Revision := d.Revision ++ [rev] } := rfl

/-- The effect of a normal update on the store, when the storage layer answers without
error and the record of the experiment is `d`. -/
theorem ProcessExperimentUpdate_normal (clock : Nat → Int) (w : World)
    (workflow : ChaosExperimentRequest) (username : String) (wfType : ChaosExperimentType)
    (revisionID projectID : String) (r : Bool) (id : String)
    (pre post : List dbChaosExperiment.ChaosExperimentRequest)
    (d : dbChaosExperiment.ChaosExperimentRequest)
    (hid : workflow.ExperimentID = some id)
    (hdocs : w.Experiments = pre ++ d :: post)
    (hpre : ∀ x ∈ pre, ¬ (x.ExperimentID = id ∧ x.ProjectID = projectID))
    (hd : d.ExperimentID = id ∧ d.ProjectID = projectID) :
    (ProcessExperimentUpdate clock none w workflow username wfType revisionID false
        projectID r).1.Experiments
      = pre ++
        { d with
          ExperimentType := wfType
          CronSyntax := workflow.CronSyntax
          Name := workflow.ExperimentName
          Tags := workflow.Tags
          InfraID := workflow.InfraID
          Description := workflow.ExperimentDescription
          IsCustomExperiment := workflow.IsCustomExperiment
          UpdatedAt := clock 1
          UpdatedBy := username
          Revision := d.Revision ++
            [{ RevisionID := revisionID, ExperimentManifest := workflow.ExperimentManifest,
               UpdatedAt := clock 0, Weightages := workflow.Weightages }] } :: post := by
  have hq1 : ∀ x ∈ pre, matchesQuery x
      [("experiment_id", .strPtr (some id)), ("project_id", .str projectID)] = false := by
    intro x hx
    rw [matchesQuery_normal]
    have := hpre x hx
    simp only [Bool.and_eq_false_imp, decide_eq_true_eq, decide_eq_false_iff_not]
    intro h1 h2
    exact this ⟨h1, h2⟩
  have hq2 : matchesQuery d
      [("experiment_id", .strPtr (some id)), ("project_id", .str projectID)] = true := by
    rw [matchesQuery_normal]
    simp [hd.1, hd.2]
  unfold ProcessExperimentUpdate UpdateChaosExperiment
  simp only [hid, hdocs, Bool.false_eq_true, if_false, storedWeightages_eq]
  rw [updateFirst_split _ _ pre post d hq1 hq2]
  have happly : applyUpdate
      [("experiment_id", .strPtr (some id)), ("project_id", .str projectID)]
      [("$set",
         [("experiment_type", .expType wfType), ("cron_syntax", .str workflow.CronSyntax),
          ("name", .str workflow.ExperimentName), ("tags", .tags workflow.Tags),
          ("infra_id", .str workflow.InfraID),
          ("description", .str workflow.ExperimentDescription),
          ("is_custom_experiment", .boolPtr workflow.IsCustomExperiment),
          ("updated_at", .int (clock 1)), ("updated_by", .str username)]),
       ("$push", [("revision", .revision
          { RevisionID := revisionID, ExperimentManifest := workflow.ExperimentManifest,
            UpdatedAt := clock 0, Weightages := workflow.Weightages })])] d
      = { d with
          ExperimentType := wfType
          CronSyntax := workflow.CronSyntax
          Name := workflow.ExperimentName
          Tags := workflow.Tags
          InfraID := workflow.InfraID
          Description := workflow.ExperimentDescription
          IsCustomExperiment := workflow.IsCustomExperiment
          UpdatedAt := clock 1
          UpdatedBy := username
          Revision := d.Revision ++
            [{ RevisionID := revisionID, ExperimentManifest := workflow.ExperimentManifest,
               UpdatedAt := clock 0, Weightages := workflow.Weightages }] } := by
    rw [applyUpdate_set_push]
    simp only [List.foldl_cons, List.foldl_nil, applySet_experiment_type, applySet_cron_syntax,
      applySet_name, applySet_tags, applySet_infra_id, applySet_description,
      applySet_is_custom, applySet_updated_at, applySet_updated_by, applyPush_revision]
  rw [happly]
  cases workflow.ExperimentManifest with
  | none => rfl
  | some workflowObj => dsimp only; split <;> cases r <;> rfl

theorem runUpdates_append (projectID id : String) :
    ∀ (calls : List UpdateCall) (w : World)
      (pre post : List dbChaosExperiment.ChaosExperimentRequest)
      (d : dbChaosExperiment.ChaosExperimentRequest),
      w.Experiments = pre ++ d :: post →
      (∀ x ∈ pre, ¬ (x.ExperimentID = id ∧ x.ProjectID = projectID)) →
      (d.ExperimentID = id ∧ d.ProjectID = projectID) →
      (∀ c ∈ calls, c.workflow.ExperimentID = some id) →
      ∃ d', (runUpdates projectID w calls).Experiments = pre ++ d' :: post ∧
        (d'.ExperimentID = id ∧ d'.ProjectID = projectID) ∧
        d'.Revision = d.Revision ++ calls.map submittedRevision := by
  intro calls
  induction calls with
  | nil =>
    intro w pre post d hdocs _ hd _
    exact ⟨d, hdocs, hd, by simp⟩
  | cons c rest ih =>
    intro w pre post d hdocs hpre hd hcalls
    have hc := hcalls c (List.mem_cons_self _ _)
    have hstep := ProcessExperimentUpdate_normal c.clock w c.workflow c.username c.wfType
      c.revisionID projectID c.r id pre post d hc hdocs hpre hd
    obtain ⟨d', e1, e2, e3⟩ := ih _ pre post _ hstep hpre hd
      (fun x hx => hcalls x (List.mem_cons_of_mem _ hx))
    refine ⟨d', ?_, e2, ?_⟩
    · simpa [runUpdates] using e1
    · rw [e3]
      simp [submittedRevision]

theorem ProcessExperimentCreation_stored (clock : Nat → Int) (w : World)
    (input : ChaosExperimentRequest) (username projectID : String)
    (wfType : ChaosExperimentType) (revisionID : String) (r : Bool) (id : String)
    (hid : input.ExperimentID = some id) :
    ∃ doc, (ProcessExperimentCreation clock none w input username projectID wfType
        revisionID r).1.Experiments = w.Experiments ++ [doc] ∧
      doc.ExperimentID = id ∧ doc.ProjectID = projectID ∧
      doc.Revision = [{ RevisionID := revisionID, ExperimentManifest := input.ExperimentManifest,
                        UpdatedAt := clock 0, Weightages := input.Weightages }] := by
  unfold ProcessExperimentCreation InsertChaosExperiment
  simp only [storedWeightages_eq, hid]
  cases r <;> exact ⟨_, rfl, rfl, rfl, rfl⟩

/-- A creation whose request carries no experiment id stops at the dereference of line
173: nothing is inserted and nothing is sent. -/
theorem ProcessExperimentCreation_nil (clock : Nat → Int) (storageErr : Option String)
    (w : World) (input : ChaosExperimentRequest) (username projectID : String)
    (wfType : ChaosExperimentType) (revisionID : String) (r : Bool)
    (hid : input.ExperimentID = none) :
    ProcessExperimentCreation clock storageErr w input username projectID wfType revisionID r
      = (w, .error nilDereference) := by
  unfold ProcessExperimentCreation
  simp only [hid]

/-! ## Revisions -/

/-- C19 (the storage operator is modelled from the spec): with a storage layer that
answers without error, `ProcessExperimentCreation` adds a record with exactly one
revision, made of the given revision id, manifest and weightages, and each normal
`ProcessExperimentUpdate` appends exactly one revision at the end of the record's list,
leaving the revisions before it as they were; after a creation and `K` normal updates of
the experiment the list has `K + 1` entries in submission order. The second part states the
append for any record already stored. -/
theorem revisions_append_only (projectID id : String) (calls : List UpdateCall)
    (hcalls : ∀ c ∈ calls, c.workflow.ExperimentID = some id) :
    (∀ (clock : Nat → Int) (w : World) (input : ChaosExperimentRequest) (username : String)
        (wfType : ChaosExperimentType) (revisionID : String) (r : Bool),
      input.ExperimentID = some id →
      (∀ x ∈ w.Experiments, ¬ (x.ExperimentID = id ∧ x.ProjectID = projectID)) →
      ∃ d', (runUpdates projectID
          (ProcessExperimentCreation clock none w input username projectID wfType
            revisionID r).1 calls).Experiments = w.Experiments ++ [d'] ∧
        d'.Revision
          = { RevisionID := revisionID, ExperimentManifest := input.ExperimentManifest,
              UpdatedAt := clock 0, Weightages := input.Weightages }
            :: calls.map submittedRevision ∧
        d'.Revision.length = calls.length + 1) ∧
    (∀ (w : World) (pre post : List dbChaosExperiment.ChaosExperimentRequest)
        (d : dbChaosExperiment.ChaosExperimentRequest),
      w.Experiments = pre ++ d :: post →
      (∀ x ∈ pre, ¬ (x.ExperimentID = id ∧ x.ProjectID = projectID)) →
      (d.ExperimentID = id ∧ d.ProjectID = projectID) →
      ∃ d', (runUpdates projectID w calls).Experiments = pre ++ d' :: post ∧
        d'.Revision = d.Revision ++ calls.map submittedRevision) := by
  refine ⟨?_, ?_⟩
  · intro clock w input username wfType revisionID r hid hfresh
    obtain ⟨doc, c1, c2, c3, c4⟩ := ProcessExperimentCreation_stored clock w input username
      projectID wfType revisionID r id hid
    obtain ⟨d', e1, -, e3⟩ := runUpdates_append projectID id calls _ w.Experiments [] doc c1
      hfresh ⟨c2, c3⟩ hcalls
    refine ⟨d', e1, ?_, ?_⟩
    · rw [e3, c4]
      rfl
    · rw [e3, c4]
      simp [Nat.add_comm]
  · intro w pre post d hdocs hpre hd
    obtain ⟨d', e1, -, e3⟩ := runUpdates_append projectID id calls w pre post d hdocs hpre hd
      hcalls
    exact ⟨d', e1, e3⟩

/-- Witness of C19: the creation of `exp-1` in a store without it, then two updates. -/
theorem revisions_append_only_witness :
    ∃ d', (runUpdates "project-1"
        (ProcessExperimentCreation sampleClock none emptyWorld (sampleRequest workflowDoc [])
          "alice" "project-1" .NonCronExperiment "rev-1" true).1
        [sampleUpdate "rev-2", sampleUpdate "rev-3"]).Experiments
        = emptyWorld.Experiments ++ [d'] ∧
      d'.Revision
        = { RevisionID := "rev-1",
            ExperimentManifest := (sampleRequest workflowDoc []).ExperimentManifest,
            UpdatedAt := sampleClock 0, Weightages := (sampleRequest workflowDoc []).Weightages }
          :: [sampleUpdate "rev-2", sampleUpdate "rev-3"].map submittedRevision ∧
      d'.Revision.length = [sampleUpdate "rev-2", sampleUpdate "rev-3"].length + 1 :=
  (revisions_append_only "project-1" "exp-1" [sampleUpdate "rev-2", sampleUpdate "rev-3"]
    (by decide)).1 sampleClock emptyWorld (sampleRequest workflowDoc []) "alice"
    .NonCronExperiment "rev-1" true (by decide) (by decide)

/-- C20 (the storage operator is modelled from the spec): with a storage layer that
answers without error, a `ProcessExperimentUpdate` with `updateRevision` true changes, in
the first record of the experiment that has a revision with the given id, that record's
update stamps and the manifest and timestamp of the first such revision, and nothing else:
the revision list keeps its length and order, every revision its id and weight table, the
other revisions their manifest, the record its type, cron syntax, name, tags, infra id and
description, and the other records are untouched. -/
theorem in_place_update (clock : Nat → Int) (w : World)
    (workflow : ChaosExperimentRequest) (username : String) (wfType : ChaosExperimentType)
    (revisionID projectID : String) (r : Bool) (id : String)
    (pre post : List dbChaosExperiment.ChaosExperimentRequest)
    (d : dbChaosExperiment.ChaosExperimentRequest)
    (before after : List dbChaosExperiment.ExperimentRevision)
    (rev : dbChaosExperiment.ExperimentRevision)
    (hid : workflow.ExperimentID = some id)
    (hdocs : w.Experiments = pre ++ d :: post)
    (hpre : ∀ x ∈ pre, ¬ (x.ExperimentID = id ∧ x.ProjectID = projectID ∧
      ∃ y ∈ x.Revision, y.RevisionID = revisionID))
    (hd : d.ExperimentID = id ∧ d.ProjectID = projectID)
    (hrev : d.Revision = before ++ rev :: after)
    (hbefore : ∀ x ∈ before, x.RevisionID ≠ revisionID)
    (hrevid : rev.RevisionID = revisionID) :
    ∃ d', (ProcessExperimentUpdate clock none w workflow username wfType revisionID true
        projectID r).1.Experiments = pre ++ d' :: post ∧
      d' = { d with
             UpdatedAt := clock 2
             UpdatedBy := username
             Revision := before ++
               { rev with UpdatedAt := clock 3, ExperimentManifest := workflow.ExperimentManifest }
               :: after } ∧
      d'.Revision.length = d.Revision.length ∧
      d'.Revision.map (fun x => x.RevisionID) = d.Revision.map (fun x => x.RevisionID) ∧
      d'.Revision.map (fun x => x.Weightages) = d.Revision.map (fun x => x.Weightages) ∧
      d'.ExperimentType = d.ExperimentType ∧ d'.CronSyntax = d.CronSyntax ∧
      d'.Name = d.Name ∧ d'.Tags = d.Tags ∧ d'.InfraID = d.InfraID ∧
      d'.Description = d.Description := by
  have hq1 : ∀ x ∈ pre, matchesQuery x
      [("experiment_id", .strPtr (some id)), ("project_id", .str projectID),
       ("revision.revision_id", .str revisionID)] = false := by
    intro x hx
    rw [matchesQuery_revision]
    have hnot := hpre x hx
    by_contra hc
    simp only [Bool.not_eq_false, Bool.and_eq_true, decide_eq_true_eq, List.any_eq_true] at hc
    obtain ⟨h1, h2, y, hy, hy2⟩ := hc
    exact hnot ⟨h1, h2, y, hy, hy2⟩
  have hq2 : matchesQuery d
      [("experiment_id", .strPtr (some id)), ("project_id", .str projectID),
       ("revision.revision_id", .str revisionID)] = true := by
    rw [matchesQuery_revision]
    simp only [hd.1, hd.2, decide_True, Bool.true_and, List.any_eq_true, decide_eq_true_eq]
    exact ⟨rev, by rw [hrev]; simp, hrevid⟩
  have hpos : positionalRevision
      [("experiment_id", .strPtr (some id)), ("project_id", .str projectID),
       ("revision.revision_id", .str revisionID)] = some revisionID := rfl
  refine ⟨_, ?_, rfl, ?_, ?_, ?_, rfl, rfl, rfl, rfl, rfl, rfl⟩
  · unfold ProcessExperimentUpdate UpdateChaosExperiment
    simp only [hid, hdocs, if_true]
    rw [updateFirst_split _ _ pre post d hq1 hq2, applyUpdate_set]
    simp only [List.foldl_cons, List.foldl_nil, applySet_updated_at, applySet_updated_by,
      applySet_revision_updated_at _ _ _ revisionID hpos,
      applySet_revision_manifest _ _ _ revisionID hpos]
    rw [hrev, patchFirstRevision_split revisionID _ before after rev hbefore hrevid,
      patchFirstRevision_split revisionID _ before after
        { rev with UpdatedAt := clock 3 } hbefore hrevid]
    cases workflow.ExperimentManifest with
    | none => rfl
    | some workflowObj => dsimp only; split <;> cases r <;> rfl
  · simp [hrev]
  · simp [hrev]
  · simp [hrev]

/-- Witness of C20: an in-place edit of the revision `rev-2` of the stored experiment. -/
theorem in_place_update_witness :
    ∃ d', (ProcessExperimentUpdate sampleClock none sampleWorld (sampleRequest workflowDoc [])
        "bob" .NonCronExperiment "rev-2" true "project-1" true).1.Experiments
        = [{ storedExperiment [] with ProjectID := "project-2" }] ++ d' :: [] ∧
      d' = { twoRevisionExperiment with
             UpdatedAt := sampleClock 2
             UpdatedBy := "bob"
             Revision := [{ RevisionID := "rev-1", ExperimentManifest := some cronDoc,
                            UpdatedAt := 1000, Weightages := abWeights }] ++
               { ({ RevisionID := "rev-2", ExperimentManifest := some cronDoc,
                    UpdatedAt := 1500, Weightages := overlapWeights } :
                    dbChaosExperiment.ExperimentRevision) with
                 UpdatedAt := sampleClock 3
                 ExperimentManifest := (sampleRequest workflowDoc []).ExperimentManifest }
               :: [] } ∧
      d'.Revision.length = twoRevisionExperiment.Revision.length ∧
      d'.Revision.map (fun x => x.RevisionID)
        = twoRevisionExperiment.Revision.map (fun x => x.RevisionID) ∧
      d'.Revision.map (fun x => x.Weightages)
        = twoRevisionExperiment.Revision.map (fun x => x.Weightages) ∧
      d'.ExperimentType = twoRevisionExperiment.ExperimentType ∧
      d'.CronSyntax = twoRevisionExperiment.CronSyntax ∧
      d'.Name = twoRevisionExperiment.Name ∧ d'.Tags = twoRevisionExperiment.Tags ∧
      d'.InfraID = twoRevisionExperiment.InfraID ∧
      d'.Description = twoRevisionExperiment.Description :=
  in_place_update sampleClock sampleWorld (sampleRequest workflowDoc []) "bob"
    .NonCronExperiment "rev-2" "project-1" true "exp-1"
    [{ storedExperiment [] with ProjectID := "project-2" }] [] twoRevisionExperiment
    [{ RevisionID := "rev-1", ExperimentManifest := some cronDoc, UpdatedAt := 1000,
       Weightages := abWeights }] []
    { RevisionID := "rev-2", ExperimentManifest := some cronDoc, UpdatedAt := 1500,
      Weightages := overlapWeights }
    (by decide) (by decide) (by decide) (by decide) (by decide) (by decide) (by decide)

/-! ## Lemmas on deletion -/

theorem applySet_is_removed (q : BsonD) (d : dbChaosExperiment.ChaosExperimentRequest)
    (b : Bool) : applySet q d ("is_removed", .bool b) = { d with IsRemoved := b } := rfl

theorem applyUpdate_delete (q : BsonD) (clock : Nat → Int) (username : String)
    (d : dbChaosExperiment.ChaosExperimentRequest) :
    applyUpdate q (deleteUpdate clock username) d
      = { d with IsRemoved := true, UpdatedBy := username, UpdatedAt := clock 0 } := by
  unfold deleteUpdate
  rw [applyUpdate_set]
  simp only [List.foldl_cons, List.foldl_nil, applySet_is_removed, applySet_updated_by,
    applySet_updated_at]

theorem updateRuns_delete (id : String) (clock : Nat → Int) (username : String)
    (runs : List dbChaosExperimentRun.ChaosExperimentRun) :
    updateRuns [("experiment_id", .str id)] (deleteUpdate clock username) runs
      = runs.map (fun run =>
          if run.ExperimentID = id then
            { run with IsRemoved := true, UpdatedBy := username, UpdatedAt := clock 0 }
          else run) := by
  unfold updateRuns
  apply List.map_congr_left
  intro run _
  by_cases h : run.ExperimentID = id
  · simp [matchesRunQuery, h, applyRunUpdate, deleteUpdate, applyRunSet]
  · simp [matchesRunQuery, h]

theorem updateFirstRun_split (query : BsonD) (update : BsonUpdate)
    (pre post : List dbChaosExperimentRun.ChaosExperimentRun)
    (run : dbChaosExperimentRun.ChaosExperimentRun)
    (hpre : ∀ x ∈ pre, matchesRunQuery x query = false)
    (hrun : matchesRunQuery run query = true) :
    updateFirstRun query update (pre ++ run :: post)
      = pre ++ applyRunUpdate update run :: post := by
  induction pre with
  | nil => simp [updateFirstRun, hrun]
  | cons x rest ih =>
    have hx := hpre x (List.mem_cons_self _ _)
    have hrest := ih (fun y hy => hpre y (List.mem_cons_of_mem _ hy))
    simp [updateFirstRun, hx, hrest]

/-- The function passed to `mongo.WithSession`, when it returns an error, has changed
neither collection nor sent anything. -/
theorem deleteInSession_error (clock : Nat → Int) (faults : TransactionFaults) (w : World)
    (query : BsonD) (workflow : dbChaosExperiment.ChaosExperimentRequest) (username : String)
    (err : String)
    (h : (deleteInSession clock faults w query workflow username).2 = .error err) :
    (deleteInSession clock faults w query workflow username).1.Experiments = w.Experiments ∧
    (deleteInSession clock faults w query workflow username).1.Runs = w.Runs ∧
    (deleteInSession clock faults w query workflow username).1.Sent = w.Sent := by
  obtain ⟨f1, f2, f3, f4, f5, f6⟩ := faults
  unfold deleteInSession at h ⊢
  cases f2 <;> cases f3 <;> cases f4 <;> cases f5 <;>
    simp_all [StartTransaction, UpdateChaosExperiment, UpdateExperimentRunsWithQuery,
      CommitTransaction, sessionView, writeExperiments, writeRuns]

/-- The function passed to `mongo.WithSession`, when it returns no error, has committed the
two updates. -/
theorem deleteInSession_ok (clock : Nat → Int) (faults : TransactionFaults) (w : World)
    (query : BsonD) (workflow : dbChaosExperiment.ChaosExperimentRequest) (username : String)
    (h : (deleteInSession clock faults w query workflow username).2 = .ok ()) :
    (deleteInSession clock faults w query workflow username).1
      = { w with
          Experiments := updateFirst query (deleteUpdate clock username) w.Experiments
          Runs := updateRuns [("experiment_id", .str workflow.ExperimentID)]
            (deleteUpdate clock username) w.Runs
          Transaction := none } := by
  obtain ⟨f1, f2, f3, f4, f5, f6⟩ := faults
  unfold deleteInSession at h ⊢
  cases f2 <;> cases f3 <;> cases f4 <;> cases f5 <;>
    simp_all [StartTransaction, UpdateChaosExperiment, UpdateExperimentRunsWithQuery,
      CommitTransaction, sessionView, writeExperiments, writeRuns]

theorem ProcessExperimentDelete_ok (clock : Nat → Int) (faults : TransactionFaults)
    (w : World) (query : BsonD) (workflow : dbChaosExperiment.ChaosExperimentRequest)
    (username : String) (r : Bool)
    (h : (ProcessExperimentDelete clock faults w query workflow username r).2 = .ok ()) :
    (ProcessExperimentDelete clock faults w query workflow username r).1.Experiments
      = updateFirst query (deleteUpdate clock username) w.Experiments ∧
    (ProcessExperimentDelete clock faults w query workflow username r).1.Runs
      = updateRuns [("experiment_id", .str workflow.ExperimentID)]
          (deleteUpdate clock username) w.Runs ∧
    (ProcessExperimentDelete clock faults w query workflow username r).1.Transaction = none := by
  have h2 := deleteInSession_ok clock faults w query workflow username
  unfold ProcessExperimentDelete at h ⊢
  cases hs : faults.StartSession with
  | some e => simp [hs] at h
  | none =>
    simp only [hs] at h ⊢
    rcases hd : deleteInSession clock faults w query workflow username with ⟨w', res⟩
    rw [hd] at h2
    simp only [hd] at h ⊢
    cases res with
    | error e =>
      cases ha : faults.AbortTransaction <;> simp [AbortTransaction, ha] at h
    | ok u =>
      have hw := h2 rfl
      simp only at hw
      subst hw
      cases r <;> simp

theorem ProcessExperimentDelete_error (clock : Nat → Int) (faults : TransactionFaults)
    (w : World) (query : BsonD) (workflow : dbChaosExperiment.ChaosExperimentRequest)
    (username : String) (r : Bool) (err : String)
    (h : (ProcessExperimentDelete clock faults w query workflow username r).2 = .error err) :
    (ProcessExperimentDelete clock faults w query workflow username r).1.Experiments
      = w.Experiments ∧
    (ProcessExperimentDelete clock faults w query workflow username r).1.Runs = w.Runs ∧
    (ProcessExperimentDelete clock faults w query workflow username r).1.Sent = w.Sent := by
  have h1 := deleteInSession_error clock faults w query workflow username
  unfold ProcessExperimentDelete at h ⊢
  cases hs : faults.StartSession with
  | some e => simp [hs]
  | none =>
    simp only [hs] at h ⊢
    rcases hd : deleteInSession clock faults w query workflow username with ⟨w', res⟩
    rw [hd] at h1
    simp only [hd] at h ⊢
    cases res with
    | error e =>
      obtain ⟨a1, a2, a3⟩ := h1 e rfl
      simp only at a1 a2 a3
      cases ha : faults.AbortTransaction <;> simp [AbortTransaction, ha, a1, a2, a3]
    | ok u =>
      cases r <;> simp at h

/-! ## Deletion of an experiment and of a run -/

/-- C21 (the storage operators and the transactions of the driver are modelled from the
spec): whatever errors the driver and the storage layer answer with, a call of
`ProcessExperimentDelete` either returns no error, and then the first stored experiment
the query selects is marked removed and every stored run whose experiment id is that of
the given experiment is marked removed, or it returns an error, and then neither
collection has changed and nothing was sent. In particular, when the update of the runs
fails after the update of the experiment went through, both collections are as before the
call, the transaction is aborted, and the error returned is that of the failed update, or
that of `AbortTransaction` when the abort fails too. -/
theorem delete_atomic (clock : Nat → Int) (faults : TransactionFaults) (w : World)
    (query : BsonD) (workflow : dbChaosExperiment.ChaosExperimentRequest)
    (username : String) (r : Bool) :
    (((ProcessExperimentDelete clock faults w query workflow username r).2 = .ok () ∧
        (∀ pre d post, w.Experiments = pre ++ d :: post →
          (∀ x ∈ pre, matchesQuery x query = false) → matchesQuery d query = true →
          (ProcessExperimentDelete clock faults w query workflow username r).1.Experiments
            = pre ++ { d with IsRemoved := true, UpdatedBy := username, UpdatedAt := clock 0 }
                :: post) ∧
        (ProcessExperimentDelete clock faults w query workflow username r).1.Runs
          = w.Runs.map (fun run =>
              if run.ExperimentID = workflow.ExperimentID then
                { run with IsRemoved := true, UpdatedBy := username, UpdatedAt := clock 0 }
              else run) ∧
        (∀ run ∈ (ProcessExperimentDelete clock faults w query workflow username r).1.Runs,
          run.ExperimentID = workflow.ExperimentID → run.IsRemoved = true)) ∨
      ((∃ err, (ProcessExperimentDelete clock faults w query workflow username r).2
          = .error err) ∧
        (ProcessExperimentDelete clock faults w query workflow username r).1.Experiments
          = w.Experiments ∧
        (ProcessExperimentDelete clock faults w query workflow username r).1.Runs = w.Runs ∧
        (ProcessExperimentDelete clock faults w query workflow username r).1.Sent = w.Sent)) ∧
    (∀ err, faults.StartSession = none → faults.StartTransaction = none →
      faults.UpdateChaosExperiment = none →
      faults.UpdateExperimentRunsWithQuery = some err →
      (ProcessExperimentDelete clock faults w query workflow username r).1.Experiments
        = w.Experiments ∧
      (ProcessExperimentDelete clock faults w query workflow username r).1.Runs = w.Runs ∧
      (∀ abortErr, faults.AbortTransaction = some abortErr →
        (ProcessExperimentDelete clock faults w query workflow username r).2
          = .error abortErr) ∧
      (faults.AbortTransaction = none →
        (ProcessExperimentDelete clock faults w query workflow username r).2 = .error err ∧
        (ProcessExperimentDelete clock faults w query workflow username r).1.Transaction
          = none)) := by
  refine ⟨?_, ?_⟩
  · cases hres : (ProcessExperimentDelete clock faults w query workflow username r).2 with
    | error e =>
      right
      exact ⟨⟨e, rfl⟩, ProcessExperimentDelete_error clock faults w query workflow username r e hres⟩
    | ok u =>
      left
      obtain ⟨b1, b2, -⟩ :=
        ProcessExperimentDelete_ok clock faults w query workflow username r hres
      have hruns := updateRuns_delete workflow.ExperimentID clock username w.Runs
      refine ⟨rfl, ?_, ?_, ?_⟩
      · intro pre d post hdocs hpre hd
        rw [b1, hdocs, updateFirst_split _ _ pre post d hpre hd, applyUpdate_delete]
      · rw [b2, hruns]
      · intro run hrun hid
        rw [b2, hruns, List.mem_map] at hrun
        obtain ⟨x, -, rfl⟩ := hrun
        by_cases hx : x.ExperimentID = workflow.ExperimentID
        · simp [hx]
        · simp only [hx, if_false] at hid
  · intro err h1 h2 h3 h4
    obtain ⟨f1, f2, f3, f4, f5, f6⟩ := faults
    simp only at h1 h2 h3 h4
    subst h1 h2 h3 h4
    cases f6 <;>
      simp [ProcessExperimentDelete, deleteInSession, StartTransaction, UpdateChaosExperiment,
        UpdateExperimentRunsWithQuery, AbortTransaction, sessionView, writeExperiments]

/-- Witness of C21: the delete of `exp-1`, first with a storage layer that answers without
error (the experiment and its two runs are marked, the run of `exp-2` is not), then with a
failing update of the run collection. -/
theorem delete_atomic_witness :
    ((ProcessExperimentDelete sampleClock ({ } : TransactionFaults) runWorld deleteQuery
      twoRevisionExperiment "bob" true).1.Experiments.map (fun d => d.IsRemoved))
      = [false, true] ∧
    ((ProcessExperimentDelete sampleClock ({ } : TransactionFaults) runWorld deleteQuery
      twoRevisionExperiment "bob" true).1.Runs.map (fun run => run.IsRemoved))
      = [true, false, true] ∧
    (ProcessExperimentDelete sampleClock runUpdateFails runWorld deleteQuery
      twoRevisionExperiment "bob" true).1.Experiments = runWorld.Experiments ∧
    (ProcessExperimentDelete sampleClock runUpdateFails runWorld deleteQuery
      twoRevisionExperiment "bob" true).1.Runs = runWorld.Runs ∧
    (∀ abortErr, runUpdateFails.AbortTransaction = some abortErr →
      (ProcessExperimentDelete sampleClock runUpdateFails runWorld deleteQuery
        twoRevisionExperiment "bob" true).2 = .error abortErr) ∧
    (runUpdateFails.AbortTransaction = none →
      (ProcessExperimentDelete sampleClock runUpdateFails runWorld deleteQuery
        twoRevisionExperiment "bob" true).2 = .error "write conflict" ∧
      (ProcessExperimentDelete sampleClock runUpdateFails runWorld deleteQuery
        twoRevisionExperiment "bob" true).1.Transaction = none) :=
  ⟨by decide, by decide,
   (delete_atomic sampleClock runUpdateFails runWorld deleteQuery twoRevisionExperiment
     "bob" true).2 "write conflict" rfl rfl rfl rfl⟩

theorem applyRunUpdate_runDelete (clock : Nat → Int)
    (experimentRun run : dbChaosExperimentRun.ChaosExperimentRun) (username : String) :
    applyRunUpdate (runDeleteUpdate clock experimentRun username) run
      = { run with
          IsRemoved := experimentRun.IsRemoved, UpdatedAt := clock 0, UpdatedBy := username } :=
  rfl

/-- The effect of `ProcessExperimentRunDelete` when the storage layer answers without
error: the first stored run the query selects receives the `IsRemoved` value of the run
record passed in, the time and the user; the other runs and the experiments are unchanged,
and one notification of intent workflow_run_delete is sent when a dispatch context is
supplied. -/
theorem ProcessExperimentRunDelete_runs (clock : Nat → Int) (w : World) (query : BsonD)
    (workflowRunID : Option String)
    (experimentRun : dbChaosExperimentRun.ChaosExperimentRun)
    (workflow : dbChaosExperiment.ChaosExperimentRequest) (username : String) (r : Bool)
    (pre post : List dbChaosExperimentRun.ChaosExperimentRun)
    (run : dbChaosExperimentRun.ChaosExperimentRun)
    (hruns : w.Runs = pre ++ run :: post)
    (hpre : ∀ x ∈ pre, matchesRunQuery x query = false)
    (hrun : matchesRunQuery run query = true) :
    (ProcessExperimentRunDelete clock none w query workflowRunID experimentRun workflow
      username r).2 = .ok () ∧
    (ProcessExperimentRunDelete clock none w query workflowRunID experimentRun workflow
      username r).1.Runs
      = pre ++ { run with
                 IsRemoved := experimentRun.IsRemoved
                 UpdatedAt := clock 0
                 UpdatedBy := username } :: post ∧
    (ProcessExperimentRunDelete clock none w query workflowRunID experimentRun workflow
      username r).1.Experiments = w.Experiments ∧
    ((ProcessExperimentRunDelete clock none w query workflowRunID experimentRun workflow
      username r).1.Sent.map (fun notice => notice.ReqType)
      = w.Sent.map (fun notice => notice.ReqType)
        ++ (if r then ["workflow_run_delete"] else [])) := by
  unfold ProcessExperimentRunDelete UpdateExperimentRunWithQuery
  simp only [hruns]
  rw [updateFirstRun_split _ _ pre post run hpre hrun, applyRunUpdate_runDelete]
  cases r <;> simp

/-- C22 does not hold of the code (the run operator is modelled from the spec): the run
`run-1` is stored as not removed and the run record passed in carries `IsRemoved` false, as
a record just read from the store does. The update document of service.go 345-351 sets
`is_removed` to that value, false, where the update document of `ProcessExperimentDelete`
(service.go 303-309) sets it to true; the call succeeds and sends its workflow_run_delete
notification, and the stored run is still not removed. -/
theorem run_delete_leaves_run :
    (sampleRun "run-1" "exp-1").IsRemoved = false ∧
    runDeleteUpdate sampleClock (sampleRun "run-1" "exp-1") "bob"
      = [("$set", [("is_removed", .bool false), ("updated_at", .int 2000),
          ("updated_by", .str "bob")])] ∧
    deleteUpdate sampleClock "bob"
      = [("$set", [("is_removed", .bool true), ("updated_by", .str "bob"),
          ("updated_at", .int 2000)])] ∧
    (ProcessExperimentRunDelete sampleClock none runWorld runDeleteQuery (some "run-1")
      (sampleRun "run-1" "exp-1") twoRevisionExperiment "bob" true).2 = .ok () ∧
    (ProcessExperimentRunDelete sampleClock none runWorld runDeleteQuery (some "run-1")
      (sampleRun "run-1" "exp-1") twoRevisionExperiment "bob" true).1.Runs
      = [{ sampleRun "run-1" "exp-1" with UpdatedAt := 2000, UpdatedBy := "bob" },
         sampleRun "run-2" "exp-2", sampleRun "run-3" "exp-1"] ∧
    (∀ run ∈ (ProcessExperimentRunDelete sampleClock none runWorld runDeleteQuery
        (some "run-1") (sampleRun "run-1" "exp-1") twoRevisionExperiment "bob" true).1.Runs,
      run.ExperimentRunID = "run-1" → run.IsRemoved = false) ∧
    ((ProcessExperimentRunDelete sampleClock none runWorld runDeleteQuery (some "run-1")
      (sampleRun "run-1" "exp-1") twoRevisionExperiment "bob" true).1.Sent.map
        (fun notice => notice.ReqType)) = ["workflow_run_delete"] := by
  decide

/-! ## Result and notification of an update -/

/-- The result of `ProcessExperimentUpdate`, for both update shapes: if the storage write
fails the storage error is returned unmodified, the state is unchanged and nothing is sent;
if the write succeeds and the manifest decodes to an object with a kind, the call returns
no error and sends one notification of intent update when a dispatch context is supplied;
if the write succeeds and the manifest is not a JSON object, or is an object without a
kind, the call fails after the write with the decoding error and sends nothing. -/
theorem ProcessExperimentUpdate_result (clock : Nat → Int) (w : World)
    (workflow : ChaosExperimentRequest)
    (username : String) (wfType : ChaosExperimentType) (revisionID : String)
    (updateRevision : Bool) (projectID : String) (r : Bool) :
    (∀ err, ProcessExperimentUpdate clock (some err) w workflow username wfType revisionID
        updateRevision projectID r = (w, .error err)) ∧
    (∀ m, workflow.ExperimentManifest = some m → m.Kind ≠ "" →
      (ProcessExperimentUpdate clock none w workflow username wfType revisionID
        updateRevision projectID r).2 = .ok () ∧
      (ProcessExperimentUpdate clock none w workflow username wfType revisionID
        updateRevision projectID r).1.Sent
        = w.Sent ++
          (if r then
            [{ ProjectID := projectID, Workflow := workflow, Username := username,
               ExternalData := none, ReqType := "update" }]
           else [])) ∧
    ((workflow.ExperimentManifest = none ∨
        ∃ m, workflow.ExperimentManifest = some m ∧ m.Kind = "") →
      (ProcessExperimentUpdate clock none w workflow username wfType revisionID
        updateRevision projectID r).2 = .error "failed to unmarshal workflow manifest1" ∧
      (ProcessExperimentUpdate clock none w workflow username wfType revisionID
        updateRevision projectID r).1.Sent = w.Sent) := by
  refine ⟨?_, ?_, ?_⟩
  · intro err
    simp [ProcessExperimentUpdate, UpdateChaosExperiment]
  · intro m hm hk
    unfold ProcessExperimentUpdate UpdateChaosExperiment
    simp only [hm, hk, if_false]
    cases r <;> simp
  · rintro (hm | ⟨m, hm, hk⟩)
    · unfold ProcessExperimentUpdate UpdateChaosExperiment
      simp only [hm]
      exact ⟨trivial, trivial⟩
    · unfold ProcessExperimentUpdate UpdateChaosExperiment
      simp only [hm, hk, if_true]
      exact ⟨trivial, trivial⟩

/-- C23 does not hold of the code (the storage operator is modelled from the spec): the
storage write of a normal update succeeds (the stored experiment gains the revision
`rev-3`), a dispatch context is supplied, and the call fails on the decoding of the manifest
that follows the write (service.go 272-275), without any notification. This happens for a
manifest that is not JSON and for a JSON object without a kind. On the same request the
creation (service.go 194-201), which does not decode, stores the record, notifies and
returns no error. -/
theorem update_fails_after_write :
    (ProcessExperimentUpdate sampleClock none sampleWorld
      { sampleRequest workflowDoc [] with ExperimentManifest := none } "bob"
      .NonCronExperiment "rev-3" false "project-1" true).2
      = .error "failed to unmarshal workflow manifest1" ∧
    (ProcessExperimentUpdate sampleClock none sampleWorld
      { sampleRequest workflowDoc [] with ExperimentManifest := none } "bob"
      .NonCronExperiment "rev-3" false "project-1" true).1.Sent = [] ∧
    ((ProcessExperimentUpdate sampleClock none sampleWorld
      { sampleRequest workflowDoc [] with ExperimentManifest := none } "bob"
      .NonCronExperiment "rev-3" false "project-1" true).1.Experiments.map
        (fun d => d.Revision.map (fun rev => rev.RevisionID)))
      = [["rev-1"], ["rev-1", "rev-2", "rev-3"]] ∧
    (ProcessExperimentUpdate sampleClock none sampleWorld (sampleRequest kindlessDoc []) "bob"
      .NonCronExperiment "rev-3" false "project-1" true).2
      = .error "failed to unmarshal workflow manifest1" ∧
    (ProcessExperimentUpdate sampleClock none sampleWorld (sampleRequest kindlessDoc []) "bob"
      .NonCronExperiment "rev-3" false "project-1" true).1.Sent = [] ∧
    ((ProcessExperimentUpdate sampleClock none sampleWorld (sampleRequest kindlessDoc []) "bob"
      .NonCronExperiment "rev-3" false "project-1" true).1.Experiments.map
        (fun d => d.Revision.map (fun rev => rev.RevisionID)))
      = [["rev-1"], ["rev-1", "rev-2", "rev-3"]] ∧
    (sampleWorld.Experiments.map (fun d => d.Revision.map (fun rev => rev.RevisionID)))
      = [["rev-1"], ["rev-1", "rev-2"]] ∧
    (ProcessExperimentCreation sampleClock none emptyWorld
      { sampleRequest workflowDoc [] with ExperimentManifest := none } "bob" "project-1"
      .NonCronExperiment "rev-1" true).2 = .ok () ∧
    ((ProcessExperimentCreation sampleClock none emptyWorld
      { sampleRequest workflowDoc [] with ExperimentManifest := none } "bob" "project-1"
      .NonCronExperiment "rev-1" true).1.Sent.map (fun notice => notice.ReqType))
      = ["create"] := by
  decide

/-! ## Errors of the four processors -/

theorem processExperimentManifest_error (env : Env) (workflow : ChaosExperimentRequest)
    (weights : List (String × Int)) (revID : String) (e : String)
    (h : (processExperimentManifest env workflow weights revID).2 = .error e) :
    (processExperimentManifest env workflow weights revID).1 = workflow := by
  unfold processExperimentManifest at h ⊢
  cases hm : workflow.ExperimentManifest with
  | none => rfl
  | some doc =>
    simp only [hm] at h ⊢
    cases hp : processTemplates env weights doc.toWorkflow.Templates with
    | error e1 => rfl
    | ok r => simp [hp] at h

theorem processCronExperimentManifest_error (env : Env) (workflow : ChaosExperimentRequest)
    (weights : List (String × Int)) (revID : String) (e : String)
    (h : (processCronExperimentManifest env workflow weights revID).2 = .error e) :
    (processCronExperimentManifest env workflow weights revID).1 = workflow := by
  unfold processCronExperimentManifest at h ⊢
  cases hm : workflow.ExperimentManifest with
  | none => rfl
  | some doc =>
    simp only [hm] at h ⊢
    cases hp : processTemplates env weights doc.toCronWorkflow.Templates with
    | error e1 => rfl
    | ok r => simp [hp] at h

theorem processChaosEngineManifest_error (workflow : ChaosExperimentRequest)
    (weights : List (String × Int)) (revID : String) (e : String)
    (h : (processChaosEngineManifest workflow weights revID).2 = .error e) :
    (processChaosEngineManifest workflow weights revID).1 = workflow := by
  unfold processChaosEngineManifest at h ⊢
  cases hm : workflow.ExperimentManifest with
  | none => rfl
  | some doc =>
    simp only [hm] at h ⊢
    cases he : doc.toChaosEngine.Experiments with
    | nil => rfl
    | cons e0 rest =>
      simp only [he] at h ⊢
      by_cases hn : e0.Name.length = 0
      · simp [hn]
      · simp only [hn, if_false] at h ⊢
        cases hr : reconcileRoot weights e0.Name
            (standaloneLabels doc.toChaosEngine.Labels (workflow.ExperimentID.getD "")
              workflow.InfraID revID) with
        | error e1 => rfl
        | ok r => simp [hr] at h

theorem processChaosScheduleManifest_error (workflow : ChaosExperimentRequest)
    (weights : List (String × Int)) (revID : String) (e : String)
    (h : (processChaosScheduleManifest workflow weights revID).2 = .error e) :
    (processChaosScheduleManifest workflow weights revID).1 = workflow := by
  unfold processChaosScheduleManifest at h ⊢
  cases hm : workflow.ExperimentManifest with
  | none => rfl
  | some doc =>
    simp only [hm] at h ⊢
    cases he : doc.toChaosSchedule.Experiments with
    | nil => rfl
    | cons e0 rest =>
      simp only [he] at h ⊢
      by_cases hn : e0.Name.length = 0
      · simp [hn]
      · simp only [hn, if_false] at h ⊢
        cases hr : reconcileRoot weights e0.Name
            (standaloneLabels doc.toChaosSchedule.Labels (workflow.ExperimentID.getD "")
              workflow.InfraID revID) with
        | error e1 => rfl
        | ok r => simp [hr] at h

/-- C24: whenever one of the four manifest processors returns an error, the manifest, the
weightages list and the cron syntax of the request are exactly as they were before the
call (the request as a whole is untouched). The encoding of the processed manifest is
taken not to fail. -/
theorem processors_error_atomic (env : Env) (workflow : ChaosExperimentRequest)
    (weights : List (String × Int)) (revID : String) (e : String) :
    ((processExperimentManifest env workflow weights revID).2 = .error e →
      (processExperimentManifest env workflow weights revID).1.ExperimentManifest
        = workflow.ExperimentManifest ∧
      (processExperimentManifest env workflow weights revID).1.Weightages
        = workflow.Weightages ∧
      (processExperimentManifest env workflow weights revID).1.CronSyntax
        = workflow.CronSyntax) ∧
    ((processCronExperimentManifest env workflow weights revID).2 = .error e →
      (processCronExperimentManifest env workflow weights revID).1.ExperimentManifest
        = workflow.ExperimentManifest ∧
      (processCronExperimentManifest env workflow weights revID).1.Weightages
        = workflow.Weightages ∧
      (processCronExperimentManifest env workflow weights revID).1.CronSyntax
        = workflow.CronSyntax) ∧
    ((processChaosEngineManifest workflow weights revID).2 = .error e →
      (processChaosEngineManifest workflow weights revID).1.ExperimentManifest
        = workflow.ExperimentManifest ∧
      (processChaosEngineManifest workflow weights revID).1.Weightages
        = workflow.Weightages ∧
      (processChaosEngineManifest workflow weights revID).1.CronSyntax
        = workflow.CronSyntax) ∧
    ((processChaosScheduleManifest workflow weights revID).2 = .error e →
      (processChaosScheduleManifest workflow weights revID).1.ExperimentManifest
        = workflow.ExperimentManifest ∧
      (processChaosScheduleManifest workflow weights revID).1.Weightages
        = workflow.Weightages ∧
      (processChaosScheduleManifest workflow weights revID).1.CronSyntax
        = workflow.CronSyntax) := by
  refine ⟨?_, ?_, ?_, ?_⟩
  · intro h
    rw [processExperimentManifest_error env workflow weights revID e h]
    exact ⟨rfl, rfl, rfl⟩
  · intro h
    rw [processCronExperimentManifest_error env workflow weights revID e h]
    exact ⟨rfl, rfl, rfl⟩
  · intro h
    rw [processChaosEngineManifest_error workflow weights revID e h]
    exact ⟨rfl, rfl, rfl⟩
  · intro h
    rw [processChaosScheduleManifest_error workflow weights revID e h]
    exact ⟨rfl, rfl, rfl⟩

/-- Witness of C24: a cron workflow whose template carries a weight label that is not a
number; the processor fails after it has computed the identity labels. -/
theorem processors_error_atomic_witness :
    (processCronExperimentManifest sampleEnv (sampleRequest badLabelCronDoc []) [] "rev-1").2
      = .error "failed to convert" ∧
    ((processCronExperimentManifest sampleEnv (sampleRequest badLabelCronDoc []) []
        "rev-1").1.ExperimentManifest = (sampleRequest badLabelCronDoc []).ExperimentManifest ∧
      (processCronExperimentManifest sampleEnv (sampleRequest badLabelCronDoc []) []
        "rev-1").1.Weightages = (sampleRequest badLabelCronDoc []).Weightages ∧
      (processCronExperimentManifest sampleEnv (sampleRequest badLabelCronDoc []) []
        "rev-1").1.CronSyntax = (sampleRequest badLabelCronDoc []).CronSyntax) :=
  ⟨by decide,
   (processors_error_atomic sampleEnv (sampleRequest badLabelCronDoc []) [] "rev-1"
     "failed to convert").2.1 (by decide)⟩

/-! ## Labels of the templates -/

theorem templateFault_passedOver (env : Env) (t : Template) (h : PassedOver env t) :
    templateFault env t = .ok none := by
  unfold templateFault templateEngine
  rcases h with h | ⟨a, rest, ha, h⟩
  · simp [h]
  · simp only [ha]
    rcases h with h | h | ⟨data, meta, hd, hy, hk⟩
    · simp [h]
    · simp [h]
    · simp only [hd]
      by_cases hl : data.length > 0
      · simp [hl, hy, hk]
      · simp [hl]

theorem processTemplate_cases (env : Env) (w : List (String × Int)) (t t' : Template)
    (c : List WeightagesInput) (h : processTemplate env w t = .ok (t', c)) :
    t'.Artifacts = t.Artifacts ∧
    (templateFault env t = .ok none → t' = t ∧ c = []) ∧
    (∀ n v, templateFault env t = .ok (some n) → mapGet w n = some v →
      t'.Labels = some [("weight", Itoa v)] ∧ c = []) ∧
    (∀ n s, templateFault env t = .ok (some n) → mapGet w n = none →
      labelGet t.Labels "weight" = some s →
      t' = t ∧ ∃ v, Atoi s = .ok v ∧ c = [{ FaultName := n, Weightage := v }]) ∧
    (∀ n, templateFault env t = .ok (some n) → mapGet w n = none →
      labelGet t.Labels "weight" = none →
      t'.Labels = some [("weight", "10")] ∧ c = [{ FaultName := n, Weightage := 10 }]) := by
  refine ⟨(processTemplate_ok env w t t' c h).1, ?_, ?_, ?_, ?_⟩
  · intro hf
    simp [processTemplate, hf] at h
    exact ⟨h.1.symm, h.2⟩
  · intro n v hf hw
    simp [processTemplate, hf, reconcileTemplate, hw] at h
    obtain ⟨rfl, rfl⟩ := h
    exact ⟨rfl, rfl⟩
  · intro n s hf hw hl
    simp only [processTemplate, hf, reconcileTemplate, hw, hl] at h
    cases ha : Atoi s with
    | error e => simp [ha] at h
    | ok v =>
      simp [ha] at h
      obtain ⟨rfl, rfl⟩ := h
      exact ⟨rfl, v, rfl, rfl⟩
  · intro n hf hw hl
    simp [processTemplate, hf, reconcileTemplate, hw, hl] at h
    obtain ⟨rfl, rfl⟩ := h
    exact ⟨rfl, rfl⟩

theorem processTemplates_getElem (env : Env) (w : List (String × Int)) :
    ∀ (ts ts' : List Template) (new : List WeightagesInput),
      processTemplates env w ts = .ok (ts', new) →
      ts'.length = ts.length ∧
      ∀ (i : Nat) (t : Template), ts[i]? = some t →
        ∃ t' c, ts'[i]? = some t' ∧ processTemplate env w t = .ok (t', c) := by
  intro ts
  induction ts with
  | nil =>
    intro ts' new h
    simp [processTemplates] at h
    obtain ⟨rfl, rfl⟩ := h
    simp
  | cons t rest ih =>
    intro ts' new h
    unfold processTemplates at h
    cases h1 : processTemplate env w t with
    | error e => simp [h1] at h
    | ok r1 =>
      obtain ⟨t1, c1⟩ := r1
      simp only [h1] at h
      cases h2 : processTemplates env w rest with
      | error e => simp [h2] at h
      | ok r2 =>
        obtain ⟨rest', cs⟩ := r2
        simp [h2] at h
        obtain ⟨rfl, rfl⟩ := h
        obtain ⟨b1, b2⟩ := ih rest' cs h2
        refine ⟨by simp [b1], ?_⟩
        intro i x hx
        cases i with
        | zero =>
          simp at hx
          subst hx
          exact ⟨t1, c1, by simp, h1⟩
        | succ j =>
          simp at hx
          obtain ⟨x', c', e1, e2⟩ := b2 j x hx
          exact ⟨x', c', by simpa using e1, e2⟩

/-- The templates of the manifest a workflow or cron processor leaves behind are those the
template loop computed. -/
theorem processKind_templates (env : Env) (k : ManifestKind) (wf : ChaosExperimentRequest)
    (w : List (String × Int)) (rev : String) (m : Manifest)
    (hkind : k = .workflow ∨ k = .cronworkflow)
    (hm : wf.ExperimentManifest = some m)
    (h : (processKind env k wf w rev).2 = .ok ()) :
    ∃ ts' new m', processTemplates env w (kindTemplates k m) = .ok (ts', new) ∧
      (processKind env k wf w rev).1.ExperimentManifest = some m' ∧
      kindTemplates k m' = ts' := by
  rcases hkind with rfl | rfl
  · simp only [processKind, kindTemplates] at h ⊢
    unfold processExperimentManifest at h ⊢
    simp only [hm, Manifest.toWorkflow] at h ⊢
    cases hp : processTemplates env w m.Templates with
    | error e => simp [hp] at h
    | ok r =>
      obtain ⟨ts', new⟩ := r
      exact ⟨ts', new, _, rfl, rfl, rfl⟩
  · simp only [processKind, kindTemplates] at h ⊢
    unfold processCronExperimentManifest at h ⊢
    simp only [hm, Manifest.toCronWorkflow] at h ⊢
    cases hp : processTemplates env w m.WorkflowSpecTemplates with
    | error e => simp [hp] at h
    | ok r =>
      obtain ⟨ts', new⟩ := r
      exact ⟨ts', new, _, rfl, rfl, rfl⟩

theorem faultNodes_templates (env : Env) (k : ManifestKind) (m : Manifest)
    (hkind : k = .workflow ∨ k = .cronworkflow) :
    faultNodes env k m = (kindTemplates k m).map (templateNode env) := by
  rcases hkind with rfl | rfl <;> rfl

/-- C25: whenever `ProcessExperiment` succeeds on a manifest of the workflow or cron kind,
the manifest it returns has as many templates as before, in the same order and with the
same artifacts, and for the template at each position: if it carries a chaos engine whose
fault has a declared weight, its label map is exactly weight ↦ that weight; if its fault
has no declared weight and it has no weight label, its label map is exactly weight ↦ 10;
if its fault has no declared weight and it has a weight label, the template is unchanged;
if the loop passes over it (no artifact, a first artifact without raw data or with empty
raw data, or one that is not of kind chaosengine), the template is unchanged and it adds
nothing to the weightages, which are the declared ones followed by the entries of the
templates in order. -/
theorem template_labels (env : Env) (uuid : String)
    (req : ChaosExperimentRequest) (pid rev : String) (ty : ChaosExperimentType)
    (m : Manifest) (k : ManifestKind)
    (h : (ProcessExperiment env uuid req pid rev).2 = .ok ty)
    (hm : req.ExperimentManifest = some m) (hk : manifestKind env m = some k)
    (hkind : k = .workflow ∨ k = .cronworkflow) :
    ∃ m', (ProcessExperiment env uuid req pid rev).1.ExperimentManifest = some m' ∧
      (kindTemplates k m').length = (kindTemplates k m).length ∧
      (ProcessExperiment env uuid req pid rev).1.Weightages
        = req.Weightages ++ (kindTemplates k m).flatMap (fun t =>
            expectedEntry (declaredWeights req.Weightages) (templateNode env t)) ∧
      ∀ (i : Nat) (t : Template), (kindTemplates k m)[i]? = some t →
        ∃ t', (kindTemplates k m')[i]? = some t' ∧ t'.Artifacts = t.Artifacts ∧
          (∀ n v, templateFault env t = .ok (some n) →
            mapGet (declaredWeights req.Weightages) n = some v →
            t'.Labels = some [("weight", Itoa v)]) ∧
          (∀ n, templateFault env t = .ok (some n) →
            mapGet (declaredWeights req.Weightages) n = none →
            labelGet t.Labels "weight" = none → t'.Labels = some [("weight", "10")]) ∧
          (∀ n s, templateFault env t = .ok (some n) →
            mapGet (declaredWeights req.Weightages) n = none →
            labelGet t.Labels "weight" = some s → t' = t) ∧
          (PassedOver env t →
            t' = t ∧
            expectedEntry (declaredWeights req.Weightages) (templateNode env t) = []) := by
  obtain ⟨infra, m0, k0, hi, ha, hp, hm0, hn, hk0⟩ :=
    ProcessExperiment_ok_inv env uuid req pid rev ty h
  rw [hm] at hm0
  cases hm0
  rw [hk] at hk0
  cases hk0
  obtain ⟨-, m1, e1, -, -, -, -, e6, -, -, -, -⟩ :=
    ProcessExperiment_nodes env uuid req pid rev ty m k h hm hk
  obtain ⟨f1, -, -, f4, -⟩ := assignExperimentID_fields uuid req
  have hd := ProcessExperiment_dispatch env uuid req pid rev infra m k hi ha hp hm hn hk
      (ProcessExperiment_ok_kind env uuid req pid rev ty m h hm)
  rw [hd] at h e1 e6 ⊢
  obtain ⟨-, g2, g3⟩ := withType_snd_ok _ _ _ h
  rw [g3] at e1 e6 ⊢
  obtain ⟨ts', new, m', p1, p2, p3⟩ :=
    processKind_templates env k (assignExperimentID uuid req) (declaredWeights req.Weightages)
      rev m hkind (by rw [f1]; exact hm) g2
  obtain ⟨q1, q2⟩ := processTemplates_getElem env _ _ ts' new p1
  refine ⟨m', p2, by rw [p3, q1], ?_, ?_⟩
  · rw [e6, f4, faultNodes_templates env k m hkind, List.flatMap_map]
  · intro i t ht
    obtain ⟨t', c, r1, r2⟩ := q2 i t ht
    obtain ⟨c1, c2, c3, c4, c5⟩ := processTemplate_cases env _ t t' c r2
    refine ⟨t', by rw [p3]; exact r1, c1, ?_, ?_, ?_, ?_⟩
    · intro n v hf hw
      exact (c3 n v hf hw).1
    · intro n hf hw hl
      exact (c5 n hf hw hl).1
    · intro n s hf hw hl
      exact (c4 n s hf hw hl).1
    · intro hpass
      have hf := templateFault_passedOver env t hpass
      refine ⟨(c2 hf).1, ?_⟩
      simp [expectedEntry, templateNode, hf]

/-- Witness of C25: the workflow with a plain template and a pod-delete template labelled
by hand, sent with a declared weight for pod-delete. -/
theorem template_labels_witness :
    ((ProcessExperiment sampleEnv "uuid-1"
        (sampleRequest workflowDoc [{ FaultName := "pod-delete", Weightage := 5 }])
        "project-1" "rev-1").1.ExperimentManifest.map
        (fun doc => doc.Templates.map (fun t => t.Labels)))
      = some [none, some [("weight", "5")]] ∧
    ∃ m', (ProcessExperiment sampleEnv "uuid-1"
        (sampleRequest workflowDoc [{ FaultName := "pod-delete", Weightage := 5 }])
        "project-1" "rev-1").1.ExperimentManifest = some m' ∧
      (kindTemplates .workflow m').length = (kindTemplates .workflow workflowDoc).length ∧
      (ProcessExperiment sampleEnv "uuid-1"
        (sampleRequest workflowDoc [{ FaultName := "pod-delete", Weightage := 5 }])
        "project-1" "rev-1").1.Weightages
        = (sampleRequest workflowDoc [{ FaultName := "pod-delete", Weightage := 5 }]).Weightages
          ++ (kindTemplates .workflow workflowDoc).flatMap (fun t =>
            expectedEntry (declaredWeights (sampleRequest workflowDoc
              [{ FaultName := "pod-delete", Weightage := 5 }]).Weightages)
              (templateNode sampleEnv t)) ∧
      ∀ (i : Nat) (t : Template), (kindTemplates .workflow workflowDoc)[i]? = some t →
        ∃ t', (kindTemplates .workflow m')[i]? = some t' ∧ t'.Artifacts = t.Artifacts ∧
          (∀ n v, templateFault sampleEnv t = .ok (some n) →
            mapGet (declaredWeights (sampleRequest workflowDoc
              [{ FaultName := "pod-delete", Weightage := 5 }]).Weightages) n = some v →
            t'.Labels = some [("weight", Itoa v)]) ∧
          (∀ n, templateFault sampleEnv t = .ok (some n) →
            mapGet (declaredWeights (sampleRequest workflowDoc
              [{ FaultName := "pod-delete", Weightage := 5 }]).Weightages) n = none →
            labelGet t.Labels "weight" = none → t'.Labels = some [("weight", "10")]) ∧
          (∀ n s, templateFault sampleEnv t = .ok (some n) →
            mapGet (declaredWeights (sampleRequest workflowDoc
              [{ FaultName := "pod-delete", Weightage := 5 }]).Weightages) n = none →
            labelGet t.Labels "weight" = some s → t' = t) ∧
          (PassedOver sampleEnv t →
            t' = t ∧
            expectedEntry (declaredWeights (sampleRequest workflowDoc
              [{ FaultName := "pod-delete", Weightage := 5 }]).Weightages)
              (templateNode sampleEnv t) = []) :=
  ⟨by decide,
   template_labels sampleEnv "uuid-1"
     (sampleRequest workflowDoc [{ FaultName := "pod-delete", Weightage := 5 }])
     "project-1" "rev-1" .NonCronExperiment workflowDoc .workflow
     (by decide) (by decide) (by decide) (by decide)⟩

/-! ## Lemmas on a second pass with the augmented weightages -/

theorem mapGet_foldl_mapSet_of_not_mem (n : String) :
    ∀ (ws : List WeightagesInput) (acc : List (String × Int)),
      n ∉ ws.map (fun e => e.FaultName) →
      mapGet (ws.foldl (fun weights weight => mapSet weights weight.FaultName weight.Weightage)
        acc) n = mapGet acc n := by
  intro ws
  induction ws with
  | nil => intro acc _; rfl
  | cons x rest ih =>
    intro acc hn
    simp only [List.map_cons, List.mem_cons, not_or] at hn
    simp only [List.foldl_cons]
    rw [ih _ hn.2, mapGet_mapSet_of_ne _ _ _ _ (Ne.symm hn.1)]

theorem mapGet_foldl_mapSet_of_agree (n : String) (v : Int) :
    ∀ (ws : List WeightagesInput) (acc : List (String × Int)),
      (∀ e ∈ ws, e.FaultName = n → e.Weightage = v) →
      (n ∈ ws.map (fun e => e.FaultName) ∨ mapGet acc n = some v) →
      mapGet (ws.foldl (fun weights weight => mapSet weights weight.FaultName weight.Weightage)
        acc) n = some v := by
  intro ws
  induction ws with
  | nil =>
    intro acc _ h
    rcases h with h | h
    · simp at h
    · exact h
  | cons x rest ih =>
    intro acc hag h
    simp only [List.foldl_cons]
    apply ih _ (fun e he => hag e (List.mem_cons_of_mem _ he))
    by_cases hx : x.FaultName = n
    · right
      rw [← hag x (List.mem_cons_self _ _) hx, ← hx]
      exact mapGet_mapSet_self _ _ _
    · rcases h with h | h
      · simp only [List.map_cons, List.mem_cons] at h
        rcases h with h | h
        · exact absurd h.symm hx
        · exact Or.inl h
      · right
        rw [mapGet_mapSet_of_ne _ _ _ _ hx]
        exact h

theorem declaredWeights_append (ws new : List WeightagesInput) :
    declaredWeights (ws ++ new)
      = new.foldl (fun weights weight => mapSet weights weight.FaultName weight.Weightage)
          (declaredWeights ws) := by
  simp [declaredWeights, List.foldl_append]

theorem map_eq_self_iff {α : Type} (f : α → α) (l : List α) :
    l.map f = l ↔ ∀ x ∈ l, f x = x := by
  induction l with
  | nil => simp
  | cons a rest ih => simp [ih]

theorem template_labels_eq_iff (t : Template) (l : Labels) :
    ({ t with Labels := l } : Template) = t ↔ t.Labels = l := by
  cases t
  simp
  exact eq_comm

theorem processTemplates_faults (env : Env) (w : List (String × Int)) :
    ∀ (ts ts' : List Template) (new : List WeightagesInput),
      processTemplates env w ts = .ok (ts', new) →
      ∀ t' ∈ ts', ∃ o, templateFault env t' = .ok o := by
  intro ts
  induction ts with
  | nil =>
    intro ts' new h
    simp [processTemplates] at h
    obtain ⟨rfl, rfl⟩ := h
    simp
  | cons t rest ih =>
    intro ts' new h
    unfold processTemplates at h
    cases h1 : processTemplate env w t with
    | error e => simp [h1] at h
    | ok r1 =>
      obtain ⟨t1, c1⟩ := r1
      simp only [h1] at h
      cases h2 : processTemplates env w rest with
      | error e => simp [h2] at h
      | ok r2 =>
        obtain ⟨rest', cs⟩ := r2
        simp [h2] at h
        obtain ⟨rfl, rfl⟩ := h
        intro x hx
        rcases List.mem_cons.mp hx with rfl | hx
        · have hart := (processTemplate_ok env w t x c1 h1).1
          rw [templateFault_congr env t x hart]
          unfold processTemplate at h1
          cases hf : templateFault env t with
          | error e => simp [hf] at h1
          | ok o => exact ⟨o, rfl⟩
        · exact ih rest' cs h2 x hx

theorem processTemplates_declared (env : Env) (w : List (String × Int)) :
    ∀ (ts : List Template),
      (∀ t ∈ ts, ∃ o, templateFault env t = .ok o ∧ ∀ n, o = some n → mapGet w n ≠ none) →
      processTemplates env w ts = .ok (ts.map (stampTemplate env w), []) := by
  intro ts
  induction ts with
  | nil => intro _; rfl
  | cons t rest ih =>
    intro hall
    have hrest := ih (fun x hx => hall x (List.mem_cons_of_mem _ hx))
    obtain ⟨o, ho, hdecl⟩ := hall t (List.mem_cons_self _ _)
    have ht : processTemplate env w t = .ok (stampTemplate env w t, []) := by
      unfold processTemplate stampTemplate
      cases o with
      | none => simp [ho]
      | some n =>
        cases hw : mapGet w n with
        | none => exact absurd hw (hdecl n rfl)
        | some v => simp [ho, reconcileTemplate, hw]
    simp [processTemplates, ht, hrest]

theorem stampTemplate_eq_self_iff (env : Env) (k : ManifestKind) (w : List (String × Int))
    (t : Template) (hkind : k = .workflow ∨ k = .cronworkflow)
    (h : ∃ o, templateFault env t = .ok o ∧ ∀ n, o = some n → mapGet w n ≠ none) :
    stampTemplate env w t = t ↔ Stamped k w (templateNode env t) := by
  obtain ⟨o, ho, hdecl⟩ := h
  unfold stampTemplate Stamped templateNode
  cases o with
  | none => simp [ho]
  | some n =>
    cases hw : mapGet w n with
    | none => exact absurd hw (hdecl n rfl)
    | some v =>
      simp only [ho, hw]
      rw [template_labels_eq_iff]
      rcases hkind with rfl | rfl <;> rfl

theorem templates_declared_of_nodes (env : Env) (w : List (String × Int))
    (ts : List Template)
    (hf : ∀ t ∈ ts, ∃ o, templateFault env t = .ok o)
    (hdecl : ∀ node ∈ ts.map (templateNode env), ∀ n, node.2 = some n → mapGet w n ≠ none) :
    ∀ t ∈ ts, ∃ o, templateFault env t = .ok o ∧ ∀ n, o = some n → mapGet w n ≠ none := by
  intro t ht
  obtain ⟨o, ho⟩ := hf t ht
  refine ⟨o, ho, ?_⟩
  intro n hn
  subst hn
  exact hdecl (templateNode env t) (List.mem_map_of_mem _ ht) n (by simp [templateNode, ho])

theorem templates_stamped_iff (env : Env) (k : ManifestKind) (w : List (String × Int))
    (ts : List Template) (hkind : k = .workflow ∨ k = .cronworkflow)
    (h : ∀ t ∈ ts, ∃ o, templateFault env t = .ok o ∧ ∀ n, o = some n → mapGet w n ≠ none) :
    ts.map (stampTemplate env w) = ts ↔ ∀ node ∈ ts.map (templateNode env), Stamped k w node := by
  rw [map_eq_self_iff]
  constructor
  · intro hs node hnode
    obtain ⟨t, ht, rfl⟩ := List.mem_map.mp hnode
    exact (stampTemplate_eq_self_iff env k w t hkind (h t ht)).mp (hs t ht)
  · intro hs t ht
    exact (stampTemplate_eq_self_iff env k w t hkind (h t ht)).mpr
      (hs _ (List.mem_map_of_mem _ ht))

theorem processExperimentManifest_feedback (env : Env) (wf wf2 : ChaosExperimentRequest)
    (w w2 : List (String × Int)) (rev : String) (m' : Manifest)
    (h : (processExperimentManifest env wf w rev).2 = .ok ())
    (h1 : wf2.ExperimentManifest = (processExperimentManifest env wf w rev).1.ExperimentManifest)
    (hm' : wf2.ExperimentManifest = some m')
    (h2 : wf2.ExperimentID = wf.ExperimentID) (h3 : wf2.InfraID = wf.InfraID)
    (hdecl : ∀ node ∈ faultNodes env .workflow m', ∀ n, node.2 = some n → mapGet w2 n ≠ none) :
    (processExperimentManifest env wf2 w2 rev).2 = .ok () ∧
    (processExperimentManifest env wf2 w2 rev).1.Weightages = wf2.Weightages ∧
    ((processExperimentManifest env wf2 w2 rev).1.ExperimentManifest = wf2.ExperimentManifest ↔
      ∀ node ∈ faultNodes env .workflow m', Stamped .workflow w2 node) := by
  unfold processExperimentManifest at h h1
  cases hm : wf.ExperimentManifest with
  | none => simp [hm] at h
  | some m =>
    simp only [hm] at h h1
    cases hp : processTemplates env w m.toWorkflow.Templates with
    | error e => simp [hp] at h
    | ok r =>
      obtain ⟨ts', new⟩ := r
      simp only [hp] at h1
      rw [h1] at hm'
      simp only [Option.some.injEq] at hm'
      subst hm'
      simp only [faultNodes, Workflow.toManifest] at hdecl ⊢
      have hall := templates_declared_of_nodes env w2 ts'
        (processTemplates_faults env w _ ts' new hp) hdecl
      have hT := processTemplates_declared env w2 ts' hall
      have hiff := templates_stamped_iff env .workflow w2 ts' (Or.inl rfl) hall
      unfold processExperimentManifest
      simp only [h1, h2, h3, Manifest.toWorkflow, Workflow.toManifest, hT, workflowLabels_idem]
      refine ⟨trivial, by simp, ?_⟩
      rw [← hiff]
      simp

theorem processCronExperimentManifest_feedback (env : Env) (wf wf2 : ChaosExperimentRequest)
    (w w2 : List (String × Int)) (rev : String) (m' : Manifest)
    (h : (processCronExperimentManifest env wf w rev).2 = .ok ())
    (h1 : wf2.ExperimentManifest
      = (processCronExperimentManifest env wf w rev).1.ExperimentManifest)
    (hm' : wf2.ExperimentManifest = some m')
    (h2 : wf2.ExperimentID = wf.ExperimentID) (h3 : wf2.InfraID = wf.InfraID)
    (hdecl : ∀ node ∈ faultNodes env .cronworkflow m', ∀ n, node.2 = some n →
      mapGet w2 n ≠ none) :
    (processCronExperimentManifest env wf2 w2 rev).2 = .ok () ∧
    (processCronExperimentManifest env wf2 w2 rev).1.Weightages = wf2.Weightages ∧
    ((processCronExperimentManifest env wf2 w2 rev).1.ExperimentManifest
        = wf2.ExperimentManifest ↔
      ∀ node ∈ faultNodes env .cronworkflow m', Stamped .cronworkflow w2 node) := by
  unfold processCronExperimentManifest at h h1
  cases hm : wf.ExperimentManifest with
  | none => simp [hm] at h
  | some m =>
    simp only [hm] at h h1
    cases hp : processTemplates env w m.toCronWorkflow.Templates with
    | error e => simp [hp] at h
    | ok r =>
      obtain ⟨ts', new⟩ := r
      simp only [hp] at h1
      rw [h1] at hm'
      simp only [Option.some.injEq] at hm'
      subst hm'
      simp only [faultNodes, CronWorkflow.toManifest] at hdecl ⊢
      have hall := templates_declared_of_nodes env w2 ts'
        (processTemplates_faults env w _ ts' new hp) hdecl
      have hT := processTemplates_declared env w2 ts' hall
      have hiff := templates_stamped_iff env .cronworkflow w2 ts' (Or.inr rfl) hall
      unfold processCronExperimentManifest
      cases hmd : m.WorkflowMetadata <;>
        simp only [h1, h2, h3, Manifest.toCronWorkflow, CronWorkflow.toManifest, hT,
          workflowLabels_idem, hmd] <;>
        refine ⟨trivial, by simp, ?_⟩ <;>
        rw [← hiff] <;>
        simp

theorem mapSet_eq_self_iff {α : Type} (m : List (String × α)) (k : String) (v : α) :
    mapSet m k v = m ↔ mapGet m k = some v := by
  constructor
  · intro h
    have := mapGet_mapSet_self m k v
    rw [h] at this
    exact this
  · exact mapSet_of_mapGet m k v

theorem reconcileRoot_declared (w : List (String × Int)) (n : String)
    (L : List (String × String)) (v : Int) (h : mapGet w n = some v) :
    reconcileRoot w n L = .ok (mapSet L "weight" (Itoa v), []) := by
  simp [reconcileRoot, h]

theorem processChaosEngineManifest_feedback (env : Env) (wf wf2 : ChaosExperimentRequest)
    (w w2 : List (String × Int)) (rev : String) (m' : Manifest)
    (h : (processChaosEngineManifest wf w rev).2 = .ok ())
    (h1 : wf2.ExperimentManifest = (processChaosEngineManifest wf w rev).1.ExperimentManifest)
    (hm' : wf2.ExperimentManifest = some m')
    (h2 : wf2.ExperimentID = wf.ExperimentID) (h3 : wf2.InfraID = wf.InfraID)
    (hdecl : ∀ node ∈ faultNodes env .chaosengine m', ∀ n, node.2 = some n →
      mapGet w2 n ≠ none) :
    (processChaosEngineManifest wf2 w2 rev).2 = .ok () ∧
    (processChaosEngineManifest wf2 w2 rev).1.Weightages = wf2.Weightages ∧
    ((processChaosEngineManifest wf2 w2 rev).1.ExperimentManifest = wf2.ExperimentManifest ↔
      ∀ node ∈ faultNodes env .chaosengine m', Stamped .chaosengine w2 node) := by
  unfold processChaosEngineManifest at h h1
  cases hm : wf.ExperimentManifest with
  | none => simp [hm] at h
  | some m =>
    simp only [hm, Manifest.toChaosEngine] at h h1
    cases he : m.Experiments with
    | nil => simp [he] at h
    | cons e0 rest =>
      simp only [he] at h h1
      by_cases hn : e0.Name.length = 0
      · simp [hn] at h
      · simp only [hn, if_false] at h h1
        cases hr : reconcileRoot w e0.Name
            (standaloneLabels m.Labels (wf.ExperimentID.getD "") wf.InfraID rev) with
        | error e => simp [hr] at h
        | ok r =>
          obtain ⟨L', c⟩ := r
          simp only [hr] at h1
          rw [h1] at hm'
          simp only [Option.some.injEq] at hm'
          subst hm'
          have hs := reconcileRoot_standalone w e0.Name _ _ _ _ L' c hr
          simp only [faultNodes, ChaosEngine.toManifest, rootFault, hn, if_false,
            List.mem_singleton, forall_eq] at hdecl ⊢
          cases hw : mapGet w2 e0.Name with
          | none => exact absurd hw (hdecl e0.Name rfl)
          | some v =>
            have hrec := reconcileRoot_declared w2 e0.Name L' v hw
            unfold processChaosEngineManifest
            simp only [h1, h2, h3, Manifest.toChaosEngine, ChaosEngine.toManifest, hn, if_false,
              hs, hrec]
            refine ⟨trivial, by simp, ?_⟩
            simp only [Stamped, hw, stampedLabels, labelGet, ← mapSet_eq_self_iff]
            simp

theorem processChaosScheduleManifest_feedback (env : Env) (wf wf2 : ChaosExperimentRequest)
    (w w2 : List (String × Int)) (rev : String) (m' : Manifest)
    (h : (processChaosScheduleManifest wf w rev).2 = .ok ())
    (h1 : wf2.ExperimentManifest = (processChaosScheduleManifest wf w rev).1.ExperimentManifest)
    (hm' : wf2.ExperimentManifest = some m')
    (h2 : wf2.ExperimentID = wf.ExperimentID) (h3 : wf2.InfraID = wf.InfraID)
    (hdecl : ∀ node ∈ faultNodes env .chaosschedule m', ∀ n, node.2 = some n →
      mapGet w2 n ≠ none) :
    (processChaosScheduleManifest wf2 w2 rev).2 = .ok () ∧
    (processChaosScheduleManifest wf2 w2 rev).1.Weightages = wf2.Weightages ∧
    ((processChaosScheduleManifest wf2 w2 rev).1.ExperimentManifest = wf2.ExperimentManifest ↔
      ∀ node ∈ faultNodes env .chaosschedule m', Stamped .chaosschedule w2 node) := by
  unfold processChaosScheduleManifest at h h1
  cases hm : wf.ExperimentManifest with
  | none => simp [hm] at h
  | some m =>
    simp only [hm, Manifest.toChaosSchedule] at h h1
    cases he : m.EngineTemplateExperiments with
    | nil => simp [he] at h
    | cons e0 rest =>
      simp only [he] at h h1
      by_cases hn : e0.Name.length = 0
      · simp [hn] at h
      · simp only [hn, if_false] at h h1
        cases hr : reconcileRoot w e0.Name
            (standaloneLabels m.Labels (wf.ExperimentID.getD "") wf.InfraID rev) with
        | error e => simp [hr] at h
        | ok r =>
          obtain ⟨L', c⟩ := r
          simp only [hr] at h1
          rw [h1] at hm'
          simp only [Option.some.injEq] at hm'
          subst hm'
          have hs := reconcileRoot_standalone w e0.Name _ _ _ _ L' c hr
          simp only [faultNodes, ChaosSchedule.toManifest, rootFault, hn, if_false,
            List.mem_singleton, forall_eq] at hdecl ⊢
          cases hw : mapGet w2 e0.Name with
          | none => exact absurd hw (hdecl e0.Name rfl)
          | some v =>
            have hrec := reconcileRoot_declared w2 e0.Name L' v hw
            unfold processChaosScheduleManifest
            simp only [h1, h2, h3, Manifest.toChaosSchedule, ChaosSchedule.toManifest, hn,
              if_false, hs, hrec]
            refine ⟨trivial, by simp, ?_⟩
            simp only [Stamped, hw, stampedLabels, labelGet, ← mapSet_eq_self_iff]
            simp

theorem processKind_feedback (env : Env) (k : ManifestKind) (wf wf2 : ChaosExperimentRequest)
    (w w2 : List (String × Int)) (rev : String) (m' : Manifest)
    (h : (processKind env k wf w rev).2 = .ok ())
    (h1 : wf2.ExperimentManifest = (processKind env k wf w rev).1.ExperimentManifest)
    (hm' : wf2.ExperimentManifest = some m')
    (h2 : wf2.ExperimentID = wf.ExperimentID) (h3 : wf2.InfraID = wf.InfraID)
    (hdecl : ∀ node ∈ faultNodes env k m', ∀ n, node.2 = some n → mapGet w2 n ≠ none) :
    (processKind env k wf2 w2 rev).2 = .ok () ∧
    (processKind env k wf2 w2 rev).1.Weightages = wf2.Weightages ∧
    ((processKind env k wf2 w2 rev).1.ExperimentManifest = wf2.ExperimentManifest ↔
      ∀ node ∈ faultNodes env k m', Stamped k w2 node) := by
  cases k with
  | workflow => exact processExperimentManifest_feedback env wf wf2 w w2 rev m' h h1 hm' h2 h3 hdecl
  | cronworkflow =>
    exact processCronExperimentManifest_feedback env wf wf2 w w2 rev m' h h1 hm' h2 h3 hdecl
  | chaosengine => exact processChaosEngineManifest_feedback env wf wf2 w w2 rev m' h h1 hm' h2 h3 hdecl
  | chaosschedule =>
    exact processChaosScheduleManifest_feedback env wf wf2 w w2 rev m' h h1 hm' h2 h3 hdecl

theorem processTemplates_mem (env : Env) (w : List (String × Int)) :
    ∀ (ts ts' : List Template) (new : List WeightagesInput),
      processTemplates env w ts = .ok (ts', new) →
      ∀ t' ∈ ts', ∃ t ∈ ts, ∃ c, processTemplate env w t = .ok (t', c) := by
  intro ts
  induction ts with
  | nil =>
    intro ts' new h
    simp [processTemplates] at h
    obtain ⟨rfl, rfl⟩ := h
    simp
  | cons t rest ih =>
    intro ts' new h
    unfold processTemplates at h
    cases h1 : processTemplate env w t with
    | error e => simp [h1] at h
    | ok r1 =>
      obtain ⟨t1, c1⟩ := r1
      simp only [h1] at h
      cases h2 : processTemplates env w rest with
      | error e => simp [h2] at h
      | ok r2 =>
        obtain ⟨rest', cs⟩ := r2
        simp [h2] at h
        obtain ⟨rfl, rfl⟩ := h
        intro x hx
        rcases List.mem_cons.mp hx with rfl | hx
        · exact ⟨t, List.mem_cons_self _ _, c1, h1⟩
        · obtain ⟨y, hy, c, hc⟩ := ih rest' cs h2 x hx
          exact ⟨y, List.mem_cons_of_mem _ hy, c, hc⟩

theorem itoa_ten : Itoa 10 = "10" := by decide

/-- The labels a successful processor leaves on the fault nodes whose weight it stamps. -/
theorem processKind_stamps (env : Env) (k : ManifestKind) (wf : ChaosExperimentRequest)
    (w : List (String × Int)) (rev : String) (m m' : Manifest)
    (hm : wf.ExperimentManifest = some m)
    (h : (processKind env k wf w rev).2 = .ok ())
    (hm' : (processKind env k wf w rev).1.ExperimentManifest = some m') :
    ∀ node' ∈ faultNodes env k m', ∃ node ∈ faultNodes env k m, node'.2 = node.2 ∧
      (∀ n v, node.2 = some n → mapGet w n = some v → stampedLabels k node'.1 v) ∧
      (∀ n, node.2 = some n → mapGet w n = none → labelGet node.1 "weight" = none →
        stampedLabels k node'.1 10) := by
  by_cases hkind : k = .workflow ∨ k = .cronworkflow
  · obtain ⟨ts', new, m1, p1, p2, p3⟩ := processKind_templates env k wf w rev m hkind hm h
    rw [hm'] at p2
    cases p2
    rw [faultNodes_templates env k m hkind, faultNodes_templates env k m' hkind, p3]
    intro node' hnode'
    obtain ⟨t', ht', rfl⟩ := List.mem_map.mp hnode'
    obtain ⟨t, ht, c, hc⟩ := processTemplates_mem env w _ ts' new p1 t' ht'
    obtain ⟨c1, -, c3, -, c5⟩ := processTemplate_cases env w t t' c hc
    refine ⟨templateNode env t, List.mem_map_of_mem _ ht, ?_, ?_, ?_⟩
    · simp [templateNode, templateFault_congr env t t' c1]
    · intro n v hn hw
      have hf : templateFault env t = .ok (some n) := by
        simp only [templateNode] at hn
        cases hx : templateFault env t with
        | error e => simp [hx] at hn
        | ok o =>
          cases o with
          | none => simp [hx] at hn
          | some n1 =>
            simp [hx] at hn
            rw [hn]
      have := (c3 n v hf hw).1
      rcases hkind with rfl | rfl <;> simpa [stampedLabels, templateNode] using this
    · intro n hn hw hl
      have hf : templateFault env t = .ok (some n) := by
        simp only [templateNode] at hn
        cases hx : templateFault env t with
        | error e => simp [hx] at hn
        | ok o =>
          cases o with
          | none => simp [hx] at hn
          | some n1 =>
            simp [hx] at hn
            rw [hn]
      have := (c5 n hf hw hl).1
      rcases hkind with rfl | rfl <;> simpa [stampedLabels, templateNode, itoa_ten] using this
  · obtain ⟨m1, e1, -, -, e4, e5, -, -, -, -, -⟩ := processKind_nodes env k wf w rev m hm h
    rw [hm'] at e1
    cases e1
    have hroot : k = .chaosengine ∨ k = .chaosschedule := by
      cases k <;> simp at hkind ⊢
    intro node' hnode'
    rcases hroot with rfl | rfl
    · simp only [faultNodes, List.map_cons, List.map_nil, List.cons.injEq, and_true,
        List.mem_singleton] at e4 e5 hnode' ⊢
      subst hnode'
      refine ⟨_, rfl, e4, ?_, ?_⟩
      · intro n v hn hw
        simp only at hn
        simp only [stampedLabels]
        rw [e5]
        simp [expectedWeightLabel, hn, hw]
      · intro n hn hw hl
        simp only at hn hl
        simp only [stampedLabels]
        rw [e5]
        simp [expectedWeightLabel, hn, hw, hl, itoa_ten]
    · simp only [faultNodes, List.map_cons, List.map_nil, List.cons.injEq, and_true,
        List.mem_singleton] at e4 e5 hnode' ⊢
      subst hnode'
      refine ⟨_, rfl, e4, ?_, ?_⟩
      · intro n v hn hw
        simp only at hn
        simp only [stampedLabels]
        rw [e5]
        simp [expectedWeightLabel, hn, hw]
      · intro n hn hw hl
        simp only at hn hl
        simp only [stampedLabels]
        rw [e5]
        simp [expectedWeightLabel, hn, hw, hl, itoa_ten]

theorem augmented_declares (ws : List WeightagesInput) (l : List (Labels × Option String))
    (hgood : ∀ node ∈ l, ∀ n s, node.2 = some n → mapGet (declaredWeights ws) n = none →
      labelGet node.1 "weight" = some s → ∃ v, Atoi s = .ok v)
    (n : String) (hn : n ∈ l.filterMap (fun node => node.2)) :
    mapGet (declaredWeights (ws ++ l.flatMap (expectedEntry (declaredWeights ws)))) n ≠ none := by
  rw [Ne, declaredWeights_none_iff]
  intro hnot
  simp only [List.map_append, List.mem_append, not_or] at hnot
  obtain ⟨h1, h2⟩ := hnot
  rw [expectedEntry_names _ _ hgood] at h2
  apply h2
  rw [List.mem_filter]
  refine ⟨hn, ?_⟩
  simp [(declaredWeights_none_iff ws n).mpr h1]

theorem augmented_keeps (ws : List WeightagesInput) (l : List (Labels × Option String))
    (n : String) (v : Int) (h : mapGet (declaredWeights ws) n = some v) :
    mapGet (declaredWeights (ws ++ l.flatMap (expectedEntry (declaredWeights ws)))) n
      = some v := by
  rw [declaredWeights_append, mapGet_foldl_mapSet_of_not_mem, h]
  intro hmem
  obtain ⟨e, he, rfl⟩ := List.mem_map.mp hmem
  obtain ⟨node, -, hnode⟩ := List.mem_flatMap.mp he
  have := (expectedEntry_mem _ node e hnode).2
  rw [h] at this
  cases this

theorem expectedEntry_default (w : List (String × Int)) (node : Labels × Option String)
    (n : String) (hn : node.2 = some n) (hw : mapGet w n = none)
    (hl : labelGet node.1 "weight" = none) :
    expectedEntry w node = [{ FaultName := n, Weightage := 10 }] := by
  simp [expectedEntry, hn, hw, hl]

theorem mem_inferredNodes (w : List (String × Int)) (l : List (Labels × Option String))
    (node : Labels × Option String) (n : String) (hmem : node ∈ l) (hn : node.2 = some n)
    (hw : mapGet w n = none) : node ∈ inferredNodes w l := by
  simp [inferredNodes, List.mem_filter, hmem, hn, hw]

theorem augmented_default (ws : List WeightagesInput) (l : List (Labels × Option String))
    (hA : ∀ node ∈ inferredNodes (declaredWeights ws) l, labelGet node.1 "weight" = none)
    (n : String) (node : Labels × Option String) (hmem : node ∈ l) (hn : node.2 = some n)
    (hw : mapGet (declaredWeights ws) n = none) :
    mapGet (declaredWeights (ws ++ l.flatMap (expectedEntry (declaredWeights ws)))) n
      = some 10 := by
  rw [declaredWeights_append]
  apply mapGet_foldl_mapSet_of_agree
  · intro e he hname
    obtain ⟨x, hx, hex⟩ := List.mem_flatMap.mp he
    obtain ⟨x2, xw⟩ := expectedEntry_mem _ x e hex
    have hxl := hA x (mem_inferredNodes _ l x e.FaultName hx x2 xw)
    rw [expectedEntry_default _ x e.FaultName x2 xw hxl] at hex
    simp only [List.mem_singleton] at hex
    rw [hex]
  · left
    have hl := hA node (mem_inferredNodes _ l node n hmem hn hw)
    rw [List.mem_map]
    refine ⟨{ FaultName := n, Weightage := 10 }, ?_, rfl⟩
    rw [List.mem_flatMap]
    exact ⟨node, hmem, by rw [expectedEntry_default _ node n hn hw hl]; simp⟩

/-! ## Feeding the result back -/

/-- Counterexample to C26 as stated: the workflow whose pod-delete template carries the
labels weight ↦ 3 and tier ↦ db, sent without declared weights, is processed successfully,
the template keeps both labels and the weight 3 is appended; processing the returned
request again succeeds and appends nothing, but the weight is now a declared one, the
label map of the template is replaced by the weight label alone, and the manifest returned
is not the same. -/
theorem feedback_counterexample :
    (ProcessExperiment sampleEnv "uuid-1" (sampleRequest workflowDoc []) "project-1"
      "rev-1").2 = .ok .NonCronExperiment ∧
    (ProcessExperiment sampleEnv "uuid-1" (sampleRequest workflowDoc []) "project-1"
      "rev-1").1.Weightages = [{ FaultName := "pod-delete", Weightage := 3 }] ∧
    ((ProcessExperiment sampleEnv "uuid-1" (sampleRequest workflowDoc []) "project-1"
      "rev-1").1.ExperimentManifest.map
        (fun doc => doc.Templates.map (fun t => t.Labels)))
      = some [none, some [("weight", "3"), ("tier", "db")]] ∧
    (ProcessExperiment sampleEnv "uuid-2"
      (ProcessExperiment sampleEnv "uuid-1" (sampleRequest workflowDoc []) "project-1"
        "rev-1").1 "project-1" "rev-1").2 = .ok .NonCronExperiment ∧
    (ProcessExperiment sampleEnv "uuid-2"
      (ProcessExperiment sampleEnv "uuid-1" (sampleRequest workflowDoc []) "project-1"
        "rev-1").1 "project-1" "rev-1").1.Weightages
      = [{ FaultName := "pod-delete", Weightage := 3 }] ∧
    ((ProcessExperiment sampleEnv "uuid-2"
      (ProcessExperiment sampleEnv "uuid-1" (sampleRequest workflowDoc []) "project-1"
        "rev-1").1 "project-1" "rev-1").1.ExperimentManifest.map
        (fun doc => doc.Templates.map (fun t => t.Labels)))
      = some [none, some [("weight", "3")]] ∧
    (ProcessExperiment sampleEnv "uuid-2"
      (ProcessExperiment sampleEnv "uuid-1" (sampleRequest workflowDoc []) "project-1"
        "rev-1").1 "project-1" "rev-1").1.ExperimentManifest
      ≠ (ProcessExperiment sampleEnv "uuid-1" (sampleRequest workflowDoc []) "project-1"
          "rev-1").1.ExperimentManifest := by
  decide

/-- C26, amended: whenever `ProcessExperiment` succeeds (the identifier it draws not being
the empty string), processing the returned request again succeeds with the same type and
appends no further weightages; the manifest it returns is the same if and only if every
fault node of the returned manifest is stamped with respect to the returned weightages
(a template carries the weight label of its fault alone, the root of an engine or schedule
manifest carries the weight label of its fault, in the decimal form `Itoa` writes), which
is the case whenever no fault without declared weight carried a weight label in the
manifest first sent. -/
theorem feedback_fixed_point (env : Env) (uuid uuid2 : String)
    (req : ChaosExperimentRequest) (pid rev : String) (ty : ChaosExperimentType)
    (m : Manifest) (k : ManifestKind)
    (h : (ProcessExperiment env uuid req pid rev).2 = .ok ty) (hu : uuid ≠ "")
    (hm : req.ExperimentManifest = some m) (hk : manifestKind env m = some k) :
    (ProcessExperiment env uuid2 (ProcessExperiment env uuid req pid rev).1 pid rev).2
      = .ok ty ∧
    (ProcessExperiment env uuid2 (ProcessExperiment env uuid req pid rev).1 pid rev).1.Weightages
      = (ProcessExperiment env uuid req pid rev).1.Weightages ∧
    ∃ m', (ProcessExperiment env uuid req pid rev).1.ExperimentManifest = some m' ∧
      ((ProcessExperiment env uuid2 (ProcessExperiment env uuid req pid rev).1 pid
          rev).1.ExperimentManifest
          = (ProcessExperiment env uuid req pid rev).1.ExperimentManifest ↔
        ∀ node ∈ faultNodes env k m',
          Stamped k (declaredWeights (ProcessExperiment env uuid req pid rev).1.Weightages)
            node) ∧
      ((∀ node ∈ inferredNodes (declaredWeights req.Weightages) (faultNodes env k m),
          labelGet node.1 "weight" = none) →
        (ProcessExperiment env uuid2 (ProcessExperiment env uuid req pid rev).1 pid
          rev).1.ExperimentManifest
          = (ProcessExperiment env uuid req pid rev).1.ExperimentManifest) := by
  obtain ⟨infra, m0, k0, hi, ha, hp, hm0, hn, hk0⟩ :=
    ProcessExperiment_ok_inv env uuid req pid rev ty h
  rw [hm] at hm0
  cases hm0
  rw [hk] at hk0
  cases hk0
  have hty := h
  have hd := ProcessExperiment_dispatch env uuid req pid rev infra m k hi ha hp hm hn hk
      (ProcessExperiment_ok_kind env uuid req pid rev ty m h hm)
  obtain ⟨f1, f2, f3, f4, -⟩ := assignExperimentID_fields uuid req
  obtain ⟨g1, g2, g3⟩ := withType_snd_ok _ _ _ (hd ▸ h)
  have hR : (ProcessExperiment env uuid req pid rev).1
      = (processKind env k (assignExperimentID uuid req) (declaredWeights req.Weightages)
          rev).1 := by
    rw [hd, g3]
  obtain ⟨m', e1, e2, e3, e4, -, e6, e7, e8, e9, e10⟩ :=
    processKind_nodes env k (assignExperimentID uuid req) (declaredWeights req.Weightages) rev m
      (by rw [f1]; exact hm) g2
  rw [f4] at e6
  obtain ⟨id, hid, hne⟩ := assignExperimentID_id uuid req hu
  generalize hR1 : (ProcessExperiment env uuid req pid rev).1 = R1 at hR ⊢
  rw [← hR] at e1 e6 e8 e9 e10
  have hI2 : R1.ExperimentID = some id := by rw [e8, hid]
  have hnames : (faultNodes env k m').filterMap (fun node => node.2)
      = (faultNodes env k m).filterMap (fun node => node.2) := by
    have := congrArg (fun l => l.filterMap (fun x => x)) e4
    simpa [List.filterMap_map, Function.comp_def] using this
  have hdecl : ∀ node ∈ faultNodes env k m', ∀ n, node.2 = some n →
      mapGet (declaredWeights R1.Weightages) n ≠ none := by
    intro node hnode n hnn
    rw [e6]
    apply augmented_declares req.Weightages (faultNodes env k m) e7 n
    rw [← hnames, List.mem_filterMap]
    exact ⟨node, hnode, hnn⟩
  have hd2 := ProcessExperiment_dispatch env uuid2 R1 pid rev infra m' k
    (by rw [e9, f3]; exact hi) ha hp e1 (by rw [e10, f2, hn, e3])
    (by rw [manifestKind_congr env m m' e2]; exact hk)
    (by rw [e2]; exact ProcessExperiment_ok_kind env uuid req pid rev ty m hty hm)
  rw [assignExperimentID_of_id uuid2 id R1 hI2 hne] at hd2
  obtain ⟨r1, r2, r3⟩ := processKind_feedback env k (assignExperimentID uuid req) R1
    (declaredWeights req.Weightages) (declaredWeights R1.Weightages) rev m' g2
    (by rw [hR]) e1 (by rw [hI2, hid]) (by rw [e9]) hdecl
  have hman : (ProcessExperiment env uuid2 R1 pid rev).1.ExperimentManifest
      = (processKind env k R1 (declaredWeights R1.Weightages) rev).1.ExperimentManifest := by
    rw [hd2]
    simp [withType, r1]
  refine ⟨?_, ?_, m', e1, ?_, ?_⟩
  · rw [hd2]
    simp [withType, r1, g1]
  · rw [hd2]
    simp only [withType, r1]
    exact r2
  · rw [hman]
    exact r3
  · intro hA
    rw [hman]
    apply r3.mpr
    intro node' hnode'
    obtain ⟨node, hnode, s1, s2, s3⟩ :=
      processKind_stamps env k (assignExperimentID uuid req) (declaredWeights req.Weightages)
        rev m m' (by rw [f1]; exact hm) g2 (by rw [← hR]; exact e1) node' hnode'
    unfold Stamped
    cases hn2 : node'.2 with
    | none => trivial
    | some n =>
      have hnode2 : node.2 = some n := by rw [← s1, hn2]
      simp only
      cases hw : mapGet (declaredWeights req.Weightages) n with
      | some v =>
        rw [e6, augmented_keeps req.Weightages (faultNodes env k m) n v hw]
        exact s2 n v hnode2 hw
      | none =>
        have hl := hA node (mem_inferredNodes _ _ node n hnode hnode2 hw)
        rw [e6, augmented_default req.Weightages (faultNodes env k m) hA n node hnode hnode2 hw]
        exact s3 n hnode2 hw hl

/-- Witness of C26: a workflow whose pod-delete template carries no label; the weight 10
it receives is stamped alone, and the second pass returns the same manifest. -/
theorem feedback_fixed_point_witness :
    (ProcessExperiment sampleEnv "uuid-2"
      (ProcessExperiment sampleEnv "uuid-1" (sampleRequest plainWorkflowDoc []) "project-1"
        "rev-1").1 "project-1" "rev-1").1.ExperimentManifest
      = (ProcessExperiment sampleEnv "uuid-1" (sampleRequest plainWorkflowDoc []) "project-1"
          "rev-1").1.ExperimentManifest ∧
    ((ProcessExperiment sampleEnv "uuid-2"
      (ProcessExperiment sampleEnv "uuid-1" (sampleRequest plainWorkflowDoc []) "project-1"
        "rev-1").1 "project-1" "rev-1").2 = .ok .NonCronExperiment ∧
    (ProcessExperiment sampleEnv "uuid-2"
      (ProcessExperiment sampleEnv "uuid-1" (sampleRequest plainWorkflowDoc []) "project-1"
        "rev-1").1 "project-1" "rev-1").1.Weightages
      = (ProcessExperiment sampleEnv "uuid-1" (sampleRequest plainWorkflowDoc []) "project-1"
          "rev-1").1.Weightages ∧
    ∃ m', (ProcessExperiment sampleEnv "uuid-1" (sampleRequest plainWorkflowDoc [])
        "project-1" "rev-1").1.ExperimentManifest = some m' ∧
      ((ProcessExperiment sampleEnv "uuid-2"
          (ProcessExperiment sampleEnv "uuid-1" (sampleRequest plainWorkflowDoc [])
            "project-1" "rev-1").1 "project-1" "rev-1").1.ExperimentManifest
          = (ProcessExperiment sampleEnv "uuid-1" (sampleRequest plainWorkflowDoc [])
              "project-1" "rev-1").1.ExperimentManifest ↔
        ∀ node ∈ faultNodes sampleEnv .workflow m',
          Stamped .workflow
            (declaredWeights (ProcessExperiment sampleEnv "uuid-1"
              (sampleRequest plainWorkflowDoc []) "project-1" "rev-1").1.Weightages) node) ∧
      ((∀ node ∈ inferredNodes (declaredWeights (sampleRequest plainWorkflowDoc []).Weightages)
            (faultNodes sampleEnv .workflow plainWorkflowDoc),
          labelGet node.1 "weight" = none) →
        (ProcessExperiment sampleEnv "uuid-2"
          (ProcessExperiment sampleEnv "uuid-1" (sampleRequest plainWorkflowDoc [])
            "project-1" "rev-1").1 "project-1" "rev-1").1.ExperimentManifest
          = (ProcessExperiment sampleEnv "uuid-1" (sampleRequest plainWorkflowDoc [])
              "project-1" "rev-1").1.ExperimentManifest)) :=
  ⟨by decide,
   feedback_fixed_point sampleEnv "uuid-1" "uuid-2" (sampleRequest plainWorkflowDoc [])
     "project-1" "rev-1" .NonCronExperiment plainWorkflowDoc .workflow
     (by decide) (by decide) (by decide) (by decide)⟩


end ChaosExperiment
